import Mathlib

/-!
# Hyper68k: MMU table builder, handler tables and vector tables

A shallow embedding of `src/h68k/mmu.c`, `src/h68k/vec.c`, `src/common.c`.

* Host memory is a flat map from byte addresses to the 32-bit word stored there
  (every access the modelled code performs is a 4-byte aligned 32-bit access).
* `uint32` arithmetic is arithmetic on `Nat` reduced modulo `2^32`.
* `ASSERT(x, ..)` calls `fatal(-1)`, a `longjmp` out of the program: modelled by the
  outcome `fatal`, which records the state at that moment.
* Loops whose trip count depends on data take a fuel budget; running out of it is the
  outcome `timeout`.
* The build flavour (`NDEBUG` undefined = checked build) is the parameter `checked`.
* The addresses of the assembly stubs declared in `h68k.h` are given by a map `A`.
-/

namespace H68k

/-- The external stubs declared with `extfunc`, `extiofb`, `extiofw`, `extiofl`, `extrwh`
in `h68k.h` (assembly routines, known to the C code only by their address). -/
inductive Sym where
  | h68kIO_TriggerBerr
  | h68kIO_TriggerFatal
  | h68k_IoIgnoreByte
  | h68k_IoIgnoreWord
  | h68k_IoIgnoreLong
  | h68k_IoBerrByte
  | h68k_IoBerrWord
  | h68k_IoBerrLong
  | h68k_IoFatalByte
  | h68k_IoFatalWord
  | h68k_IoFatalLong
  | h68k_IoReadByte00
  | h68k_IoReadWord00
  | h68k_IoReadLong00
  | h68k_IoReadByteFF
  | h68k_IoReadWordFF
  | h68k_IoReadLongFF
  | h68k_IoReadBytePT
  | h68k_IoReadWordPT
  | h68k_IoReadLongPT
  | h68k_IoWriteBytePT
  | h68k_IoWriteWordPT
  | h68k_IoWriteLongPT
  | h68k_mmuf_Fatal
  | h68k_mmuf_Berr
  | h68k_mmuf_Ignore
  | h68k_mmuf_ReadByteFF
  | h68k_mmuf_ReadWordFF
  | h68k_mmuf_ReadLongFF
  | vec68000_Group0
  | vec68000_Group1
  | vec68000_Group2
  | vec68000_Reset
  | vec68000_Fatal
  | vec68000_DebugTrace
  | vec68000_BusError
  | vec68000_AddrError
  | vec68000_PrivilegeViolation
  | pviol68000_PrivilegeViolation
  | pviol68000_IllegalInstruction
  | pviol68000_LineF
  | pviol68000_stop
  | pviol68000_reset
  | pviol68000_rte
  | pviol68000_move_usp_a0
  | pviol68000_move_usp_a1
  | pviol68000_move_usp_a2
  | pviol68000_move_usp_a3
  | pviol68000_move_usp_a4
  | pviol68000_move_usp_a5
  | pviol68000_move_usp_a6
  | pviol68000_move_usp_a7
  | pviol68000_move_a0_usp
  | pviol68000_move_a1_usp
  | pviol68000_move_a2_usp
  | pviol68000_move_a3_usp
  | pviol68000_move_a4_usp
  | pviol68000_move_a5_usp
  | pviol68000_move_a6_usp
  | pviol68000_move_a7_usp
  | pviol68000_move_sr_d0
  | pviol68000_move_sr_d1
  | pviol68000_move_sr_d2
  | pviol68000_move_sr_d3
  | pviol68000_move_sr_d4
  | pviol68000_move_sr_d5
  | pviol68000_move_sr_d6
  | pviol68000_move_sr_d7
  | pviol68000_move_sr_a0
  | pviol68000_move_sr_a1
  | pviol68000_move_sr_a2
  | pviol68000_move_sr_a3
  | pviol68000_move_sr_a4
  | pviol68000_move_sr_a5
  | pviol68000_move_sr_a6
  | pviol68000_move_sr_a7
  | pviol68000_move_sr_a0a
  | pviol68000_move_sr_a1a
  | pviol68000_move_sr_a2a
  | pviol68000_move_sr_a3a
  | pviol68000_move_sr_a4a
  | pviol68000_move_sr_a5a
  | pviol68000_move_sr_a6a
  | pviol68000_move_sr_a7a
  | pviol68000_move_sr_a0b
  | pviol68000_move_sr_a1b
  | pviol68000_move_sr_a2b
  | pviol68000_move_sr_a3b
  | pviol68000_move_sr_a4b
  | pviol68000_move_sr_a5b
  | pviol68000_move_sr_a6b
  | pviol68000_move_sr_a7b
  | pviol68000_move_sr_a0c
  | pviol68000_move_sr_a1c
  | pviol68000_move_sr_a2c
  | pviol68000_move_sr_a3c
  | pviol68000_move_sr_a4c
  | pviol68000_move_sr_a5c
  | pviol68000_move_sr_a6c
  | pviol68000_move_sr_a7c
  | pviol68000_move_sr_a0d
  | pviol68000_move_sr_a1d
  | pviol68000_move_sr_a2d
  | pviol68000_move_sr_a3d
  | pviol68000_move_sr_a4d
  | pviol68000_move_sr_a5d
  | pviol68000_move_sr_a6d
  | pviol68000_move_sr_a7d
  | pviol68000_move_sr_absW
  | pviol68000_move_sr_absL
  | pviol68000_move_d0_sr
  | pviol68000_move_d1_sr
  | pviol68000_move_d2_sr
  | pviol68000_move_d3_sr
  | pviol68000_move_d4_sr
  | pviol68000_move_d5_sr
  | pviol68000_move_d6_sr
  | pviol68000_move_d7_sr
  | pviol68000_move_a0_sr
  | pviol68000_move_a1_sr
  | pviol68000_move_a2_sr
  | pviol68000_move_a3_sr
  | pviol68000_move_a4_sr
  | pviol68000_move_a5_sr
  | pviol68000_move_a6_sr
  | pviol68000_move_a7_sr
  | pviol68000_move_a0a_sr
  | pviol68000_move_a1a_sr
  | pviol68000_move_a2a_sr
  | pviol68000_move_a3a_sr
  | pviol68000_move_a4a_sr
  | pviol68000_move_a5a_sr
  | pviol68000_move_a6a_sr
  | pviol68000_move_a7a_sr
  | pviol68000_move_a0b_sr
  | pviol68000_move_a1b_sr
  | pviol68000_move_a2b_sr
  | pviol68000_move_a3b_sr
  | pviol68000_move_a4b_sr
  | pviol68000_move_a5b_sr
  | pviol68000_move_a6b_sr
  | pviol68000_move_a7b_sr
  | pviol68000_move_a0c_sr
  | pviol68000_move_a1c_sr
  | pviol68000_move_a2c_sr
  | pviol68000_move_a3c_sr
  | pviol68000_move_a4c_sr
  | pviol68000_move_a5c_sr
  | pviol68000_move_a6c_sr
  | pviol68000_move_a7c_sr
  | pviol68000_move_a0d_sr
  | pviol68000_move_a1d_sr
  | pviol68000_move_a2d_sr
  | pviol68000_move_a3d_sr
  | pviol68000_move_a4d_sr
  | pviol68000_move_a5d_sr
  | pviol68000_move_a6d_sr
  | pviol68000_move_a7d_sr
  | pviol68000_move_absW_sr
  | pviol68000_move_absL_sr
  | pviol68000_move_imm_sr
  | pviol68000_and_imm_sr
  | pviol68000_eor_imm_sr
  | pviol68000_or_imm_sr
  | vec68010_Group0
  | vec68010_Group1
  | vec68010_Group2
  | pviol68010_rte
  | h68k_mmuf_rb
  | h68k_mmuf_rw
  | h68k_mmuf_rl
  | h68k_mmuf_wb
  | h68k_mmuf_ww
  | h68k_mmuf_wl
  | h68k_mmuf_r3
  | h68k_mmuf_w3
  | h68k_mmuf_rm
  | h68k_mmuf_rbs
  | h68k_mmuf_rws
  | h68k_mmuf_rls
  | h68k_mmuf_wbs
  | h68k_mmuf_wws
  | h68k_mmuf_wls
  | h68k_mmuf_r3s
  | h68k_mmuf_w3s
  | h68k_mmuf_rms
  | h68k_mmuf_rbc
  | h68k_mmuf_rwc
  | h68k_mmuf_rlc
  | h68k_mmuf_wbc
  | h68k_mmuf_wwc
  | h68k_mmuf_wlc
  | h68k_mmuf_r3c
  | h68k_mmuf_w3c
  | h68k_mmuf_rmc
  | h68k_mmuf_rbcc
  | h68k_mmuf_rwcc
  | h68k_mmuf_rlcc
  | h68k_mmuf_wbcc
  | h68k_mmuf_wwcc
  | h68k_mmuf_wlcc
  | h68k_mmuf_r3cc
  | h68k_mmuf_w3cc
  | h68k_mmuf_rmcc
  | h68k_IoReadWordBB
  | h68k_IoReadLongWW
  | h68k_IoReadLongBBBB
  | h68k_IoReadLongWBB
  | h68k_IoReadLongBBW
  | h68k_IoWriteWordBB
  | h68k_IoWriteLongWW
  | h68k_IoWriteLongBBBB
  | h68k_IoWriteLongWBB
  | h68k_IoWriteLongBBW
  deriving DecidableEq, Repr

/-! ## Machine state and outcomes -/

/-- The globals of `common.c`, `mmu.c` and `vec.c`, and the host memory.
`mem a` is the 32-bit word stored at byte address `a`. -/
structure State where
  mem : Nat → Nat
  mem_ptr : Nat
  mem_top : Nat
  h68k_mmu_table : Nat
  h68k_mmu_pagesize : Nat
  client_cpu : Nat := 0
  host_vbr : Nat := 0
  pviols_table : Nat → Nat := fun _ => 0
  pviolu_table : Nat → Nat := fun _ => 0
  sfs_table : Nat → Nat := fun _ => 0
  vec_table : Nat → Nat := fun _ => 0
  ipl_table : Nat → Nat := fun _ => 0

/-- How a call ends: it returns (`done`), an `ASSERT` fails and `fatal(-1)` leaves the
program (`fatal`, with the state at that moment), or the fuel budget of a loop is
used up (`timeout`). -/
inductive Outcome (α : Type) where
  | done (a : α)
  | fatal (s : State)
  | timeout

/-- The modulus of `uint32` arithmetic. -/
abbrev U32 : Nat := 4294967296

/-- Bitwise complement of a `uint32`: `~x`. -/
def not32 (x : Nat) : Nat := 4294967295 - x % 4294967296

/-- Write of one 32-bit word: `*(uint32*)a = v`. -/
def State.store (s : State) (a v : Nat) : State :=
  { s with mem := fun x => if x = a then v else s.mem x }

/-! ## `common.c` -/

/-- `AllocMem(size, alignment)`: bump allocation from the arena `[mem_ptr, mem_top)`. -/
def AllocMem (s : State) (size alignment : Nat) : Outcome (State × Nat) :=
  let a := (alignment + 4294967295) % U32
  let m := ((s.mem_ptr + a) % U32) &&& not32 a
  if (m + size) % U32 ≤ s.mem_top then
    .done ({ s with mem_ptr := (m + size) % U32 }, m)
  else
    .fatal s

/-- `SetMem(dst, val, cnt)` for a word-aligned block of `n` words and a byte value whose
four-fold repetition is the word `w` (the code only ever clears with `val = 0`). -/
def SetMemWords (s : State) (dst w : Nat) : Nat → State
  | 0 => s
  | n + 1 => (SetMemWords s dst w n).store (dst + 4 * n) w

/-- `CopyMem(dst, src, cnt)` for word-aligned blocks of `n` words. -/
def CopyMemWords (s : State) (dst src : Nat) : Nat → State
  | 0 => s
  | n + 1 =>
    let s1 := CopyMemWords s dst src n
    s1.store (dst + 4 * n) (s1.mem (src + 4 * n))

/-! ## `mmu.c`: descriptors -/

abbrev MMU_INVALID : Nat := 0x00000000
abbrev MMU_PAGE : Nat := 0x00000001
abbrev MMU_SHORT_TABLE : Nat := 0x00000002
abbrev MMU_LONG_TABLE : Nat := 0x00000003
abbrev MMU_WP : Nat := 0x00000004
abbrev MMU_CI : Nat := 0x00000040
abbrev MMU_S : Nat := 0x00000100
abbrev MMU_DT : Nat := 0x00000003

/-- `h68k_GetMmuPageSize()`. -/
def h68k_GetMmuPageSize (s : State) : Nat := s.h68k_mmu_pagesize

/-- `h68k_GetMmuDescriptor(addr)`: address of word 0 of the long descriptor of the page
holding `addr`, `&h68k_mmu_table[idx<<1]`. -/
def h68k_GetMmuDescriptor (s : State) (addr : Nat) : Nat :=
  let idx := addr / s.h68k_mmu_pagesize
  s.h68k_mmu_table + 4 * ((idx * 2) % U32)

/-- `LongDescriptor(table, idx, addr, flag)`. Its checks sit under `#ifndef DEBUG`, a
symbol no build defines, so they are compiled into checked and unchecked builds alike. -/
def LongDescriptor (s : State) (table idx addr flag : Nat) : Outcome State :=
  let dt := flag &&& MMU_DT
  let amask := if dt = MMU_PAGE then 0xFFFFFF00
    else if dt = MMU_SHORT_TABLE ∨ dt = MMU_LONG_TABLE then 0xFFFFFFF0 else 0xFFFFFFFC
  let fmask := 0x0000FFFF
  if (addr &&& not32 amask) ≠ 0 then .fatal s
  else if (flag &&& not32 fmask) ≠ 0 then .fatal s
  else
    let s1 := s.store (table + 4 * (((idx * 2) % U32 + 0) % U32)) (0x0000FC00 ||| flag)
    .done (s1.store (table + 4 * (((idx * 2) % U32 + 1) % U32)) addr)

/-- `LongInvalidDescriptor(table, idx, userdata, userdata2)`. -/
def LongInvalidDescriptor (s : State) (table idx userdata userdata2 : Nat) : Outcome State :=
  if (userdata &&& 3) ≠ 0 then .fatal s
  else
    let s1 := s.store (table + 4 * (((idx * 2) % U32 + 0) % U32)) userdata
    .done (s1.store (table + 4 * (((idx * 2) % U32 + 1) % U32)) userdata2)

/-! ## `mmu.c`: mapping client memory to host memory -/

/-- The `while (start < end)` loop of `h68k_MapAddressRangeEx`. -/
def MapAddressRangeEx_loop (flag end_ : Nat) : Nat → State → Nat → Nat → Nat → Outcome State
  | 0, _, _, _, _ => .timeout
  | fuel + 1, s, i, start, dest =>
    if start < end_ then
      match LongDescriptor s s.h68k_mmu_table i dest flag with
      | .done s1 =>
        MapAddressRangeEx_loop flag end_ fuel s1 ((i + 1) % U32)
          ((start + s1.h68k_mmu_pagesize) % U32) ((dest + s1.h68k_mmu_pagesize) % U32)
      | .fatal s1 => .fatal s1
      | .timeout => .timeout
    else .done s

/-- `h68k_MapAddressRangeEx(start, end, dest, flag)`. -/
def h68k_MapAddressRangeEx (checked : Bool) (fuel : Nat) (s : State)
    (start end_ dest flag : Nat) : Outcome State :=
  let align := (s.h68k_mmu_pagesize + 4294967295) % U32
  if checked ∧ (start &&& align) ≠ 0 then .fatal s
  else if checked ∧ (end_ &&& align) ≠ 0 then .fatal s
  else if checked ∧ (dest &&& align) ≠ 0 then .fatal s
  else
    let start1 := if checked then start &&& not32 align else start
    let dest1 := if checked then dest &&& not32 align else dest
    let end1 := if checked then ((end_ + align) % U32) &&& not32 align else end_
    let flag1 := flag ||| MMU_PAGE
    let i := start1 / s.h68k_mmu_pagesize
    MapAddressRangeEx_loop flag1 end1 fuel s i start1 dest1

/-- `h68k_MapMemory(start, end, dest)`. -/
def h68k_MapMemory (checked : Bool) (fuel : Nat) (s : State) (start end_ dest : Nat) :
    Outcome State :=
  h68k_MapAddressRangeEx checked fuel s start end_ dest (MMU_PAGE ||| MMU_CI)

/-- `h68k_MapReadOnly(start, end, dest)`. -/
def h68k_MapReadOnly (checked : Bool) (fuel : Nat) (s : State) (start end_ dest : Nat) :
    Outcome State :=
  h68k_MapAddressRangeEx checked fuel s start end_ dest (MMU_PAGE ||| MMU_CI ||| MMU_WP)

/-- `h68k_MapInvalid(start, end)`. -/
def h68k_MapInvalid (checked : Bool) (fuel : Nat) (s : State) (start end_ : Nat) :
    Outcome State :=
  h68k_MapAddressRangeEx checked fuel s start end_ start (MMU_PAGE ||| MMU_CI ||| MMU_S)

/-- `h68k_RemapPage(laddr, paddr)`; the cache flush that follows the table write does
not touch memory and is not modelled. -/
def h68k_RemapPage (s : State) (laddr paddr : Nat) : State :=
  let i := laddr / s.h68k_mmu_pagesize
  let atc := s.h68k_mmu_table + 4 * ((i * 2) % U32)
  if (s.mem (atc + 0) &&& 3) ≠ 0 then
    s.store (atc + 4) ((s.mem (atc + 4) &&& 7) ||| (paddr &&& 0xFFFFFFF8))
  else s

/-! ## `mmu.c`: access handlers -/

/-- The `for (;is < ie; is++)` loop of `h68k_MapAccessHandlerEx`. -/
def MapAccessHandlerEx_loop (userdata mem_ ie : Nat) : Nat → State → Nat → Outcome State
  | 0, _, _ => .timeout
  | fuel + 1, s, is_ =>
    if is_ < ie then
      match LongInvalidDescriptor s s.h68k_mmu_table is_ userdata mem_ with
      | .done s1 => MapAccessHandlerEx_loop userdata mem_ ie fuel s1 ((is_ + 1) % U32)
      | .fatal s1 => .fatal s1
      | .timeout => .timeout
    else .done s

/-- The start of `h68k_MapAccessHandlerEx`: `SetMem((uint8*)mem, 0, 16 * 4); mem[0] =
(uint32)writeLong; .. mem[7] = (uint32)readThree; for (i=8; i<16; i++) mem[i] =
(uint32)readModifyWrite;`. -/
def stage1Fill (s0 : State) (mem_ readByte writeByte readWord writeWord readLong writeLong
    readThree writeThree readModifyWrite : Nat) : State :=
  let s1 := SetMemWords s0 mem_ 0 16
  let s2 := s1.store (mem_ + 4 * 0) writeLong
  let s3 := s2.store (mem_ + 4 * 1) writeByte
  let s4 := s3.store (mem_ + 4 * 2) writeWord
  let s5 := s4.store (mem_ + 4 * 3) writeThree
  let s6 := s5.store (mem_ + 4 * 4) readLong
  let s7 := s6.store (mem_ + 4 * 5) readByte
  let s8 := s7.store (mem_ + 4 * 6) readWord
  let s9 := s8.store (mem_ + 4 * 7) readThree
  (List.range' 8 8).foldl (fun t i => t.store (mem_ + 4 * i) readModifyWrite) s9

/-- `h68k_MapAccessHandlerEx(start, end, userdata, readByte, .., readModifyWrite)`. -/
def h68k_MapAccessHandlerEx (checked : Bool) (fuel : Nat) (s : State)
    (start end_ userdata readByte writeByte readWord writeWord readLong writeLong
      readThree writeThree readModifyWrite : Nat) : Outcome State :=
  match AllocMem s (16 * 4) 4 with
  | .fatal s1 => .fatal s1
  | .timeout => .timeout
  | .done (s0, mem_) =>
    let s10 := stage1Fill s0 mem_ readByte writeByte readWord writeWord readLong writeLong
      readThree writeThree readModifyWrite
    let align := (s10.h68k_mmu_pagesize + 4294967295) % U32
    if checked ∧ (∃ i ∈ List.range 16, s10.mem (mem_ + 4 * i) = 0) then .fatal s10
    else if checked ∧ (start &&& align) ≠ 0 then .fatal s10
    else if checked ∧ (end_ &&& align) ≠ 0 then .fatal s10
    else if checked ∧ (userdata &&& 0xFF) ≠ 0 then .fatal s10
    else
      let start1 := if checked then start &&& not32 align else start
      let end1 := if checked then ((end_ + align) % U32) &&& not32 align else end_
      let is_ := start1 / s10.h68k_mmu_pagesize
      let ie := end1 / s10.h68k_mmu_pagesize
      MapAccessHandlerEx_loop userdata mem_ ie fuel s10 is_

section Stubs
variable (A : Sym → Nat)

/-- `h68k_MapFatal(start, end)`. -/
def h68k_MapFatal (checked : Bool) (fuel : Nat) (s : State) (start end_ : Nat) :
    Outcome State :=
  h68k_MapAccessHandlerEx checked fuel s start end_ 0
    (A .h68k_mmuf_Fatal) (A .h68k_mmuf_Fatal) (A .h68k_mmuf_Fatal) (A .h68k_mmuf_Fatal)
    (A .h68k_mmuf_Fatal) (A .h68k_mmuf_Fatal) (A .h68k_mmuf_Fatal) (A .h68k_mmuf_Fatal)
    (A .h68k_mmuf_Fatal)

/-- `h68k_MapPassThrough(start, end)`. -/
def h68k_MapPassThrough (checked : Bool) (fuel : Nat) (s : State) (start end_ : Nat) :
    Outcome State :=
  h68k_MapAccessHandlerEx checked fuel s start end_ 0
    (A .h68k_mmuf_rb) (A .h68k_mmuf_wb) (A .h68k_mmuf_rw) (A .h68k_mmuf_ww)
    (A .h68k_mmuf_rl) (A .h68k_mmuf_wl) (A .h68k_mmuf_r3) (A .h68k_mmuf_w3)
    (A .h68k_mmuf_rm)

/-- `h68k_MapPassThroughSafe(start, end)`. -/
def h68k_MapPassThroughSafe (checked : Bool) (fuel : Nat) (s : State) (start end_ : Nat) :
    Outcome State :=
  h68k_MapAccessHandlerEx checked fuel s start end_ 0
    (A .h68k_mmuf_rbs) (A .h68k_mmuf_wbs) (A .h68k_mmuf_rws) (A .h68k_mmuf_wws)
    (A .h68k_mmuf_rls) (A .h68k_mmuf_wls) (A .h68k_mmuf_r3s) (A .h68k_mmuf_w3s)
    (A .h68k_mmuf_rms)

/-! ## `mmu.c`: io callbacks

`struct h68kFtable` is eight 32-bit fields: `readB` at byte offset 0, `readW` 4, `readL` 8,
`writeB` 12, `writeW` 16, `writeL` 20, `reserved` 24, `len` 28; `sizeof` is 32. -/

/-- `h68k_MapIoRangeEx(start, end, readByte, writeByte, readWord, writeWord, readLong,
writeLong)`. -/
def h68k_MapIoRangeEx (checked : Bool) (fuel : Nat) (s : State)
    (start end_ readByte writeByte readWord writeWord readLong writeLong : Nat) :
    Outcome State :=
  match AllocMem s (4 * 32) 256 with
  | .fatal s1 => .fatal s1
  | .timeout => .timeout
  | .done (s0, ftable) =>
    let s1 := s0.store (ftable + 0) readByte
    let s2 := s1.store (ftable + 4) readWord
    let s3 := s2.store (ftable + 8) readLong
    let s4 := s3.store (ftable + 12) writeByte
    let s5 := s4.store (ftable + 16) writeWord
    let s6 := s5.store (ftable + 20) writeLong
    h68k_MapAccessHandlerEx checked fuel s6 start end_ ftable
      (A .h68k_mmuf_rbc) (A .h68k_mmuf_wbc) (A .h68k_mmuf_rwc) (A .h68k_mmuf_wwc)
      (A .h68k_mmuf_rlc) (A .h68k_mmuf_wlc) (A .h68k_mmuf_r3c) (A .h68k_mmuf_w3c)
      (A .h68k_mmuf_rmc)

/-- `h68k_MapDisconnected(start, end)`. -/
def h68k_MapDisconnected (checked : Bool) (fuel : Nat) (s : State) (start end_ : Nat) :
    Outcome State :=
  h68k_MapIoRangeEx A checked fuel s start end_
    (A .h68k_IoReadByteFF) (A .h68k_IoIgnoreByte)
    (A .h68k_IoReadWordFF) (A .h68k_IoIgnoreWord)
    (A .h68k_IoReadLongFF) (A .h68k_IoIgnoreLong)

/-- `h68k_MapIoRange(start, end, readByte, writeByte, readWord, writeWord)`;
`h68k_IoReadLongAsWords` and `h68k_IoWriteLongAsWords` are macros for the `WW` stubs. -/
def h68k_MapIoRange (checked : Bool) (fuel : Nat) (s : State)
    (start end_ readByte writeByte readWord writeWord : Nat) : Outcome State :=
  h68k_MapIoRangeEx A checked fuel s start end_ readByte writeByte readWord writeWord
    (A .h68k_IoReadLongWW) (A .h68k_IoWriteLongWW)

end Stubs

/-- The `for (uint16 i=1; i<h68k_mmu_pagesize; i++)` loop of `h68k_GetExpandedFtable`. -/
def GetExpandedFtable_loop (newftable : Nat) : Nat → State → Nat → Outcome State
  | 0, _, _ => .timeout
  | fuel + 1, s, i =>
    if i < s.h68k_mmu_pagesize then
      GetExpandedFtable_loop newftable fuel
        (CopyMemWords s (newftable + 32 * i) (newftable + 32 * 0) 8) ((i + 1) % 65536)
    else .done s

/-- The assignments to `newftable[0]` in `h68k_GetExpandedFtable`: `len`, `reserved`, and
the six function fields of `oldftable` with bit 31 set. -/
def expandRecord0 (s0 : State) (oldftable newftable : Nat) : State :=
  let s1 := s0.store (newftable + 28) s0.h68k_mmu_pagesize
  let s2 := s1.store (newftable + 24) (s1.mem (oldftable + 24))
  let s3 := s2.store (newftable + 0) (s2.mem (oldftable + 0) ||| 0x80000000)
  let s4 := s3.store (newftable + 4) (s3.mem (oldftable + 4) ||| 0x80000000)
  let s5 := s4.store (newftable + 8) (s4.mem (oldftable + 8) ||| 0x80000000)
  let s6 := s5.store (newftable + 12) (s5.mem (oldftable + 12) ||| 0x80000000)
  let s7 := s6.store (newftable + 16) (s6.mem (oldftable + 16) ||| 0x80000000)
  s7.store (newftable + 20) (s7.mem (oldftable + 20) ||| 0x80000000)

/-- `h68k_GetExpandedFtable(addr)`: the state afterwards and the returned pointer. -/
def h68k_GetExpandedFtable (fuel : Nat) (s : State) (addr : Nat) : Outcome (State × Nat) :=
  let atc := h68k_GetMmuDescriptor s addr
  let oldftable := s.mem (atc + 0)
  if oldftable = 0 then .done (s, 0)
  else
    let base := addr &&& not32 ((s.h68k_mmu_pagesize + 4294967295) % U32)
    let offs := (addr + U32 - base) % U32
    if s.mem (oldftable + 28) ≠ 0 then .done (s, oldftable + 32 * offs)
    else
      match AllocMem s ((s.h68k_mmu_pagesize * 32) % U32) 256 with
      | .fatal s1 => .fatal s1
      | .timeout => .timeout
      | .done (s0, newftable) =>
        match GetExpandedFtable_loop newftable fuel (expandRecord0 s0 oldftable newftable) 1 with
        | .fatal s9 => .fatal s9
        | .timeout => .timeout
        | .done s9 => .done (s9.store (atc + 0) newftable, newftable + 32 * offs)

/-- `h68k_MapIoByte(addr, readFunc, writeFunc)`. -/
def h68k_MapIoByte (fuel : Nat) (s : State) (addr readFunc writeFunc : Nat) : Outcome State :=
  match h68k_GetExpandedFtable fuel s addr with
  | .fatal s1 => .fatal s1
  | .timeout => .timeout
  | .done (s1, ftable) =>
    if ftable = 0 then .fatal s1
    else .done ((s1.store (ftable + 0) readFunc).store (ftable + 12) writeFunc)

/-- `h68k_MapIoWord(addr, readFunc, writeFunc)`. -/
def h68k_MapIoWord (fuel : Nat) (s : State) (addr readFunc writeFunc : Nat) : Outcome State :=
  match h68k_GetExpandedFtable fuel s addr with
  | .fatal s1 => .fatal s1
  | .timeout => .timeout
  | .done (s1, ftable) =>
    if ftable = 0 then .fatal s1
    else .done ((s1.store (ftable + 4) readFunc).store (ftable + 16) writeFunc)

/-- `h68k_MapIoLong(addr, readFunc, writeFunc)`. -/
def h68k_MapIoLong (fuel : Nat) (s : State) (addr readFunc writeFunc : Nat) : Outcome State :=
  match h68k_GetExpandedFtable fuel s addr with
  | .fatal s1 => .fatal s1
  | .timeout => .timeout
  | .done (s1, ftable) =>
    if ftable = 0 then .fatal s1
    else .done ((s1.store (ftable + 8) readFunc).store (ftable + 20) writeFunc)

/-! ## `mmu.c`: `h68k_PrepareFtables` -/

section Prepare
variable (A : Sym → Nat)

/-- First statement of the `// words` loop body: `if ((uint32)e0->readW & 0x80000000)
e0->readW = (e0->readB == e1->readB) ? (e0->readW & 0x7FFFFFFF) : h68k_IoReadWordBB;`. -/
def PrepareFtables_words_read (e0 e1 : Nat) (s : State) : State :=
  if (s.mem (e0 + 4) &&& 0x80000000) ≠ 0 then
    s.store (e0 + 4)
      (if s.mem (e0 + 0) = s.mem (e1 + 0) then s.mem (e0 + 4) &&& 0x7FFFFFFF
       else A .h68k_IoReadWordBB)
  else s

/-- Second statement of the `// words` loop body, on `writeW` and `writeB`. -/
def PrepareFtables_words_write (e0 e1 : Nat) (s : State) : State :=
  if (s.mem (e0 + 16) &&& 0x80000000) ≠ 0 then
    s.store (e0 + 16)
      (if s.mem (e0 + 12) = s.mem (e1 + 12) then s.mem (e0 + 16) &&& 0x7FFFFFFF
       else A .h68k_IoWriteWordBB)
  else s

/-- The `// words` loop of `h68k_PrepareFtables` over the table at `root`, with
`e0 = &root[idx+0]`, `e1 = &root[idx+1]`. -/
def PrepareFtables_words (root : Nat) : Nat → State → Nat → Outcome State
  | 0, _, _ => .timeout
  | fuel + 1, s, idx =>
    if idx < s.h68k_mmu_pagesize then
      let e0 := root + 32 * (idx + 0)
      let e1 := root + 32 * (idx + 1)
      PrepareFtables_words root fuel
        (PrepareFtables_words_write A e0 e1 (PrepareFtables_words_read A e0 e1 s))
        ((idx + 2) % 65536)
    else .done s

/-- First statement of the `// longs` loop body, on `readL` and `readW`. -/
def PrepareFtables_longs_read (e0 e1 : Nat) (s : State) : State :=
  if (s.mem (e0 + 8) &&& 0x80000000) ≠ 0 then
    if s.mem (e0 + 4) = s.mem (e1 + 4) then
      s.store (e0 + 8) (s.mem (e0 + 8) &&& 0x7FFFFFFF)
    else if s.mem (e0 + 4) = A .h68k_IoReadWordBB ∧ s.mem (e1 + 4) = A .h68k_IoReadWordBB then
      s.store (e0 + 8) (A .h68k_IoReadLongBBBB)
    else if s.mem (e0 + 4) = A .h68k_IoReadWordBB then
      s.store (e0 + 8) (A .h68k_IoReadLongBBW)
    else if s.mem (e1 + 4) = A .h68k_IoReadWordBB then
      s.store (e0 + 8) (A .h68k_IoReadLongWBB)
    else
      s.store (e0 + 8) (A .h68k_IoReadLongWW)
  else s

/-- Second statement of the `// longs` loop body, on `writeL` and `writeW`. -/
def PrepareFtables_longs_write (e0 e1 : Nat) (s : State) : State :=
  if (s.mem (e0 + 20) &&& 0x80000000) ≠ 0 then
    if s.mem (e0 + 16) = s.mem (e1 + 16) then
      s.store (e0 + 20) (s.mem (e0 + 20) &&& 0x7FFFFFFF)
    else if s.mem (e0 + 16) = A .h68k_IoWriteWordBB ∧ s.mem (e1 + 16) = A .h68k_IoWriteWordBB then
      s.store (e0 + 20) (A .h68k_IoWriteLongBBBB)
    else if s.mem (e0 + 16) = A .h68k_IoWriteWordBB then
      s.store (e0 + 20) (A .h68k_IoWriteLongBBW)
    else if s.mem (e1 + 16) = A .h68k_IoWriteWordBB then
      s.store (e0 + 20) (A .h68k_IoWriteLongWBB)
    else
      s.store (e0 + 20) (A .h68k_IoWriteLongWW)
  else s

/-- The `// longs` loop of `h68k_PrepareFtables` over the table at `root`, with
`e0 = &root[idx+0]`, `e1 = &root[idx+2]`. -/
def PrepareFtables_longs (root : Nat) : Nat → State → Nat → Outcome State
  | 0, _, _ => .timeout
  | fuel + 1, s, idx =>
    if idx < s.h68k_mmu_pagesize then
      let e0 := root + 32 * (idx + 0)
      let e1 := root + 32 * (idx + 2)
      PrepareFtables_longs root fuel
        (PrepareFtables_longs_write A e0 e1 (PrepareFtables_longs_read A e0 e1 s))
        ((idx + 2) % 65536)
    else .done s

/-- First statement of the `// bytes` loop body: `if (idx & 1) { e0->readW =
h68k_IoBerrWord; e0->readL = h68k_IoBerrLong; e0->writeW = h68k_IoBerrWord; e0->writeL =
h68k_IoBerrLong; }`. -/
def PrepareFtables_bytes_odd (e0 idx : Nat) (s : State) : State :=
  if (idx &&& 1) ≠ 0 then
    (((s.store (e0 + 4) (A .h68k_IoBerrWord)).store (e0 + 8) (A .h68k_IoBerrLong)).store
      (e0 + 16) (A .h68k_IoBerrWord)).store (e0 + 20) (A .h68k_IoBerrLong)
  else s

/-- The statements of the `// bytes` loop body that clear bit 31 of the field at byte
offset `o` of the record (`readB` for `o = 0`, `writeB` for `o = 12`). -/
def PrepareFtables_bytes_clear (e0 o : Nat) (s : State) : State :=
  if (s.mem (e0 + o) &&& 0x80000000) ≠ 0 then
    s.store (e0 + o) (s.mem (e0 + o) &&& 0x7FFFFFFF)
  else s

/-- The `// bytes` loop of `h68k_PrepareFtables` over the table at `root`, with
`e0 = &root[idx+0]`. -/
def PrepareFtables_bytes (root : Nat) : Nat → State → Nat → Outcome State
  | 0, _, _ => .timeout
  | fuel + 1, s, idx =>
    if idx < s.h68k_mmu_pagesize then
      let e0 := root + 32 * (idx + 0)
      PrepareFtables_bytes root fuel
        (PrepareFtables_bytes_clear e0 12
          (PrepareFtables_bytes_clear e0 0 (PrepareFtables_bytes_odd A e0 idx s)))
        ((idx + 1) % 65536)
    else .done s

/-- The stage-1 rewrite `ud1[0] = h68k_mmuf_wlcc; .. ud1[i] = h68k_mmuf_rmcc`. -/
def PrepareFtables_stage1 (s : State) (ud1 : Nat) : State :=
  let s0 := s.store (ud1 + 4 * 0) (A .h68k_mmuf_wlcc)
  let s1 := s0.store (ud1 + 4 * 1) (A .h68k_mmuf_wbcc)
  let s2 := s1.store (ud1 + 4 * 2) (A .h68k_mmuf_wwcc)
  let s3 := s2.store (ud1 + 4 * 3) (A .h68k_mmuf_w3cc)
  let s4 := s3.store (ud1 + 4 * 4) (A .h68k_mmuf_rlcc)
  let s5 := s4.store (ud1 + 4 * 5) (A .h68k_mmuf_rbcc)
  let s6 := s5.store (ud1 + 4 * 6) (A .h68k_mmuf_rwcc)
  let s7 := s6.store (ud1 + 4 * 7) (A .h68k_mmuf_r3cc)
  (List.range' 8 8).foldl (fun t i => t.store (ud1 + 4 * i) (A .h68k_mmuf_rmcc)) s7

/-- One pass of the body of the outer loop of `h68k_PrepareFtables`, for the page at
`base`. -/
def PrepareFtables_page (fuel : Nat) (s : State) (base : Nat) : Outcome State :=
  let atc := h68k_GetMmuDescriptor s base
  let root := s.mem (atc + 0)
  if (s.mem (atc + 0) &&& 0xFF) ≠ 0 then .done s
  else if root = 0 ∨ s.mem (root + 28) = 0 then .done s
  else
    let ud1 := s.mem (atc + 4)
    let s1 := PrepareFtables_stage1 A s ud1
    match PrepareFtables_words A root fuel s1 0 with
    | .fatal t => .fatal t
    | .timeout => .timeout
    | .done s2 =>
      match PrepareFtables_longs A root fuel s2 0 with
      | .fatal t => .fatal t
      | .timeout => .timeout
      | .done s3 => PrepareFtables_bytes A root fuel s3 0

/-- The outer loop `for (base = 0; base < 0x01000000; base += h68k_mmu_pagesize)`. -/
def PrepareFtables_loop (fuel : Nat) : Nat → State → Nat → Outcome State
  | 0, _, _ => .timeout
  | n + 1, s, base =>
    if base < 0x01000000 then
      match PrepareFtables_page A fuel s base with
      | .fatal t => .fatal t
      | .timeout => .timeout
      | .done s1 => PrepareFtables_loop fuel n s1 ((base + s1.h68k_mmu_pagesize) % U32)
    else .done s

/-- `h68k_PrepareFtables()`. -/
def h68k_PrepareFtables (fuel : Nat) (s : State) : Outcome State :=
  PrepareFtables_loop A fuel fuel s 0

end Prepare

/-! ## `vec.c` -/

/-- `HostStackFrameSizes[16]`. -/
def HostStackFrameSizes : List Nat := [4, 4, 6, 0, 0, 0, 0, 0, 0, 10, 16, 46, 0, 0, 0, 0]

/-- The body `offs = (i<<10)|j; offs = (offs < 0x2000) ? (offs | 0x2000) : (offs & 0x1FFF);
sfs_table[offs] = (HostStackFrameSizes[i] << 1);`. -/
def sfs_step (s : State) (i j : Nat) : State :=
  let offs0 := (((i <<< 10) % 65536) ||| j) % 65536
  let offs := if offs0 < 0x2000 then (offs0 ||| 0x2000) % 65536 else (offs0 &&& 0x1FFF) % 65536
  { s with sfs_table := fun x =>
      if x = offs then (HostStackFrameSizes.getD i 0 <<< 1) % U32 else s.sfs_table x }

/-- The two nested loops `for (i < 16) for (j < 512)` building `sfs_table`. -/
def sfs_init (s : State) : State :=
  (List.range 16).foldl (fun t i => (List.range 512).foldl (fun u j => sfs_step u i j) t) s

/-- `h68k_SetVectorHandler(vec, func)`. -/
def h68k_SetVectorHandler (s : State) (vec func : Nat) : State :=
  s.store (s.host_vbr + vec) func

/-- `h68k_SetVectorIpl(vec, ipl)`. -/
def h68k_SetVectorIpl (s : State) (vec ipl : Nat) : State :=
  let idx := vec >>> 2
  { s with ipl_table := fun x => if x = idx then (ipl <<< 24) % U32 else s.ipl_table x }

/-- `h68k_SetVector(vec, ipl, func)`. -/
def h68k_SetVector (s : State) (vec ipl func : Nat) : State :=
  let idx := vec >>> 2
  let s1 := { s with vec_table := fun x => if x = idx then func else s.vec_table x }
  let s2 := { s1 with ipl_table := fun x => if x = idx then (ipl <<< 24) % U32 else s1.ipl_table x }
  h68k_SetVectorHandler s2 vec func

/-- One of the two `for (uint32 i = start; i <= end; i++)` loops of
`h68k_SetPrivilegeViolationHandler`; `super` selects the table written. -/
def SetPrivilegeViolationHandler_loop (super : Bool) (f end_ : Nat) : Nat → State → Nat → Outcome State
  | 0, _, _ => .timeout
  | fuel + 1, s, i =>
    if i ≤ end_ then
      let idx := if i < 0x8000 then (i ||| 0x8000) % 65536 else (i &&& 0x7FFF) % 65536
      let s1 : State :=
        if super then { s with pviols_table := fun x => if x = idx then f else s.pviols_table x }
        else { s with pviolu_table := fun x => if x = idx then f else s.pviolu_table x }
      SetPrivilegeViolationHandler_loop super f end_ fuel s1 ((i + 1) % U32)
    else .done s

/-- `h68k_SetPrivilegeViolationHandler(start, end, fsuper, fuser)`. -/
def h68k_SetPrivilegeViolationHandler (fuel : Nat) (s : State) (start end_ fsuper fuser : Nat) :
    Outcome State :=
  match (if fsuper ≠ 0 then SetPrivilegeViolationHandler_loop true fsuper end_ fuel s start
         else .done s) with
  | .fatal t => .fatal t
  | .timeout => .timeout
  | .done s1 =>
    if fuser ≠ 0 then SetPrivilegeViolationHandler_loop false fuser end_ fuel s1 start
    else .done s1

abbrev H68K_CPU_68000 : Nat := 0x0000
abbrev H68K_CPU_68010 : Nat := 0x0010

/-- One `h68k_SetVector(vec, ipl, stub)` call. -/
structure VecCall where
  vec : Nat
  ipl : Nat
  func : Sym

/-- One `h68k_SetPrivilegeViolationHandler(start, end, fsuper, fuser)` call. -/
structure PviolCall where
  start : Nat
  end_ : Nat
  fsuper : Sym
  fuser : Sym
  deriving DecidableEq

/-- The explicit `h68k_SetVector` calls of the `H68K_CPU_68000` case, in program order. -/
def vectors68000 : List VecCall :=
  [VecCall.mk 0x08 0 Sym.vec68000_Group0,
   VecCall.mk 0x0c 0 Sym.vec68000_Group0,
   VecCall.mk 0x10 0 Sym.vec68000_Group1,
   VecCall.mk 0x14 0 Sym.vec68000_Group2,
   VecCall.mk 0x18 0 Sym.vec68000_Group2,
   VecCall.mk 0x1c 0 Sym.vec68000_Group2,
   VecCall.mk 0x20 0 Sym.vec68000_Group1,
   VecCall.mk 0x24 0 Sym.vec68000_Group1,
   VecCall.mk 0x28 0 Sym.vec68000_Group2,
   VecCall.mk 0x2C 0 Sym.vec68000_Group2,
   VecCall.mk 0x60 1 Sym.vec68000_Group1,
   VecCall.mk 0x64 2 Sym.vec68000_Group1,
   VecCall.mk 0x68 3 Sym.vec68000_Group1,
   VecCall.mk 0x6c 4 Sym.vec68000_Group1,
   VecCall.mk 0x70 5 Sym.vec68000_Group1,
   VecCall.mk 0x74 6 Sym.vec68000_Group1,
   VecCall.mk 0x78 7 Sym.vec68000_Group1,
   VecCall.mk 0x7c 7 Sym.vec68000_Group1,
   VecCall.mk 0x80 0 Sym.vec68000_Group2,
   VecCall.mk 0x84 0 Sym.vec68000_Group2,
   VecCall.mk 0x88 0 Sym.vec68000_Group2,
   VecCall.mk 0x8c 0 Sym.vec68000_Group2,
   VecCall.mk 0x90 0 Sym.vec68000_Group2,
   VecCall.mk 0x94 0 Sym.vec68000_Group2,
   VecCall.mk 0x98 0 Sym.vec68000_Group2,
   VecCall.mk 0x9c 0 Sym.vec68000_Group2,
   VecCall.mk 0xa0 0 Sym.vec68000_Group2,
   VecCall.mk 0xa4 0 Sym.vec68000_Group2,
   VecCall.mk 0xa8 0 Sym.vec68000_Group2,
   VecCall.mk 0xac 0 Sym.vec68000_Group2,
   VecCall.mk 0xb0 0 Sym.vec68000_Group2,
   VecCall.mk 0xb4 0 Sym.vec68000_Group2,
   VecCall.mk 0xb8 0 Sym.vec68000_Group2,
   VecCall.mk 0xbc 0 Sym.vec68000_Group2]

/-- The explicit `h68k_SetVector` calls of the `H68K_CPU_68010` case, in program order. -/
def vectors68010 : List VecCall :=
  [VecCall.mk 0x08 0 Sym.vec68010_Group0,
   VecCall.mk 0x0c 0 Sym.vec68010_Group0,
   VecCall.mk 0x10 0 Sym.vec68010_Group1,
   VecCall.mk 0x14 0 Sym.vec68010_Group2,
   VecCall.mk 0x18 0 Sym.vec68010_Group2,
   VecCall.mk 0x1c 0 Sym.vec68010_Group2,
   VecCall.mk 0x20 0 Sym.vec68010_Group1,
   VecCall.mk 0x24 0 Sym.vec68010_Group1,
   VecCall.mk 0x28 0 Sym.vec68010_Group2,
   VecCall.mk 0x2C 0 Sym.vec68010_Group2,
   VecCall.mk 0x60 1 Sym.vec68010_Group1,
   VecCall.mk 0x64 2 Sym.vec68010_Group1,
   VecCall.mk 0x68 3 Sym.vec68010_Group1,
   VecCall.mk 0x6c 4 Sym.vec68010_Group1,
   VecCall.mk 0x70 5 Sym.vec68010_Group1,
   VecCall.mk 0x74 6 Sym.vec68010_Group1,
   VecCall.mk 0x78 7 Sym.vec68010_Group1,
   VecCall.mk 0x7c 7 Sym.vec68010_Group1,
   VecCall.mk 0x80 0 Sym.vec68010_Group2,
   VecCall.mk 0x84 0 Sym.vec68010_Group2,
   VecCall.mk 0x88 0 Sym.vec68010_Group2,
   VecCall.mk 0x8c 0 Sym.vec68010_Group2,
   VecCall.mk 0x90 0 Sym.vec68010_Group2,
   VecCall.mk 0x94 0 Sym.vec68010_Group2,
   VecCall.mk 0x98 0 Sym.vec68010_Group2,
   VecCall.mk 0x9c 0 Sym.vec68010_Group2,
   VecCall.mk 0xa0 0 Sym.vec68010_Group2,
   VecCall.mk 0xa4 0 Sym.vec68010_Group2,
   VecCall.mk 0xa8 0 Sym.vec68010_Group2,
   VecCall.mk 0xac 0 Sym.vec68010_Group2,
   VecCall.mk 0xb0 0 Sym.vec68010_Group2,
   VecCall.mk 0xb4 0 Sym.vec68010_Group2,
   VecCall.mk 0xb8 0 Sym.vec68010_Group2,
   VecCall.mk 0xbc 0 Sym.vec68010_Group2]

/-- The `h68k_SetPrivilegeViolationHandler` calls that `h68k_InitVectors` makes for every
client, in program order. -/
def pviolInstalls : List PviolCall :=
  [PviolCall.mk 0x0000 0xFFFF Sym.pviol68000_IllegalInstruction Sym.pviol68000_IllegalInstruction,
   PviolCall.mk 0xF000 0xFFFF Sym.pviol68000_LineF Sym.pviol68000_LineF,
   PviolCall.mk 0x4e72 0x4e72 Sym.pviol68000_stop Sym.pviol68000_PrivilegeViolation,
   PviolCall.mk 0x4e70 0x4e70 Sym.pviol68000_reset Sym.pviol68000_PrivilegeViolation,
   PviolCall.mk 0x4e73 0x4e73 Sym.pviol68000_rte Sym.pviol68000_PrivilegeViolation,
   PviolCall.mk 0x4E60 0x4E60 Sym.pviol68000_move_a0_usp Sym.pviol68000_PrivilegeViolation,
   PviolCall.mk 0x4E61 0x4E61 Sym.pviol68000_move_a1_usp Sym.pviol68000_PrivilegeViolation,
   PviolCall.mk 0x4E62 0x4E62 Sym.pviol68000_move_a2_usp Sym.pviol68000_PrivilegeViolation,
   PviolCall.mk 0x4E63 0x4E63 Sym.pviol68000_move_a3_usp Sym.pviol68000_PrivilegeViolation,
   PviolCall.mk 0x4E64 0x4E64 Sym.pviol68000_move_a4_usp Sym.pviol68000_PrivilegeViolation,
   PviolCall.mk 0x4E65 0x4E65 Sym.pviol68000_move_a5_usp Sym.pviol68000_PrivilegeViolation,
   PviolCall.mk 0x4E66 0x4E66 Sym.pviol68000_move_a6_usp Sym.pviol68000_PrivilegeViolation,
   PviolCall.mk 0x4E67 0x4E67 Sym.pviol68000_move_a7_usp Sym.pviol68000_PrivilegeViolation,
   PviolCall.mk 0x4E68 0x4E68 Sym.pviol68000_move_usp_a0 Sym.pviol68000_PrivilegeViolation,
   PviolCall.mk 0x4E69 0x4E69 Sym.pviol68000_move_usp_a1 Sym.pviol68000_PrivilegeViolation,
   PviolCall.mk 0x4E6a 0x4E6a Sym.pviol68000_move_usp_a2 Sym.pviol68000_PrivilegeViolation,
   PviolCall.mk 0x4E6b 0x4E6b Sym.pviol68000_move_usp_a3 Sym.pviol68000_PrivilegeViolation,
   PviolCall.mk 0x4E6c 0x4E6c Sym.pviol68000_move_usp_a4 Sym.pviol68000_PrivilegeViolation,
   PviolCall.mk 0x4E6d 0x4E6d Sym.pviol68000_move_usp_a5 Sym.pviol68000_PrivilegeViolation,
   PviolCall.mk 0x4E6e 0x4E6e Sym.pviol68000_move_usp_a6 Sym.pviol68000_PrivilegeViolation,
   PviolCall.mk 0x4E6f 0x4E6f Sym.pviol68000_move_usp_a7 Sym.pviol68000_PrivilegeViolation,
   PviolCall.mk 0x46f8 0x46f8 Sym.pviol68000_move_absW_sr Sym.pviol68000_PrivilegeViolation,
   PviolCall.mk 0x46f9 0x46f9 Sym.pviol68000_move_absL_sr Sym.pviol68000_PrivilegeViolation,
   PviolCall.mk 0x46fc 0x46fc Sym.pviol68000_move_imm_sr Sym.pviol68000_PrivilegeViolation,
   PviolCall.mk 0x027c 0x027c Sym.pviol68000_and_imm_sr Sym.pviol68000_PrivilegeViolation,
   PviolCall.mk 0x0a7c 0x0a7c Sym.pviol68000_eor_imm_sr Sym.pviol68000_PrivilegeViolation,
   PviolCall.mk 0x007c 0x007c Sym.pviol68000_or_imm_sr Sym.pviol68000_PrivilegeViolation,
   PviolCall.mk 0x46c0 0x46c0 Sym.pviol68000_move_d0_sr Sym.pviol68000_PrivilegeViolation,
   PviolCall.mk 0x46c1 0x46c1 Sym.pviol68000_move_d1_sr Sym.pviol68000_PrivilegeViolation,
   PviolCall.mk 0x46c2 0x46c2 Sym.pviol68000_move_d2_sr Sym.pviol68000_PrivilegeViolation,
   PviolCall.mk 0x46c3 0x46c3 Sym.pviol68000_move_d3_sr Sym.pviol68000_PrivilegeViolation,
   PviolCall.mk 0x46c4 0x46c4 Sym.pviol68000_move_d4_sr Sym.pviol68000_PrivilegeViolation,
   PviolCall.mk 0x46c5 0x46c5 Sym.pviol68000_move_d5_sr Sym.pviol68000_PrivilegeViolation,
   PviolCall.mk 0x46c6 0x46c6 Sym.pviol68000_move_d6_sr Sym.pviol68000_PrivilegeViolation,
   PviolCall.mk 0x46c7 0x46c7 Sym.pviol68000_move_d7_sr Sym.pviol68000_PrivilegeViolation,
   PviolCall.mk 0x46d0 0x46d0 Sym.pviol68000_move_a0_sr Sym.pviol68000_PrivilegeViolation,
   PviolCall.mk 0x46d1 0x46d1 Sym.pviol68000_move_a1_sr Sym.pviol68000_PrivilegeViolation,
   PviolCall.mk 0x46d2 0x46d2 Sym.pviol68000_move_a2_sr Sym.pviol68000_PrivilegeViolation,
   PviolCall.mk 0x46d3 0x46d3 Sym.pviol68000_move_a3_sr Sym.pviol68000_PrivilegeViolation,
   PviolCall.mk 0x46d4 0x46d4 Sym.pviol68000_move_a4_sr Sym.pviol68000_PrivilegeViolation,
   PviolCall.mk 0x46d5 0x46d5 Sym.pviol68000_move_a5_sr Sym.pviol68000_PrivilegeViolation,
   PviolCall.mk 0x46d6 0x46d6 Sym.pviol68000_move_a6_sr Sym.pviol68000_PrivilegeViolation,
   PviolCall.mk 0x46d7 0x46d7 Sym.pviol68000_move_a7_sr Sym.pviol68000_PrivilegeViolation,
   PviolCall.mk 0x46d8 0x46d8 Sym.pviol68000_move_a0a_sr Sym.pviol68000_PrivilegeViolation,
   PviolCall.mk 0x46d9 0x46d9 Sym.pviol68000_move_a1a_sr Sym.pviol68000_PrivilegeViolation,
   PviolCall.mk 0x46da 0x46da Sym.pviol68000_move_a2a_sr Sym.pviol68000_PrivilegeViolation,
   PviolCall.mk 0x46db 0x46db Sym.pviol68000_move_a3a_sr Sym.pviol68000_PrivilegeViolation,
   PviolCall.mk 0x46dc 0x46dc Sym.pviol68000_move_a4a_sr Sym.pviol68000_PrivilegeViolation,
   PviolCall.mk 0x46dd 0x46dd Sym.pviol68000_move_a5a_sr Sym.pviol68000_PrivilegeViolation,
   PviolCall.mk 0x46de 0x46de Sym.pviol68000_move_a6a_sr Sym.pviol68000_PrivilegeViolation,
   PviolCall.mk 0x46df 0x46df Sym.pviol68000_move_a7a_sr Sym.pviol68000_PrivilegeViolation,
   PviolCall.mk 0x46e0 0x46e0 Sym.pviol68000_move_a0b_sr Sym.pviol68000_PrivilegeViolation,
   PviolCall.mk 0x46e1 0x46e1 Sym.pviol68000_move_a1b_sr Sym.pviol68000_PrivilegeViolation,
   PviolCall.mk 0x46e2 0x46e2 Sym.pviol68000_move_a2b_sr Sym.pviol68000_PrivilegeViolation,
   PviolCall.mk 0x46e3 0x46e3 Sym.pviol68000_move_a3b_sr Sym.pviol68000_PrivilegeViolation,
   PviolCall.mk 0x46e4 0x46e4 Sym.pviol68000_move_a4b_sr Sym.pviol68000_PrivilegeViolation,
   PviolCall.mk 0x46e5 0x46e5 Sym.pviol68000_move_a5b_sr Sym.pviol68000_PrivilegeViolation,
   PviolCall.mk 0x46e6 0x46e6 Sym.pviol68000_move_a6b_sr Sym.pviol68000_PrivilegeViolation,
   PviolCall.mk 0x46e7 0x46e7 Sym.pviol68000_move_a7b_sr Sym.pviol68000_PrivilegeViolation,
   PviolCall.mk 0x46e8 0x46e8 Sym.pviol68000_move_a0c_sr Sym.pviol68000_PrivilegeViolation,
   PviolCall.mk 0x46e9 0x46e9 Sym.pviol68000_move_a1c_sr Sym.pviol68000_PrivilegeViolation,
   PviolCall.mk 0x46ea 0x46ea Sym.pviol68000_move_a2c_sr Sym.pviol68000_PrivilegeViolation,
   PviolCall.mk 0x46eb 0x46eb Sym.pviol68000_move_a3c_sr Sym.pviol68000_PrivilegeViolation,
   PviolCall.mk 0x46ec 0x46ec Sym.pviol68000_move_a4c_sr Sym.pviol68000_PrivilegeViolation,
   PviolCall.mk 0x46ed 0x46ed Sym.pviol68000_move_a5c_sr Sym.pviol68000_PrivilegeViolation,
   PviolCall.mk 0x46ee 0x46ee Sym.pviol68000_move_a6c_sr Sym.pviol68000_PrivilegeViolation,
   PviolCall.mk 0x46ef 0x46ef Sym.pviol68000_move_a7c_sr Sym.pviol68000_PrivilegeViolation,
   PviolCall.mk 0x46f0 0x46f0 Sym.pviol68000_move_a0d_sr Sym.pviol68000_PrivilegeViolation,
   PviolCall.mk 0x46f1 0x46f1 Sym.pviol68000_move_a1d_sr Sym.pviol68000_PrivilegeViolation,
   PviolCall.mk 0x46f2 0x46f2 Sym.pviol68000_move_a2d_sr Sym.pviol68000_PrivilegeViolation,
   PviolCall.mk 0x46f3 0x46f3 Sym.pviol68000_move_a3d_sr Sym.pviol68000_PrivilegeViolation,
   PviolCall.mk 0x46f4 0x46f4 Sym.pviol68000_move_a4d_sr Sym.pviol68000_PrivilegeViolation,
   PviolCall.mk 0x46f5 0x46f5 Sym.pviol68000_move_a5d_sr Sym.pviol68000_PrivilegeViolation,
   PviolCall.mk 0x46f6 0x46f6 Sym.pviol68000_move_a6d_sr Sym.pviol68000_PrivilegeViolation,
   PviolCall.mk 0x46f7 0x46f7 Sym.pviol68000_move_a7d_sr Sym.pviol68000_PrivilegeViolation,
   PviolCall.mk 0x40f8 0x40f8 Sym.pviol68000_move_sr_absW Sym.pviol68000_move_sr_absW,
   PviolCall.mk 0x40f9 0x40f9 Sym.pviol68000_move_sr_absL Sym.pviol68000_move_sr_absL,
   PviolCall.mk 0x40c0 0x40c0 Sym.pviol68000_move_sr_d0 Sym.pviol68000_move_sr_d0,
   PviolCall.mk 0x40c1 0x40c1 Sym.pviol68000_move_sr_d1 Sym.pviol68000_move_sr_d1,
   PviolCall.mk 0x40c2 0x40c2 Sym.pviol68000_move_sr_d2 Sym.pviol68000_move_sr_d2,
   PviolCall.mk 0x40c3 0x40c3 Sym.pviol68000_move_sr_d3 Sym.pviol68000_move_sr_d3,
   PviolCall.mk 0x40c4 0x40c4 Sym.pviol68000_move_sr_d4 Sym.pviol68000_move_sr_d4,
   PviolCall.mk 0x40c5 0x40c5 Sym.pviol68000_move_sr_d5 Sym.pviol68000_move_sr_d5,
   PviolCall.mk 0x40c6 0x40c6 Sym.pviol68000_move_sr_d6 Sym.pviol68000_move_sr_d6,
   PviolCall.mk 0x40c7 0x40c7 Sym.pviol68000_move_sr_d7 Sym.pviol68000_move_sr_d7,
   PviolCall.mk 0x40d0 0x40d0 Sym.pviol68000_move_sr_a0 Sym.pviol68000_move_sr_a0,
   PviolCall.mk 0x40d1 0x40d1 Sym.pviol68000_move_sr_a1 Sym.pviol68000_move_sr_a1,
   PviolCall.mk 0x40d2 0x40d2 Sym.pviol68000_move_sr_a2 Sym.pviol68000_move_sr_a2,
   PviolCall.mk 0x40d3 0x40d3 Sym.pviol68000_move_sr_a3 Sym.pviol68000_move_sr_a3,
   PviolCall.mk 0x40d4 0x40d4 Sym.pviol68000_move_sr_a4 Sym.pviol68000_move_sr_a4,
   PviolCall.mk 0x40d5 0x40d5 Sym.pviol68000_move_sr_a5 Sym.pviol68000_move_sr_a5,
   PviolCall.mk 0x40d6 0x40d6 Sym.pviol68000_move_sr_a6 Sym.pviol68000_move_sr_a6,
   PviolCall.mk 0x40d7 0x40d7 Sym.pviol68000_move_sr_a7 Sym.pviol68000_move_sr_a7,
   PviolCall.mk 0x40d8 0x40d8 Sym.pviol68000_move_sr_a0a Sym.pviol68000_move_sr_a0a,
   PviolCall.mk 0x40d9 0x40d9 Sym.pviol68000_move_sr_a1a Sym.pviol68000_move_sr_a1a,
   PviolCall.mk 0x40da 0x40da Sym.pviol68000_move_sr_a2a Sym.pviol68000_move_sr_a2a,
   PviolCall.mk 0x40db 0x40db Sym.pviol68000_move_sr_a3a Sym.pviol68000_move_sr_a3a,
   PviolCall.mk 0x40dc 0x40dc Sym.pviol68000_move_sr_a4a Sym.pviol68000_move_sr_a4a,
   PviolCall.mk 0x40dd 0x40dd Sym.pviol68000_move_sr_a5a Sym.pviol68000_move_sr_a5a,
   PviolCall.mk 0x40de 0x40de Sym.pviol68000_move_sr_a6a Sym.pviol68000_move_sr_a6a,
   PviolCall.mk 0x40df 0x40df Sym.pviol68000_move_sr_a7a Sym.pviol68000_move_sr_a7a,
   PviolCall.mk 0x40e0 0x40e0 Sym.pviol68000_move_sr_a0b Sym.pviol68000_move_sr_a0b,
   PviolCall.mk 0x40e1 0x40e1 Sym.pviol68000_move_sr_a1b Sym.pviol68000_move_sr_a1b,
   PviolCall.mk 0x40e2 0x40e2 Sym.pviol68000_move_sr_a2b Sym.pviol68000_move_sr_a2b,
   PviolCall.mk 0x40e3 0x40e3 Sym.pviol68000_move_sr_a3b Sym.pviol68000_move_sr_a3b,
   PviolCall.mk 0x40e4 0x40e4 Sym.pviol68000_move_sr_a4b Sym.pviol68000_move_sr_a4b,
   PviolCall.mk 0x40e5 0x40e5 Sym.pviol68000_move_sr_a5b Sym.pviol68000_move_sr_a5b,
   PviolCall.mk 0x40e6 0x40e6 Sym.pviol68000_move_sr_a6b Sym.pviol68000_move_sr_a6b,
   PviolCall.mk 0x40e7 0x40e7 Sym.pviol68000_move_sr_a7b Sym.pviol68000_move_sr_a7b,
   PviolCall.mk 0x40e8 0x40e8 Sym.pviol68000_move_sr_a0c Sym.pviol68000_move_sr_a0c,
   PviolCall.mk 0x40e9 0x40e9 Sym.pviol68000_move_sr_a1c Sym.pviol68000_move_sr_a1c,
   PviolCall.mk 0x40ea 0x40ea Sym.pviol68000_move_sr_a2c Sym.pviol68000_move_sr_a2c,
   PviolCall.mk 0x40eb 0x40eb Sym.pviol68000_move_sr_a3c Sym.pviol68000_move_sr_a3c,
   PviolCall.mk 0x40ec 0x40ec Sym.pviol68000_move_sr_a4c Sym.pviol68000_move_sr_a4c,
   PviolCall.mk 0x40ed 0x40ed Sym.pviol68000_move_sr_a5c Sym.pviol68000_move_sr_a5c,
   PviolCall.mk 0x40ee 0x40ee Sym.pviol68000_move_sr_a6c Sym.pviol68000_move_sr_a6c,
   PviolCall.mk 0x40ef 0x40ef Sym.pviol68000_move_sr_a7c Sym.pviol68000_move_sr_a7c,
   PviolCall.mk 0x40f0 0x40f0 Sym.pviol68000_move_sr_a0d Sym.pviol68000_move_sr_a0d,
   PviolCall.mk 0x40f1 0x40f1 Sym.pviol68000_move_sr_a1d Sym.pviol68000_move_sr_a1d,
   PviolCall.mk 0x40f2 0x40f2 Sym.pviol68000_move_sr_a2d Sym.pviol68000_move_sr_a2d,
   PviolCall.mk 0x40f3 0x40f3 Sym.pviol68000_move_sr_a3d Sym.pviol68000_move_sr_a3d,
   PviolCall.mk 0x40f4 0x40f4 Sym.pviol68000_move_sr_a4d Sym.pviol68000_move_sr_a4d,
   PviolCall.mk 0x40f5 0x40f5 Sym.pviol68000_move_sr_a5d Sym.pviol68000_move_sr_a5d,
   PviolCall.mk 0x40f6 0x40f6 Sym.pviol68000_move_sr_a6d Sym.pviol68000_move_sr_a6d,
   PviolCall.mk 0x40f7 0x40f7 Sym.pviol68000_move_sr_a7d Sym.pviol68000_move_sr_a7d]

/-- The further `h68k_SetPrivilegeViolationHandler` calls inside
`if (client_cpu >= 68010)`, in program order. -/
def pviolInstalls68010 : List PviolCall :=
  [PviolCall.mk 0x4e73 0x4e73 Sym.pviol68010_rte Sym.pviol68000_PrivilegeViolation,
   PviolCall.mk 0x40f8 0x40f8 Sym.pviol68000_move_sr_absW Sym.pviol68000_PrivilegeViolation,
   PviolCall.mk 0x40f9 0x40f9 Sym.pviol68000_move_sr_absL Sym.pviol68000_PrivilegeViolation,
   PviolCall.mk 0x40c0 0x40c0 Sym.pviol68000_move_sr_d0 Sym.pviol68000_PrivilegeViolation,
   PviolCall.mk 0x40c1 0x40c1 Sym.pviol68000_move_sr_d1 Sym.pviol68000_PrivilegeViolation,
   PviolCall.mk 0x40c2 0x40c2 Sym.pviol68000_move_sr_d2 Sym.pviol68000_PrivilegeViolation,
   PviolCall.mk 0x40c3 0x40c3 Sym.pviol68000_move_sr_d3 Sym.pviol68000_PrivilegeViolation,
   PviolCall.mk 0x40c4 0x40c4 Sym.pviol68000_move_sr_d4 Sym.pviol68000_PrivilegeViolation,
   PviolCall.mk 0x40c5 0x40c5 Sym.pviol68000_move_sr_d5 Sym.pviol68000_PrivilegeViolation,
   PviolCall.mk 0x40c6 0x40c6 Sym.pviol68000_move_sr_d6 Sym.pviol68000_PrivilegeViolation,
   PviolCall.mk 0x40c7 0x40c7 Sym.pviol68000_move_sr_d7 Sym.pviol68000_PrivilegeViolation,
   PviolCall.mk 0x40d0 0x40d0 Sym.pviol68000_move_sr_a0 Sym.pviol68000_PrivilegeViolation,
   PviolCall.mk 0x40d1 0x40d1 Sym.pviol68000_move_sr_a1 Sym.pviol68000_PrivilegeViolation,
   PviolCall.mk 0x40d2 0x40d2 Sym.pviol68000_move_sr_a2 Sym.pviol68000_PrivilegeViolation,
   PviolCall.mk 0x40d3 0x40d3 Sym.pviol68000_move_sr_a3 Sym.pviol68000_PrivilegeViolation,
   PviolCall.mk 0x40d4 0x40d4 Sym.pviol68000_move_sr_a4 Sym.pviol68000_PrivilegeViolation,
   PviolCall.mk 0x40d5 0x40d5 Sym.pviol68000_move_sr_a5 Sym.pviol68000_PrivilegeViolation,
   PviolCall.mk 0x40d6 0x40d6 Sym.pviol68000_move_sr_a6 Sym.pviol68000_PrivilegeViolation,
   PviolCall.mk 0x40d7 0x40d7 Sym.pviol68000_move_sr_a7 Sym.pviol68000_PrivilegeViolation,
   PviolCall.mk 0x40d8 0x40d8 Sym.pviol68000_move_sr_a0a Sym.pviol68000_PrivilegeViolation,
   PviolCall.mk 0x40d9 0x40d9 Sym.pviol68000_move_sr_a1a Sym.pviol68000_PrivilegeViolation,
   PviolCall.mk 0x40da 0x40da Sym.pviol68000_move_sr_a2a Sym.pviol68000_PrivilegeViolation,
   PviolCall.mk 0x40db 0x40db Sym.pviol68000_move_sr_a3a Sym.pviol68000_PrivilegeViolation,
   PviolCall.mk 0x40dc 0x40dc Sym.pviol68000_move_sr_a4a Sym.pviol68000_PrivilegeViolation,
   PviolCall.mk 0x40dd 0x40dd Sym.pviol68000_move_sr_a5a Sym.pviol68000_PrivilegeViolation,
   PviolCall.mk 0x40de 0x40de Sym.pviol68000_move_sr_a6a Sym.pviol68000_PrivilegeViolation,
   PviolCall.mk 0x40df 0x40df Sym.pviol68000_move_sr_a7a Sym.pviol68000_PrivilegeViolation,
   PviolCall.mk 0x40e0 0x40e0 Sym.pviol68000_move_sr_a0b Sym.pviol68000_PrivilegeViolation,
   PviolCall.mk 0x40e1 0x40e1 Sym.pviol68000_move_sr_a1b Sym.pviol68000_PrivilegeViolation,
   PviolCall.mk 0x40e2 0x40e2 Sym.pviol68000_move_sr_a2b Sym.pviol68000_PrivilegeViolation,
   PviolCall.mk 0x40e3 0x40e3 Sym.pviol68000_move_sr_a3b Sym.pviol68000_PrivilegeViolation,
   PviolCall.mk 0x40e4 0x40e4 Sym.pviol68000_move_sr_a4b Sym.pviol68000_PrivilegeViolation,
   PviolCall.mk 0x40e5 0x40e5 Sym.pviol68000_move_sr_a5b Sym.pviol68000_PrivilegeViolation,
   PviolCall.mk 0x40e6 0x40e6 Sym.pviol68000_move_sr_a6b Sym.pviol68000_PrivilegeViolation,
   PviolCall.mk 0x40e7 0x40e7 Sym.pviol68000_move_sr_a7b Sym.pviol68000_PrivilegeViolation,
   PviolCall.mk 0x40e8 0x40e8 Sym.pviol68000_move_sr_a0c Sym.pviol68000_PrivilegeViolation,
   PviolCall.mk 0x40e9 0x40e9 Sym.pviol68000_move_sr_a1c Sym.pviol68000_PrivilegeViolation,
   PviolCall.mk 0x40ea 0x40ea Sym.pviol68000_move_sr_a2c Sym.pviol68000_PrivilegeViolation,
   PviolCall.mk 0x40eb 0x40eb Sym.pviol68000_move_sr_a3c Sym.pviol68000_PrivilegeViolation,
   PviolCall.mk 0x40ec 0x40ec Sym.pviol68000_move_sr_a4c Sym.pviol68000_PrivilegeViolation,
   PviolCall.mk 0x40ed 0x40ed Sym.pviol68000_move_sr_a5c Sym.pviol68000_PrivilegeViolation,
   PviolCall.mk 0x40ee 0x40ee Sym.pviol68000_move_sr_a6c Sym.pviol68000_PrivilegeViolation,
   PviolCall.mk 0x40ef 0x40ef Sym.pviol68000_move_sr_a7c Sym.pviol68000_PrivilegeViolation,
   PviolCall.mk 0x40f0 0x40f0 Sym.pviol68000_move_sr_a0d Sym.pviol68000_PrivilegeViolation,
   PviolCall.mk 0x40f1 0x40f1 Sym.pviol68000_move_sr_a1d Sym.pviol68000_PrivilegeViolation,
   PviolCall.mk 0x40f2 0x40f2 Sym.pviol68000_move_sr_a2d Sym.pviol68000_PrivilegeViolation,
   PviolCall.mk 0x40f3 0x40f3 Sym.pviol68000_move_sr_a3d Sym.pviol68000_PrivilegeViolation,
   PviolCall.mk 0x40f4 0x40f4 Sym.pviol68000_move_sr_a4d Sym.pviol68000_PrivilegeViolation,
   PviolCall.mk 0x40f5 0x40f5 Sym.pviol68000_move_sr_a5d Sym.pviol68000_PrivilegeViolation,
   PviolCall.mk 0x40f6 0x40f6 Sym.pviol68000_move_sr_a6d Sym.pviol68000_PrivilegeViolation,
   PviolCall.mk 0x40f7 0x40f7 Sym.pviol68000_move_sr_a7d Sym.pviol68000_PrivilegeViolation]

section InitVectors
variable (A : Sym → Nat)

/-- A run of `h68k_SetPrivilegeViolationHandler` calls, in list order. -/
def installAll (fuel : Nat) : List PviolCall → State → Outcome State
  | [], s => .done s
  | c :: rest, s =>
    match h68k_SetPrivilegeViolationHandler fuel s c.start c.end_ (A c.fsuper) (A c.fuser) with
    | .fatal t => .fatal t
    | .timeout => .timeout
    | .done s1 => installAll fuel rest s1

/-- One case of the `switch (client_cpu)` block of `h68k_InitVectors`: the defaults loop
with the stub `g2`, the explicit calls of the case, the loop over user defined vectors. -/
def initVectorsCase (s : State) (g2 : Sym) (calls : List VecCall) : State :=
  let s1 := ((List.range 256).map (fun k => 4 * k)).foldl
    (fun t i => h68k_SetVector t i 0 (A g2)) s
  let s2 := calls.foldl (fun t c => h68k_SetVector t c.vec c.ipl (A c.func)) s1
  ((List.range 192).map (fun k => 0x100 + 4 * k)).foldl
    (fun t i => h68k_SetVector t i 0 (A g2)) s2

/-- `h68k_InitVectors()`. -/
def h68k_InitVectors (fuel : Nat) (s : State) : Outcome State :=
  let s1 := sfs_init s
  match AllocMem s1 (256 * 4) 256 with
  | .fatal t => .fatal t
  | .timeout => .timeout
  | .done (s2, p) =>
    let s3 := { s2 with host_vbr := p }
    let s4 :=
      if s3.client_cpu = H68K_CPU_68010 then initVectorsCase A s3 .vec68010_Group2 vectors68010
      else initVectorsCase A s3 .vec68000_Group2 vectors68000
    let s5 := h68k_SetVectorHandler s4 0x04 (A .vec68000_Reset)
    let s6 := h68k_SetVectorHandler s5 0x08 (A .vec68000_BusError)
    let s7 := h68k_SetVectorHandler s6 0x0c (A .vec68000_AddrError)
    let s8 := h68k_SetVectorHandler s7 0x20 (A .vec68000_PrivilegeViolation)
    match installAll A fuel pviolInstalls s8 with
    | .fatal t => .fatal t
    | .timeout => .timeout
    | .done s9 =>
      if s9.client_cpu ≥ 68010 then installAll A fuel pviolInstalls68010 s9
      else .done s9

end InitVectors

/-! ## Vocabulary of the statements -/

/-- Two states that differ at most in the contents of memory. -/
def SameGlobals (s t : State) : Prop := ∃ m, t = { s with mem := m }

/-- The flags the public direct mappings hand to `LongDescriptor`: descriptor type
`MMU_PAGE`, nothing above bit 15. -/
def PageFlag (flag : Nat) : Prop := flag &&& MMU_DT = MMU_PAGE ∧ flag &&& not32 0x0000FFFF = 0

/-- A small configured machine: page size 256, descriptor table at `0x100000`
(`2^24 / 256` long descriptors, 512 KiB), arena `[0x200000, 0x400000)`, memory all zero. -/
def demoState : State :=
  { mem := fun _ => 0, mem_ptr := 0x200000, mem_top := 0x400000,
    h68k_mmu_table := 0x100000, h68k_mmu_pagesize := 256 }

/-- The machine `demoState` after `h68k_MapReadOnly(0x1000, 0x1300, 0x50000)`. -/
def demoMapped : State :=
  match h68k_MapReadOnly true 4 demoState 0x1000 0x1300 0x50000 with
  | .done t => t
  | _ => demoState

/-- Two states that differ at most in memory and in the allocation pointer. -/
def SameConfig (s t : State) : Prop := ∃ m p, t = { s with mem := m, mem_ptr := p }

/-- `x` rounded up to a multiple of `2^j`. -/
def alignUp (x j : Nat) : Nat := (x + (2 ^ j - 1)) - (x + (2 ^ j - 1)) % 2 ^ j

/-- Entry `i` of the 16-entry stage-1 table that `h68k_MapAccessHandlerEx` builds from its
nine handlers. -/
def stage1Entry (readByte writeByte readWord writeWord readLong writeLong readThree writeThree
    readModifyWrite : Nat) (i : Nat) : Nat :=
  match i with
  | 0 => writeLong
  | 1 => writeByte
  | 2 => writeWord
  | 3 => writeThree
  | 4 => readLong
  | 5 => readByte
  | 6 => readWord
  | 7 => readThree
  | _ => readModifyWrite

/-- A sample placement of the external stubs: one every 16 bytes from `0x10000` on, in
the order of their declaration in `h68k.h`. -/
def demoAddr (x : Sym) : Nat := 0x10000 + 16 * x.toCtorIdx

/-- The word at byte offset `w` of the record that expansion derives from the collapsed
record at `old` in memory `m`, for page size `p`: `len` becomes `p`, `reserved` is
copied, each of the six function fields gets bit 31 set. -/
def expandedField (m : Nat → Nat) (old p w : Nat) : Nat :=
  if w = 28 then p else if w = 24 then m (old + 24) else m (old + w) ||| 0x80000000

/-- The sample machine after `h68k_MapIoRangeEx(0xff8000, 0xff8200, ..)` with six sample
handlers: two pages share one collapsed handler table. -/
def demoIo : State :=
  match h68k_MapIoRangeEx demoAddr true 3 demoState 0xff8000 0xff8200
      0x7001 0x7002 0x7003 0x7004 0x7005 0x7006 with
  | .done t => t
  | _ => demoState

/-- The machine `demoIo` after `h68k_MapIoByte(0xff8001, 0x9001, 0x9002)`: the page at
`0xff8000` is expanded, the page at `0xff8100` still references the collapsed table. -/
def demoExp : State :=
  match h68k_MapIoByte 257 demoIo 0xff8001 0x9001 0x9002 with
  | .done t => t
  | _ => demoIo

/-! ## Vocabulary for `h68k_PrepareFtables`

Closed forms of what the three inner loops leave in a handler table of `p` records at
`r`, as functions of the memory `m` they start from. -/

/-- The word-level choice: an inherited handler `w` (bit 31 set) becomes `w` without the
tag when the two byte handlers `b0`, `b1` are the same value, else the composite `bb`. -/
def narrowWord (bb w b0 b1 : Nat) : Nat :=
  if (w &&& 0x80000000) ≠ 0 then (if b0 = b1 then w &&& 0x7FFFFFFF else bb) else w

/-- The long-level choice from the two word handlers `w0`, `w1`; `bb` is the byte-pair
word composite, `bbbb bbw wbb ww` the four long composites. -/
def narrowLong (bb bbbb bbw wbb ww l w0 w1 : Nat) : Nat :=
  if (l &&& 0x80000000) ≠ 0 then
    if w0 = w1 then l &&& 0x7FFFFFFF
    else if w0 = bb ∧ w1 = bb then bbbb
    else if w0 = bb then bbw
    else if w1 = bb then wbb
    else ww
  else l

/-- The byte-level step: clear bit 31 when it is set. -/
def clearTag (b : Nat) : Nat := if (b &&& 0x80000000) ≠ 0 then b &&& 0x7FFFFFFF else b

/-- Memory after the `// words` loop has run over the records `lo .. p-1`. -/
def wordsMem (A : Sym → Nat) (m : Nat → Nat) (r lo p : Nat) : Nat → Nat := fun x =>
  if r + 32 * lo ≤ x ∧ x < r + 32 * p ∧ ((x - r) / 32) % 2 = 0 ∧ (x - r) % 32 = 4 then
    narrowWord (A .h68k_IoReadWordBB) (m x) (m (x - 4)) (m (x + 28))
  else if r + 32 * lo ≤ x ∧ x < r + 32 * p ∧ ((x - r) / 32) % 2 = 0 ∧ (x - r) % 32 = 16 then
    narrowWord (A .h68k_IoWriteWordBB) (m x) (m (x - 4)) (m (x + 28))
  else m x

/-- Memory after the `// longs` loop has run over the records `lo .. p-1`. -/
def longsMem (A : Sym → Nat) (m : Nat → Nat) (r lo p : Nat) : Nat → Nat := fun x =>
  if r + 32 * lo ≤ x ∧ x < r + 32 * p ∧ ((x - r) / 32) % 2 = 0 ∧ (x - r) % 32 = 8 then
    narrowLong (A .h68k_IoReadWordBB) (A .h68k_IoReadLongBBBB) (A .h68k_IoReadLongBBW)
      (A .h68k_IoReadLongWBB) (A .h68k_IoReadLongWW) (m x) (m (x - 4)) (m (x + 60))
  else if r + 32 * lo ≤ x ∧ x < r + 32 * p ∧ ((x - r) / 32) % 2 = 0 ∧ (x - r) % 32 = 20 then
    narrowLong (A .h68k_IoWriteWordBB) (A .h68k_IoWriteLongBBBB) (A .h68k_IoWriteLongBBW)
      (A .h68k_IoWriteLongWBB) (A .h68k_IoWriteLongWW) (m x) (m (x - 4)) (m (x + 60))
  else m x

/-- Memory after the `// bytes` loop has run over the records `lo .. p-1`. -/
def bytesMem (A : Sym → Nat) (m : Nat → Nat) (r lo p : Nat) : Nat → Nat := fun x =>
  if r + 32 * lo ≤ x ∧ x < r + 32 * p then
    if (x - r) % 32 = 0 ∨ (x - r) % 32 = 12 then clearTag (m x)
    else if ((x - r) / 32) % 2 = 1 ∧ ((x - r) % 32 = 4 ∨ (x - r) % 32 = 16) then
      A .h68k_IoBerrWord
    else if ((x - r) / 32) % 2 = 1 ∧ ((x - r) % 32 = 8 ∨ (x - r) % 32 = 20) then
      A .h68k_IoBerrLong
    else m x
  else m x

/-- Memory after the stage-1 rewrite of the 16-entry table at `ud1`. -/
def stage1Mem (A : Sym → Nat) (m : Nat → Nat) (ud1 : Nat) : Nat → Nat := fun x =>
  if ud1 ≤ x ∧ x < ud1 + 64 ∧ (x - ud1) % 4 = 0 then
    stage1Entry (A .h68k_mmuf_rbcc) (A .h68k_mmuf_wbcc) (A .h68k_mmuf_rwcc) (A .h68k_mmuf_wwcc)
      (A .h68k_mmuf_rlcc) (A .h68k_mmuf_wlcc) (A .h68k_mmuf_r3cc) (A .h68k_mmuf_w3cc)
      (A .h68k_mmuf_rmcc) ((x - ud1) / 4)
  else m x

/-- Memory after `h68k_PrepareFtables` has handled one expanded page: stage-1 rewrite of
the table at `ud1`, then the words, longs and bytes loops over the `p` records at `r`. -/
def pageMem (A : Sym → Nat) (m : Nat → Nat) (r ud1 p : Nat) : Nat → Nat :=
  bytesMem A (longsMem A (wordsMem A (stage1Mem A m ud1) r 0 p) r 0 p) r 0 p

/-- The test `h68k_PrepareFtables` applies to page `j`: word 0 of its descriptor has the
low byte clear, is non-null, and the record it points to has `len ≠ 0`. -/
def isExpanded (s : State) (j : Nat) : Prop :=
  s.mem (s.h68k_mmu_table + 8 * j) &&& 0xFF = 0 ∧
  s.mem (s.h68k_mmu_table + 8 * j) ≠ 0 ∧
  s.mem (s.mem (s.h68k_mmu_table + 8 * j) + 28) ≠ 0

/-- Address `x` is one that `h68k_PrepareFtables` may write while handling page `j` of
state `s` (page size `p`): a function field of a record of the page's table, or an entry
of its stage-1 table. -/
def TouchedBy (s : State) (p j x : Nat) : Prop :=
  isExpanded s j ∧
  ((s.mem (s.h68k_mmu_table + 8 * j) ≤ x ∧ x < s.mem (s.h68k_mmu_table + 8 * j) + 32 * p ∧
      (x - s.mem (s.h68k_mmu_table + 8 * j)) % 32 < 24) ∨
   (s.mem (s.h68k_mmu_table + 8 * j + 4) ≤ x ∧ x < s.mem (s.h68k_mmu_table + 8 * j + 4) + 64))

/-- Some page in `[lo, hi)` touches `x`. -/
def Touched (s : State) (p lo hi x : Nat) : Prop := ∃ j, lo ≤ j ∧ j < hi ∧ TouchedBy s p j x

/-- Layout under which `h68k_PrepareFtables` is analysed: nothing it writes is a word of
the descriptor table or the `len` field of a record referenced by a descriptor. -/
def PrepLayout (s : State) (k : Nat) : Prop :=
  (∀ x, Touched s (2 ^ k) 0 (16777216 / 2 ^ k) x →
    x < s.h68k_mmu_table ∨ s.h68k_mmu_table + 8 * (16777216 / 2 ^ k) ≤ x) ∧
  (∀ x j, Touched s (2 ^ k) 0 (16777216 / 2 ^ k) x → j < 16777216 / 2 ^ k →
    x ≠ s.mem (s.h68k_mmu_table + 8 * j) + 28)

/-- No page other than `j` touches the table of an expanded page `j`: handler tables of
distinct pages do not overlap, nor does a stage-1 table overlap a handler table. -/
def TablesSeparate (s : State) (k : Nat) : Prop :=
  ∀ j j' x, j < 16777216 / 2 ^ k → j' < 16777216 / 2 ^ k → j' ≠ j → isExpanded s j →
    s.mem (s.h68k_mmu_table + 8 * j) ≤ x →
    x < s.mem (s.h68k_mmu_table + 8 * j) + 32 * 2 ^ k → ¬ TouchedBy s (2 ^ k) j' x

/-- The sample machine (page size 256, descriptor table at `0x100000`, arena from
`0x200000`) after `h68k_MapIoRangeEx(0xff8000, 0xff8100, 0x7001, 0x7002, 0x7003, 0x7004,
0x7005, 0x7006)` and the expansion of that page by `h68k_GetExpandedFtable`, written out:
collapsed record at `0x200000`, stage-1 table at `0x200080`, the 256 expanded records at
`0x200100 .. 0x2020ff`, everything else zero. -/
def prepDemo : State :=
  { mem := fun x =>
      if x = 0x100000 + 8 * 0xff80 then 0x200100
      else if x = 0x100000 + 8 * 0xff80 + 4 then 0x200080
      else if 0x200080 ≤ x ∧ x < 0x2000C0 ∧ (x - 0x200080) % 4 = 0 then
        stage1Entry (demoAddr .h68k_mmuf_rbc) (demoAddr .h68k_mmuf_wbc)
          (demoAddr .h68k_mmuf_rwc) (demoAddr .h68k_mmuf_wwc) (demoAddr .h68k_mmuf_rlc)
          (demoAddr .h68k_mmuf_wlc) (demoAddr .h68k_mmuf_r3c) (demoAddr .h68k_mmuf_w3c)
          (demoAddr .h68k_mmuf_rmc) ((x - 0x200080) / 4)
      else if x = 0x200000 then 0x7001
      else if x = 0x200004 then 0x7003
      else if x = 0x200008 then 0x7005
      else if x = 0x20000C then 0x7002
      else if x = 0x200010 then 0x7004
      else if x = 0x200014 then 0x7006
      else if 0x200100 ≤ x ∧ x < 0x202100 ∧ (x - 0x200100) % 4 = 0 then
        (if (x - 0x200100) % 32 = 0 then 0x80007001
         else if (x - 0x200100) % 32 = 4 then 0x80007003
         else if (x - 0x200100) % 32 = 8 then 0x80007005
         else if (x - 0x200100) % 32 = 12 then 0x80007002
         else if (x - 0x200100) % 32 = 16 then 0x80007004
         else if (x - 0x200100) % 32 = 20 then 0x80007006
         else if (x - 0x200100) % 32 = 24 then 0
         else 256)
      else 0,
    mem_ptr := 0x202100, mem_top := 0x400000,
    h68k_mmu_table := 0x100000, h68k_mmu_pagesize := 256 }

/-! ## Vocabulary for the privilege-violation tables -/

/-- Whether the opcode range `[start, end]` of an install contains `o`. -/
def PviolCall.covers (c : PviolCall) (o : Nat) : Bool :=
  decide (c.start ≤ o) && decide (o ≤ c.end_)

/-- The last install of a sequence of `h68k_SetPrivilegeViolationHandler` calls whose
range contains the opcode `o`. -/
def lastInstall (calls : List PviolCall) (o : Nat) : Option PviolCall :=
  calls.reverse.find? (fun c => c.covers o)

/-- The globals other than the two privilege-violation tables are the same. -/
def SamePviolFrame (s t : State) : Prop :=
  ∃ ps pu, t = { s with pviols_table := ps, pviolu_table := pu }

/-! ## Sample inputs for the 68010 client -/

/-- The empty sample machine with `client_cpu = H68K_CPU_68010`. -/
def demoState68010 : State := { demoState with client_cpu := H68K_CPU_68010 }

/-! ## The host CPU and the globals of `h68k.c` and of the MMU set-up in `mmu.c` -/

/-- `MMURegs` of `mmu.c`: `srp[2]`, `crp[2]`, `ttr0`, `ttr1`, `tc`. -/
structure MMURegs where
  srp0 : Nat
  srp1 : Nat
  crp0 : Nat
  crp1 : Nat
  ttr0 : Nat
  ttr1 : Nat
  tc : Nat
  deriving DecidableEq, Repr

/-- `struct h68kFatalDump` of `h68k.h`. -/
structure FatalDump where
  err : Nat
  pc : Nat
  sr : Nat
  usp : Nat
  d0 : Nat
  d1 : Nat
  d2 : Nat
  d3 : Nat
  d4 : Nat
  d5 : Nat
  d6 : Nat
  d7 : Nat
  a0 : Nat
  a1 : Nat
  a2 : Nat
  a3 : Nat
  a4 : Nat
  a5 : Nat
  a6 : Nat
  a7 : Nat
  deriving DecidableEq, Repr

/-- The host control registers that `h68k_Run` reads and writes with `movec`. -/
structure CtrlRegs where
  usp : Nat
  vbr : Nat
  sfc : Nat
  dfc : Nat
  caar : Nat
  cacr : Nat
  deriving DecidableEq, Repr

/-- The machine: the state `st` of `common.c`, `mmu.c` and `vec.c` with the host memory,
the registers of the host CPU (`mmu`, `creg`, `sr`) and the globals of `h68k.c` and of
the MMU set-up. `h68kFatalDumpMsg` holds the two numbers that the message
`"Fatal error: $%08x at $%08x"` is formatted from, `none` for the empty string. -/
structure Machine where
  st : State
  mmu : MMURegs
  creg : CtrlRegs
  sr : Nat
  h68k_mmu_old : MMURegs
  h68k_mmu : MMURegs
  h68kFatalDump : FatalDump
  h68kFatalDumpMsg : Option (Nat × Nat)
  h68k_OnFatal : Nat
  client_sr : Nat
  client_ssp : Nat
  client_usp : Nat
  client_vbr : Nat
  client_sfc : Nat
  client_dfc : Nat
  old_usp : Nat
  old_vbr : Nat
  old_sfc : Nat
  old_dfc : Nat
  old_cacr : Nat
  old_caar : Nat

/-- `h68k_GetMMU(regs)`: `pmove srp,0(a0); pmove crp,8(a0); pmove tt0,16(a0);
pmove tt1,20(a0); pmove tc,24(a0)`, the value stored in `*regs`. -/
def h68k_GetMMU (m : Machine) : MMURegs :=
  { srp0 := m.mmu.srp0, srp1 := m.mmu.srp1, crp0 := m.mmu.crp0, crp1 := m.mmu.crp1,
    ttr0 := m.mmu.ttr0, ttr1 := m.mmu.ttr1, tc := m.mmu.tc }

/-- `h68k_SetMMU(regs)`: the enable bits of `tc`, `tt0`, `tt1` are cleared, then the five
registers are loaded from `*regs` in the order `srp, crp, tt0, tt1, tc`. -/
def h68k_SetMMU (m : Machine) (regs : MMURegs) : Machine :=
  let m1 := { m with mmu := { m.mmu with tc := m.mmu.tc &&& 0x7FFFFFFF } }
  let m2 := { m1 with mmu := { m1.mmu with ttr0 := m1.mmu.ttr0 &&& 0xFFFF7FFF } }
  let m3 := { m2 with mmu := { m2.mmu with ttr1 := m2.mmu.ttr1 &&& 0xFFFF7FFF } }
  let m4 := { m3 with mmu := { m3.mmu with srp0 := regs.srp0, srp1 := regs.srp1 } }
  let m5 := { m4 with mmu := { m4.mmu with crp0 := regs.crp0, crp1 := regs.crp1 } }
  let m6 := { m5 with mmu := { m5.mmu with ttr0 := regs.ttr0 } }
  let m7 := { m6 with mmu := { m6.mmu with ttr1 := regs.ttr1 } }
  { m7 with mmu := { m7.mmu with tc := regs.tc } }

/-- `h68k_RestoreMemoryMap()`. -/
def h68k_RestoreMemoryMap (m : Machine) : Machine := h68k_SetMMU m m.h68k_mmu_old

/-! ## `mmu.c`: `h68k_InitMemoryMap` -/

/-- The eight tables that `h68k_InitMemoryMap` carves out of one allocation. -/
inductive Tab where
  | tia0s | tib0s | tib1s | tic0s | tia0u | tib0u | tic0u | tid0u
  deriving DecidableEq, Repr

/-- The `addr` argument of a `ShortDescriptor` call of `h68k_InitMemoryMap`: a constant,
the address of a table, or `((i * tid_size) + (uint32)tid0u)`. -/
inductive Target where
  | abs (a : Nat)
  | tab (t : Tab)
  | tid (i : Nat)
  deriving DecidableEq, Repr

/-- One `ShortDescriptor(table, idx, addr, flag)` call of `h68k_InitMemoryMap`. -/
structure ShortCall where
  table : Tab
  idx : Nat
  addr : Target
  flag : Nat
  deriving DecidableEq, Repr

/-- The value of an `addr` argument, given the table addresses `P` and `tid_size`. -/
def Target.value (P : Tab → Nat) (tid_size : Nat) : Target → Nat
  | .abs a => a
  | .tab t => P t
  | .tid i => ((i * tid_size) % U32 + P .tid0u) % U32

/-- `ShortDescriptor(table, idx, addr, flag)`; its checks are under `#ifndef NDEBUG`. -/
def ShortDescriptor (checked : Bool) (s : State) (table idx addr flag : Nat) : Outcome State :=
  let dt := flag &&& MMU_DT
  let amask := if dt = MMU_PAGE then 0xFFFFFF00
    else if dt = MMU_SHORT_TABLE ∨ dt = MMU_LONG_TABLE then 0xFFFFFFF0 else 0xFFFFFFFC
  let fmask := not32 amask
  if checked ∧ (addr &&& not32 amask) ≠ 0 then .fatal s
  else if checked ∧ (flag &&& not32 fmask) ≠ 0 then .fatal s
  else .done (s.store (table + 4 * idx) (addr ||| flag))

/-- The 64 `ShortDescriptor` calls under `// create supervisor table`, in program order. -/
def supervisorTree : List ShortCall :=
  [ShortCall.mk Tab.tia0s 0 (Target.tab Tab.tib0s) MMU_SHORT_TABLE,
   ShortCall.mk Tab.tia0s 1 (Target.abs 0x10000000) (MMU_PAGE ||| MMU_CI),
   ShortCall.mk Tab.tia0s 2 (Target.abs 0x20000000) (MMU_PAGE ||| MMU_CI),
   ShortCall.mk Tab.tia0s 3 (Target.abs 0x30000000) (MMU_PAGE ||| MMU_CI),
   ShortCall.mk Tab.tia0s 4 (Target.abs 0x40000000) (MMU_PAGE ||| MMU_CI),
   ShortCall.mk Tab.tia0s 5 (Target.abs 0x50000000) (MMU_PAGE ||| MMU_CI),
   ShortCall.mk Tab.tia0s 6 (Target.abs 0x60000000) (MMU_PAGE ||| MMU_CI),
   ShortCall.mk Tab.tia0s 7 (Target.abs 0x70000000) (MMU_PAGE ||| MMU_CI),
   ShortCall.mk Tab.tia0s 8 (Target.abs 0x80000000) (MMU_PAGE ||| MMU_CI),
   ShortCall.mk Tab.tia0s 9 (Target.abs 0x90000000) (MMU_PAGE ||| MMU_CI),
   ShortCall.mk Tab.tia0s 10 (Target.abs 0xA0000000) (MMU_PAGE ||| MMU_CI),
   ShortCall.mk Tab.tia0s 11 (Target.abs 0xB0000000) (MMU_PAGE ||| MMU_CI),
   ShortCall.mk Tab.tia0s 12 (Target.abs 0xC0000000) (MMU_PAGE ||| MMU_CI),
   ShortCall.mk Tab.tia0s 13 (Target.abs 0xD0000000) (MMU_PAGE ||| MMU_CI),
   ShortCall.mk Tab.tia0s 14 (Target.abs 0xE0000000) (MMU_PAGE ||| MMU_CI),
   ShortCall.mk Tab.tia0s 15 (Target.tab Tab.tib1s) MMU_SHORT_TABLE,
   ShortCall.mk Tab.tib0s 0 (Target.tab Tab.tic0s) MMU_SHORT_TABLE,
   ShortCall.mk Tab.tib0s 1 (Target.abs 0x01000000) (MMU_PAGE ||| MMU_CI),
   ShortCall.mk Tab.tib0s 2 (Target.abs 0x02000000) (MMU_PAGE ||| MMU_CI),
   ShortCall.mk Tab.tib0s 3 (Target.abs 0x03000000) (MMU_PAGE ||| MMU_CI),
   ShortCall.mk Tab.tib0s 4 (Target.abs 0x04000000) (MMU_PAGE ||| MMU_CI),
   ShortCall.mk Tab.tib0s 5 (Target.abs 0x05000000) (MMU_PAGE ||| MMU_CI),
   ShortCall.mk Tab.tib0s 6 (Target.abs 0x06000000) (MMU_PAGE ||| MMU_CI),
   ShortCall.mk Tab.tib0s 7 (Target.abs 0x07000000) (MMU_PAGE ||| MMU_CI),
   ShortCall.mk Tab.tib0s 8 (Target.abs 0x08000000) (MMU_PAGE ||| MMU_CI),
   ShortCall.mk Tab.tib0s 9 (Target.abs 0x09000000) (MMU_PAGE ||| MMU_CI),
   ShortCall.mk Tab.tib0s 10 (Target.abs 0x0A000000) (MMU_PAGE ||| MMU_CI),
   ShortCall.mk Tab.tib0s 11 (Target.abs 0x0B000000) (MMU_PAGE ||| MMU_CI),
   ShortCall.mk Tab.tib0s 12 (Target.abs 0x0C000000) (MMU_PAGE ||| MMU_CI),
   ShortCall.mk Tab.tib0s 13 (Target.abs 0x0D000000) (MMU_PAGE ||| MMU_CI),
   ShortCall.mk Tab.tib0s 14 (Target.abs 0x0E000000) (MMU_PAGE ||| MMU_CI),
   ShortCall.mk Tab.tib0s 15 (Target.abs 0x0F000000) (MMU_PAGE ||| MMU_CI),
   ShortCall.mk Tab.tib1s 0 (Target.abs 0xF0000000) (MMU_PAGE ||| MMU_CI),
   ShortCall.mk Tab.tib1s 1 (Target.abs 0xF1000000) (MMU_PAGE ||| MMU_CI),
   ShortCall.mk Tab.tib1s 2 (Target.abs 0xF2000000) (MMU_PAGE ||| MMU_CI),
   ShortCall.mk Tab.tib1s 3 (Target.abs 0xF3000000) (MMU_PAGE ||| MMU_CI),
   ShortCall.mk Tab.tib1s 4 (Target.abs 0xF4000000) (MMU_PAGE ||| MMU_CI),
   ShortCall.mk Tab.tib1s 5 (Target.abs 0xF5000000) (MMU_PAGE ||| MMU_CI),
   ShortCall.mk Tab.tib1s 6 (Target.abs 0xF6000000) (MMU_PAGE ||| MMU_CI),
   ShortCall.mk Tab.tib1s 7 (Target.abs 0xF7000000) (MMU_PAGE ||| MMU_CI),
   ShortCall.mk Tab.tib1s 8 (Target.abs 0xF8000000) (MMU_PAGE ||| MMU_CI),
   ShortCall.mk Tab.tib1s 9 (Target.abs 0xF9000000) (MMU_PAGE ||| MMU_CI),
   ShortCall.mk Tab.tib1s 10 (Target.abs 0xFA000000) (MMU_PAGE ||| MMU_CI),
   ShortCall.mk Tab.tib1s 11 (Target.abs 0xFB000000) (MMU_PAGE ||| MMU_CI),
   ShortCall.mk Tab.tib1s 12 (Target.abs 0xFC000000) (MMU_PAGE ||| MMU_CI),
   ShortCall.mk Tab.tib1s 13 (Target.abs 0xFD000000) (MMU_PAGE ||| MMU_CI),
   ShortCall.mk Tab.tib1s 14 (Target.abs 0xFE000000) (MMU_PAGE ||| MMU_CI),
   ShortCall.mk Tab.tib1s 15 (Target.tab Tab.tic0s) MMU_SHORT_TABLE,
   ShortCall.mk Tab.tic0s 0 (Target.abs 0x00000000) (MMU_PAGE ||| MMU_CI),
   ShortCall.mk Tab.tic0s 1 (Target.abs 0x00100000) (MMU_PAGE ||| MMU_CI),
   ShortCall.mk Tab.tic0s 2 (Target.abs 0x00200000) (MMU_PAGE ||| MMU_CI),
   ShortCall.mk Tab.tic0s 3 (Target.abs 0x00300000) (MMU_PAGE ||| MMU_CI),
   ShortCall.mk Tab.tic0s 4 (Target.abs 0x00400000) (MMU_PAGE ||| MMU_CI),
   ShortCall.mk Tab.tic0s 5 (Target.abs 0x00500000) (MMU_PAGE ||| MMU_CI),
   ShortCall.mk Tab.tic0s 6 (Target.abs 0x00600000) (MMU_PAGE ||| MMU_CI),
   ShortCall.mk Tab.tic0s 7 (Target.abs 0x00700000) (MMU_PAGE ||| MMU_CI),
   ShortCall.mk Tab.tic0s 8 (Target.abs 0x00800000) (MMU_PAGE ||| MMU_CI),
   ShortCall.mk Tab.tic0s 9 (Target.abs 0x00900000) (MMU_PAGE ||| MMU_CI),
   ShortCall.mk Tab.tic0s 10 (Target.abs 0x00A00000) (MMU_PAGE ||| MMU_CI),
   ShortCall.mk Tab.tic0s 11 (Target.abs 0x00B00000) (MMU_PAGE ||| MMU_CI),
   ShortCall.mk Tab.tic0s 12 (Target.abs 0x00C00000) (MMU_PAGE ||| MMU_CI),
   ShortCall.mk Tab.tic0s 13 (Target.abs 0x00D00000) (MMU_PAGE ||| MMU_CI),
   ShortCall.mk Tab.tic0s 14 (Target.abs 0x00E00000) (MMU_PAGE ||| MMU_CI),
   ShortCall.mk Tab.tic0s 15 (Target.abs 0x00F00000) (MMU_PAGE ||| MMU_CI)]

/-- The three loops under `// create usermode table`, in program order. -/
def userTree : List ShortCall :=
  (List.range 16).map (fun i => ShortCall.mk Tab.tia0u i (Target.tab Tab.tib0u) MMU_SHORT_TABLE)
  ++ (List.range 16).map (fun i => ShortCall.mk Tab.tib0u i (Target.tab Tab.tic0u) MMU_SHORT_TABLE)
  ++ (List.range 16).map (fun i => ShortCall.mk Tab.tic0u i (Target.tid i) MMU_LONG_TABLE)

/-- The address of each table, from the eight pointers of `h68k_InitMemoryMap`. -/
def tableAddr (tia0s tib0s tib1s tic0s tia0u tib0u tic0u tid0u : Nat) : Tab → Nat
  | .tia0s => tia0s
  | .tib0s => tib0s
  | .tib1s => tib1s
  | .tic0s => tic0s
  | .tia0u => tia0u
  | .tib0u => tib0u
  | .tic0u => tic0u
  | .tid0u => tid0u

/-- A run of `ShortDescriptor` calls, in list order. -/
def buildTree (checked : Bool) (P : Tab → Nat) (tid_size : Nat) :
    List ShortCall → State → Outcome State
  | [], s => .done s
  | c :: rest, s =>
    match ShortDescriptor checked s (P c.table) c.idx (c.addr.value P tid_size) c.flag with
    | .fatal t => .fatal t
    | .timeout => .timeout
    | .done s1 => buildTree checked P tid_size rest s1

/-- The array `validPageSizes[]` of `h68k_InitMemoryMap`. -/
def validPageSizes : List Nat :=
  [256, 12, 512, 11, 1024, 10, 2048, 9, 4096, 8, 8192, 7, 16384, 6, 32768, 5, 0xFFFFFFFF, 0]

/-- The loop `for (int i=0; i<18; i+=2)` over `validPageSizes`, with `n` iterations left
from index `i`; the result is `(pagesize, tid_bits)` after the loop. -/
def pageSize_loop (pagesize : Nat) : Nat → Nat → Nat × Nat
  | 0, _ => (pagesize, 0)
  | n + 1, i =>
    if pagesize ≤ validPageSizes.getD (i + 0) 0 then
      (if validPageSizes.getD (i + 1) 0 ≠ 0 then validPageSizes.getD (i + 0) 0
        else validPageSizes.getD (i - 2) 0,
       if validPageSizes.getD (i + 1) 0 ≠ 0 then validPageSizes.getD (i + 1) 0
        else validPageSizes.getD (i - 1) 0)
    else pageSize_loop pagesize n (i + 2)

section InitMemoryMap
variable (A : Sym → Nat)

/-- `h68k_InitMemoryMap(pagesize)`. -/
def h68k_InitMemoryMap (checked : Bool) (fuel : Nat) (m : Machine) (pagesize : Nat) :
    Outcome Machine :=
  let s0 : State := { m.st with h68k_mmu_table := 0, h68k_mmu_pagesize := 0 }
  let old := h68k_GetMMU m
  let old1 := if old.srp0 = 0 then { old with srp0 := 0x00000002, srp1 := old.crp1 } else old
  let pagesize1 := (pageSize_loop pagesize 9 0).1
  let tid_bits := (pageSize_loop pagesize 9 0).2
  if tid_bits = 0 then .fatal s0
  else
    let tic_bits := 4
    let tib_bits := 4
    let tia_bits := 4
    let is_bits := 0
    let ps_bits := (32 + 4 * U32 - is_bits - tia_bits - tib_bits - tic_bits - tid_bits) % U32
    let tia_count := 1 + 1
    let tib_count := 2 + 1
    let tic_count := 1 + 1
    let tid_count := 0 + 16
    let tia_size := 4 * (1 <<< tia_bits)
    let tib_size := 4 * (1 <<< tib_bits)
    let tic_size := 4 * (1 <<< tic_bits)
    let tid_size := (8 * ((1 <<< tid_bits) % U32)) % U32
    let size := ((tia_size * tia_count) + (tib_size * tib_count) + (tic_size * tic_count)
      + (tid_size * tid_count) % U32) % U32
    match AllocMem s0 size 4096 with
    | .fatal t => .fatal t
    | .timeout => .timeout
    | .done (s1, tia0s) =>
      let tib0s := (tia_size + tia0s) % U32
      let tib1s := (tib_size + tib0s) % U32
      let tic0s := (tib_size + tib1s) % U32
      let tia0u := (tic_size + tic0s) % U32
      let tib0u := (tia_size + tia0u) % U32
      let tic0u := (tib_size + tib0u) % U32
      let tid0u := (tic_size + tic0u) % U32
      let P : Tab → Nat := tableAddr tia0s tib0s tib1s tic0s tia0u tib0u tic0u tid0u
      let s2 : State := { s1 with h68k_mmu_table := tid0u, h68k_mmu_pagesize := pagesize1 % 65536 }
      match buildTree checked P tid_size (supervisorTree ++ userTree) s2 with
      | .fatal t => .fatal t
      | .timeout => .timeout
      | .done s3 =>
        match h68k_MapFatal A checked fuel s3 0x00000000 0x01000000 with
        | .fatal t => .fatal t
        | .timeout => .timeout
        | .done s4 =>
          .done { m with
            st := s4
            h68k_mmu_old := old1
            h68k_mmu :=
              { ttr0 := 0x017E8573, ttr1 := 0x807E8573,
                srp0 := 0x80000002, srp1 := tia0s,
                crp0 := 0x80000002, crp1 := tia0u,
                tc := ((ps_bits <<< 20) % U32 ||| (is_bits <<< 16) ||| (tia_bits <<< 12)
                  ||| (tib_bits <<< 8) ||| (tic_bits <<< 4) ||| (tid_bits <<< 0)
                  ||| 0x02000000 ||| 0x80000000) } }

end InitMemoryMap

/-! ## `h68k.c` -/

/-- The functions `DbgInit` can store in the global `DbgBreakFunc` of `common.c`, and
`DbgBreakDummy`, which the file defines as well. -/
inductive BreakFunc where
  | DbgBreakNF
  | DbgBreakScreen
  | DbgBreakDummy
  deriving DecidableEq, Repr

/-- Whether a call of the break function comes back. `DbgBreakScreen` ends in the loop
`0: bra.b 0b` and never returns; `DbgBreakNF` hands over to the NatFeats debugger of the
emulator (`dc.w 0x7301`) and continues behind it; `DbgBreakDummy` is empty. -/
def BreakFunc.returns : BreakFunc → Bool
  | .DbgBreakNF => true
  | .DbgBreakScreen => false
  | .DbgBreakDummy => true

abbrev DBG_NONE : Nat := 0
abbrev DBG_SCREEN : Nat := 1
abbrev DBG_SERIAL : Nat := 2

/-- The `// set break handler` part of `DbgInit(mode)`: the value it stores in
`DbgBreakFunc`, given the id `nf_id_break` that the NatFeats probe found (0 when the
host has no NatFeats). The `switch (mode)` has a `default:` label only. -/
def DbgInit (nf_id_break : Nat) (mode : Nat) : BreakFunc :=
  if nf_id_break ≠ 0 then .DbgBreakNF
  else
    match mode with
    | _ => .DbgBreakScreen

/-- What `h68k_FatalError` does to the outside of the modelled state, in order. -/
inductive Event where
  | debugPrint (err pc : Nat)
  | onFatal (f : Nat) (dump : FatalDump)
  | dbgBreak (err : Nat)
  | terminate
  deriving DecidableEq, Repr

/-- `h68k_FatalError(dump)`. `cb f` is the effect on the machine of calling the function
at address `f` with a pointer to the global `h68kFatalDump`; the call itself is recorded
with the contents of the global at that moment. `checked` is a build without `NDEBUG`
(`DCOLOR` only writes a video register and is left out); `H68K_DEBUGTRACE` is off.
`brk` is the value of the global `DbgBreakFunc`, which `BREAK(dump->err)` calls in a
checked build; under `NDEBUG` the macro `BREAK` is empty. The function does not return:
the result is the machine and the events up to the point where control leaves it for
good, the `longjmp` of `h68k_Terminate()` (last event `terminate`) or, when the break
function does not come back, the call of the break function (last event `dbgBreak`). -/
def h68k_FatalError (checked : Bool) (brk : BreakFunc) (cb : Nat → Machine → Machine)
    (m : Machine) (dump : FatalDump) : Machine × List Event :=
  let m1 := { m with h68kFatalDump := dump }
  let m2 := if m1.h68kFatalDump.err = 0 then
      { m1 with h68kFatalDump := { m1.h68kFatalDump with err := 0xffffffff } }
    else m1
  let m3 := if checked then
      { m2 with h68kFatalDumpMsg := some (m2.h68kFatalDump.err, m2.h68kFatalDump.pc) }
    else m2
  let e1 := if checked then [Event.debugPrint m3.h68kFatalDump.err m3.h68kFatalDump.pc] else []
  let m4 := if m3.h68k_OnFatal ≠ 0 then cb m3.h68k_OnFatal m3 else m3
  let e2 := if m3.h68k_OnFatal ≠ 0 then [Event.onFatal m3.h68k_OnFatal m3.h68kFatalDump] else []
  let e3 := if checked then [Event.dbgBreak m4.h68kFatalDump.err] else []
  if checked ∧ brk.returns = false then (m4, e1 ++ e2 ++ e3)
  else (m4, e1 ++ e2 ++ e3 ++ [Event.terminate])

section Run
variable (A : Sym → Nat)

/-- `h68k_Run()`. `client` is the run of the virtual machine from `jmp _vec68000_Reset`
to the call of `h68k_Terminate()`, whose `longjmp` makes `setjmp` return a second time:
it maps the machine at the jump to the machine at that call. -/
def h68k_Run (fuel : Nat) (client : Machine → Machine) (m : Machine) : Outcome Machine :=
  let m1 := { m with sr := 0x2700 }
  match h68k_PrepareFtables A fuel m1.st with
  | .fatal t => .fatal t
  | .timeout => .timeout
  | .done s2 =>
    let m2 := { m1 with st := s2 }
    let m3 := { m2 with old_usp := m2.creg.usp }
    let m4 := { m3 with old_vbr := m3.creg.vbr }
    let m5 := { m4 with old_sfc := m4.creg.sfc }
    let m6 := { m5 with old_dfc := m5.creg.dfc }
    let m7 := { m6 with old_caar := m6.creg.caar }
    let m8 := { m7 with old_cacr := m7.creg.cacr }
    let m9 := { m8 with client_sr := 0x2000, client_ssp := 0, client_usp := 0,
                        client_vbr := 0, client_sfc := 1, client_dfc := 1 }
    let m10 := { m9 with h68kFatalDump := { m9.h68kFatalDump with err := 0 } }
    let m11 := client m10
    let m12 := { m11 with sr := 0x2700 }
    let m13 := { m12 with creg := { m12.creg with vbr := m12.old_vbr } }
    let m14 := { m13 with creg := { m13.creg with usp := m13.old_usp } }
    let m15 := { m14 with creg := { m14.creg with sfc := m14.old_sfc } }
    let m16 := { m15 with creg := { m15.creg with dfc := m15.old_dfc } }
    let m17 := { m16 with old_cacr := m16.old_cacr ||| 0x0808 }
    let m18 := { m17 with creg := { m17.creg with caar := m17.old_caar } }
    let m19 := { m18 with creg := { m18.creg with cacr := m18.old_cacr } }
    .done (h68k_RestoreMemoryMap m19)

end Run

/-! ## The translation-table search -/

/-- Where a table search ends. -/
inductive Walk where
  | invalid
  | page (phys : Nat)
  | long (desc : Nat)
  deriving DecidableEq, Repr

/-- The table search of the host MMU as the claims describe it, over index fields of
widths `w :: ws` (most significant first) above `ps` page-offset bits, from a table of
short (4-byte) or long (8-byte) descriptors. A short descriptor is read as
`ShortDescriptor` writes it: type in the low two bits (`MMU_INVALID`, `MMU_PAGE`,
`MMU_SHORT_TABLE`, `MMU_LONG_TABLE`), page address under `0xFFFFFF00`, table address
under `0xFFFFFFF0`. A page descriptor above the last level ends the search early and maps
the remaining address bits unchanged. A long-format descriptor is the result itself. -/
def treeWalk (mem : Nat → Nat) (ps a : Nat) : List Nat → Nat → Bool → Walk
  | [], _, _ => .invalid
  | w :: ws, table, long =>
    let lo := ws.sum + ps
    let idx := (a / 2 ^ lo) % 2 ^ w
    if long then .long (table + 8 * idx)
    else
      let word := mem (table + 4 * idx)
      if word &&& MMU_DT = MMU_PAGE then .page ((word &&& 0xFFFFFF00) + a % 2 ^ lo)
      else if word &&& MMU_DT = MMU_SHORT_TABLE then treeWalk mem ps a ws (word &&& 0xFFFFFFF0) false
      else if word &&& MMU_DT = MMU_LONG_TABLE then treeWalk mem ps a ws (word &&& 0xFFFFFFF0) true
      else .invalid

/-- The table search for address `a` from the root pointer `(root0, root1)` with the
field widths that the translation control value `tc` configures: `PS` in bits 20..23,
`TIA`, `TIB`, `TIC`, `TID` in bits 12..15, 8..11, 4..7, 0..3 (`IS` is 0 here). -/
def mmuWalk (mem : Nat → Nat) (tc root0 root1 a : Nat) : Walk :=
  treeWalk mem ((tc >>> 20) &&& 0xF) a
    [(tc >>> 12) &&& 0xF, (tc >>> 8) &&& 0xF, (tc >>> 4) &&& 0xF, (tc >>> 0) &&& 0xF]
    root1 (decide (root0 &&& MMU_DT = MMU_LONG_TABLE))

/-- The exponent of the page size that `h68k_InitMemoryMap(p)` configures: the smallest
of `256 = 2^8, .., 32768 = 2^15` that is at least `p`, and 15 above. -/
def pageExp (p : Nat) : Nat :=
  if p ≤ 256 then 8 else if p ≤ 512 then 9 else if p ≤ 1024 then 10 else if p ≤ 2048 then 11
  else if p ≤ 4096 then 12 else if p ≤ 8192 then 13 else if p ≤ 16384 then 14 else 15

/-- A sample machine: the state `prepDemo`, host registers as a TOS start-up leaves them
(`srp` never set), no fatal callback. -/
def demoMachine : Machine :=
  { st := prepDemo,
    mmu := { srp0 := 0, srp1 := 0, crp0 := 0x80000002, crp1 := 0x700,
             ttr0 := 0x017E8107, ttr1 := 0x807E8507, tc := 0x80F04445 },
    creg := { usp := 0x7000, vbr := 0, sfc := 1, dfc := 1, caar := 0, cacr := 0x3111 },
    sr := 0x2300,
    h68k_mmu_old := { srp0 := 0, srp1 := 0, crp0 := 0, crp1 := 0, ttr0 := 0, ttr1 := 0, tc := 0 },
    h68k_mmu := { srp0 := 0, srp1 := 0, crp0 := 0, crp1 := 0, ttr0 := 0, ttr1 := 0, tc := 0 },
    h68kFatalDump :=
      { err := 0, pc := 0, sr := 0, usp := 0,
        d0 := 0, d1 := 0, d2 := 0, d3 := 0, d4 := 0, d5 := 0, d6 := 0, d7 := 0,
        a0 := 0, a1 := 0, a2 := 0, a3 := 0, a4 := 0, a5 := 0, a6 := 0, a7 := 0 },
    h68kFatalDumpMsg := none,
    h68k_OnFatal := 0,
    client_sr := 0, client_ssp := 0, client_usp := 0, client_vbr := 0, client_sfc := 0,
    client_dfc := 0,
    old_usp := 0, old_vbr := 0, old_sfc := 0, old_dfc := 0, old_cacr := 0, old_caar := 0 }

/-- A sample dump: error code 5 at `pc = 0x1234`, `sr = 0x2000`, registers zero. -/
def demoDump : FatalDump :=
  { err := 5, pc := 0x1234, sr := 0x2000, usp := 0,
    d0 := 0, d1 := 0, d2 := 0, d3 := 0, d4 := 0, d5 := 0, d6 := 0, d7 := 0,
    a0 := 0, a1 := 0, a2 := 0, a3 := 0, a4 := 0, a5 := 0, a6 := 0, a7 := 0 }

/-! ## Vocabulary for the MMU set-up and the fatal path -/

/-- Byte offset of a table from the start `tia0s` of the allocation. -/
def tabOffset : Tab → Nat
  | .tia0s => 0 | .tib0s => 64 | .tib1s => 128 | .tic0s => 192
  | .tia0u => 256 | .tib0u => 320 | .tic0u => 384 | .tid0u => 448

/-- Shape of the calls of `h68k_InitMemoryMap`: a page at a 256-aligned constant, a short
table, or the long table `i < 16` of the user tree; the index is below 16 and the written
table is not the descriptor table. -/
def ShortCall.wf (c : ShortCall) : Bool :=
  decide (c.idx < 16) && decide (c.table ≠ Tab.tid0u) &&
  match c.addr with
  | .abs a => decide (c.flag = 0x41) && decide (a % 256 = 0) && decide (a < 4294967296)
  | .tab t => decide (c.flag = 2) && decide (t ≠ Tab.tid0u)
  | .tid i => decide (c.flag = 3) && decide (i < 16)

/-- The last call of `h68k_InitMemoryMap` that writes entry `i` of table `tb`. -/
def treeEntry (tb : Tab) (i : Nat) : Option ShortCall :=
  (supervisorTree ++ userTree).reverse.find? (fun c => decide (c.table = tb ∧ c.idx = i))

/-- Whether an event is a call of the fatal callback. -/
def Event.isOnFatal : Event → Bool
  | .onFatal _ _ => true
  | _ => false

/-! ## Vocabulary for the vector tables -/

/-- The index `offs` that the body of the `sfs_table` loop of `h68k_InitVectors` computes
for `(i, j)`: `offs = (i<<10)|j; offs = (offs < 0x2000) ? (offs | 0x2000) : (offs & 0x1FFF)`
in `uint16`. -/
def sfs_offs (i j : Nat) : Nat :=
  let offs0 := (((i <<< 10) % 65536) ||| j) % 65536
  if offs0 < 0x2000 then (offs0 ||| 0x2000) % 65536 else (offs0 &&& 0x1FFF) % 65536

/-- All `h68k_SetVector` calls of one case of the `switch (client_cpu)` block, in program
order: the defaults loop, the explicit calls, the loop over user defined vectors. -/
def vecCalls (g2 : Sym) (calls : List VecCall) : List VecCall :=
  (List.range 256).map (fun k => VecCall.mk (4 * k) 0 g2) ++ calls ++
    (List.range 192).map (fun k => VecCall.mk (0x100 + 4 * k) 0 g2)

/-- The last call of a sequence of `h68k_SetVector` calls that writes entry `x` of
`vec_table` and `ipl_table`. -/
def lastVector (calls : List VecCall) (x : Nat) : Option VecCall :=
  calls.reverse.find? (fun c => decide (c.vec >>> 2 = x))

/-! ## Vocabulary for runs of `h68k_PrepareFtables` on the sample layout -/

/-- The sample layout with one expanded page: page size 256, descriptor table at
`0x100000`, page `0xff80` expanded with its 256 records at `0x200100` and its stage-1
table at `0x200080`; every other page has a null word 0 or a record with `len = 0`
behind it, and no `len` field of another page lies in `0x200080 .. 0x2020ff`. -/
def OnePage (s : State) : Prop :=
  s.h68k_mmu_pagesize = 2 ^ 8 ∧ s.h68k_mmu_table = 0x100000 ∧
  s.mem (0x100000 + 8 * 0xff80) = 0x200100 ∧ s.mem (0x100000 + 8 * 0xff80 + 4) = 0x200080 ∧
  s.mem (0x200100 + 28) ≠ 0 ∧
  ∀ j, j < 65536 → j ≠ 0xff80 →
    (s.mem (0x100000 + 8 * j) = 0 ∨ s.mem (s.mem (0x100000 + 8 * j) + 28) = 0) ∧
    (s.mem (0x100000 + 8 * j) + 28 < 0x200080 ∨ 0x202100 ≤ s.mem (0x100000 + 8 * j) + 28)

set_option maxRecDepth 100000

/-! ## Arithmetic of masks -/

theorem not32_testBit (x i : Nat) (hx : x < 4294967296) :
    (not32 x).testBit i = (decide (i < 32) && !x.testBit i) := by
  have h : not32 x = 2 ^ 32 - (x + 1) := by
    unfold not32
    rw [Nat.mod_eq_of_lt hx]
    omega
  rw [h]
  exact Nat.testBit_two_pow_sub_succ (by simpa using hx) i

theorem and_not32_mask (x k : Nat) (hx : x < 4294967296) (hk : k ≤ 32) :
    x &&& not32 (2 ^ k - 1) = x - x % 2 ^ k := by
  have hpk : 2 ^ k - 1 < 4294967296 := by
    have : 2 ^ k ≤ 2 ^ 32 := Nat.pow_le_pow_right (by decide) hk
    have : 0 < 2 ^ k := Nat.two_pow_pos k
    omega
  have hr : x - x % 2 ^ k = 2 ^ k * (x / 2 ^ k) := by
    have := Nat.div_add_mod x (2 ^ k)
    omega
  rw [hr]
  apply Nat.eq_of_testBit_eq
  intro i
  rw [Nat.testBit_and, not32_testBit _ _ hpk, Nat.testBit_two_pow_sub_one, Nat.testBit_mul_pow_two,
    ← Nat.shiftRight_eq_div_pow, Nat.testBit_shiftRight]
  by_cases h1 : i < k
  · have h2 : ¬ i ≥ k := by omega
    simp [h1, h2]
  · have h2 : i ≥ k := by omega
    have h3 : k + (i - k) = i := by omega
    by_cases h4 : i < 32
    · simp [h1, h2, h3, h4]
    · have : x.testBit i = false := by
        apply Nat.testBit_lt_two_pow
        calc x < 2 ^ 32 := by simpa using hx
          _ ≤ 2 ^ i := Nat.pow_le_pow_right (by decide) (by omega)
      simp [h1, h2, h3, h4, this]

theorem pagesize_mask (k : Nat) (hk : k < 32) :
    (2 ^ k + 4294967295) % U32 = 2 ^ k - 1 := by
  have h1 : 2 ^ k < 2 ^ 32 := Nat.pow_lt_pow_right (by decide) hk
  have h2 : 0 < 2 ^ k := Nat.two_pow_pos k
  simp only [U32]
  omega

theorem and_mask_eq_mod (x k : Nat) (hk : k < 32) :
    x &&& ((2 ^ k + 4294967295) % U32) = x % 2 ^ k := by
  rw [pagesize_mask k hk]
  exact Nat.and_pow_two_sub_one_eq_mod x k

/-! ## Direct mappings -/

@[simp] theorem store_mem (s : State) (a v x : Nat) :
    (s.store a v).mem x = if x = a then v else s.mem x := rfl

@[simp] theorem store_pagesize (s : State) (a v : Nat) :
    (s.store a v).h68k_mmu_pagesize = s.h68k_mmu_pagesize := rfl

@[simp] theorem store_table (s : State) (a v : Nat) :
    (s.store a v).h68k_mmu_table = s.h68k_mmu_table := rfl

@[simp] theorem store_mem_ptr (s : State) (a v : Nat) :
    (s.store a v).mem_ptr = s.mem_ptr := rfl

@[simp] theorem store_mem_top (s : State) (a v : Nat) :
    (s.store a v).mem_top = s.mem_top := rfl

theorem sameGlobals_refl (s : State) : SameGlobals s s := ⟨s.mem, rfl⟩

theorem sameGlobals_trans {s t u : State} (h1 : SameGlobals s t) (h2 : SameGlobals t u) :
    SameGlobals s u := by
  obtain ⟨m1, rfl⟩ := h1
  obtain ⟨m2, rfl⟩ := h2
  exact ⟨m2, rfl⟩

theorem sameGlobals_store (s : State) (a v : Nat) : SameGlobals s (s.store a v) := ⟨_, rfl⟩

theorem sameGlobals_pagesize {s t : State} (h : SameGlobals s t) :
    t.h68k_mmu_pagesize = s.h68k_mmu_pagesize := by
  obtain ⟨m, rfl⟩ := h; rfl

theorem sameGlobals_table {s t : State} (h : SameGlobals s t) :
    t.h68k_mmu_table = s.h68k_mmu_table := by
  obtain ⟨m, rfl⟩ := h; rfl

theorem sameGlobals_mem_ptr {s t : State} (h : SameGlobals s t) : t.mem_ptr = s.mem_ptr := by
  obtain ⟨m, rfl⟩ := h; rfl

theorem sameGlobals_mem_top {s t : State} (h : SameGlobals s t) : t.mem_top = s.mem_top := by
  obtain ⟨m, rfl⟩ := h; rfl

theorem LongDescriptor_page (s : State) (table idx addr flag : Nat) (hf : PageFlag flag)
    (hidx : idx < 2147483648) (ha : addr % 256 = 0) :
    LongDescriptor s table idx addr flag
      = .done ((s.store (table + 8 * idx) (0x0000FC00 ||| flag)).store (table + 8 * idx + 4) addr) := by
  obtain ⟨h1, h2⟩ := hf
  have h3 : addr &&& not32 0xFFFFFF00 = 0 := by
    have : not32 0xFFFFFF00 = 2 ^ 8 - 1 := by decide
    rw [this, Nat.and_pow_two_sub_one_eq_mod]
    simpa using ha
  have e1 : table + 4 * (((idx * 2) % U32 + 0) % U32) = table + 8 * idx := by
    simp only [U32]; omega
  have e2 : table + 4 * (((idx * 2) % U32 + 1) % U32) = table + 8 * idx + 4 := by
    simp only [U32]; omega
  unfold LongDescriptor
  simp only [h1, h2, h3, e1, e2, if_true, ne_eq, not_true_eq_false, if_false]

theorem MapAddressRangeEx_loop_spec (p flag e : Nat) (hp0 : 0 < p) (hp : p % 256 = 0)
    (hf : PageFlag flag) (he : e * p ≤ 2147483648) :
    ∀ (fuel : Nat) (s : State) (i dest : Nat), s.h68k_mmu_pagesize = p → i ≤ e → e - i < fuel →
      dest % 256 = 0 → dest < 4294967296 →
      ∃ t, MapAddressRangeEx_loop flag (e * p) fuel s i (i * p) dest = .done t ∧
        SameGlobals s t ∧
        (∀ j, i ≤ j → j < e →
          t.mem (s.h68k_mmu_table + 8 * j) = (0x0000FC00 ||| flag) ∧
          t.mem (s.h68k_mmu_table + 8 * j + 4) = (dest + (j - i) * p) % U32) ∧
        (∀ a, (∀ j, i ≤ j → j < e →
            a ≠ s.h68k_mmu_table + 8 * j ∧ a ≠ s.h68k_mmu_table + 8 * j + 4) →
          t.mem a = s.mem a) := by
  intro fuel
  induction fuel with
  | zero => intro s i dest _ _ h; omega
  | succ fuel ih =>
    intro s i dest hps hie hfuel hd hd32
    unfold MapAddressRangeEx_loop
    by_cases hlt : i < e
    · have hstart : i * p < e * p := Nat.mul_lt_mul_of_pos_right hlt hp0
      have hep : e ≤ e * p := Nat.le_mul_of_pos_right e hp0
      have hi : i < 2147483648 := by omega
      rw [if_pos hstart, LongDescriptor_page s _ i dest flag hf hi hd]
      simp only [store_pagesize, hps]
      have hnext : (i + 1) * p ≤ e * p := Nat.mul_le_mul_right p hlt
      have e1 : (i + 1) % U32 = i + 1 := by simp only [U32]; omega
      have hnext2 : i * p + p ≤ e * p := by rw [← Nat.succ_mul]; exact hnext
      have e2 : (i * p + p) % U32 = (i + 1) * p := by
        rw [Nat.succ_mul]; simp only [U32]; omega
      have hd2 : ((dest + p) % U32) % 256 = 0 := by simp only [U32]; omega
      rw [e1, e2]
      obtain ⟨t, ht, hg, hA, hB⟩ := ih
        ((s.store (s.h68k_mmu_table + 8 * i) (0x0000FC00 ||| flag)).store
          (s.h68k_mmu_table + 8 * i + 4) dest) (i + 1) ((dest + p) % U32)
        (by simp [hps]) hlt (by omega) hd2 (Nat.mod_lt _ (by decide))
      simp only [store_table] at hA hB
      refine ⟨t, ht, ?_, ?_, ?_⟩
      · exact sameGlobals_trans (sameGlobals_trans (sameGlobals_store _ _ _) (sameGlobals_store _ _ _)) hg
      · intro j hij hje
        by_cases hji : j = i
        · subst hji
          have hB1 := hB (s.h68k_mmu_table + 8 * j) (by intro j2 h1 h2; omega)
          have hB2 := hB (s.h68k_mmu_table + 8 * j + 4) (by intro j2 h1 h2; omega)
          rw [hB1, hB2]
          simp only [store_mem]
          have hne : s.h68k_mmu_table + 8 * j ≠ s.h68k_mmu_table + 8 * j + 4 := by omega
          simp [hne, Nat.mod_eq_of_lt hd32]
        · obtain ⟨h1, h2⟩ := hA j (by omega) hje
          refine ⟨h1, ?_⟩
          rw [h2]
          have : (j - i) * p = p + (j - (i + 1)) * p := by
            have : j - i = (j - (i + 1)) + 1 := by omega
            rw [this, Nat.succ_mul]; omega
          rw [this, Nat.mod_add_mod, Nat.add_assoc]
      · intro a ha
        rw [hB a (by intro j h1 h2; exact ha j (by omega) h2)]
        have := ha i (Nat.le_refl i) hlt
        simp only [store_mem]
        rw [if_neg this.2, if_neg this.1]
    · have hie2 : i = e := by omega
      subst hie2
      rw [if_neg (Nat.lt_irrefl _)]
      refine ⟨s, rfl, sameGlobals_refl s, ?_, ?_⟩
      · intro j h1 h2; omega
      · intro a _; rfl

theorem and_not32_aligned (x k : Nat) (hk : k < 32) (hx : x < 4294967296) (ha : x % 2 ^ k = 0) :
    x &&& not32 ((2 ^ k + 4294967295) % U32) = x := by
  rw [pagesize_mask k hk, and_not32_mask x k hx (by omega), ha]
  rfl

theorem roundup_aligned (x k : Nat) (hk : k < 32) (hx : x ≤ 2147483648) (ha : x % 2 ^ k = 0)
    (hk2 : k ≤ 15) :
    ((x + (2 ^ k + 4294967295) % U32) % U32) &&& not32 ((2 ^ k + 4294967295) % U32) = x := by
  have h1 : 0 < 2 ^ k := Nat.two_pow_pos k
  have h2 : 2 ^ k ≤ 2 ^ 15 := Nat.pow_le_pow_right (by decide) hk2
  have h3 : (x + (2 ^ k - 1)) % U32 = x + (2 ^ k - 1) := by
    simp only [U32]
    have : (2:Nat) ^ 15 = 32768 := by decide
    omega
  have h4 : (x + (2 ^ k - 1)) % 2 ^ k = 2 ^ k - 1 := by
    obtain ⟨q, hq⟩ := Nat.dvd_of_mod_eq_zero ha
    rw [hq, Nat.mul_add_mod]
    exact Nat.mod_eq_of_lt (by omega)
  have h5 : x + (2 ^ k - 1) < 4294967296 := by
    have : (2:Nat) ^ 15 = 32768 := by decide
    omega
  rw [pagesize_mask k hk, h3, and_not32_mask _ k h5 (by omega), h4]
  omega

theorem MapAddressRangeEx_spec (checked : Bool) (fuel : Nat) (s : State) (k : Nat)
    (hk : 8 ≤ k ∧ k ≤ 15) (hps : s.h68k_mmu_pagesize = 2 ^ k)
    (start end_ dest flag : Nat) (hf : PageFlag (flag ||| MMU_PAGE))
    (hs : start % 2 ^ k = 0) (he : end_ % 2 ^ k = 0) (hd : dest % 2 ^ k = 0)
    (hse : start ≤ end_) (hend : end_ ≤ 2147483648) (hd32 : dest < 4294967296)
    (hfuel : (end_ - start) / 2 ^ k < fuel) :
    ∃ t, h68k_MapAddressRangeEx checked fuel s start end_ dest flag = .done t ∧
      SameGlobals s t ∧
      (∀ j, start / 2 ^ k ≤ j → j < end_ / 2 ^ k →
        t.mem (s.h68k_mmu_table + 8 * j) = (0x0000FC00 ||| (flag ||| MMU_PAGE)) ∧
        t.mem (s.h68k_mmu_table + 8 * j + 4) = (dest + (j * 2 ^ k - start)) % U32) ∧
      (∀ a, (∀ j, start / 2 ^ k ≤ j → j < end_ / 2 ^ k →
          a ≠ s.h68k_mmu_table + 8 * j ∧ a ≠ s.h68k_mmu_table + 8 * j + 4) →
        t.mem a = s.mem a) := by
  have hk32 : k < 32 := by omega
  have hp0 : 0 < 2 ^ k := Nat.two_pow_pos k
  have hs1 : start / 2 ^ k * 2 ^ k = start := Nat.div_mul_cancel (Nat.dvd_of_mod_eq_zero hs)
  have he1 : end_ / 2 ^ k * 2 ^ k = end_ := Nat.div_mul_cancel (Nat.dvd_of_mod_eq_zero he)
  have h256 : ∀ x, x % 2 ^ k = 0 → x % 256 = 0 := by
    intro x hx
    obtain ⟨q, hq⟩ := Nat.dvd_of_mod_eq_zero hx
    have : (2:Nat) ^ k = 256 * 2 ^ (k - 8) := by
      rw [show (256:Nat) = 2 ^ 8 by decide, ← Nat.pow_add]; congr 1; omega
    rw [hq, this, Nat.mul_assoc]; exact Nat.mul_mod_right _ _
  have hm1 := and_mask_eq_mod start k hk32
  have hm2 := and_mask_eq_mod end_ k hk32
  have hm3 := and_mask_eq_mod dest k hk32
  have hn1 := and_not32_aligned start k hk32 (by omega) hs
  have hn2 := and_not32_aligned dest k hk32 hd32 hd
  have hn3 := roundup_aligned end_ k hk32 hend he hk.2
  have hie : start / 2 ^ k ≤ end_ / 2 ^ k := Nat.div_le_div_right hse
  have hfu : end_ / 2 ^ k - start / 2 ^ k < fuel := by
    have : end_ / 2 ^ k - start / 2 ^ k = (end_ - start) / 2 ^ k := by
      conv_rhs => rw [← he1, ← hs1, ← Nat.sub_mul, Nat.mul_div_cancel _ hp0]
    omega
  obtain ⟨t, ht, hg, hA, hB⟩ := MapAddressRangeEx_loop_spec (2 ^ k) (flag ||| MMU_PAGE)
    (end_ / 2 ^ k) hp0 (h256 _ (Nat.mod_self _)) hf (by omega) fuel s (start / 2 ^ k) dest hps hie hfu
    (h256 _ hd) hd32
  refine ⟨t, ?_, hg, ?_, hB⟩
  · unfold h68k_MapAddressRangeEx
    simp only [hps, hm1, hm2, hm3, hs, he, hd, ne_eq, not_true_eq_false, and_false, if_false,
      hn1, hn2, hn3, ite_self]
    rw [hs1, he1] at ht
    exact ht
  · intro j h1 h2
    obtain ⟨h3, h4⟩ := hA j h1 h2
    refine ⟨h3, ?_⟩
    rw [h4, Nat.sub_mul, hs1]

theorem GetMmuDescriptor_eq (s : State) (addr : Nat) (h : addr / s.h68k_mmu_pagesize < 2147483648) :
    h68k_GetMmuDescriptor s addr = s.h68k_mmu_table + 8 * (addr / s.h68k_mmu_pagesize) := by
  unfold h68k_GetMmuDescriptor
  simp only [U32]
  omega

theorem direct_map_pages (s t : State) (k start end_ dest fw : Nat) (hk : 8 ≤ k ∧ k ≤ 15)
    (hps : s.h68k_mmu_pagesize = 2 ^ k) (hs : start % 2 ^ k = 0) (he : end_ % 2 ^ k = 0)
    (hend : end_ ≤ 16777216) (hg : SameGlobals s t)
    (hA : ∀ j, start / 2 ^ k ≤ j → j < end_ / 2 ^ k →
        t.mem (s.h68k_mmu_table + 8 * j) = fw ∧
        t.mem (s.h68k_mmu_table + 8 * j + 4) = (dest + (j * 2 ^ k - start)) % U32)
    (hB : ∀ a, (∀ j, start / 2 ^ k ≤ j → j < end_ / 2 ^ k →
          a ≠ s.h68k_mmu_table + 8 * j ∧ a ≠ s.h68k_mmu_table + 8 * j + 4) →
        t.mem a = s.mem a) :
    (∀ addr, start ≤ addr → addr < end_ → addr % 2 ^ k = 0 →
      t.mem (h68k_GetMmuDescriptor t addr) = fw ∧
      t.mem (h68k_GetMmuDescriptor t addr + 4) = (dest + (addr - start)) % U32) ∧
    (∀ addr, addr < 4294967296 → (addr < start ∨ end_ ≤ addr) →
      t.mem (h68k_GetMmuDescriptor t addr) = s.mem (h68k_GetMmuDescriptor s addr) ∧
      t.mem (h68k_GetMmuDescriptor t addr + 4) = s.mem (h68k_GetMmuDescriptor s addr + 4)) := by
  have hp0 : 0 < 2 ^ k := Nat.two_pow_pos k
  have hs1 : start / 2 ^ k * 2 ^ k = start := Nat.div_mul_cancel (Nat.dvd_of_mod_eq_zero hs)
  have he1 : end_ / 2 ^ k * 2 ^ k = end_ := Nat.div_mul_cancel (Nat.dvd_of_mod_eq_zero he)
  have hdesc : ∀ addr, addr < 4294967296 →
      h68k_GetMmuDescriptor t addr = s.h68k_mmu_table + 8 * (addr / 2 ^ k) ∧
      h68k_GetMmuDescriptor s addr = s.h68k_mmu_table + 8 * (addr / 2 ^ k) := by
    intro addr ha
    have h2k : 2 ≤ 2 ^ k := by
      calc 2 = 2 ^ 1 := by decide
        _ ≤ 2 ^ k := Nat.pow_le_pow_right (by decide) (by omega)
    have hle : addr / 2 ^ k ≤ addr / 2 := Nat.div_le_div_left h2k (by decide)
    constructor
    · rw [GetMmuDescriptor_eq t addr (by rw [sameGlobals_pagesize hg, hps]; omega), sameGlobals_pagesize hg, sameGlobals_table hg, hps]
    · rw [GetMmuDescriptor_eq s addr (by rw [hps]; omega), hps]
  constructor
  · intro addr h1 h2 h3
    have ha1 : addr / 2 ^ k * 2 ^ k = addr := Nat.div_mul_cancel (Nat.dvd_of_mod_eq_zero h3)
    have hlt : addr / 2 ^ k < end_ / 2 ^ k := by
      apply Nat.lt_of_mul_lt_mul_right (a := 2 ^ k)
      rw [ha1, he1]; exact h2
    have ha32 : addr < 4294967296 := by omega
    obtain ⟨h4, h5⟩ := hA (addr / 2 ^ k) (Nat.div_le_div_right h1) hlt
    rw [(hdesc addr ha32).1, h4, h5, ha1]
    exact ⟨rfl, rfl⟩
  · intro addr ha hout
    rw [(hdesc addr ha).1, (hdesc addr ha).2]
    have hne : ∀ j, start / 2 ^ k ≤ j → j < end_ / 2 ^ k → addr / 2 ^ k ≠ j := by
      intro j h1 h2 h3
      subst h3
      rcases hout with h | h
      · have : addr / 2 ^ k < start / 2 ^ k := by
          apply (Nat.div_lt_iff_lt_mul hp0).2
          rw [hs1]; exact h
        omega
      · have h4 : end_ / 2 ^ k ≤ addr / 2 ^ k := Nat.div_le_div_right h
        omega
    constructor
    · apply hB
      intro j h1 h2
      have := hne j h1 h2
      omega
    · apply hB
      intro j h1 h2
      have := hne j h1 h2
      omega

/-- C1. For a configured page size `2^k` (256 .. 32768), page-aligned
`start ≤ end_ ≤ 0x01000000` and page-aligned `dest`, in either build flavour and with
fuel for the loop: `h68k_MapMemory` returns and every page-aligned `addr` of
`[start, end_)` has flag word `0xFC41` and target word `dest + (addr - start)` (a 32-bit
sum); `h68k_MapReadOnly` gives the same targets with flag word `0xFC45`;
`h68k_MapInvalid` gives flag word `0xFD41` and target `addr`; in each case the
descriptor of every page outside `[start, end_)` keeps both of its words and no global
other than memory changes. -/
theorem C1_direct_mappings (checked : Bool) (fuel : Nat) (s : State) (k : Nat)
    (hk : 8 ≤ k ∧ k ≤ 15) (hps : s.h68k_mmu_pagesize = 2 ^ k)
    (start end_ dest : Nat)
    (hs : start % 2 ^ k = 0) (he : end_ % 2 ^ k = 0) (hd : dest % 2 ^ k = 0)
    (hse : start ≤ end_) (hend : end_ ≤ 0x01000000) (hd32 : dest < 4294967296)
    (hfuel : (end_ - start) / 2 ^ k < fuel) :
    (∃ t, h68k_MapMemory checked fuel s start end_ dest = .done t ∧ SameGlobals s t ∧
      (∀ addr, start ≤ addr → addr < end_ → addr % 2 ^ k = 0 →
        t.mem (h68k_GetMmuDescriptor t addr) = 0xFC41 ∧
        t.mem (h68k_GetMmuDescriptor t addr + 4) = (dest + (addr - start)) % 4294967296) ∧
      (∀ addr, addr < 4294967296 → (addr < start ∨ end_ ≤ addr) →
        t.mem (h68k_GetMmuDescriptor t addr) = s.mem (h68k_GetMmuDescriptor s addr) ∧
        t.mem (h68k_GetMmuDescriptor t addr + 4) = s.mem (h68k_GetMmuDescriptor s addr + 4))) ∧
    (∃ t, h68k_MapReadOnly checked fuel s start end_ dest = .done t ∧ SameGlobals s t ∧
      (∀ addr, start ≤ addr → addr < end_ → addr % 2 ^ k = 0 →
        t.mem (h68k_GetMmuDescriptor t addr) = 0xFC45 ∧
        t.mem (h68k_GetMmuDescriptor t addr + 4) = (dest + (addr - start)) % 4294967296) ∧
      (∀ addr, addr < 4294967296 → (addr < start ∨ end_ ≤ addr) →
        t.mem (h68k_GetMmuDescriptor t addr) = s.mem (h68k_GetMmuDescriptor s addr) ∧
        t.mem (h68k_GetMmuDescriptor t addr + 4) = s.mem (h68k_GetMmuDescriptor s addr + 4))) ∧
    (∃ t, h68k_MapInvalid checked fuel s start end_ = .done t ∧ SameGlobals s t ∧
      (∀ addr, start ≤ addr → addr < end_ → addr % 2 ^ k = 0 →
        t.mem (h68k_GetMmuDescriptor t addr) = 0xFD41 ∧
        t.mem (h68k_GetMmuDescriptor t addr + 4) = addr) ∧
      (∀ addr, addr < 4294967296 → (addr < start ∨ end_ ≤ addr) →
        t.mem (h68k_GetMmuDescriptor t addr) = s.mem (h68k_GetMmuDescriptor s addr) ∧
        t.mem (h68k_GetMmuDescriptor t addr + 4) = s.mem (h68k_GetMmuDescriptor s addr + 4))) := by
  refine ⟨?_, ?_, ?_⟩
  · obtain ⟨t, ht, hg, hA, hB⟩ := MapAddressRangeEx_spec checked fuel s k hk hps start end_ dest
      (MMU_PAGE ||| MMU_CI) (by unfold PageFlag; decide) hs he hd hse (by omega) hd32 hfuel
    obtain ⟨h1, h2⟩ := direct_map_pages s t k start end_ dest _ hk hps hs he hend hg hA hB
    exact ⟨t, ht, hg, h1, h2⟩
  · obtain ⟨t, ht, hg, hA, hB⟩ := MapAddressRangeEx_spec checked fuel s k hk hps start end_ dest
      (MMU_PAGE ||| MMU_CI ||| MMU_WP) (by unfold PageFlag; decide) hs he hd hse (by omega) hd32 hfuel
    obtain ⟨h1, h2⟩ := direct_map_pages s t k start end_ dest _ hk hps hs he hend hg hA hB
    exact ⟨t, ht, hg, h1, h2⟩
  · obtain ⟨t, ht, hg, hA, hB⟩ := MapAddressRangeEx_spec checked fuel s k hk hps start end_ start
      (MMU_PAGE ||| MMU_CI ||| MMU_S) (by unfold PageFlag; decide) hs he hs hse (by omega) (by omega) hfuel
    obtain ⟨h1, h2⟩ := direct_map_pages s t k start end_ start _ hk hps hs he hend hg hA hB
    refine ⟨t, ht, hg, ?_, h2⟩
    intro addr h3 h4 h5
    obtain ⟨h6, h7⟩ := h1 addr h3 h4 h5
    refine ⟨h6, ?_⟩
    rw [h7]
    simp only [U32]
    omega

/-- C1 at a concrete input: page size 256, `h68k_MapMemory(0x1000, 0x1300, 0x50000)`;
the page at `0x1200` gets flag word `0xFC41` and target `0x50200`. -/
theorem C1_direct_mappings_witness :
    ∃ t, h68k_MapMemory true 4 demoState 0x1000 0x1300 0x50000 = .done t ∧
      t.mem (h68k_GetMmuDescriptor t 0x1200) = 0xFC41 ∧
      t.mem (h68k_GetMmuDescriptor t 0x1200 + 4) = 0x50200 := by
  obtain ⟨⟨t, h1, _, h2, _⟩, _⟩ := C1_direct_mappings true 4 demoState 8 (by decide) rfl
    0x1000 0x1300 0x50000 (by decide) (by decide) (by decide) (by decide) (by decide)
    (by decide) (by decide)
  exact ⟨t, h1, h2 0x1200 (by decide) (by decide) (by decide)⟩

/-! ## `h68k_RemapPage` -/

theorem mod_pow_dvd (x k m : Nat) (hm : m ≤ k) (hx : x % 2 ^ k = 0) : x % 2 ^ m = 0 := by
  obtain ⟨q, hq⟩ := Nat.dvd_of_mod_eq_zero hx
  have : (2:Nat) ^ k = 2 ^ m * 2 ^ (k - m) := by
    rw [← Nat.pow_add]; congr 1; omega
  rw [hq, this, Nat.mul_assoc]
  exact Nat.mul_mod_right _ _

theorem and_fffffff8 (x : Nat) (hx : x < 4294967296) (h8 : x % 8 = 0) :
    x &&& 0xFFFFFFF8 = x := by
  have h : (0xFFFFFFF8 : Nat) = not32 (2 ^ 3 - 1) := by decide
  rw [h, and_not32_mask x 3 hx (by decide)]
  have : (2:Nat) ^ 3 = 8 := by decide
  omega

/-- The target word `LongDescriptor` stores for a page descriptor has its low three bits
clear, and `h68k_RemapPage` keeps them clear: the invariant under which C2 is stated. -/
theorem LongDescriptor_target_low_bits (s t : State) (table idx addr flag : Nat)
    (hf : flag &&& MMU_DT = MMU_PAGE)
    (h : LongDescriptor s table idx addr flag = .done t) :
    t.mem (table + 4 * (((idx * 2) % U32 + 1) % U32)) &&& 7 = 0 := by
  unfold LongDescriptor at h
  simp only [hf, if_true] at h
  split at h
  · cases h
  · split at h
    · cases h
    · rename_i h1 _
      have h2 : addr &&& not32 0xFFFFFF00 = 0 := by simpa using h1
      have h3 : not32 0xFFFFFF00 = 2 ^ 8 - 1 := by decide
      rw [h3, Nat.and_pow_two_sub_one_eq_mod] at h2
      cases h
      simp only [store_mem, if_true]
      have h4 : (7:Nat) = 2 ^ 3 - 1 := by decide
      rw [h4, Nat.and_pow_two_sub_one_eq_mod]
      exact mod_pow_dvd addr 8 3 (by decide) h2

theorem RemapPage_target_low_bits (s : State) (laddr paddr a : Nat)
    (h : s.mem a &&& 7 = 0) : (h68k_RemapPage s laddr paddr).mem a &&& 7 = 0 := by
  unfold h68k_RemapPage
  simp only
  split
  · simp only [store_mem]
    split
    · rename_i h1
      subst h1
      have e : (0xFFFFFFF8 : Nat) &&& 7 = 0 := by decide
      rw [h, Nat.zero_or, Nat.and_assoc, e, Nat.and_zero]
    · exact h
  · exact h

/-- C2. Page size `2^k`, `paddr` page-aligned. If the descriptor of the page holding
`laddr` is a valid page descriptor (low two bits of its flag word non-zero) whose target
word has the low three bits clear, as every target word written by `LongDescriptor` or
`h68k_RemapPage` has, then after `h68k_RemapPage(laddr, paddr)` its target word is
`paddr`, its flag word and every other word of memory (so every other descriptor) are
unchanged. If the low two bits of the flag word are zero the state is unchanged. -/
theorem C2_remap_page (s : State) (k : Nat) (hk : 8 ≤ k ∧ k ≤ 15)
    (hps : s.h68k_mmu_pagesize = 2 ^ k) (laddr paddr : Nat)
    (hl : laddr < 4294967296) (hp32 : paddr < 4294967296) (hp : paddr % 2 ^ k = 0) :
    ((s.mem (h68k_GetMmuDescriptor s laddr) &&& 3) ≠ 0 →
      s.mem (h68k_GetMmuDescriptor s laddr + 4) &&& 7 = 0 →
      (h68k_RemapPage s laddr paddr).mem (h68k_GetMmuDescriptor s laddr + 4) = paddr ∧
      (h68k_RemapPage s laddr paddr).mem (h68k_GetMmuDescriptor s laddr)
        = s.mem (h68k_GetMmuDescriptor s laddr) ∧
      (∀ a, a ≠ h68k_GetMmuDescriptor s laddr + 4 →
        (h68k_RemapPage s laddr paddr).mem a = s.mem a) ∧
      (∀ addr, addr < 4294967296 → addr / 2 ^ k ≠ laddr / 2 ^ k →
        (h68k_RemapPage s laddr paddr).mem (h68k_GetMmuDescriptor s addr)
          = s.mem (h68k_GetMmuDescriptor s addr) ∧
        (h68k_RemapPage s laddr paddr).mem (h68k_GetMmuDescriptor s addr + 4)
          = s.mem (h68k_GetMmuDescriptor s addr + 4)) ∧
      SameGlobals s (h68k_RemapPage s laddr paddr)) ∧
    ((s.mem (h68k_GetMmuDescriptor s laddr) &&& 3) = 0 → h68k_RemapPage s laddr paddr = s) := by
  have h2k : 2 ≤ 2 ^ k := by
    calc 2 = 2 ^ 1 := by decide
      _ ≤ 2 ^ k := Nat.pow_le_pow_right (by decide) (by omega)
  have hdesc : ∀ addr, addr < 4294967296 →
      h68k_GetMmuDescriptor s addr = s.h68k_mmu_table + 8 * (addr / 2 ^ k) := by
    intro addr ha
    have hle : addr / 2 ^ k ≤ addr / 2 := Nat.div_le_div_left h2k (by decide)
    rw [GetMmuDescriptor_eq s addr (by rw [hps]; omega), hps]
  have hatc : s.h68k_mmu_table + 4 * ((laddr / s.h68k_mmu_pagesize * 2) % U32)
      = h68k_GetMmuDescriptor s laddr := rfl
  have hp8 : paddr % 8 = 0 := mod_pow_dvd paddr k 3 (by omega) hp
  constructor
  · intro hv hlow
    have hrun : h68k_RemapPage s laddr paddr
        = s.store (h68k_GetMmuDescriptor s laddr + 4) paddr := by
      unfold h68k_RemapPage
      simp only [hatc, Nat.add_zero]
      rw [if_pos hv, hlow, Nat.zero_or, and_fffffff8 paddr hp32 hp8]
    rw [hrun]
    refine ⟨by simp, ?_, ?_, ?_, sameGlobals_store _ _ _⟩
    · simp
    · intro a ha
      simp [ha]
    · intro addr ha hne
      rw [hdesc addr ha, hdesc laddr hl]
      simp only [store_mem]
      rw [if_neg (by omega), if_neg (by omega)]
      exact ⟨rfl, rfl⟩
  · intro hv
    unfold h68k_RemapPage
    simp only [hatc, Nat.add_zero]
    rw [if_neg (by simpa using hv)]

/-- C2 at a concrete input: after `h68k_MapReadOnly(0x1000, 0x1300, 0x50000)` with page
size 256, `h68k_RemapPage(0x1210, 0x60000)` sets the target of the page at `0x1200` to
`0x60000` and keeps its flag word `0xFC45`. -/
theorem C2_remap_page_witness :
    (h68k_RemapPage demoMapped 0x1210 0x60000).mem (h68k_GetMmuDescriptor demoMapped 0x1210 + 4)
      = 0x60000 ∧
    (h68k_RemapPage demoMapped 0x1210 0x60000).mem (h68k_GetMmuDescriptor demoMapped 0x1210)
      = 0xFC45 := by
  have h := (C2_remap_page demoMapped 8 (by decide) (by decide) 0x1210 0x60000 (by decide)
    (by decide) (by decide)).1 (by decide) (by decide)
  refine ⟨h.1, ?_⟩
  rw [h.2.1]
  decide

/-! ## Allocation and handler mappings -/

theorem sameConfig_refl (s : State) : SameConfig s s := ⟨s.mem, s.mem_ptr, rfl⟩

theorem sameConfig_trans {s t u : State} (h1 : SameConfig s t) (h2 : SameConfig t u) :
    SameConfig s u := by
  obtain ⟨m1, p1, rfl⟩ := h1
  obtain ⟨m2, p2, rfl⟩ := h2
  exact ⟨m2, p2, rfl⟩

theorem sameGlobals_config {s t : State} (h : SameGlobals s t) : SameConfig s t := by
  obtain ⟨m, rfl⟩ := h
  exact ⟨m, s.mem_ptr, rfl⟩

theorem sameConfig_pagesize {s t : State} (h : SameConfig s t) :
    t.h68k_mmu_pagesize = s.h68k_mmu_pagesize := by
  obtain ⟨m, p, rfl⟩ := h; rfl

theorem sameConfig_table {s t : State} (h : SameConfig s t) :
    t.h68k_mmu_table = s.h68k_mmu_table := by
  obtain ⟨m, p, rfl⟩ := h; rfl

theorem sameConfig_mem_top {s t : State} (h : SameConfig s t) : t.mem_top = s.mem_top := by
  obtain ⟨m, p, rfl⟩ := h; rfl

theorem alignUp_bounds (x j : Nat) :
    x ≤ alignUp x j ∧ alignUp x j < x + 2 ^ j ∧ alignUp x j % 2 ^ j = 0 := by
  have h0 : 0 < 2 ^ j := Nat.two_pow_pos j
  have h1 := Nat.mod_lt (x + (2 ^ j - 1)) h0
  have h2 := Nat.div_add_mod (x + (2 ^ j - 1)) (2 ^ j)
  unfold alignUp
  refine ⟨by omega, by omega, ?_⟩
  have : x + (2 ^ j - 1) - (x + (2 ^ j - 1)) % 2 ^ j = 2 ^ j * ((x + (2 ^ j - 1)) / 2 ^ j) := by
    omega
  rw [this]
  exact Nat.mul_mod_right _ _

theorem alignUp_of_aligned (x j : Nat) (h : x % 2 ^ j = 0) : alignUp x j = x := by
  have h0 : 0 < 2 ^ j := Nat.two_pow_pos j
  obtain ⟨q, hq⟩ := Nat.dvd_of_mod_eq_zero h
  unfold alignUp
  have : (x + (2 ^ j - 1)) % 2 ^ j = 2 ^ j - 1 := by
    rw [hq, Nat.mul_add_mod]
    exact Nat.mod_eq_of_lt (by omega)
  rw [this]
  omega

theorem AllocMem_ok (s : State) (size j : Nat) (hj : j < 32)
    (hfit : alignUp s.mem_ptr j + size ≤ s.mem_top) (htop : s.mem_top < 4294967296) :
    AllocMem s size (2 ^ j)
      = .done ({ s with mem_ptr := alignUp s.mem_ptr j + size }, alignUp s.mem_ptr j) := by
  obtain ⟨h1, h2, _⟩ := alignUp_bounds s.mem_ptr j
  have h0 : 0 < 2 ^ j := Nat.two_pow_pos j
  have hlt : s.mem_ptr + (2 ^ j - 1) < 4294967296 := by
    have e32 : (4294967296 : Nat) = 2 ^ j * 2 ^ (32 - j) := by
      rw [← Nat.pow_add, show j + (32 - j) = 32 by omega]
    have hq := Nat.div_add_mod (s.mem_ptr + (2 ^ j - 1)) (2 ^ j)
    have hr := Nat.mod_lt (s.mem_ptr + (2 ^ j - 1)) h0
    have ha : alignUp s.mem_ptr j = 2 ^ j * ((s.mem_ptr + (2 ^ j - 1)) / 2 ^ j) := by
      unfold alignUp; omega
    have hq2 : (s.mem_ptr + (2 ^ j - 1)) / 2 ^ j < 2 ^ (32 - j) := by
      apply Nat.lt_of_mul_lt_mul_left (a := 2 ^ j)
      rw [← ha, ← e32]; omega
    have hq3 : 2 ^ j * ((s.mem_ptr + (2 ^ j - 1)) / 2 ^ j + 1) ≤ 2 ^ j * 2 ^ (32 - j) :=
      Nat.mul_le_mul_left _ hq2
    rw [← e32, Nat.mul_add, Nat.mul_one] at hq3
    omega
  have h3 : (s.mem_ptr + (2 ^ j - 1)) % U32 = s.mem_ptr + (2 ^ j - 1) := by
    simp only [U32]; omega
  have h4 : (s.mem_ptr + (2 ^ j - 1)) &&& not32 (2 ^ j - 1) = alignUp s.mem_ptr j := by
    rw [and_not32_mask _ j (by omega) (by omega)]
    rfl
  have h5 : (alignUp s.mem_ptr j + size) % U32 = alignUp s.mem_ptr j + size := by
    simp only [U32]; omega
  unfold AllocMem
  simp only [pagesize_mask j hj, h3, h4, h5, if_pos hfit]

theorem LongInvalidDescriptor_ok (s : State) (table idx userdata userdata2 : Nat)
    (hu : userdata &&& 3 = 0) (hidx : idx < 2147483648) :
    LongInvalidDescriptor s table idx userdata userdata2
      = .done ((s.store (table + 8 * idx) userdata).store (table + 8 * idx + 4) userdata2) := by
  have e1 : table + 4 * (((idx * 2) % U32 + 0) % U32) = table + 8 * idx := by
    simp only [U32]; omega
  have e2 : table + 4 * (((idx * 2) % U32 + 1) % U32) = table + 8 * idx + 4 := by
    simp only [U32]; omega
  unfold LongInvalidDescriptor
  simp only [hu, e1, e2, ne_eq, not_true_eq_false, if_false]

theorem MapAccessHandlerEx_loop_spec (userdata mem_ e : Nat) (hu : userdata &&& 3 = 0)
    (he : e ≤ 2147483648) :
    ∀ (fuel : Nat) (s : State) (i : Nat), e - i < fuel →
      ∃ t, MapAccessHandlerEx_loop userdata mem_ e fuel s i = .done t ∧
        SameGlobals s t ∧
        (∀ j, i ≤ j → j < e →
          t.mem (s.h68k_mmu_table + 8 * j) = userdata ∧
          t.mem (s.h68k_mmu_table + 8 * j + 4) = mem_) ∧
        (∀ a, (∀ j, i ≤ j → j < e →
            a ≠ s.h68k_mmu_table + 8 * j ∧ a ≠ s.h68k_mmu_table + 8 * j + 4) →
          t.mem a = s.mem a) := by
  intro fuel
  induction fuel with
  | zero => intro s i h; omega
  | succ fuel ih =>
    intro s i hfuel
    unfold MapAccessHandlerEx_loop
    by_cases hlt : i < e
    · rw [if_pos hlt, LongInvalidDescriptor_ok s _ i userdata mem_ hu (by omega)]
      have e1 : (i + 1) % U32 = i + 1 := by simp only [U32]; omega
      simp only [e1]
      obtain ⟨t, ht, hg, hA, hB⟩ := ih
        ((s.store (s.h68k_mmu_table + 8 * i) userdata).store (s.h68k_mmu_table + 8 * i + 4) mem_)
        (i + 1) (by omega)
      simp only [store_table] at hA hB
      refine ⟨t, ht, ?_, ?_, ?_⟩
      · exact sameGlobals_trans (sameGlobals_trans (sameGlobals_store _ _ _) (sameGlobals_store _ _ _)) hg
      · intro j hij hje
        by_cases hji : j = i
        · subst hji
          have hB1 := hB (s.h68k_mmu_table + 8 * j) (by intro j2 h1 h2; omega)
          have hB2 := hB (s.h68k_mmu_table + 8 * j + 4) (by intro j2 h1 h2; omega)
          rw [hB1, hB2]
          have hne : s.h68k_mmu_table + 8 * j ≠ s.h68k_mmu_table + 8 * j + 4 := by omega
          simp [hne]
        · exact hA j (by omega) hje
      · intro a ha
        rw [hB a (by intro j h1 h2; exact ha j (by omega) h2)]
        have := ha i (Nat.le_refl i) hlt
        simp only [store_mem]
        rw [if_neg this.2, if_neg this.1]
    · rw [if_neg hlt]
      refine ⟨s, rfl, sameGlobals_refl s, ?_, ?_⟩
      · intro j h1 h2; omega
      · intro a _; rfl

theorem SetMemWords_globals (s : State) (dst w n : Nat) : SameGlobals s (SetMemWords s dst w n) := by
  induction n with
  | zero => exact sameGlobals_refl s
  | succ n ih => exact sameGlobals_trans ih (sameGlobals_store _ _ _)

theorem SetMemWords_mem (s : State) (dst w n x : Nat) :
    (SetMemWords s dst w n).mem x
      = if dst ≤ x ∧ x < dst + 4 * n ∧ (x - dst) % 4 = 0 then w else s.mem x := by
  induction n with
  | zero =>
    simp only [SetMemWords]
    rw [if_neg (by omega)]
  | succ n ih =>
    simp only [SetMemWords, store_mem, ih]
    by_cases h1 : x = dst + 4 * n
    · rw [if_pos h1, if_pos (by omega)]
    · rw [if_neg h1]
      by_cases h2 : dst ≤ x ∧ x < dst + 4 * n ∧ (x - dst) % 4 = 0
      · rw [if_pos h2, if_pos (by omega)]
      · rw [if_neg h2, if_neg (by omega)]

theorem stage1Fill_globals (s0 : State) (m rb wb rw ww rl wl r3 w3 rm : Nat) :
    SameGlobals s0 (stage1Fill s0 m rb wb rw ww rl wl r3 w3 rm) := by
  have hr : List.range' 8 8 = [8, 9, 10, 11, 12, 13, 14, 15] := by decide
  unfold stage1Fill
  simp only [hr, List.foldl_cons, List.foldl_nil]
  obtain ⟨mm, hmm⟩ := SetMemWords_globals s0 m 0 16
  rw [hmm]
  exact ⟨_, rfl⟩

theorem stage1Fill_frame (s0 : State) (m rb wb rw ww rl wl r3 w3 rm x : Nat)
    (hx : x < m ∨ m + 64 ≤ x ∨ (x - m) % 4 ≠ 0) :
    (stage1Fill s0 m rb wb rw ww rl wl r3 w3 rm).mem x = s0.mem x := by
  have hr : List.range' 8 8 = [8, 9, 10, 11, 12, 13, 14, 15] := by decide
  unfold stage1Fill
  simp only [hr, List.foldl_cons, List.foldl_nil, store_mem, SetMemWords_mem]
  repeat rw [if_neg (by omega)]

theorem stage1Fill_entry (s0 : State) (m rb wb rw ww rl wl r3 w3 rm i : Nat) (hi : i < 16) :
    (stage1Fill s0 m rb wb rw ww rl wl r3 w3 rm).mem (m + 4 * i)
      = stage1Entry rb wb rw ww rl wl r3 w3 rm i := by
  have hr : List.range' 8 8 = [8, 9, 10, 11, 12, 13, 14, 15] := by decide
  unfold stage1Fill
  simp only [hr, List.foldl_cons, List.foldl_nil, store_mem]
  interval_cases i <;> simp [stage1Entry]

theorem stage1Entry_ne_zero (rb wb rw ww rl wl r3 w3 rm : Nat)
    (h : rb ≠ 0 ∧ wb ≠ 0 ∧ rw ≠ 0 ∧ ww ≠ 0 ∧ rl ≠ 0 ∧ wl ≠ 0 ∧ r3 ≠ 0 ∧ w3 ≠ 0 ∧ rm ≠ 0)
    (i : Nat) : stage1Entry rb wb rw ww rl wl r3 w3 rm i ≠ 0 := by
  obtain ⟨h1, h2, h3, h4, h5, h6, h7, h8, h9⟩ := h
  unfold stage1Entry
  split <;> assumption

theorem MapAccessHandlerEx_spec (checked : Bool) (fuel : Nat) (s : State) (k : Nat)
    (hk : 8 ≤ k ∧ k ≤ 15) (hps : s.h68k_mmu_pagesize = 2 ^ k)
    (start end_ userdata rb wb rw ww rl wl r3 w3 rm : Nat)
    (hs : start % 2 ^ k = 0) (he : end_ % 2 ^ k = 0) (hs32 : start < 4294967296)
    (hend : end_ ≤ 16777216) (hu : userdata % 256 = 0)
    (hh : checked = true →
      rb ≠ 0 ∧ wb ≠ 0 ∧ rw ≠ 0 ∧ ww ≠ 0 ∧ rl ≠ 0 ∧ wl ≠ 0 ∧ r3 ≠ 0 ∧ w3 ≠ 0 ∧ rm ≠ 0)
    (htab : s.h68k_mmu_table + 8 * (16777216 / 2 ^ k) ≤ s.mem_ptr)
    (hfit : alignUp s.mem_ptr 2 + 64 ≤ s.mem_top) (htop : s.mem_top < 4294967296)
    (hfuel : (end_ - start) / 2 ^ k < fuel) :
    ∃ t, h68k_MapAccessHandlerEx checked fuel s start end_ userdata rb wb rw ww rl wl r3 w3 rm
        = .done t ∧
      SameConfig s t ∧ t.mem_ptr = alignUp s.mem_ptr 2 + 64 ∧
      (∀ j, start / 2 ^ k ≤ j → j < end_ / 2 ^ k →
        t.mem (s.h68k_mmu_table + 8 * j) = userdata ∧
        t.mem (s.h68k_mmu_table + 8 * j + 4) = alignUp s.mem_ptr 2) ∧
      (∀ i, i < 16 →
        t.mem (alignUp s.mem_ptr 2 + 4 * i) = stage1Entry rb wb rw ww rl wl r3 w3 rm i) ∧
      (∀ a, (∀ j, start / 2 ^ k ≤ j → j < end_ / 2 ^ k →
          a ≠ s.h68k_mmu_table + 8 * j ∧ a ≠ s.h68k_mmu_table + 8 * j + 4) →
        (a < alignUp s.mem_ptr 2 ∨ alignUp s.mem_ptr 2 + 64 ≤ a ∨
          (a - alignUp s.mem_ptr 2) % 4 ≠ 0) → t.mem a = s.mem a) := by
  have hk32 : k < 32 := by omega
  have hp0 : 0 < 2 ^ k := Nat.two_pow_pos k
  have hs1 : start / 2 ^ k * 2 ^ k = start := Nat.div_mul_cancel (Nat.dvd_of_mod_eq_zero hs)
  have he1 : end_ / 2 ^ k * 2 ^ k = end_ := Nat.div_mul_cancel (Nat.dvd_of_mod_eq_zero he)
  have hm1 := and_mask_eq_mod start k hk32
  have hm2 := and_mask_eq_mod end_ k hk32
  have hn1 := and_not32_aligned start k hk32 hs32 hs
  have hn3 := roundup_aligned end_ k hk32 (by omega) he hk.2
  have hu1 : userdata &&& 0xFF = 0 := by
    have : (0xFF : Nat) = 2 ^ 8 - 1 := by decide
    rw [this, Nat.and_pow_two_sub_one_eq_mod]; simpa using hu
  have hu2 : userdata &&& 3 = 0 := by
    have : (3 : Nat) = 2 ^ 2 - 1 := by decide
    rw [this, Nat.and_pow_two_sub_one_eq_mod]
    have : (2:Nat) ^ 2 = 4 := by decide
    omega
  have hed : end_ / 2 ^ k ≤ 16777216 / 2 ^ k := Nat.div_le_div_right hend
  have hed2 : 16777216 / 2 ^ k ≤ 16777216 := Nat.div_le_self _ _
  have hfu : end_ / 2 ^ k - start / 2 ^ k < fuel := by
    have : end_ / 2 ^ k - start / 2 ^ k = (end_ - start) / 2 ^ k := by
      conv_rhs => rw [← he1, ← hs1, ← Nat.sub_mul, Nat.mul_div_cancel _ hp0]
    omega
  obtain ⟨hb1, hb2, _⟩ := alignUp_bounds s.mem_ptr 2
  generalize hst : alignUp s.mem_ptr 2 = st at *
  have halloc : AllocMem s (16 * 4) 4 = .done ({ s with mem_ptr := st + 64 }, st) := by
    have := AllocMem_ok s 64 2 (by decide) (by rw [hst]; exact hfit) htop
    rw [hst] at this
    exact this
  obtain ⟨m10, hm10⟩ := stage1Fill_globals { s with mem_ptr := st + 64 } st rb wb rw ww rl wl r3 w3 rm
  have hent := stage1Fill_entry { s with mem_ptr := st + 64 } st rb wb rw ww rl wl r3 w3 rm
  have hfr := stage1Fill_frame { s with mem_ptr := st + 64 } st rb wb rw ww rl wl r3 w3 rm
  generalize hs10 : stage1Fill { s with mem_ptr := st + 64 } st rb wb rw ww rl wl r3 w3 rm = s10 at *
  have hps10 : s10.h68k_mmu_pagesize = 2 ^ k := by rw [hm10]; exact hps
  have htb10 : s10.h68k_mmu_table = s.h68k_mmu_table := by rw [hm10]
  obtain ⟨t, ht, hg, hA, hB⟩ := MapAccessHandlerEx_loop_spec userdata st (end_ / 2 ^ k) hu2
    (by omega) fuel s10 (start / 2 ^ k) hfu
  rw [htb10] at hA hB
  have hnz : ¬ (checked = true ∧ ∃ i ∈ List.range 16, s10.mem (st + 4 * i) = 0) := by
    rintro ⟨hc, i, hi, h0⟩
    rw [hent i (by simpa using hi)] at h0
    exact stage1Entry_ne_zero rb wb rw ww rl wl r3 w3 rm (hh hc) i h0
  refine ⟨t, ?_, ?_, ?_, hA, ?_, ?_⟩
  · unfold h68k_MapAccessHandlerEx
    rw [halloc]
    simp only [hs10, hps10, hm1, hm2, hs, he, hu1, hn1, hn3, ne_eq, not_true_eq_false, and_false,
      if_false, ite_self, if_neg hnz]
    exact ht
  · obtain ⟨mt, hmt⟩ := hg
    exact ⟨mt, st + 64, by rw [hmt, hm10]⟩
  · obtain ⟨mt, hmt⟩ := hg
    rw [hmt, hm10]
  · intro i hi
    rw [hB (st + 4 * i) (by intro j h1 h2; omega), hent i hi]
  · intro a ha hout
    rw [hB a ha, hfr a hout]

/-- C3. Page size `2^k`, page-aligned `start`, `end_ ≤ 0x01000000`, the descriptor table
below the allocation pointer, the free arena zero-filled and large enough, the nine
per-page callback stubs non-null. Then `h68k_MapIoRangeEx` returns, having allocated a
handler table `ft` (256-aligned, so a handler reference) and a stage-1 table `st` from
the free arena; every address of `[start, end_)` has descriptor word 0 `= ft` and word 1
`= st`; the record at `ft` has `len = 0` and `readB, writeB, readW, writeW, readL, writeL`
equal to the six handlers passed; the 16 entries of `st` are the `h68k_mmuf_*c` stubs in
the order `wl, wb, ww, w3, rl, rb, rw, r3, rm x 8`. -/
theorem C3_map_io_range (A : Sym → Nat) (checked : Bool) (fuel : Nat) (s : State) (k : Nat)
    (hk : 8 ≤ k ∧ k ≤ 15) (hps : s.h68k_mmu_pagesize = 2 ^ k)
    (start end_ rb wb rw ww rl wl : Nat)
    (hs : start % 2 ^ k = 0) (he : end_ % 2 ^ k = 0) (hs32 : start < 4294967296)
    (hend : end_ ≤ 0x01000000)
    (hA : ∀ x, A x ≠ 0)
    (htab : s.h68k_mmu_table + 8 * (0x01000000 / 2 ^ k) ≤ s.mem_ptr)
    (hzero : ∀ a, s.mem_ptr ≤ a → a < s.mem_top → s.mem a = 0)
    (hfit : alignUp s.mem_ptr 8 + 192 ≤ s.mem_top) (htop : s.mem_top < 4294967296)
    (hfuel : (end_ - start) / 2 ^ k < fuel) :
    ∃ t ft st, h68k_MapIoRangeEx A checked fuel s start end_ rb wb rw ww rl wl = .done t ∧
      SameConfig s t ∧
      s.mem_ptr ≤ ft ∧ ft % 256 = 0 ∧ st = ft + 128 ∧ t.mem_ptr = st + 64 ∧
      t.mem_ptr ≤ s.mem_top ∧
      (∀ addr, start ≤ addr → addr < end_ →
        t.mem (h68k_GetMmuDescriptor t addr) = ft ∧
        t.mem (h68k_GetMmuDescriptor t addr + 4) = st) ∧
      t.mem (ft + 28) = 0 ∧
      t.mem (ft + 0) = rb ∧ t.mem (ft + 12) = wb ∧ t.mem (ft + 4) = rw ∧
      t.mem (ft + 16) = ww ∧ t.mem (ft + 8) = rl ∧ t.mem (ft + 20) = wl ∧
      (∀ i, i < 16 → t.mem (st + 4 * i) =
        stage1Entry (A .h68k_mmuf_rbc) (A .h68k_mmuf_wbc) (A .h68k_mmuf_rwc) (A .h68k_mmuf_wwc)
          (A .h68k_mmuf_rlc) (A .h68k_mmuf_wlc) (A .h68k_mmuf_r3c) (A .h68k_mmuf_w3c)
          (A .h68k_mmuf_rmc) i) := by
  have hp0 : 0 < 2 ^ k := Nat.two_pow_pos k
  have he1 : end_ / 2 ^ k * 2 ^ k = end_ := Nat.div_mul_cancel (Nat.dvd_of_mod_eq_zero he)
  obtain ⟨hb1, hb2, hb3⟩ := alignUp_bounds s.mem_ptr 8
  generalize hft : alignUp s.mem_ptr 8 = ft at *
  have hft256 : ft % 256 = 0 := by simpa using hb3
  have halloc : AllocMem s (4 * 32) 256 = .done ({ s with mem_ptr := ft + 128 }, ft) := by
    have := AllocMem_ok s 128 8 (by decide) (by rw [hft]; omega) htop
    rw [hft] at this
    exact this
  have hst : alignUp (ft + 128) 2 = ft + 128 := by
    apply alignUp_of_aligned
    have : (2:Nat) ^ 2 = 4 := by decide
    omega
  obtain ⟨t, ht, hg, hptr, hD, hE, hF⟩ := MapAccessHandlerEx_spec checked fuel
    ((((((({ s with mem_ptr := ft + 128 } : State).store (ft + 0) rb).store (ft + 4) rw).store
      (ft + 8) rl).store (ft + 12) wb).store (ft + 16) ww).store (ft + 20) wl)
    k hk hps start end_ ft (A .h68k_mmuf_rbc) (A .h68k_mmuf_wbc) (A .h68k_mmuf_rwc)
    (A .h68k_mmuf_wwc) (A .h68k_mmuf_rlc) (A .h68k_mmuf_wlc) (A .h68k_mmuf_r3c)
    (A .h68k_mmuf_w3c) (A .h68k_mmuf_rmc) hs he hs32 hend hft256
    (fun _ => ⟨hA _, hA _, hA _, hA _, hA _, hA _, hA _, hA _, hA _⟩)
    (by simp only [store_table, store_mem_ptr]; omega)
    (by simp only [store_mem_ptr, store_mem_top, hst]; omega)
    (by simpa using htop) hfuel
  simp only [store_table, store_mem_ptr, hst] at hptr hD hE hF
  have hed : end_ / 2 ^ k ≤ 16777216 / 2 ^ k := Nat.div_le_div_right hend
  have hfield : ∀ a, ft ≤ a → a < ft + 128 → t.mem a
      = ((((((({ s with mem_ptr := ft + 128 } : State).store (ft + 0) rb).store (ft + 4) rw).store
      (ft + 8) rl).store (ft + 12) wb).store (ft + 16) ww).store (ft + 20) wl).mem a := by
    intro a h1 h2
    exact hF a (by intro j _ hj; omega) (Or.inl h2)
  refine ⟨t, ft, ft + 128, ?_, ?_, hb1, hft256, rfl, hptr, by omega, ?_, ?_, ?_, ?_, ?_, ?_, ?_,
    ?_, hE⟩
  · unfold h68k_MapIoRangeEx
    rw [halloc]
    exact ht
  · refine sameConfig_trans ?_ hg
    exact ⟨_, ft + 128, rfl⟩
  · intro addr h1 h2
    have hj : addr / 2 ^ k < end_ / 2 ^ k := by
      apply (Nat.div_lt_iff_lt_mul hp0).2
      rw [he1]; exact h2
    have hdesc : h68k_GetMmuDescriptor t addr = s.h68k_mmu_table + 8 * (addr / 2 ^ k) := by
      have hpt : t.h68k_mmu_pagesize = 2 ^ k := by rw [sameConfig_pagesize hg]; exact hps
      have htt : t.h68k_mmu_table = s.h68k_mmu_table := by rw [sameConfig_table hg]; rfl
      rw [GetMmuDescriptor_eq t addr (by rw [hpt]; omega), hpt, htt]
    rw [hdesc]
    exact hD _ (Nat.div_le_div_right h1) hj
  · rw [hfield _ (by omega) (by omega)]
    simp only [store_mem]
    repeat rw [if_neg (by omega)]
    exact hzero _ (by omega) (by omega)
  · rw [hfield _ (by omega) (by omega)]; simp
  · rw [hfield _ (by omega) (by omega)]; simp
  · rw [hfield _ (by omega) (by omega)]; simp
  · rw [hfield _ (by omega) (by omega)]; simp
  · rw [hfield _ (by omega) (by omega)]; simp
  · rw [hfield _ (by omega) (by omega)]; simp

theorem demoAddr_ne_zero (x : Sym) : demoAddr x ≠ 0 := by
  unfold demoAddr; omega

/-- C3 at a concrete input: `h68k_MapIoRangeEx(0xff8000, 0xff8200, ..)` on the sample
machine: both pages reference the same collapsed table and the same stage-1 table. -/
theorem C3_map_io_range_witness :
    ∃ t ft st, h68k_MapIoRangeEx demoAddr true 3 demoState 0xff8000 0xff8200
        0x7001 0x7002 0x7003 0x7004 0x7005 0x7006 = .done t ∧
      t.mem (h68k_GetMmuDescriptor t 0xff8000) = ft ∧
      t.mem (h68k_GetMmuDescriptor t 0xff8100) = ft ∧
      t.mem (h68k_GetMmuDescriptor t 0xff8000 + 4) = st ∧
      t.mem (h68k_GetMmuDescriptor t 0xff8100 + 4) = st ∧
      t.mem (ft + 28) = 0 ∧ t.mem (ft + 0) = 0x7001 ∧ t.mem (ft + 20) = 0x7006 ∧
      t.mem (st + 4 * 5) = demoAddr .h68k_mmuf_rbc := by
  obtain ⟨t, ft, st, h1, _, _, _, _, _, _, h2, h3, h4, _, _, _, _, h5, h6⟩ :=
    C3_map_io_range demoAddr true 3 demoState 8 (by decide) rfl 0xff8000 0xff8200
      0x7001 0x7002 0x7003 0x7004 0x7005 0x7006 (by decide) (by decide) (by decide) (by decide)
      demoAddr_ne_zero (by decide) (fun _ _ _ => rfl) (by decide) (by decide) (by decide)
  exact ⟨t, ft, st, h1, (h2 0xff8000 (by decide) (by decide)).1,
    (h2 0xff8100 (by decide) (by decide)).1, (h2 0xff8000 (by decide) (by decide)).2,
    (h2 0xff8100 (by decide) (by decide)).2, h3, h4, h5, h6 5 (by decide)⟩

/-! ## Expansion of a handler table -/

theorem CopyMemWords_globals (s : State) (dst src n : Nat) :
    SameGlobals s (CopyMemWords s dst src n) := by
  induction n with
  | zero => exact sameGlobals_refl s
  | succ n ih => exact sameGlobals_trans ih (sameGlobals_store _ _ _)

theorem CopyMemWords_mem_src (s : State) (dst src n x : Nat) (hx : x < dst) :
    (CopyMemWords s dst src n).mem x = s.mem x := by
  induction n with
  | zero => rfl
  | succ n ih =>
    simp only [CopyMemWords, store_mem]
    rw [if_neg (by omega), ih]

theorem CopyMemWords_mem (s : State) (dst src n x : Nat) (hsep : src + 4 * n ≤ dst) :
    (CopyMemWords s dst src n).mem x
      = if dst ≤ x ∧ x < dst + 4 * n ∧ (x - dst) % 4 = 0 then s.mem (src + (x - dst))
        else s.mem x := by
  induction n with
  | zero =>
    simp only [CopyMemWords]
    rw [if_neg (by omega)]
  | succ n ih =>
    have ih1 := ih (by omega)
    simp only [CopyMemWords, store_mem]
    by_cases h1 : x = dst + 4 * n
    · rw [if_pos h1, if_pos (by omega)]
      have e : src + (x - dst) = src + 4 * n := by omega
      rw [e]
      clear ih1
      have := CopyMemWords_mem_src s dst src n (src + 4 * n) (by omega)
      exact this
    · rw [if_neg h1, ih1]
      by_cases h2 : dst ≤ x ∧ x < dst + 4 * n ∧ (x - dst) % 4 = 0
      · rw [if_pos h2, if_pos (by omega)]
      · rw [if_neg h2, if_neg (by omega)]

theorem GetExpandedFtable_loop_spec (nf p : Nat) (hp : p ≤ 32768) :
    ∀ (fuel : Nat) (s : State) (i : Nat), s.h68k_mmu_pagesize = p → 1 ≤ i → i ≤ p →
      p - i < fuel →
      ∃ t, GetExpandedFtable_loop nf fuel s i = .done t ∧ SameGlobals s t ∧
        ∀ x, t.mem x
          = if nf + 32 * i ≤ x ∧ x < nf + 32 * p ∧ (x - nf) % 4 = 0
            then s.mem (nf + (x - nf) % 32) else s.mem x := by
  intro fuel
  induction fuel with
  | zero => intro s i _ _ _ h; omega
  | succ fuel ih =>
    intro s i hps h1 hip hfuel
    unfold GetExpandedFtable_loop
    by_cases hlt : i < p
    · rw [hps, if_pos hlt]
      have e1 : (i + 1) % 65536 = i + 1 := by omega
      rw [e1]
      have hg0 := CopyMemWords_globals s (nf + 32 * i) (nf + 32 * 0) 8
      obtain ⟨t, ht, hg, hm⟩ := ih (CopyMemWords s (nf + 32 * i) (nf + 32 * 0) 8) (i + 1)
        (by rw [sameGlobals_pagesize hg0]; exact hps) (by omega) (by omega) (by omega)
      refine ⟨t, ht, sameGlobals_trans hg0 hg, ?_⟩
      intro x
      rw [hm x]
      have hc := fun y => CopyMemWords_mem s (nf + 32 * i) (nf + 32 * 0) 8 y (by omega)
      by_cases hx1 : nf + 32 * (i + 1) ≤ x ∧ x < nf + 32 * p ∧ (x - nf) % 4 = 0
      · rw [if_pos hx1, if_pos (by omega), hc, if_neg (by omega)]
      · rw [if_neg hx1, hc]
        by_cases hx2 : nf + 32 * i ≤ x ∧ x < nf + 32 * i + 4 * 8 ∧ (x - (nf + 32 * i)) % 4 = 0
        · rw [if_pos hx2, if_pos (by omega)]
          congr 1
          omega
        · rw [if_neg hx2, if_neg (by omega)]
    · rw [hps, if_neg hlt]
      refine ⟨s, rfl, sameGlobals_refl s, ?_⟩
      intro x
      rw [if_neg (by omega)]

theorem expandRecord0_spec (s0 : State) (old nf : Nat) (hsep : old + 32 ≤ nf) :
    SameGlobals s0 (expandRecord0 s0 old nf) ∧
    ∀ x, (expandRecord0 s0 old nf).mem x
      = if nf ≤ x ∧ x < nf + 32 ∧ (x - nf) % 4 = 0
        then expandedField s0.mem old s0.h68k_mmu_pagesize (x - nf) else s0.mem x := by
  constructor
  · exact ⟨_, rfl⟩
  · intro x
    have hrd : ∀ (u : State) (d v c : Nat), c < 32 →
        (u.store (nf + d) v).mem (old + c) = u.mem (old + c) := by
      intro u d v c hc
      simp only [store_mem]
      rw [if_neg (by omega)]
    unfold expandRecord0
    simp only [hrd _ _ _ 0 (by decide), hrd _ _ _ 4 (by decide), hrd _ _ _ 8 (by decide),
      hrd _ _ _ 12 (by decide), hrd _ _ _ 16 (by decide), hrd _ _ _ 20 (by decide),
      hrd _ _ _ 24 (by decide)]
    simp only [store_mem, store_pagesize]
    by_cases hx : nf ≤ x ∧ x < nf + 32 ∧ (x - nf) % 4 = 0
    · rw [if_pos hx]
      obtain ⟨h1, h2, h3⟩ := hx
      have hw : x - nf = 0 ∨ x - nf = 4 ∨ x - nf = 8 ∨ x - nf = 12 ∨ x - nf = 16 ∨ x - nf = 20 ∨
          x - nf = 24 ∨ x - nf = 28 := by omega
      rcases hw with h | h | h | h | h | h | h | h <;>
        (have hx2 : x = nf + (x - nf) := by omega
         rw [hx2, h]; simp [expandedField])
    · rw [if_neg hx]
      repeat rw [if_neg (by omega)]

theorem GetExpandedFtable_collapsed (fuel : Nat) (s : State) (k : Nat) (hk : 8 ≤ k ∧ k ≤ 15)
    (hps : s.h68k_mmu_pagesize = 2 ^ k) (addr : Nat) (haddr : addr < 4294967296)
    (hold : s.mem (h68k_GetMmuDescriptor s addr) ≠ 0)
    (hlen : s.mem (s.mem (h68k_GetMmuDescriptor s addr) + 28) = 0)
    (hsep : s.mem (h68k_GetMmuDescriptor s addr) + 32 ≤ s.mem_ptr)
    (hfit : alignUp s.mem_ptr 8 + 32 * 2 ^ k ≤ s.mem_top) (htop : s.mem_top < 4294967296)
    (hfuel : 2 ^ k < fuel) :
    ∃ t, h68k_GetExpandedFtable fuel s addr
        = .done (t, alignUp s.mem_ptr 8 + 32 * (addr % 2 ^ k)) ∧
      SameConfig s t ∧ t.mem_ptr = alignUp s.mem_ptr 8 + 32 * 2 ^ k ∧
      ∀ x, t.mem x
        = if x = h68k_GetMmuDescriptor s addr then alignUp s.mem_ptr 8
          else if alignUp s.mem_ptr 8 ≤ x ∧ x < alignUp s.mem_ptr 8 + 32 * 2 ^ k ∧
              (x - alignUp s.mem_ptr 8) % 4 = 0
            then expandedField s.mem (s.mem (h68k_GetMmuDescriptor s addr)) (2 ^ k)
              ((x - alignUp s.mem_ptr 8) % 32)
            else s.mem x := by
  have hp0 : 0 < 2 ^ k := Nat.two_pow_pos k
  have hp15 : 2 ^ k ≤ 32768 := by
    calc 2 ^ k ≤ 2 ^ 15 := Nat.pow_le_pow_right (by decide) hk.2
      _ = 32768 := by decide
  have hp8 : 256 ≤ 2 ^ k := by
    calc 256 = 2 ^ 8 := by decide
      _ ≤ 2 ^ k := Nat.pow_le_pow_right (by decide) hk.1
  obtain ⟨hb1, hb2, hb3⟩ := alignUp_bounds s.mem_ptr 8
  generalize hnf : alignUp s.mem_ptr 8 = nf at *
  generalize hatcd : h68k_GetMmuDescriptor s addr = atc at *
  generalize holdd : s.mem atc = old at *
  have hbase : addr &&& not32 ((2 ^ k + 4294967295) % U32) = addr - addr % 2 ^ k := by
    rw [pagesize_mask k (by omega), and_not32_mask addr k haddr (by omega)]
  have hmod := Nat.mod_lt addr hp0
  have hmle := Nat.mod_le addr (2 ^ k)
  have hoffs : (addr + U32 - (addr - addr % 2 ^ k)) % U32 = addr % 2 ^ k := by
    simp only [U32]; omega
  have hsz : (2 ^ k * 32) % U32 = 32 * 2 ^ k := by
    simp only [U32]; omega
  obtain ⟨s0, hs0⟩ : ∃ s0 : State, s0 = { s with mem_ptr := nf + 32 * 2 ^ k } := ⟨_, rfl⟩
  have hs0m : s0.mem = s.mem := by rw [hs0]
  have hs0p : s0.h68k_mmu_pagesize = 2 ^ k := by rw [hs0]; exact hps
  have hs0c : SameConfig s s0 := ⟨s.mem, nf + 32 * 2 ^ k, hs0⟩
  have hs0ptr : s0.mem_ptr = nf + 32 * 2 ^ k := by rw [hs0]
  have halloc : AllocMem s (32 * 2 ^ k) 256 = .done (s0, nf) := by
    have := AllocMem_ok s (32 * 2 ^ k) 8 (by decide) (by rw [hnf]; exact hfit) htop
    rw [hnf] at this
    rw [hs0]
    exact this
  obtain ⟨hg0, hm0⟩ := expandRecord0_spec s0 old nf (by omega)
  obtain ⟨t, ht, hg, hm⟩ := GetExpandedFtable_loop_spec nf (2 ^ k) hp15 fuel
    (expandRecord0 s0 old nf) 1
    (by rw [sameGlobals_pagesize hg0]; exact hs0p) (Nat.le_refl 1) (by omega) (by omega)
  rw [hs0m, hs0p] at hm0
  refine ⟨t.store atc nf, ?_, ?_, ?_, ?_⟩
  · unfold h68k_GetExpandedFtable
    simp only [Nat.add_zero, hatcd, holdd, hps, hbase, hoffs, hsz, if_neg hold, hlen, ne_eq,
      not_true_eq_false, if_false, halloc, ht]
  · exact sameConfig_trans hs0c (sameConfig_trans (sameGlobals_config hg0) (sameConfig_trans (sameGlobals_config hg) (sameGlobals_config (sameGlobals_store _ _ _))))
  · rw [store_mem_ptr, sameGlobals_mem_ptr hg, sameGlobals_mem_ptr hg0, hs0ptr]
  · intro x
    simp only [store_mem]
    by_cases hx : x = atc
    · rw [if_pos hx, if_pos hx]
    · rw [if_neg hx, if_neg hx, hm x]
      by_cases hx1 : nf ≤ x ∧ x < nf + 32 * 2 ^ k ∧ (x - nf) % 4 = 0
      · rw [if_pos hx1]
        by_cases hx2 : nf + 32 * 1 ≤ x
        · rw [if_pos (by omega), hm0, if_pos (by omega)]
          have e : nf + (x - nf) % 32 - nf = (x - nf) % 32 := by omega
          rw [e]
        · rw [if_neg (by omega), hm0, if_pos (by omega)]
          have e : x - nf = (x - nf) % 32 := by omega
          rw [← e]
      · rw [if_neg hx1, if_neg (by omega), hm0, if_neg (by omega)]

/-- C4. Page size `2^k`; the descriptor of the page holding `addr` references a collapsed
handler table `old` (non-null, `len = 0`); that table and the descriptor lie below the
allocation pointer and the arena has room. Then `h68k_GetExpandedFtable(addr)` returns,
having allocated exactly `2^k` records of 32 bytes at a 256-aligned `nf`; each record
holds the six function fields of `old` with bit 31 set, `reserved` copied and
`len = 2^k`; descriptor word 0 of the page is `nf`; the pointer returned is the record at
offset `addr mod 2^k`; nothing else in memory changes. -/
theorem C4_expand_collapsed (fuel : Nat) (s : State) (k : Nat) (hk : 8 ≤ k ∧ k ≤ 15)
    (hps : s.h68k_mmu_pagesize = 2 ^ k) (addr : Nat) (haddr : addr < 4294967296)
    (hold : s.mem (h68k_GetMmuDescriptor s addr) ≠ 0)
    (hlen : s.mem (s.mem (h68k_GetMmuDescriptor s addr) + 28) = 0)
    (hsep : s.mem (h68k_GetMmuDescriptor s addr) + 32 ≤ s.mem_ptr)
    (hatc : h68k_GetMmuDescriptor s addr < s.mem_ptr)
    (hfit : alignUp s.mem_ptr 8 + 32 * 2 ^ k ≤ s.mem_top) (htop : s.mem_top < 4294967296)
    (hfuel : 2 ^ k < fuel) :
    ∃ t nf, h68k_GetExpandedFtable fuel s addr = .done (t, nf + 32 * (addr % 2 ^ k)) ∧
      SameConfig s t ∧ s.mem_ptr ≤ nf ∧ nf % 256 = 0 ∧ t.mem_ptr = nf + 32 * 2 ^ k ∧
      t.mem (h68k_GetMmuDescriptor s addr) = nf ∧
      (∀ i, i < 2 ^ k →
        t.mem (nf + 32 * i + 0)
          = s.mem (s.mem (h68k_GetMmuDescriptor s addr) + 0) ||| 0x80000000 ∧
        t.mem (nf + 32 * i + 4)
          = s.mem (s.mem (h68k_GetMmuDescriptor s addr) + 4) ||| 0x80000000 ∧
        t.mem (nf + 32 * i + 8)
          = s.mem (s.mem (h68k_GetMmuDescriptor s addr) + 8) ||| 0x80000000 ∧
        t.mem (nf + 32 * i + 12)
          = s.mem (s.mem (h68k_GetMmuDescriptor s addr) + 12) ||| 0x80000000 ∧
        t.mem (nf + 32 * i + 16)
          = s.mem (s.mem (h68k_GetMmuDescriptor s addr) + 16) ||| 0x80000000 ∧
        t.mem (nf + 32 * i + 20)
          = s.mem (s.mem (h68k_GetMmuDescriptor s addr) + 20) ||| 0x80000000 ∧
        t.mem (nf + 32 * i + 24) = s.mem (s.mem (h68k_GetMmuDescriptor s addr) + 24) ∧
        t.mem (nf + 32 * i + 28) = 2 ^ k) ∧
      (∀ x, x ≠ h68k_GetMmuDescriptor s addr → (x < nf ∨ nf + 32 * 2 ^ k ≤ x) →
        t.mem x = s.mem x) := by
  obtain ⟨t, ht, hc, hptr, hm⟩ := GetExpandedFtable_collapsed fuel s k hk hps addr haddr hold hlen
    hsep hfit htop hfuel
  obtain ⟨hb1, hb2, hb3⟩ := alignUp_bounds s.mem_ptr 8
  generalize alignUp s.mem_ptr 8 = nf at *
  generalize h68k_GetMmuDescriptor s addr = atc at *
  have hrec : ∀ i w, i < 2 ^ k → w < 32 → w % 4 = 0 →
      t.mem (nf + 32 * i + w) = expandedField s.mem (s.mem atc) (2 ^ k) w := by
    intro i w hi hw hw4
    have hi2 : 32 * i + 32 ≤ 32 * 2 ^ k := by omega
    rw [hm, if_neg (by omega), if_pos (by omega)]
    congr 1
    omega
  refine ⟨t, nf, ht, hc, hb1, by simpa using hb3, hptr, ?_, ?_, ?_⟩
  · rw [hm, if_pos rfl]
  · intro i hi
    refine ⟨?_, ?_, ?_, ?_, ?_, ?_, ?_, ?_⟩ <;>
      (rw [hrec i _ hi (by decide) (by decide)]; simp [expandedField])
  · intro x hx hout
    rw [hm, if_neg hx, if_neg (by omega)]

/-- C4 at a concrete input: expanding the page at `0xff8000` of the sample machine
through `addr = 0xff8001`. -/
theorem C4_expand_collapsed_witness :
    ∃ t nf, h68k_GetExpandedFtable 257 demoIo 0xff8001 = .done (t, nf + 32 * 1) ∧
      t.mem_ptr = nf + 32 * 256 ∧
      t.mem (h68k_GetMmuDescriptor demoIo 0xff8001) = nf ∧
      t.mem (nf + 32 * 255 + 0) = 0x80007001 ∧ t.mem (nf + 32 * 255 + 20) = 0x80007006 ∧
      t.mem (nf + 32 * 255 + 28) = 256 := by
  obtain ⟨t, nf, h1, _, _, _, h2, h3, h4, _⟩ := C4_expand_collapsed 257 demoIo 8 (by decide)
    (by decide) 0xff8001 (by decide) (by decide) (by decide) (by decide) (by decide) (by decide)
    (by decide) (by decide)
  obtain ⟨h5, _, _, _, _, h6, _, h7⟩ := h4 255 (by decide)
  refine ⟨t, nf, h1, h2, h3, ?_, ?_, h7⟩
  · rw [h5]; decide
  · rw [h6]; decide

theorem store_same (s : State) (a v : Nat) (h : s.mem a = v) : s.store a v = s := by
  cases s
  simp only [State.store, State.mk.injEq, and_true]
  funext x
  split
  · rename_i hx; subst hx; exact h.symm
  · rfl

theorem GetExpandedFtable_expanded (fuel : Nat) (s : State) (k : Nat) (hk : 8 ≤ k ∧ k ≤ 15)
    (hps : s.h68k_mmu_pagesize = 2 ^ k) (addr : Nat) (haddr : addr < 4294967296)
    (hold : s.mem (h68k_GetMmuDescriptor s addr) ≠ 0)
    (hlen : s.mem (s.mem (h68k_GetMmuDescriptor s addr) + 28) ≠ 0) :
    h68k_GetExpandedFtable fuel s addr
      = .done (s, s.mem (h68k_GetMmuDescriptor s addr) + 32 * (addr % 2 ^ k)) := by
  have hp0 : 0 < 2 ^ k := Nat.two_pow_pos k
  have hbase : addr &&& not32 ((2 ^ k + 4294967295) % U32) = addr - addr % 2 ^ k := by
    rw [pagesize_mask k (by omega), and_not32_mask addr k haddr (by omega)]
  have hmle := Nat.mod_le addr (2 ^ k)
  have hoffs : (addr + U32 - (addr - addr % 2 ^ k)) % U32 = addr % 2 ^ k := by
    simp only [U32]; omega
  unfold h68k_GetExpandedFtable
  simp only [Nat.add_zero, hps, hbase, hoffs, if_neg hold, hlen, ne_eq, not_false_eq_true,
    if_true]

theorem MapIoByte_expanded (fuel : Nat) (s : State) (k : Nat) (hk : 8 ≤ k ∧ k ≤ 15)
    (hps : s.h68k_mmu_pagesize = 2 ^ k) (addr r w : Nat) (haddr : addr < 4294967296)
    (hold : s.mem (h68k_GetMmuDescriptor s addr) ≠ 0)
    (hlen : s.mem (s.mem (h68k_GetMmuDescriptor s addr) + 28) ≠ 0) :
    h68k_MapIoByte fuel s addr r w
      = .done ((s.store (s.mem (h68k_GetMmuDescriptor s addr) + 32 * (addr % 2 ^ k) + 0) r).store
          (s.mem (h68k_GetMmuDescriptor s addr) + 32 * (addr % 2 ^ k) + 12) w) := by
  unfold h68k_MapIoByte
  rw [GetExpandedFtable_expanded fuel s k hk hps addr haddr hold hlen]
  simp only
  rw [if_neg (by omega)]

theorem MapIoWord_expanded (fuel : Nat) (s : State) (k : Nat) (hk : 8 ≤ k ∧ k ≤ 15)
    (hps : s.h68k_mmu_pagesize = 2 ^ k) (addr r w : Nat) (haddr : addr < 4294967296)
    (hold : s.mem (h68k_GetMmuDescriptor s addr) ≠ 0)
    (hlen : s.mem (s.mem (h68k_GetMmuDescriptor s addr) + 28) ≠ 0) :
    h68k_MapIoWord fuel s addr r w
      = .done ((s.store (s.mem (h68k_GetMmuDescriptor s addr) + 32 * (addr % 2 ^ k) + 4) r).store
          (s.mem (h68k_GetMmuDescriptor s addr) + 32 * (addr % 2 ^ k) + 16) w) := by
  unfold h68k_MapIoWord
  rw [GetExpandedFtable_expanded fuel s k hk hps addr haddr hold hlen]
  simp only
  rw [if_neg (by omega)]

theorem MapIoLong_expanded (fuel : Nat) (s : State) (k : Nat) (hk : 8 ≤ k ∧ k ≤ 15)
    (hps : s.h68k_mmu_pagesize = 2 ^ k) (addr r w : Nat) (haddr : addr < 4294967296)
    (hold : s.mem (h68k_GetMmuDescriptor s addr) ≠ 0)
    (hlen : s.mem (s.mem (h68k_GetMmuDescriptor s addr) + 28) ≠ 0) :
    h68k_MapIoLong fuel s addr r w
      = .done ((s.store (s.mem (h68k_GetMmuDescriptor s addr) + 32 * (addr % 2 ^ k) + 8) r).store
          (s.mem (h68k_GetMmuDescriptor s addr) + 32 * (addr % 2 ^ k) + 20) w) := by
  unfold h68k_MapIoLong
  rw [GetExpandedFtable_expanded fuel s k hk hps addr haddr hold hlen]
  simp only
  rw [if_neg (by omega)]

theorem GetMmuDescriptor_congr (s t : State) (addr : Nat) (h : SameConfig s t) :
    h68k_GetMmuDescriptor t addr = h68k_GetMmuDescriptor s addr := by
  unfold h68k_GetMmuDescriptor
  rw [sameConfig_pagesize h, sameConfig_table h]

/-- A second identical `h68k_MapIoByte` on a state whose page is expanded and already
holds the two handlers changes nothing. -/
theorem MapIoByte_again (fuel : Nat) (u : State) (k : Nat) (hk : 8 ≤ k ∧ k ≤ 15)
    (hps : u.h68k_mmu_pagesize = 2 ^ k) (addr r w : Nat) (haddr : addr < 4294967296)
    (hold : u.mem (h68k_GetMmuDescriptor u addr) ≠ 0)
    (hlen : u.mem (u.mem (h68k_GetMmuDescriptor u addr) + 28) ≠ 0)
    (hr : u.mem (u.mem (h68k_GetMmuDescriptor u addr) + 32 * (addr % 2 ^ k) + 0) = r)
    (hw : u.mem (u.mem (h68k_GetMmuDescriptor u addr) + 32 * (addr % 2 ^ k) + 12) = w) :
    h68k_MapIoByte fuel u addr r w = .done u := by
  rw [MapIoByte_expanded fuel u k hk hps addr r w haddr hold hlen, store_same u _ r hr,
    store_same u _ w hw]

/-- C5. Page size `2^k`; the page holding `addr` references a handler table `old`
(collapsed or expanded) that lies, like the descriptor, below the allocation pointer, the
descriptor being outside the table; the arena has room for an expansion. Then
`h68k_MapIoByte(addr, r, w)` returns a state `s1`, and calling it again with the same
arguments on `s1` returns exactly `s1`: same memory, same allocation pointer, same
descriptor. -/
theorem C5_map_io_byte_idempotent (fuel : Nat) (s : State) (k : Nat) (hk : 8 ≤ k ∧ k ≤ 15)
    (hps : s.h68k_mmu_pagesize = 2 ^ k) (addr r w : Nat) (haddr : addr < 4294967296)
    (hold : s.mem (h68k_GetMmuDescriptor s addr) ≠ 0)
    (hatc : h68k_GetMmuDescriptor s addr < s.mem_ptr)
    (hout : h68k_GetMmuDescriptor s addr + 4 ≤ s.mem (h68k_GetMmuDescriptor s addr) ∨
      s.mem (h68k_GetMmuDescriptor s addr) + 32 * 2 ^ k ≤ h68k_GetMmuDescriptor s addr)
    (hsep : s.mem (h68k_GetMmuDescriptor s addr) + 32 ≤ s.mem_ptr)
    (hfit : alignUp s.mem_ptr 8 + 32 * 2 ^ k ≤ s.mem_top) (htop : s.mem_top < 4294967296)
    (hfuel : 2 ^ k < fuel) :
    ∃ s1, h68k_MapIoByte fuel s addr r w = .done s1 ∧
      h68k_MapIoByte fuel s1 addr r w = .done s1 := by
  have hp0 : 0 < 2 ^ k := Nat.two_pow_pos k
  have hmod := Nat.mod_lt addr hp0
  have hoff : 32 * (addr % 2 ^ k) + 32 ≤ 32 * 2 ^ k := by omega
  by_cases hlen : s.mem (s.mem (h68k_GetMmuDescriptor s addr) + 28) = 0
  · -- collapsed: the first call expands
    obtain ⟨t, ht, hc, hptr, hm⟩ := GetExpandedFtable_collapsed fuel s k hk hps addr haddr hold
      hlen hsep hfit htop hfuel
    obtain ⟨hb1, hb2, hb3⟩ := alignUp_bounds s.mem_ptr 8
    generalize alignUp s.mem_ptr 8 = nf at *
    have hdt : ∀ u : State, SameConfig t u →
        h68k_GetMmuDescriptor u addr = h68k_GetMmuDescriptor s addr := by
      intro u hu
      rw [GetMmuDescriptor_congr t u addr hu, GetMmuDescriptor_congr s t addr hc]
    generalize h68k_GetMmuDescriptor s addr = atc at *
    have hs1c : SameConfig t ((t.store (nf + 32 * (addr % 2 ^ k) + 0) r).store
        (nf + 32 * (addr % 2 ^ k) + 12) w) :=
      sameGlobals_config (sameGlobals_trans (sameGlobals_store _ _ _) (sameGlobals_store _ _ _))
    refine ⟨(t.store (nf + 32 * (addr % 2 ^ k) + 0) r).store (nf + 32 * (addr % 2 ^ k) + 12) w,
      ?_, ?_⟩
    · unfold h68k_MapIoByte
      rw [ht]
      simp only
      rw [if_neg (by omega)]
    · have hd := hdt _ hs1c
      have h1 : ((t.store (nf + 32 * (addr % 2 ^ k) + 0) r).store
          (nf + 32 * (addr % 2 ^ k) + 12) w).mem atc = nf := by
        simp only [store_mem]
        rw [if_neg (by omega), if_neg (by omega), hm, if_pos rfl]
      apply MapIoByte_again fuel _ k hk
        (by rw [sameConfig_pagesize hs1c, sameConfig_pagesize hc]; exact hps) addr r w haddr
      · rw [hd, h1]; omega
      · rw [hd, h1]
        simp only [store_mem]
        rw [if_neg (by omega), if_neg (by omega), hm, if_neg (by omega), if_pos (by omega)]
        have e : (nf + 28 - nf) % 32 = 28 := by omega
        rw [e]
        simp only [expandedField, if_true]
        omega
      · rw [hd, h1]
        simp [store_mem]
      · rw [hd, h1]
        simp [store_mem]
  · -- expanded already
    have hdt : ∀ u : State, SameConfig s u →
        h68k_GetMmuDescriptor u addr = h68k_GetMmuDescriptor s addr :=
      fun u hu => GetMmuDescriptor_congr s u addr hu
    have hexp := MapIoByte_expanded fuel s k hk hps addr r w haddr hold hlen
    generalize h68k_GetMmuDescriptor s addr = atc at *
    generalize hod : s.mem atc = old at *
    have hs1c : SameConfig s ((s.store (old + 32 * (addr % 2 ^ k) + 0) r).store
        (old + 32 * (addr % 2 ^ k) + 12) w) :=
      sameGlobals_config (sameGlobals_trans (sameGlobals_store _ _ _) (sameGlobals_store _ _ _))
    refine ⟨(s.store (old + 32 * (addr % 2 ^ k) + 0) r).store (old + 32 * (addr % 2 ^ k) + 12) w,
      ?_, ?_⟩
    · exact hexp
    · have hd := hdt _ hs1c
      have h1 : ((s.store (old + 32 * (addr % 2 ^ k) + 0) r).store
          (old + 32 * (addr % 2 ^ k) + 12) w).mem atc = old := by
        simp only [store_mem]
        rw [if_neg (by omega), if_neg (by omega), hod]
      apply MapIoByte_again fuel _ k hk
        (by rw [sameConfig_pagesize hs1c]; exact hps) addr r w haddr
      · rw [hd, h1]; exact hold
      · rw [hd, h1]
        simp only [store_mem]
        rw [if_neg (by omega), if_neg (by omega)]
        exact hlen
      · rw [hd, h1]
        simp [store_mem]
      · rw [hd, h1]
        simp [store_mem]

/-- C5 at a concrete input: `h68k_MapIoByte(0xff8001, 0x9001, 0x9002)` twice on the sample
machine; the first call expands the page at `0xff8000`. -/
theorem C5_map_io_byte_idempotent_witness :
    ∃ s1, h68k_MapIoByte 257 demoIo 0xff8001 0x9001 0x9002 = .done s1 ∧
      h68k_MapIoByte 257 s1 0xff8001 0x9001 0x9002 = .done s1 :=
  C5_map_io_byte_idempotent 257 demoIo 8 (by decide) (by decide) 0xff8001 0x9001 0x9002
    (by decide) (by decide) (by decide) (by decide) (by decide) (by decide) (by decide)
    (by decide)

theorem page_index_lt (a k : Nat) (hk : k ≤ 24) (ha : a < 16777216) :
    a / 2 ^ k < 16777216 / 2 ^ k := by
  have hd : 2 ^ k ∣ 16777216 := by
    have : (16777216 : Nat) = 2 ^ 24 := by decide
    rw [this]
    exact Nat.pow_dvd_pow 2 hk
  apply Nat.div_lt_of_lt_mul
  rw [Nat.mul_div_cancel' hd]
  exact ha

theorem MapIo_frame (s : State) (k : Nat) (hk : 8 ≤ k ∧ k ≤ 15)
    (hps : s.h68k_mmu_pagesize = 2 ^ k) (rec_ o1 o2 r w old : Nat)
    (hrec : old ≤ rec_ ∧ rec_ + 32 ≤ old + 32 * 2 ^ k) (ho : o1 < 32 ∧ o2 < 32 ∧ o1 ≠ o2)
    (hdisj : s.h68k_mmu_table + 8 * (0x01000000 / 2 ^ k) ≤ old ∨
      old + 32 * 2 ^ k ≤ s.h68k_mmu_table) :
    SameGlobals s ((s.store (rec_ + o1) r).store (rec_ + o2) w) ∧
    ((s.store (rec_ + o1) r).store (rec_ + o2) w).mem (rec_ + o1) = r ∧
    ((s.store (rec_ + o1) r).store (rec_ + o2) w).mem (rec_ + o2) = w ∧
    (∀ x, x ≠ rec_ + o1 → x ≠ rec_ + o2 →
      ((s.store (rec_ + o1) r).store (rec_ + o2) w).mem x = s.mem x) ∧
    (∀ a, a < 0x01000000 →
      ((s.store (rec_ + o1) r).store (rec_ + o2) w).mem
          (h68k_GetMmuDescriptor ((s.store (rec_ + o1) r).store (rec_ + o2) w) a)
        = s.mem (h68k_GetMmuDescriptor s a) ∧
      ((s.store (rec_ + o1) r).store (rec_ + o2) w).mem
          (h68k_GetMmuDescriptor ((s.store (rec_ + o1) r).store (rec_ + o2) w) a + 4)
        = s.mem (h68k_GetMmuDescriptor s a + 4)) := by
  have hp0 : 0 < 2 ^ k := Nat.two_pow_pos k
  refine ⟨sameGlobals_trans (sameGlobals_store _ _ _) (sameGlobals_store _ _ _), ?_, ?_, ?_, ?_⟩
  · simp only [store_mem]
    rw [if_neg (by omega)]
    simp
  · simp [store_mem]
  · intro x h1 h2
    simp only [store_mem]
    rw [if_neg h2, if_neg h1]
  · intro a ha
    have hd : h68k_GetMmuDescriptor ((s.store (rec_ + o1) r).store (rec_ + o2) w) a
        = h68k_GetMmuDescriptor s a := rfl
    have hj := page_index_lt a k (by omega) ha
    rw [hd, GetMmuDescriptor_eq s a (by rw [hps]; have := Nat.div_le_self a (2 ^ k); omega), hps]
    simp only [store_mem]
    rw [if_neg (by omega), if_neg (by omega), if_neg (by omega), if_neg (by omega)]
    exact ⟨rfl, rfl⟩

/-- C6. Page size `2^k`; the page holding `addr` references an expanded handler table
`old` (non-null, `len ≠ 0`) that does not overlap the descriptor table. With `rec_` the
record at offset `addr mod 2^k`: `h68k_MapIoByte(addr, r, w)` returns (with any fuel)
and sets `readB` (offset 0) to `r` and `writeB` (offset 12) to `w`; `h68k_MapIoWord` sets
`readW` (4) and `writeW` (16); `h68k_MapIoLong` sets `readL` (8) and `writeL` (20). In
each case every other word of memory is unchanged: the other fields of the record, the
other records, both words of every page descriptor; so are all globals. -/
theorem C6_map_io_frame (fuel : Nat) (s : State) (k : Nat) (hk : 8 ≤ k ∧ k ≤ 15)
    (hps : s.h68k_mmu_pagesize = 2 ^ k) (addr r w : Nat) (haddr : addr < 4294967296)
    (hold : s.mem (h68k_GetMmuDescriptor s addr) ≠ 0)
    (hlen : s.mem (s.mem (h68k_GetMmuDescriptor s addr) + 28) ≠ 0)
    (hdisj : s.h68k_mmu_table + 8 * (0x01000000 / 2 ^ k) ≤ s.mem (h68k_GetMmuDescriptor s addr) ∨
      s.mem (h68k_GetMmuDescriptor s addr) + 32 * 2 ^ k ≤ s.h68k_mmu_table) :
    (∃ t, h68k_MapIoByte fuel s addr r w = .done t ∧ SameGlobals s t ∧
      t.mem (s.mem (h68k_GetMmuDescriptor s addr) + 32 * (addr % 2 ^ k) + 0) = r ∧
      t.mem (s.mem (h68k_GetMmuDescriptor s addr) + 32 * (addr % 2 ^ k) + 12) = w ∧
      (∀ x, x ≠ s.mem (h68k_GetMmuDescriptor s addr) + 32 * (addr % 2 ^ k) + 0 →
        x ≠ s.mem (h68k_GetMmuDescriptor s addr) + 32 * (addr % 2 ^ k) + 12 →
        t.mem x = s.mem x) ∧
      (∀ a, a < 0x01000000 →
        t.mem (h68k_GetMmuDescriptor t a) = s.mem (h68k_GetMmuDescriptor s a) ∧
        t.mem (h68k_GetMmuDescriptor t a + 4) = s.mem (h68k_GetMmuDescriptor s a + 4))) ∧
    (∃ t, h68k_MapIoWord fuel s addr r w = .done t ∧ SameGlobals s t ∧
      t.mem (s.mem (h68k_GetMmuDescriptor s addr) + 32 * (addr % 2 ^ k) + 4) = r ∧
      t.mem (s.mem (h68k_GetMmuDescriptor s addr) + 32 * (addr % 2 ^ k) + 16) = w ∧
      (∀ x, x ≠ s.mem (h68k_GetMmuDescriptor s addr) + 32 * (addr % 2 ^ k) + 4 →
        x ≠ s.mem (h68k_GetMmuDescriptor s addr) + 32 * (addr % 2 ^ k) + 16 →
        t.mem x = s.mem x) ∧
      (∀ a, a < 0x01000000 →
        t.mem (h68k_GetMmuDescriptor t a) = s.mem (h68k_GetMmuDescriptor s a) ∧
        t.mem (h68k_GetMmuDescriptor t a + 4) = s.mem (h68k_GetMmuDescriptor s a + 4))) ∧
    (∃ t, h68k_MapIoLong fuel s addr r w = .done t ∧ SameGlobals s t ∧
      t.mem (s.mem (h68k_GetMmuDescriptor s addr) + 32 * (addr % 2 ^ k) + 8) = r ∧
      t.mem (s.mem (h68k_GetMmuDescriptor s addr) + 32 * (addr % 2 ^ k) + 20) = w ∧
      (∀ x, x ≠ s.mem (h68k_GetMmuDescriptor s addr) + 32 * (addr % 2 ^ k) + 8 →
        x ≠ s.mem (h68k_GetMmuDescriptor s addr) + 32 * (addr % 2 ^ k) + 20 →
        t.mem x = s.mem x) ∧
      (∀ a, a < 0x01000000 →
        t.mem (h68k_GetMmuDescriptor t a) = s.mem (h68k_GetMmuDescriptor s a) ∧
        t.mem (h68k_GetMmuDescriptor t a + 4) = s.mem (h68k_GetMmuDescriptor s a + 4))) := by
  have hp0 : 0 < 2 ^ k := Nat.two_pow_pos k
  have hmod := Nat.mod_lt addr hp0
  have hrec : s.mem (h68k_GetMmuDescriptor s addr)
        ≤ s.mem (h68k_GetMmuDescriptor s addr) + 32 * (addr % 2 ^ k) ∧
      s.mem (h68k_GetMmuDescriptor s addr) + 32 * (addr % 2 ^ k) + 32
        ≤ s.mem (h68k_GetMmuDescriptor s addr) + 32 * 2 ^ k := by omega
  refine ⟨⟨_, MapIoByte_expanded fuel s k hk hps addr r w haddr hold hlen,
      MapIo_frame s k hk hps _ 0 12 r w _ hrec (by decide) hdisj⟩,
    ⟨_, MapIoWord_expanded fuel s k hk hps addr r w haddr hold hlen,
      MapIo_frame s k hk hps _ 4 16 r w _ hrec (by decide) hdisj⟩,
    ⟨_, MapIoLong_expanded fuel s k hk hps addr r w haddr hold hlen,
      MapIo_frame s k hk hps _ 8 20 r w _ hrec (by decide) hdisj⟩⟩

/-- C6 at a concrete input: `h68k_MapIoWord(0xff8003, 0xA001, 0xA002)` on the expanded page
of the sample machine sets `readW` and `writeW` of record 3 and keeps its inherited
`readB`. -/
theorem C6_map_io_frame_witness :
    ∃ t, h68k_MapIoWord 0 demoExp 0xff8003 0xA001 0xA002 = .done t ∧
      t.mem (demoExp.mem (h68k_GetMmuDescriptor demoExp 0xff8003) + 32 * 3 + 4) = 0xA001 ∧
      t.mem (demoExp.mem (h68k_GetMmuDescriptor demoExp 0xff8003) + 32 * 3 + 16) = 0xA002 ∧
      t.mem (demoExp.mem (h68k_GetMmuDescriptor demoExp 0xff8003) + 32 * 3 + 0) = 0x80007001 := by
  obtain ⟨_, ⟨t, h1, _, h2, h3, h4, _⟩, _⟩ := C6_map_io_frame 0 demoExp 8 (by decide) (by decide)
    0xff8003 0xA001 0xA002 (by decide) (by decide) (by decide) (by decide)
  refine ⟨t, h1, h2, h3, ?_⟩
  rw [h4 _ (by decide) (by decide)]
  decide

/-! ## The inner loops of `h68k_PrepareFtables` -/

theorem words_read_spec (A : Sym → Nat) (e0 e1 : Nat) (s : State) :
    SameGlobals s (PrepareFtables_words_read A e0 e1 s) ∧
    ∀ x, (PrepareFtables_words_read A e0 e1 s).mem x
      = if x = e0 + 4 then
          narrowWord (A .h68k_IoReadWordBB) (s.mem (e0 + 4)) (s.mem e0) (s.mem e1)
        else s.mem x := by
  unfold PrepareFtables_words_read narrowWord
  simp only [Nat.add_zero]
  constructor
  · split
    · exact sameGlobals_store _ _ _
    · exact sameGlobals_refl s
  · intro x
    by_cases h : s.mem (e0 + 4) &&& 2147483648 ≠ 0
    · rw [if_pos h, if_pos h]; rfl
    · rw [if_neg h, if_neg h]
      split
      · rename_i hx; rw [hx]
      · rfl

theorem words_write_spec (A : Sym → Nat) (e0 e1 : Nat) (s : State) :
    SameGlobals s (PrepareFtables_words_write A e0 e1 s) ∧
    ∀ x, (PrepareFtables_words_write A e0 e1 s).mem x
      = if x = e0 + 16 then
          narrowWord (A .h68k_IoWriteWordBB) (s.mem (e0 + 16)) (s.mem (e0 + 12)) (s.mem (e1 + 12))
        else s.mem x := by
  unfold PrepareFtables_words_write narrowWord
  constructor
  · split
    · exact sameGlobals_store _ _ _
    · exact sameGlobals_refl s
  · intro x
    by_cases h : s.mem (e0 + 16) &&& 2147483648 ≠ 0
    · rw [if_pos h, if_pos h]; rfl
    · rw [if_neg h, if_neg h]
      split
      · rename_i hx; rw [hx]
      · rfl

theorem longs_read_spec (A : Sym → Nat) (e0 e1 : Nat) (s : State) :
    SameGlobals s (PrepareFtables_longs_read A e0 e1 s) ∧
    ∀ x, (PrepareFtables_longs_read A e0 e1 s).mem x
      = if x = e0 + 8 then
          narrowLong (A .h68k_IoReadWordBB) (A .h68k_IoReadLongBBBB) (A .h68k_IoReadLongBBW)
            (A .h68k_IoReadLongWBB) (A .h68k_IoReadLongWW)
            (s.mem (e0 + 8)) (s.mem (e0 + 4)) (s.mem (e1 + 4))
        else s.mem x := by
  unfold PrepareFtables_longs_read narrowLong
  constructor
  · repeat' split
    all_goals first | exact sameGlobals_store _ _ _ | exact sameGlobals_refl s
  · intro x
    by_cases hx : x = e0 + 8
    · subst hx
      rw [if_pos rfl]
      repeat' split
      all_goals simp [store_mem]
    · rw [if_neg hx]
      repeat' split
      all_goals simp [store_mem, hx]

theorem longs_write_spec (A : Sym → Nat) (e0 e1 : Nat) (s : State) :
    SameGlobals s (PrepareFtables_longs_write A e0 e1 s) ∧
    ∀ x, (PrepareFtables_longs_write A e0 e1 s).mem x
      = if x = e0 + 20 then
          narrowLong (A .h68k_IoWriteWordBB) (A .h68k_IoWriteLongBBBB) (A .h68k_IoWriteLongBBW)
            (A .h68k_IoWriteLongWBB) (A .h68k_IoWriteLongWW)
            (s.mem (e0 + 20)) (s.mem (e0 + 16)) (s.mem (e1 + 16))
        else s.mem x := by
  unfold PrepareFtables_longs_write narrowLong
  constructor
  · repeat' split
    all_goals first | exact sameGlobals_store _ _ _ | exact sameGlobals_refl s
  · intro x
    by_cases hx : x = e0 + 20
    · subst hx
      rw [if_pos rfl]
      repeat' split
      all_goals simp [store_mem]
    · rw [if_neg hx]
      repeat' split
      all_goals simp [store_mem, hx]

theorem bytes_odd_spec (A : Sym → Nat) (e0 idx : Nat) (s : State) :
    SameGlobals s (PrepareFtables_bytes_odd A e0 idx s) ∧
    ∀ x, (PrepareFtables_bytes_odd A e0 idx s).mem x
      = if idx % 2 = 1 ∧ (x = e0 + 4 ∨ x = e0 + 16) then A .h68k_IoBerrWord
        else if idx % 2 = 1 ∧ (x = e0 + 8 ∨ x = e0 + 20) then A .h68k_IoBerrLong
        else s.mem x := by
  unfold PrepareFtables_bytes_odd
  rw [Nat.and_one_is_mod]
  constructor
  · split
    · exact sameGlobals_trans (sameGlobals_trans (sameGlobals_trans (sameGlobals_store _ _ _)
        (sameGlobals_store _ _ _)) (sameGlobals_store _ _ _)) (sameGlobals_store _ _ _)
    · exact sameGlobals_refl s
  · intro x
    by_cases h : idx % 2 = 1
    · rw [if_pos (by omega)]
      simp only [store_mem, h, true_and]
      by_cases h4 : x = e0 + 4
      · subst h4; simp
      · by_cases h16 : x = e0 + 16
        · subst h16; simp
        · by_cases h8 : x = e0 + 8
          · subst h8; simp
          · by_cases h20 : x = e0 + 20
            · subst h20; simp
            · simp [h4, h8, h16, h20]
    · rw [if_neg (by omega)]
      simp [h]

theorem bytes_clear_spec (e0 o : Nat) (s : State) :
    SameGlobals s (PrepareFtables_bytes_clear e0 o s) ∧
    ∀ x, (PrepareFtables_bytes_clear e0 o s).mem x
      = if x = e0 + o then clearTag (s.mem x) else s.mem x := by
  unfold PrepareFtables_bytes_clear clearTag
  constructor
  · split
    · exact sameGlobals_store _ _ _
    · exact sameGlobals_refl s
  · intro x
    by_cases hx : x = e0 + o
    · subst hx
      rw [if_pos rfl]
      split <;> simp [store_mem]
    · rw [if_neg hx]
      split <;> simp [store_mem, hx]


theorem PrepareFtables_words_spec (A : Sym → Nat) (r p : Nat) (hp : p ≤ 32768)
    (hpe : p % 2 = 0) :
    ∀ (fuel : Nat) (s : State) (i : Nat), s.h68k_mmu_pagesize = p → i % 2 = 0 → i ≤ p →
      p - i < 2 * fuel →
      ∃ t, PrepareFtables_words A r fuel s i = .done t ∧ SameGlobals s t ∧
        t.mem = wordsMem A s.mem r i p := by
  intro fuel
  induction fuel with
  | zero => intro s i _ _ _ h; omega
  | succ fuel ih =>
    intro s i hps hi2 hip hfuel
    unfold PrepareFtables_words
    by_cases hlt : i < p
    · rw [hps, if_pos hlt]
      have e1 : (i + 2) % 65536 = i + 2 := by omega
      simp only [e1, Nat.add_zero]
      obtain ⟨hg1, hm1⟩ := words_read_spec A (r + 32 * i) (r + 32 * (i + 1)) s
      generalize PrepareFtables_words_read A (r + 32 * i) (r + 32 * (i + 1)) s = s1 at *
      obtain ⟨hg2, hm2⟩ := words_write_spec A (r + 32 * i) (r + 32 * (i + 1)) s1
      generalize PrepareFtables_words_write A (r + 32 * i) (r + 32 * (i + 1)) s1 = s2 at *
      obtain ⟨t, ht, hg, hm⟩ := ih s2 (i + 2)
        (by rw [sameGlobals_pagesize hg2, sameGlobals_pagesize hg1]; exact hps) (by omega)
        (by omega) (by omega)
      refine ⟨t, ht, sameGlobals_trans hg1 (sameGlobals_trans hg2 hg), ?_⟩
      rw [hm]
      funext x
      have key : ∀ y, y ≠ r + 32 * i + 4 → y ≠ r + 32 * i + 16 → s2.mem y = s.mem y := by
        intro y h1 h2
        rw [hm2, if_neg h2, hm1, if_neg h1]
      simp only [wordsMem]
      by_cases h4 : x = r + 32 * i + 4
      · subst h4
        have hl1 : ¬ (r + 32 * (i + 2) ≤ r + 32 * i + 4 ∧ r + 32 * i + 4 < r + 32 * p ∧
            (r + 32 * i + 4 - r) / 32 % 2 = 0 ∧ (r + 32 * i + 4 - r) % 32 = 4) := by omega
        have hl2 : ¬ (r + 32 * (i + 2) ≤ r + 32 * i + 4 ∧ r + 32 * i + 4 < r + 32 * p ∧
            (r + 32 * i + 4 - r) / 32 % 2 = 0 ∧ (r + 32 * i + 4 - r) % 32 = 16) := by omega
        have hr1 : r + 32 * i ≤ r + 32 * i + 4 ∧ r + 32 * i + 4 < r + 32 * p ∧
            (r + 32 * i + 4 - r) / 32 % 2 = 0 ∧ (r + 32 * i + 4 - r) % 32 = 4 := by omega
        rw [if_neg hl1, if_neg hl2, if_pos hr1, hm2, if_neg (by omega), hm1, if_pos rfl]
        rw [show r + 32 * i + 4 - 4 = r + 32 * i by omega,
          show r + 32 * i + 4 + 28 = r + 32 * (i + 1) by omega]
      · by_cases h16 : x = r + 32 * i + 16
        · subst h16
          have hl1 : ¬ (r + 32 * (i + 2) ≤ r + 32 * i + 16 ∧ r + 32 * i + 16 < r + 32 * p ∧
              (r + 32 * i + 16 - r) / 32 % 2 = 0 ∧ (r + 32 * i + 16 - r) % 32 = 4) := by omega
          have hl2 : ¬ (r + 32 * (i + 2) ≤ r + 32 * i + 16 ∧ r + 32 * i + 16 < r + 32 * p ∧
              (r + 32 * i + 16 - r) / 32 % 2 = 0 ∧ (r + 32 * i + 16 - r) % 32 = 16) := by omega
          have hr1 : ¬ (r + 32 * i ≤ r + 32 * i + 16 ∧ r + 32 * i + 16 < r + 32 * p ∧
              (r + 32 * i + 16 - r) / 32 % 2 = 0 ∧ (r + 32 * i + 16 - r) % 32 = 4) := by omega
          have hr2 : r + 32 * i ≤ r + 32 * i + 16 ∧ r + 32 * i + 16 < r + 32 * p ∧
              (r + 32 * i + 16 - r) / 32 % 2 = 0 ∧ (r + 32 * i + 16 - r) % 32 = 16 := by omega
          rw [if_neg hl1, if_neg hl2, if_neg hr1, if_pos hr2, hm2, if_pos rfl, hm1,
            if_neg (by omega), hm1, if_neg (by omega), hm1, if_neg (by omega)]
          rw [show r + 32 * i + 16 - 4 = r + 32 * i + 12 by omega,
            show r + 32 * i + 16 + 28 = r + 32 * (i + 1) + 12 by omega]
        · by_cases hc1 : r + 32 * (i + 2) ≤ x ∧ x < r + 32 * p ∧ (x - r) / 32 % 2 = 0 ∧
              (x - r) % 32 = 4
          · have hr1 : r + 32 * i ≤ x ∧ x < r + 32 * p ∧ (x - r) / 32 % 2 = 0 ∧
                (x - r) % 32 = 4 := by omega
            rw [if_pos hc1, if_pos hr1, key x h4 h16, key (x - 4) (by omega) (by omega),
              key (x + 28) (by omega) (by omega)]
          · have hr1 : ¬ (r + 32 * i ≤ x ∧ x < r + 32 * p ∧ (x - r) / 32 % 2 = 0 ∧
                (x - r) % 32 = 4) := by omega
            rw [if_neg hc1, if_neg hr1]
            by_cases hc2 : r + 32 * (i + 2) ≤ x ∧ x < r + 32 * p ∧ (x - r) / 32 % 2 = 0 ∧
                (x - r) % 32 = 16
            · have hr2 : r + 32 * i ≤ x ∧ x < r + 32 * p ∧ (x - r) / 32 % 2 = 0 ∧
                  (x - r) % 32 = 16 := by omega
              rw [if_pos hc2, if_pos hr2, key x h4 h16,
                key (x - 4) (by omega) (by omega), key (x + 28) (by omega) (by omega)]
            · have hr2 : ¬ (r + 32 * i ≤ x ∧ x < r + 32 * p ∧ (x - r) / 32 % 2 = 0 ∧
                  (x - r) % 32 = 16) := by omega
              rw [if_neg hc2, if_neg hr2, key x h4 h16]
    · rw [hps, if_neg hlt]
      refine ⟨s, rfl, sameGlobals_refl s, ?_⟩
      funext x
      unfold wordsMem
      rw [if_neg (by omega), if_neg (by omega)]

theorem PrepareFtables_longs_spec (A : Sym → Nat) (r p : Nat) (hp : p ≤ 32768)
    (hpe : p % 2 = 0) :
    ∀ (fuel : Nat) (s : State) (i : Nat), s.h68k_mmu_pagesize = p → i % 2 = 0 → i ≤ p →
      p - i < 2 * fuel →
      ∃ t, PrepareFtables_longs A r fuel s i = .done t ∧ SameGlobals s t ∧
        t.mem = longsMem A s.mem r i p := by
  intro fuel
  induction fuel with
  | zero => intro s i _ _ _ h; omega
  | succ fuel ih =>
    intro s i hps hi2 hip hfuel
    unfold PrepareFtables_longs
    by_cases hlt : i < p
    · rw [hps, if_pos hlt]
      have e1 : (i + 2) % 65536 = i + 2 := by omega
      simp only [e1, Nat.add_zero]
      obtain ⟨hg1, hm1⟩ := longs_read_spec A (r + 32 * i) (r + 32 * (i + 2)) s
      generalize PrepareFtables_longs_read A (r + 32 * i) (r + 32 * (i + 2)) s = s1 at *
      obtain ⟨hg2, hm2⟩ := longs_write_spec A (r + 32 * i) (r + 32 * (i + 2)) s1
      generalize PrepareFtables_longs_write A (r + 32 * i) (r + 32 * (i + 2)) s1 = s2 at *
      obtain ⟨t, ht, hg, hm⟩ := ih s2 (i + 2)
        (by rw [sameGlobals_pagesize hg2, sameGlobals_pagesize hg1]; exact hps) (by omega)
        (by omega) (by omega)
      refine ⟨t, ht, sameGlobals_trans hg1 (sameGlobals_trans hg2 hg), ?_⟩
      rw [hm]
      funext x
      have key : ∀ y, y ≠ r + 32 * i + 8 → y ≠ r + 32 * i + 20 → s2.mem y = s.mem y := by
        intro y h1 h2
        rw [hm2, if_neg h2, hm1, if_neg h1]
      simp only [longsMem]
      by_cases h4 : x = r + 32 * i + 8
      · subst h4
        have hl1 : ¬ (r + 32 * (i + 2) ≤ r + 32 * i + 8 ∧ r + 32 * i + 8 < r + 32 * p ∧
            (r + 32 * i + 8 - r) / 32 % 2 = 0 ∧ (r + 32 * i + 8 - r) % 32 = 8) := by omega
        have hl2 : ¬ (r + 32 * (i + 2) ≤ r + 32 * i + 8 ∧ r + 32 * i + 8 < r + 32 * p ∧
            (r + 32 * i + 8 - r) / 32 % 2 = 0 ∧ (r + 32 * i + 8 - r) % 32 = 20) := by omega
        have hr1 : r + 32 * i ≤ r + 32 * i + 8 ∧ r + 32 * i + 8 < r + 32 * p ∧
            (r + 32 * i + 8 - r) / 32 % 2 = 0 ∧ (r + 32 * i + 8 - r) % 32 = 8 := by omega
        rw [if_neg hl1, if_neg hl2, if_pos hr1, hm2, if_neg (by omega), hm1, if_pos rfl]
        rw [show r + 32 * i + 8 - 4 = r + 32 * i + 4 by omega,
          show r + 32 * i + 8 + 60 = r + 32 * (i + 2) + 4 by omega]
      · by_cases h16 : x = r + 32 * i + 20
        · subst h16
          have hl1 : ¬ (r + 32 * (i + 2) ≤ r + 32 * i + 20 ∧ r + 32 * i + 20 < r + 32 * p ∧
              (r + 32 * i + 20 - r) / 32 % 2 = 0 ∧ (r + 32 * i + 20 - r) % 32 = 8) := by omega
          have hl2 : ¬ (r + 32 * (i + 2) ≤ r + 32 * i + 20 ∧ r + 32 * i + 20 < r + 32 * p ∧
              (r + 32 * i + 20 - r) / 32 % 2 = 0 ∧ (r + 32 * i + 20 - r) % 32 = 20) := by omega
          have hr1 : ¬ (r + 32 * i ≤ r + 32 * i + 20 ∧ r + 32 * i + 20 < r + 32 * p ∧
              (r + 32 * i + 20 - r) / 32 % 2 = 0 ∧ (r + 32 * i + 20 - r) % 32 = 8) := by omega
          have hr2 : r + 32 * i ≤ r + 32 * i + 20 ∧ r + 32 * i + 20 < r + 32 * p ∧
              (r + 32 * i + 20 - r) / 32 % 2 = 0 ∧ (r + 32 * i + 20 - r) % 32 = 20 := by omega
          rw [if_neg hl1, if_neg hl2, if_neg hr1, if_pos hr2, hm2, if_pos rfl, hm1,
            if_neg (by omega), hm1, if_neg (by omega), hm1, if_neg (by omega)]
          rw [show r + 32 * i + 20 - 4 = r + 32 * i + 16 by omega,
            show r + 32 * i + 20 + 60 = r + 32 * (i + 2) + 16 by omega]
        · by_cases hc1 : r + 32 * (i + 2) ≤ x ∧ x < r + 32 * p ∧ (x - r) / 32 % 2 = 0 ∧
              (x - r) % 32 = 8
          · have hr1 : r + 32 * i ≤ x ∧ x < r + 32 * p ∧ (x - r) / 32 % 2 = 0 ∧
                (x - r) % 32 = 8 := by omega
            rw [if_pos hc1, if_pos hr1, key x h4 h16, key (x - 4) (by omega) (by omega),
              key (x + 60) (by omega) (by omega)]
          · have hr1 : ¬ (r + 32 * i ≤ x ∧ x < r + 32 * p ∧ (x - r) / 32 % 2 = 0 ∧
                (x - r) % 32 = 8) := by omega
            rw [if_neg hc1, if_neg hr1]
            by_cases hc2 : r + 32 * (i + 2) ≤ x ∧ x < r + 32 * p ∧ (x - r) / 32 % 2 = 0 ∧
                (x - r) % 32 = 20
            · have hr2 : r + 32 * i ≤ x ∧ x < r + 32 * p ∧ (x - r) / 32 % 2 = 0 ∧
                  (x - r) % 32 = 20 := by omega
              rw [if_pos hc2, if_pos hr2, key x h4 h16,
                key (x - 4) (by omega) (by omega), key (x + 60) (by omega) (by omega)]
            · have hr2 : ¬ (r + 32 * i ≤ x ∧ x < r + 32 * p ∧ (x - r) / 32 % 2 = 0 ∧
                  (x - r) % 32 = 20) := by omega
              rw [if_neg hc2, if_neg hr2, key x h4 h16]
    · rw [hps, if_neg hlt]
      refine ⟨s, rfl, sameGlobals_refl s, ?_⟩
      funext x
      unfold longsMem
      rw [if_neg (by omega), if_neg (by omega)]



theorem PrepareFtables_bytes_spec (A : Sym → Nat) (r p : Nat) (hp : p ≤ 32768) :
    ∀ (fuel : Nat) (s : State) (i : Nat), s.h68k_mmu_pagesize = p → i ≤ p → p - i < fuel →
      ∃ t, PrepareFtables_bytes A r fuel s i = .done t ∧ SameGlobals s t ∧
        t.mem = bytesMem A s.mem r i p := by
  intro fuel
  induction fuel with
  | zero => intro s i _ _ h; omega
  | succ fuel ih =>
    intro s i hps hip hfuel
    unfold PrepareFtables_bytes
    by_cases hlt : i < p
    · rw [hps, if_pos hlt]
      have e1 : (i + 1) % 65536 = i + 1 := by omega
      simp only [e1, Nat.add_zero]
      obtain ⟨hg1, hm1⟩ := bytes_odd_spec A (r + 32 * i) i s
      generalize PrepareFtables_bytes_odd A (r + 32 * i) i s = s1 at *
      obtain ⟨hg2, hm2⟩ := bytes_clear_spec (r + 32 * i) 0 s1
      generalize PrepareFtables_bytes_clear (r + 32 * i) 0 s1 = s2 at *
      obtain ⟨hg3, hm3⟩ := bytes_clear_spec (r + 32 * i) 12 s2
      generalize PrepareFtables_bytes_clear (r + 32 * i) 12 s2 = s3 at *
      obtain ⟨t, ht, hg, hm⟩ := ih s3 (i + 1)
        (by rw [sameGlobals_pagesize hg3, sameGlobals_pagesize hg2, sameGlobals_pagesize hg1]
            exact hps) (by omega) (by omega)
      refine ⟨t, ht, sameGlobals_trans hg1 (sameGlobals_trans hg2 (sameGlobals_trans hg3 hg)), ?_⟩
      rw [hm]
      funext x
      have hs3 : ∀ y, s3.mem y
          = if y = r + 32 * i + 12 ∨ y = r + 32 * i + 0 then clearTag (s.mem y)
            else if i % 2 = 1 ∧ (y = r + 32 * i + 4 ∨ y = r + 32 * i + 16) then A .h68k_IoBerrWord
            else if i % 2 = 1 ∧ (y = r + 32 * i + 8 ∨ y = r + 32 * i + 20) then A .h68k_IoBerrLong
            else s.mem y := by
        intro y
        rw [hm3]
        by_cases h12 : y = r + 32 * i + 12
        · subst h12
          rw [if_pos rfl, if_pos (Or.inl rfl), hm2, if_neg (by omega), hm1, if_neg (by omega),
            if_neg (by omega)]
        · rw [if_neg h12, hm2]
          by_cases h0 : y = r + 32 * i + 0
          · subst h0
            rw [if_pos rfl, if_pos (Or.inr rfl), hm1, if_neg (by omega), if_neg (by omega)]
          · rw [if_neg h0, if_neg (by omega), hm1]
      simp only [bytesMem]
      by_cases hc1 : r + 32 * (i + 1) ≤ x ∧ x < r + 32 * p
      · have hk : s3.mem x = s.mem x := by
          rw [hs3, if_neg (by omega), if_neg (by omega), if_neg (by omega)]
        have hr : r + 32 * i ≤ x ∧ x < r + 32 * p := by omega
        rw [if_pos hc1, if_pos hr, hk]
      · rw [if_neg hc1]
        by_cases hc2 : r + 32 * i ≤ x ∧ x < r + 32 * p
        · have hdiv : (x - r) / 32 = i := by omega
          rw [if_pos hc2, hs3, hdiv]
          by_cases ha : (x - r) % 32 = 0 ∨ (x - r) % 32 = 12
          · have ha2 : x = r + 32 * i + 12 ∨ x = r + 32 * i + 0 := by omega
            rw [if_pos ha, if_pos ha2]
          · have ha2 : ¬ (x = r + 32 * i + 12 ∨ x = r + 32 * i + 0) := by omega
            rw [if_neg ha, if_neg ha2]
            by_cases hb : i % 2 = 1 ∧ ((x - r) % 32 = 4 ∨ (x - r) % 32 = 16)
            · have hb2 : i % 2 = 1 ∧ (x = r + 32 * i + 4 ∨ x = r + 32 * i + 16) := by omega
              rw [if_pos hb, if_pos hb2]
            · have hb2 : ¬ (i % 2 = 1 ∧ (x = r + 32 * i + 4 ∨ x = r + 32 * i + 16)) := by omega
              rw [if_neg hb, if_neg hb2]
              by_cases hd : i % 2 = 1 ∧ ((x - r) % 32 = 8 ∨ (x - r) % 32 = 20)
              · have hd2 : i % 2 = 1 ∧ (x = r + 32 * i + 8 ∨ x = r + 32 * i + 20) := by omega
                rw [if_pos hd, if_pos hd2]
              · have hd2 : ¬ (i % 2 = 1 ∧ (x = r + 32 * i + 8 ∨ x = r + 32 * i + 20)) := by
                  omega
                rw [if_neg hd, if_neg hd2]
        · rw [if_neg hc2, hs3, if_neg (by omega), if_neg (by omega), if_neg (by omega)]
    · rw [hps, if_neg hlt]
      refine ⟨s, rfl, sameGlobals_refl s, ?_⟩
      funext x
      unfold bytesMem
      rw [if_neg (by omega)]

/-! ## One page of `h68k_PrepareFtables` -/

theorem PrepareFtables_stage1_spec (A : Sym → Nat) (s : State) (ud1 : Nat) :
    SameGlobals s (PrepareFtables_stage1 A s ud1) ∧
    (PrepareFtables_stage1 A s ud1).mem = stage1Mem A s.mem ud1 := by
  have hr : List.range' 8 8 = [8, 9, 10, 11, 12, 13, 14, 15] := by decide
  constructor
  · unfold PrepareFtables_stage1
    simp only [hr, List.foldl_cons, List.foldl_nil]
    exact ⟨_, rfl⟩
  · funext x
    unfold PrepareFtables_stage1 stage1Mem
    simp only [hr, List.foldl_cons, List.foldl_nil, store_mem]
    by_cases hx : ud1 ≤ x ∧ x < ud1 + 64 ∧ (x - ud1) % 4 = 0
    · rw [if_pos hx]
      obtain ⟨j, hj, hxj⟩ : ∃ j, j < 16 ∧ x = ud1 + 4 * j := ⟨(x - ud1) / 4, by omega, by omega⟩
      subst hxj
      have e : (ud1 + 4 * j - ud1) / 4 = j := by omega
      rw [e]
      interval_cases j <;> simp [stage1Entry]
    · rw [if_neg hx]
      repeat rw [if_neg (by omega)]

theorem PrepareFtables_page_spec (A : Sym → Nat) (fuel : Nat) (s : State) (k : Nat)
    (hk : 8 ≤ k ∧ k ≤ 15) (hps : s.h68k_mmu_pagesize = 2 ^ k) (j : Nat) (hj : j < 65536)
    (hfuel : 2 ^ k < fuel) :
    ∃ t, PrepareFtables_page A fuel s (j * 2 ^ k) = .done t ∧ SameGlobals s t ∧
      ((isExpanded s j ∧
        t.mem = pageMem A s.mem (s.mem (s.h68k_mmu_table + 8 * j))
          (s.mem (s.h68k_mmu_table + 8 * j + 4)) (2 ^ k)) ∨
       (¬ isExpanded s j ∧ t = s)) := by
  have hp0 : 0 < 2 ^ k := Nat.two_pow_pos k
  have hp15 : 2 ^ k ≤ 32768 := by
    calc 2 ^ k ≤ 2 ^ 15 := Nat.pow_le_pow_right (by decide) hk.2
      _ = 32768 := by decide
  have hpe : 2 ^ k % 2 = 0 := by
    have : 2 ^ k = 2 * 2 ^ (k - 1) := by
      rw [← Nat.pow_succ']; congr 1; omega
    omega
  have hdesc : h68k_GetMmuDescriptor s (j * 2 ^ k) = s.h68k_mmu_table + 8 * j := by
    unfold h68k_GetMmuDescriptor
    rw [hps, Nat.mul_div_cancel _ hp0]
    simp only [U32]; omega
  unfold PrepareFtables_page
  simp only [hdesc, Nat.add_zero]
  by_cases h1 : s.mem (s.h68k_mmu_table + 8 * j) &&& 255 ≠ 0
  · rw [if_pos h1]
    exact ⟨s, rfl, sameGlobals_refl s, Or.inr ⟨fun h => h1 h.1, rfl⟩⟩
  · rw [if_neg h1]
    by_cases h2 : s.mem (s.h68k_mmu_table + 8 * j) = 0 ∨
        s.mem (s.mem (s.h68k_mmu_table + 8 * j) + 28) = 0
    · rw [if_pos h2]
      refine ⟨s, rfl, sameGlobals_refl s, Or.inr ⟨?_, rfl⟩⟩
      intro h
      rcases h2 with h2 | h2
      · exact h.2.1 h2
      · exact h.2.2 h2
    · rw [if_neg h2]
      obtain ⟨hg1, hm1⟩ := PrepareFtables_stage1_spec A s (s.mem (s.h68k_mmu_table + 8 * j + 4))
      generalize PrepareFtables_stage1 A s (s.mem (s.h68k_mmu_table + 8 * j + 4)) = s1 at *
      obtain ⟨s2, hr2, hg2, hm2⟩ := PrepareFtables_words_spec A
        (s.mem (s.h68k_mmu_table + 8 * j)) (2 ^ k) hp15 hpe fuel s1 0
        (by rw [sameGlobals_pagesize hg1]; exact hps) (by decide) (by omega) (by omega)
      obtain ⟨s3, hr3, hg3, hm3⟩ := PrepareFtables_longs_spec A
        (s.mem (s.h68k_mmu_table + 8 * j)) (2 ^ k) hp15 hpe fuel s2 0
        (by rw [sameGlobals_pagesize hg2, sameGlobals_pagesize hg1]; exact hps) (by decide)
        (by omega) (by omega)
      obtain ⟨s4, hr4, hg4, hm4⟩ := PrepareFtables_bytes_spec A
        (s.mem (s.h68k_mmu_table + 8 * j)) (2 ^ k) hp15 fuel s3 0
        (by rw [sameGlobals_pagesize hg3, sameGlobals_pagesize hg2, sameGlobals_pagesize hg1]
            exact hps) (by omega) (by omega)
      rw [hr2]
      simp only
      rw [hr3]
      simp only
      rw [hr4]
      refine ⟨s4, rfl, sameGlobals_trans hg1 (sameGlobals_trans hg2 (sameGlobals_trans hg3 hg4)),
        Or.inl ⟨⟨by simpa using h1, fun h => h2 (Or.inl h), fun h => h2 (Or.inr h)⟩, ?_⟩⟩
      rw [hm4, hm3, hm2, hm1]
      rfl


theorem pageMem_frame (A : Sym → Nat) (m : Nat → Nat) (r ud1 p x : Nat)
    (h : ¬ ((r ≤ x ∧ x < r + 32 * p ∧ (x - r) % 32 < 24) ∨ (ud1 ≤ x ∧ x < ud1 + 64))) :
    pageMem A m r ud1 p x = m x := by
  have hb : bytesMem A (longsMem A (wordsMem A (stage1Mem A m ud1) r 0 p) r 0 p) r 0 p x
      = longsMem A (wordsMem A (stage1Mem A m ud1) r 0 p) r 0 p x := by
    simp only [bytesMem]
    by_cases hc : r + 32 * 0 ≤ x ∧ x < r + 32 * p
    · rw [if_pos hc, if_neg (by omega), if_neg (by omega), if_neg (by omega)]
    · rw [if_neg hc]
  have hl : longsMem A (wordsMem A (stage1Mem A m ud1) r 0 p) r 0 p x
      = wordsMem A (stage1Mem A m ud1) r 0 p x := by
    simp only [longsMem]
    rw [if_neg (by omega), if_neg (by omega)]
  have hw : wordsMem A (stage1Mem A m ud1) r 0 p x = stage1Mem A m ud1 x := by
    simp only [wordsMem]
    rw [if_neg (by omega), if_neg (by omega)]
  have hs : stage1Mem A m ud1 x = m x := by
    simp only [stage1Mem]
    rw [if_neg (by omega)]
  unfold pageMem
  rw [hb, hl, hw, hs]

/-- The invariant of the outer loop of `h68k_PrepareFtables` started in `s0`. -/
theorem prep_inv_page (s0 u : State) (k : Nat) (hlay : PrepLayout s0 k)
    (hg : SameGlobals s0 u)
    (hu : ∀ x, ¬ Touched s0 (2 ^ k) 0 (16777216 / 2 ^ k) x → u.mem x = s0.mem x)
    (j : Nat) (hj : j < 16777216 / 2 ^ k) :
    u.mem (u.h68k_mmu_table + 8 * j) = s0.mem (s0.h68k_mmu_table + 8 * j) ∧
    u.mem (u.h68k_mmu_table + 8 * j + 4) = s0.mem (s0.h68k_mmu_table + 8 * j + 4) ∧
    (isExpanded u j ↔ isExpanded s0 j) := by
  obtain ⟨hP1, hP2⟩ := hlay
  have ht := sameGlobals_table hg
  have h0 : u.mem (s0.h68k_mmu_table + 8 * j) = s0.mem (s0.h68k_mmu_table + 8 * j) :=
    hu _ (fun h => by have := hP1 _ h; omega)
  have h4 : u.mem (s0.h68k_mmu_table + 8 * j + 4) = s0.mem (s0.h68k_mmu_table + 8 * j + 4) :=
    hu _ (fun h => by have := hP1 _ h; omega)
  have h28 : u.mem (s0.mem (s0.h68k_mmu_table + 8 * j) + 28)
      = s0.mem (s0.mem (s0.h68k_mmu_table + 8 * j) + 28) :=
    hu _ (fun h => hP2 _ j h hj rfl)
  rw [ht]
  refine ⟨h0, h4, ?_⟩
  unfold isExpanded
  rw [ht, h0, h28]

theorem prep_step (A : Sym → Nat) (fuel : Nat) (s0 u : State) (k : Nat) (hk : 8 ≤ k ∧ k ≤ 15)
    (hps : s0.h68k_mmu_pagesize = 2 ^ k) (hlay : PrepLayout s0 k) (hfuel : 2 ^ k < fuel)
    (hg : SameGlobals s0 u)
    (hu : ∀ x, ¬ Touched s0 (2 ^ k) 0 (16777216 / 2 ^ k) x → u.mem x = s0.mem x)
    (j : Nat) (hj : j < 16777216 / 2 ^ k) :
    ∃ w, PrepareFtables_page A fuel u (j * 2 ^ k) = .done w ∧ SameGlobals s0 w ∧
      (∀ x, ¬ Touched s0 (2 ^ k) 0 (16777216 / 2 ^ k) x → w.mem x = s0.mem x) ∧
      (∀ x, ¬ TouchedBy s0 (2 ^ k) j x → w.mem x = u.mem x) ∧
      (isExpanded s0 j → w.mem = pageMem A u.mem (s0.mem (s0.h68k_mmu_table + 8 * j))
        (s0.mem (s0.h68k_mmu_table + 8 * j + 4)) (2 ^ k)) ∧
      (¬ isExpanded s0 j → w = u) := by
  have hN : 16777216 / 2 ^ k ≤ 65536 := by
    have h8 : 2 ^ 8 ≤ 2 ^ k := Nat.pow_le_pow_right (by decide) hk.1
    calc 16777216 / 2 ^ k ≤ 16777216 / 2 ^ 8 := Nat.div_le_div_left h8 (by decide)
      _ = 65536 := by decide
  obtain ⟨h0, h4, hexp⟩ := prep_inv_page s0 u k hlay hg hu j hj
  obtain ⟨w, hw, hgw, hcase⟩ := PrepareFtables_page_spec A fuel u k hk
    (by rw [sameGlobals_pagesize hg]; exact hps) j (by omega) hfuel
  rw [h0, h4] at hcase
  have hframe : ∀ x, ¬ TouchedBy s0 (2 ^ k) j x → w.mem x = u.mem x := by
    intro x hx
    rcases hcase with ⟨he, hm⟩ | ⟨_, hm⟩
    · rw [hm]
      apply pageMem_frame
      intro h
      exact hx ⟨hexp.1 he, h⟩
    · rw [hm]
  refine ⟨w, hw, sameGlobals_trans hg hgw, ?_, hframe, ?_, ?_⟩
  · intro x hx
    rw [hframe x (fun h => hx ⟨j, Nat.zero_le _, hj, h⟩), hu x hx]
  · intro he
    rcases hcase with ⟨_, hm⟩ | ⟨hne, _⟩
    · exact hm
    · exact absurd (hexp.2 he) hne
  · intro hne
    rcases hcase with ⟨he, _⟩ | ⟨_, hm⟩
    · exact absurd (hexp.1 he) hne
    · exact hm

theorem prep_segment (A : Sym → Nat) (fuel : Nat) (s0 : State) (k : Nat) (hk : 8 ≤ k ∧ k ≤ 15)
    (hps : s0.h68k_mmu_pagesize = 2 ^ k) (hlay : PrepLayout s0 k) (hfuel : 2 ^ k < fuel) :
    ∀ (d j1 : Nat) (u : State), j1 + d ≤ 16777216 / 2 ^ k → SameGlobals s0 u →
      (∀ x, ¬ Touched s0 (2 ^ k) 0 (16777216 / 2 ^ k) x → u.mem x = s0.mem x) →
      ∃ v, SameGlobals s0 v ∧
        (∀ x, ¬ Touched s0 (2 ^ k) 0 (16777216 / 2 ^ k) x → v.mem x = s0.mem x) ∧
        (∀ x, ¬ Touched s0 (2 ^ k) j1 (j1 + d) x → v.mem x = u.mem x) ∧
        ∀ n, PrepareFtables_loop A fuel (n + d) u (j1 * 2 ^ k)
          = PrepareFtables_loop A fuel n v ((j1 + d) * 2 ^ k) := by
  have hp0 : 0 < 2 ^ k := Nat.two_pow_pos k
  have hpN : 16777216 / 2 ^ k * 2 ^ k ≤ 16777216 := Nat.div_mul_le_self _ _
  intro d
  induction d with
  | zero =>
    intro j1 u _ hg hu
    exact ⟨u, hg, hu, fun _ _ => rfl, fun _ => rfl⟩
  | succ d ih =>
    intro j1 u hle hg hu
    obtain ⟨w, hw, hgw, huw, hfw, _, _⟩ := prep_step A fuel s0 u k hk hps hlay hfuel hg hu j1
      (by omega)
    obtain ⟨v, hgv, huv, hfv, hrun⟩ := ih (j1 + 1) w (by omega) hgw huw
    refine ⟨v, hgv, huv, ?_, ?_⟩
    · intro x hx
      rw [hfv x (fun ⟨j, h1, h2, h3⟩ => hx ⟨j, by omega, by omega, h3⟩),
        hfw x (fun h => hx ⟨j1, Nat.le_refl _, by omega, h⟩)]
    · intro n
      have hlt : j1 * 2 ^ k < 16777216 := by
        have : (j1 + 1) * 2 ^ k ≤ 16777216 / 2 ^ k * 2 ^ k :=
          Nat.mul_le_mul_right _ (by omega)
        rw [Nat.succ_mul] at this
        omega
      have hnext : (j1 * 2 ^ k + w.h68k_mmu_pagesize) % U32 = (j1 + 1) * 2 ^ k := by
        rw [sameGlobals_pagesize hgw, hps, Nat.succ_mul]
        have : (j1 + 1) * 2 ^ k ≤ 16777216 / 2 ^ k * 2 ^ k :=
          Nat.mul_le_mul_right _ (by omega)
        rw [Nat.succ_mul] at this
        simp only [U32]; omega
      have e : n + (d + 1) = (n + d) + 1 := by omega
      rw [e]
      conv_lhs => unfold PrepareFtables_loop
      rw [if_pos hlt, hw]
      simp only
      rw [hnext, hrun n]
      congr 2
      omega


theorem prep_loop_end (A : Sym → Nat) (fuel n : Nat) (v : State) (k : Nat) (hk : 8 ≤ k ∧ k ≤ 15) :
    PrepareFtables_loop A fuel (n + 1) v (16777216 / 2 ^ k * 2 ^ k) = .done v := by
  have hd : 2 ^ k ∣ 16777216 := by
    have : (16777216 : Nat) = 2 ^ 24 := by decide
    rw [this]
    exact Nat.pow_dvd_pow 2 (by omega)
  rw [Nat.div_mul_cancel hd]
  unfold PrepareFtables_loop
  rw [if_neg (by decide)]

/-- The whole of `h68k_PrepareFtables`: it returns; what it does not touch is unchanged;
and for an expanded page `j0` the final content of what later pages do not touch is
`pageMem` of the memory `u` in which the loop reached that page, `u` being the initial
memory except where earlier pages touched it. -/
theorem PrepareFtables_run (A : Sym → Nat) (fuel : Nat) (s0 : State) (k : Nat)
    (hk : 8 ≤ k ∧ k ≤ 15) (hps : s0.h68k_mmu_pagesize = 2 ^ k) (hlay : PrepLayout s0 k)
    (hfuel : 2 ^ k < fuel) (hfuelN : 16777216 / 2 ^ k < fuel) :
    ∃ t, h68k_PrepareFtables A fuel s0 = .done t ∧ SameGlobals s0 t ∧
      (∀ x, ¬ Touched s0 (2 ^ k) 0 (16777216 / 2 ^ k) x → t.mem x = s0.mem x) ∧
      ∀ j0, j0 < 16777216 / 2 ^ k → isExpanded s0 j0 →
        ∃ u, SameGlobals s0 u ∧
          (∀ y, ¬ Touched s0 (2 ^ k) 0 j0 y → u.mem y = s0.mem y) ∧
          (∀ x, ¬ Touched s0 (2 ^ k) (j0 + 1) (16777216 / 2 ^ k) x →
            t.mem x = pageMem A u.mem (s0.mem (s0.h68k_mmu_table + 8 * j0))
              (s0.mem (s0.h68k_mmu_table + 8 * j0 + 4)) (2 ^ k) x) := by
  obtain ⟨v, hgv, huv, _, hrun⟩ := prep_segment A fuel s0 k hk hps hlay hfuel
    (16777216 / 2 ^ k) 0 s0 (by omega) (sameGlobals_refl s0) (fun _ _ => rfl)
  have hfull : h68k_PrepareFtables A fuel s0 = .done v := by
    unfold h68k_PrepareFtables
    have e : fuel = (fuel - 16777216 / 2 ^ k - 1 + 1) + 16777216 / 2 ^ k := by omega
    have h := hrun (fuel - 16777216 / 2 ^ k - 1 + 1)
    rw [← e, Nat.zero_mul, Nat.zero_add] at h
    rw [h]
    exact prep_loop_end A fuel _ v k hk
  refine ⟨v, hfull, hgv, huv, ?_⟩
  intro j0 hj0 hexp
  obtain ⟨u, hgu, huu, hfu, hrun1⟩ := prep_segment A fuel s0 k hk hps hlay hfuel
    j0 0 s0 (by omega) (sameGlobals_refl s0) (fun _ _ => rfl)
  obtain ⟨w, hw, hgw, huw, _, hpm, _⟩ := prep_step A fuel s0 u k hk hps hlay hfuel hgu huu j0 hj0
  obtain ⟨v2, hgv2, huv2, hfv2, hrun2⟩ := prep_segment A fuel s0 k hk hps hlay hfuel
    (16777216 / 2 ^ k - (j0 + 1)) (j0 + 1) w (by omega) hgw huw
  have hp0 : 0 < 2 ^ k := Nat.two_pow_pos k
  have hpN : 16777216 / 2 ^ k * 2 ^ k ≤ 16777216 := Nat.div_mul_le_self _ _
  have hfull2 : h68k_PrepareFtables A fuel s0 = .done v2 := by
    unfold h68k_PrepareFtables
    have e : fuel = ((fuel - 16777216 / 2 ^ k - 1 + 1) + (16777216 / 2 ^ k - (j0 + 1)) + 1) + j0 := by
      omega
    have h := hrun1 ((fuel - 16777216 / 2 ^ k - 1 + 1) + (16777216 / 2 ^ k - (j0 + 1)) + 1)
    rw [← e, Nat.zero_mul, Nat.zero_add] at h
    rw [h]
    have hlt : j0 * 2 ^ k < 16777216 := by
      have : (j0 + 1) * 2 ^ k ≤ 16777216 / 2 ^ k * 2 ^ k := Nat.mul_le_mul_right _ (by omega)
      rw [Nat.succ_mul] at this
      omega
    have hnext : (j0 * 2 ^ k + w.h68k_mmu_pagesize) % U32 = (j0 + 1) * 2 ^ k := by
      rw [sameGlobals_pagesize hgw, hps, Nat.succ_mul]
      have : (j0 + 1) * 2 ^ k ≤ 16777216 / 2 ^ k * 2 ^ k := Nat.mul_le_mul_right _ (by omega)
      rw [Nat.succ_mul] at this
      simp only [U32]; omega
    conv_lhs => unfold PrepareFtables_loop
    rw [if_pos hlt, hw]
    simp only
    rw [hnext, hrun2 (fuel - 16777216 / 2 ^ k - 1 + 1)]
    have e2 : j0 + 1 + (16777216 / 2 ^ k - (j0 + 1)) = 16777216 / 2 ^ k := by omega
    rw [e2]
    exact prep_loop_end A fuel _ v2 k hk
  have hvv : v = v2 := by
    have := hfull.symm.trans hfull2
    injection this
  rw [Nat.zero_add] at hfu
  refine ⟨u, hgu, hfu, ?_⟩
  intro x hx
  have e2 : j0 + 1 + (16777216 / 2 ^ k - (j0 + 1)) = 16777216 / 2 ^ k := by omega
  rw [e2] at hfv2
  rw [hvv, hfv2 x hx, hpm hexp]

/-! ## The sample expanded page is reached through the API -/

/-- The whole memory effect of `h68k_MapIoRangeEx`: descriptors of the range, the stage-1
table, the six fields of the collapsed record, and nothing else. -/
theorem MapIoRangeEx_spec (A : Sym → Nat) (checked : Bool) (fuel : Nat) (s : State) (k : Nat)
    (hk : 8 ≤ k ∧ k ≤ 15) (hps : s.h68k_mmu_pagesize = 2 ^ k)
    (start end_ rb wb rw ww rl wl : Nat)
    (hs : start % 2 ^ k = 0) (he : end_ % 2 ^ k = 0) (hs32 : start < 4294967296)
    (hend : end_ ≤ 0x01000000)
    (hA : ∀ x, A x ≠ 0)
    (htab : s.h68k_mmu_table + 8 * (0x01000000 / 2 ^ k) ≤ s.mem_ptr)
    (hfit : alignUp s.mem_ptr 8 + 192 ≤ s.mem_top) (htop : s.mem_top < 4294967296)
    (hfuel : (end_ - start) / 2 ^ k < fuel) :
    ∃ t, h68k_MapIoRangeEx A checked fuel s start end_ rb wb rw ww rl wl = .done t ∧
      SameConfig s t ∧ t.mem_ptr = alignUp s.mem_ptr 8 + 192 ∧
      (∀ j, start / 2 ^ k ≤ j → j < end_ / 2 ^ k →
        t.mem (s.h68k_mmu_table + 8 * j) = alignUp s.mem_ptr 8 ∧
        t.mem (s.h68k_mmu_table + 8 * j + 4) = alignUp s.mem_ptr 8 + 128) ∧
      (∀ i, i < 16 → t.mem (alignUp s.mem_ptr 8 + 128 + 4 * i) =
        stage1Entry (A .h68k_mmuf_rbc) (A .h68k_mmuf_wbc) (A .h68k_mmuf_rwc) (A .h68k_mmuf_wwc)
          (A .h68k_mmuf_rlc) (A .h68k_mmuf_wlc) (A .h68k_mmuf_r3c) (A .h68k_mmuf_w3c)
          (A .h68k_mmuf_rmc) i) ∧
      t.mem (alignUp s.mem_ptr 8 + 0) = rb ∧ t.mem (alignUp s.mem_ptr 8 + 4) = rw ∧
      t.mem (alignUp s.mem_ptr 8 + 8) = rl ∧ t.mem (alignUp s.mem_ptr 8 + 12) = wb ∧
      t.mem (alignUp s.mem_ptr 8 + 16) = ww ∧ t.mem (alignUp s.mem_ptr 8 + 20) = wl ∧
      (∀ a, (∀ j, start / 2 ^ k ≤ j → j < end_ / 2 ^ k →
          a ≠ s.h68k_mmu_table + 8 * j ∧ a ≠ s.h68k_mmu_table + 8 * j + 4) →
        (a < alignUp s.mem_ptr 8 ∨ alignUp s.mem_ptr 8 + 192 ≤ a ∨
          (a - alignUp s.mem_ptr 8) % 4 ≠ 0 ∨
          (alignUp s.mem_ptr 8 + 24 ≤ a ∧ a < alignUp s.mem_ptr 8 + 128)) →
        t.mem a = s.mem a) := by
  have hp0 : 0 < 2 ^ k := Nat.two_pow_pos k
  obtain ⟨hb1, hb2, hb3⟩ := alignUp_bounds s.mem_ptr 8
  generalize hft : alignUp s.mem_ptr 8 = ft at *
  have hft256 : ft % 256 = 0 := by simpa using hb3
  have halloc : AllocMem s (4 * 32) 256 = .done ({ s with mem_ptr := ft + 128 }, ft) := by
    have := AllocMem_ok s 128 8 (by decide) (by rw [hft]; omega) htop
    rw [hft] at this
    exact this
  have hst : alignUp (ft + 128) 2 = ft + 128 := by
    apply alignUp_of_aligned
    have : (2:Nat) ^ 2 = 4 := by decide
    omega
  obtain ⟨t, ht, hg, hptr, hD, hE, hF⟩ := MapAccessHandlerEx_spec checked fuel
    ((((((({ s with mem_ptr := ft + 128 } : State).store (ft + 0) rb).store (ft + 4) rw).store
      (ft + 8) rl).store (ft + 12) wb).store (ft + 16) ww).store (ft + 20) wl)
    k hk hps start end_ ft (A .h68k_mmuf_rbc) (A .h68k_mmuf_wbc) (A .h68k_mmuf_rwc)
    (A .h68k_mmuf_wwc) (A .h68k_mmuf_rlc) (A .h68k_mmuf_wlc) (A .h68k_mmuf_r3c)
    (A .h68k_mmuf_w3c) (A .h68k_mmuf_rmc) hs he hs32 hend hft256
    (fun _ => ⟨hA _, hA _, hA _, hA _, hA _, hA _, hA _, hA _, hA _⟩)
    (by simp only [store_table, store_mem_ptr]; omega)
    (by simp only [store_mem_ptr, store_mem_top, hst]; omega)
    (by simpa using htop) hfuel
  simp only [store_table, store_mem_ptr, hst] at hptr hD hE hF
  have hed : end_ / 2 ^ k ≤ 16777216 / 2 ^ k := Nat.div_le_div_right hend
  have hfield : ∀ a, ft ≤ a → a < ft + 128 → t.mem a
      = ((((((({ s with mem_ptr := ft + 128 } : State).store (ft + 0) rb).store (ft + 4) rw).store
      (ft + 8) rl).store (ft + 12) wb).store (ft + 16) ww).store (ft + 20) wl).mem a := by
    intro a h1 h2
    exact hF a (by intro j _ hj; omega) (Or.inl h2)
  refine ⟨t, ?_, ?_, by omega, hD, hE, ?_, ?_, ?_, ?_, ?_, ?_, ?_⟩
  · unfold h68k_MapIoRangeEx
    rw [halloc]
    exact ht
  · refine sameConfig_trans ?_ hg
    exact ⟨_, ft + 128, rfl⟩
  · rw [hfield _ (by omega) (by omega)]; simp
  · rw [hfield _ (by omega) (by omega)]; simp
  · rw [hfield _ (by omega) (by omega)]; simp
  · rw [hfield _ (by omega) (by omega)]; simp
  · rw [hfield _ (by omega) (by omega)]; simp
  · rw [hfield _ (by omega) (by omega)]; simp
  · intro a hd ha
    rw [hF a hd (by omega)]
    simp only [store_mem]
    repeat rw [if_neg (by omega)]

theorem demoState_alignUp : alignUp demoState.mem_ptr 8 = 0x200000 := by decide

/-- The state `prepDemo` is what `h68k_MapIoRangeEx` and `h68k_GetExpandedFtable` produce
from the empty sample machine. -/
theorem prepDemo_reached :
    ∃ s1, h68k_MapIoRangeEx demoAddr true 2 demoState 0xff8000 0xff8100
        0x7001 0x7002 0x7003 0x7004 0x7005 0x7006 = .done s1 ∧
      h68k_GetExpandedFtable 257 s1 0xff8000 = .done (prepDemo, 0x200100) := by
  obtain ⟨s1, h1, hg1, hp1, hD, hE, hrb, hrw, hrl, hwb, hww, hwl, hF⟩ :=
    MapIoRangeEx_spec demoAddr true 2 demoState 8 (by decide) (by decide)
      0xff8000 0xff8100 0x7001 0x7002 0x7003 0x7004 0x7005 0x7006
      (by decide) (by decide) (by decide) (by decide) demoAddr_ne_zero
      (by decide) (by decide) (by decide) (by decide)
  rw [demoState_alignUp] at hp1 hD hE hrb hrw hrl hwb hww hwl hF
  have hD0 := hD 0xff80 (by decide) (by decide)
  have htab : s1.h68k_mmu_table = 0x100000 := by rw [sameConfig_table hg1]; rfl
  have hps : s1.h68k_mmu_pagesize = 2 ^ 8 := by rw [sameConfig_pagesize hg1]; rfl
  have htop : s1.mem_top = 0x400000 := by rw [sameConfig_mem_top hg1]; rfl
  have hdesc : h68k_GetMmuDescriptor s1 0xff8000 = 0x100000 + 8 * 0xff80 := by
    unfold h68k_GetMmuDescriptor
    simp only [htab, hps]
    decide
  have hal : alignUp s1.mem_ptr 8 = 0x200100 := by rw [hp1]; decide
  have hT : demoState.h68k_mmu_table = 0x100000 := rfl
  rw [hT] at hD0 hF
  have hlen : s1.mem (0x200000 + 28) = 0 := by
    rw [hF _ (by intro j h1 h2; omega) (by omega)]
    rfl
  obtain ⟨t, ht, hg, hp, hm⟩ := GetExpandedFtable_collapsed 257 s1 8 (by decide) hps 0xff8000
    (by decide) (by rw [hdesc, hD0.1]; decide) (by rw [hdesc, hD0.1]; exact hlen)
    (by rw [hdesc, hD0.1, hp1]; decide) (by rw [hal, htop]; decide) (by rw [htop]; decide)
    (by decide)
  rw [hdesc, hD0.1, hal] at hm
  rw [hal] at ht hp
  refine ⟨s1, h1, ?_⟩
  rw [ht]
  have hmem : t.mem = prepDemo.mem := by
    funext x
    rw [hm x]
    have h24 : s1.mem (0x200000 + 24) = 0 := by
      rw [hF _ (by intro j h1 h2; omega) (by omega)]
      rfl
    norm_num at hrb hrw hrl hwb hww hwl h24 hD0
    by_cases hx1 : x = 0x100000 + 8 * 0xff80
    · subst hx1
      simp [prepDemo]
    rw [if_neg hx1]
    by_cases hx2 : 0x200100 ≤ x ∧ x < 0x200100 + 32 * 2 ^ 8 ∧ (x - 0x200100) % 4 = 0
    · rw [if_pos hx2]
      have hw : (x - 0x200100) % 32 = 0 ∨ (x - 0x200100) % 32 = 4 ∨ (x - 0x200100) % 32 = 8 ∨
          (x - 0x200100) % 32 = 12 ∨ (x - 0x200100) % 32 = 16 ∨ (x - 0x200100) % 32 = 20 ∨
          (x - 0x200100) % 32 = 24 ∨ (x - 0x200100) % 32 = 28 := by omega
      have hx2' : 0x200100 ≤ x ∧ x < 0x202100 ∧ (x - 0x200100) % 4 = 0 := by omega
      simp only [prepDemo]
      rw [if_neg hx1]
      repeat rw [if_neg (by omega)]
      rw [if_pos hx2']
      unfold expandedField
      rcases hw with h | h | h | h | h | h | h | h <;> rw [h] <;>
        simp [hrb, hrw, hrl, hwb, hww, hwl, h24]
    rw [if_neg hx2]
    by_cases hx3 : x = 0x100000 + 8 * 0xff80 + 4
    · subst hx3
      rw [show (0x100000 + 8 * 0xff80 + 4 : Nat) = 1571844 by norm_num, hD0.2]
      simp [prepDemo]
    by_cases hx4 : 0x200080 ≤ x ∧ x < 0x2000C0 ∧ (x - 0x200080) % 4 = 0
    · have hxe : x = 0x200000 + 128 + 4 * ((x - 0x200080) / 4) := by omega
      have := hE ((x - 0x200080) / 4) (by omega)
      rw [← hxe] at this
      rw [this]
      simp only [prepDemo]
      rw [if_neg hx1, if_neg hx3, if_pos hx4]
    by_cases hx5 : x = 0x200000 ∨ x = 0x200004 ∨ x = 0x200008 ∨ x = 0x20000C ∨ x = 0x200010 ∨
        x = 0x200014
    · rcases hx5 with h | h | h | h | h | h <;> subst h <;>
        simp [prepDemo, hrb, hrw, hrl, hwb, hww, hwl]
    rw [hF x (by intro j h1 h2; omega) (by omega)]
    simp only [prepDemo]
    rw [if_neg hx1, if_neg hx3, if_neg hx4]
    repeat rw [if_neg (by omega)]
    rfl
  have hptr : t.mem_ptr = prepDemo.mem_ptr := by rw [hp]; rfl
  obtain ⟨m1, p1, rfl⟩ := hg1
  obtain ⟨m2, p2, rfl⟩ := hg
  simp only at hmem hptr
  subst hmem hptr
  rfl

/-! ## The sample expanded page -/

theorem prepDemo_desc0 (j : Nat) (hj : j < 65536) :
    prepDemo.mem (0x100000 + 8 * j) = if j = 0xff80 then 0x200100 else 0 := by
  by_cases h : j = 0xff80
  · subst h; decide
  · rw [if_neg h]
    simp only [prepDemo]
    repeat rw [if_neg (by omega)]

theorem prepDemo_expanded (j : Nat) (hj : j < 65536) (h : isExpanded prepDemo j) :
    j = 0xff80 := by
  by_cases hj2 : j = 0xff80
  · exact hj2
  · exfalso
    have h0 := prepDemo_desc0 j hj
    rw [if_neg hj2] at h0
    exact h.2.1 h0

theorem prepDemo_is_expanded : isExpanded prepDemo 0xff80 := by
  unfold isExpanded
  decide

theorem prepDemo_touched (lo hi x : Nat) (hhi : hi ≤ 65536) (h : Touched prepDemo 256 lo hi x) :
    (lo ≤ 0xff80 ∧ 0xff80 < hi) ∧
    ((0x200100 ≤ x ∧ x < 0x202100 ∧ (x - 0x200100) % 32 < 24) ∨
      (0x200080 ≤ x ∧ x < 0x2000C0)) := by
  obtain ⟨j, h1, h2, he, hx⟩ := h
  have hj := prepDemo_expanded j (by omega) he
  subst hj
  have e0 : prepDemo.mem (prepDemo.h68k_mmu_table + 8 * 0xff80) = 0x200100 := by decide
  have e4 : prepDemo.mem (prepDemo.h68k_mmu_table + 8 * 0xff80 + 4) = 0x200080 := by decide
  rw [e0, e4] at hx
  exact ⟨⟨h1, h2⟩, by omega⟩

theorem prepDemo_layout : PrepLayout prepDemo 8 := by
  have hN : 16777216 / 2 ^ 8 = 65536 := by decide
  have hp : (2:Nat) ^ 8 = 256 := by decide
  have hT : prepDemo.h68k_mmu_table = 0x100000 := rfl
  constructor
  · intro x hx
    rw [hN, hp] at hx
    have := (prepDemo_touched 0 65536 x (Nat.le_refl _) hx).2
    rw [hN, hT]
    omega
  · intro x j hx hj
    rw [hN, hp] at hx
    rw [hN] at hj
    have := (prepDemo_touched 0 65536 x (Nat.le_refl _) hx).2
    rw [hT, prepDemo_desc0 j hj]
    split <;> omega

theorem prepDemo_separate : TablesSeparate prepDemo 8 := by
  have hN : 16777216 / 2 ^ 8 = 65536 := by decide
  intro j j' x hj hj' hne he _ _ ht
  rw [hN] at hj hj'
  have h1 := prepDemo_expanded j hj he
  have h2 := prepDemo_expanded j' hj' ht.1
  omega


/-! ## What `h68k_PrepareFtables` leaves in an expanded table -/

theorem pageMem_odd (A : Sym → Nat) (m : Nat → Nat) (r ud1 p i : Nat) (hi : i < p)
    (hodd : i % 2 = 1) :
    pageMem A m r ud1 p (r + 32 * i + 4) = A .h68k_IoBerrWord ∧
    pageMem A m r ud1 p (r + 32 * i + 16) = A .h68k_IoBerrWord ∧
    pageMem A m r ud1 p (r + 32 * i + 8) = A .h68k_IoBerrLong ∧
    pageMem A m r ud1 p (r + 32 * i + 20) = A .h68k_IoBerrLong := by
  unfold pageMem
  refine ⟨?_, ?_, ?_, ?_⟩
  · simp only [bytesMem]
    rw [if_pos (by omega), if_neg (by omega), if_pos (by omega)]
  · simp only [bytesMem]
    rw [if_pos (by omega), if_neg (by omega), if_pos (by omega)]
  · simp only [bytesMem]
    rw [if_pos (by omega), if_neg (by omega), if_neg (by omega), if_pos (by omega)]
  · simp only [bytesMem]
    rw [if_pos (by omega), if_neg (by omega), if_neg (by omega), if_pos (by omega)]

theorem not_touched_later (s0 : State) (k j x : Nat) (hsep : TablesSeparate s0 k)
    (hj : j < 16777216 / 2 ^ k) (he : isExpanded s0 j)
    (h1 : s0.mem (s0.h68k_mmu_table + 8 * j) ≤ x)
    (h2 : x < s0.mem (s0.h68k_mmu_table + 8 * j) + 32 * 2 ^ k) (lo hi : Nat)
    (hhi : hi ≤ 16777216 / 2 ^ k) (hout : j < lo ∨ hi ≤ j) :
    ¬ Touched s0 (2 ^ k) lo hi x := by
  rintro ⟨j', h3, h4, h5⟩
  exact hsep j j' x hj (by omega) (by omega) he h1 h2 h5

/-- C8. On a state laid out so that `h68k_PrepareFtables` writes into no descriptor and
no `len` field (`PrepLayout`) and handler tables are not overlapped by other tables
(`TablesSeparate`), and with fuel for its loops, `h68k_PrepareFtables` returns, and for
every expanded page `j` and every odd offset `i` of its table the record has
`readW = writeW = h68k_IoBerrWord` and `readL = writeL = h68k_IoBerrLong`, whatever these
four fields held before. -/
theorem C8_odd_offsets_bus_error (A : Sym → Nat) (fuel : Nat) (s0 : State) (k : Nat)
    (hk : 8 ≤ k ∧ k ≤ 15) (hps : s0.h68k_mmu_pagesize = 2 ^ k) (hlay : PrepLayout s0 k)
    (hsep : TablesSeparate s0 k) (hfuel : 2 ^ k < fuel) (hfuelN : 16777216 / 2 ^ k < fuel) :
    ∃ t, h68k_PrepareFtables A fuel s0 = .done t ∧
      ∀ j i, j < 16777216 / 2 ^ k → isExpanded s0 j → i < 2 ^ k → i % 2 = 1 →
        t.mem (s0.mem (s0.h68k_mmu_table + 8 * j) + 32 * i + 4) = A .h68k_IoBerrWord ∧
        t.mem (s0.mem (s0.h68k_mmu_table + 8 * j) + 32 * i + 16) = A .h68k_IoBerrWord ∧
        t.mem (s0.mem (s0.h68k_mmu_table + 8 * j) + 32 * i + 8) = A .h68k_IoBerrLong ∧
        t.mem (s0.mem (s0.h68k_mmu_table + 8 * j) + 32 * i + 20) = A .h68k_IoBerrLong := by
  obtain ⟨t, ht, _, _, hpage⟩ := PrepareFtables_run A fuel s0 k hk hps hlay hfuel hfuelN
  refine ⟨t, ht, ?_⟩
  intro j i hj he hi hodd
  obtain ⟨u, _, _, hm⟩ := hpage j hj he
  obtain ⟨h4, h16, h8, h20⟩ := pageMem_odd A u.mem (s0.mem (s0.h68k_mmu_table + 8 * j))
    (s0.mem (s0.h68k_mmu_table + 8 * j + 4)) (2 ^ k) i hi hodd
  have hnt : ∀ x, s0.mem (s0.h68k_mmu_table + 8 * j) ≤ x →
      x < s0.mem (s0.h68k_mmu_table + 8 * j) + 32 * 2 ^ k →
      ¬ Touched s0 (2 ^ k) (j + 1) (16777216 / 2 ^ k) x :=
    fun x h1 h2 => not_touched_later s0 k j x hsep hj he h1 h2 _ _ (Nat.le_refl _)
      (Or.inl (Nat.lt_succ_self j))
  refine ⟨?_, ?_, ?_, ?_⟩
  · rw [hm _ (hnt _ (by omega) (by omega)), h4]
  · rw [hm _ (hnt _ (by omega) (by omega)), h16]
  · rw [hm _ (hnt _ (by omega) (by omega)), h8]
  · rw [hm _ (hnt _ (by omega) (by omega)), h20]

/-- C8 at a concrete input: the sample expanded page at `0xff8000`, odd offset 3. -/
theorem C8_odd_offsets_bus_error_witness :
    ∃ t, h68k_PrepareFtables demoAddr 65537 prepDemo = .done t ∧
      t.mem (0x200100 + 32 * 3 + 4) = demoAddr .h68k_IoBerrWord ∧
      t.mem (0x200100 + 32 * 3 + 8) = demoAddr .h68k_IoBerrLong := by
  obtain ⟨t, ht, h⟩ := C8_odd_offsets_bus_error demoAddr 65537 prepDemo 8 (by decide) rfl
    prepDemo_layout prepDemo_separate (by decide) (by decide)
  obtain ⟨h1, _, h2, _⟩ := h 0xff80 3 (by decide) prepDemo_is_expanded (by decide) (by decide)
  exact ⟨t, ht, h1, h2⟩


theorem prepDemo_run :
    ∃ t, h68k_PrepareFtables demoAddr 65537 prepDemo = .done t ∧
      ∀ x, 0x200100 ≤ x → x < 0x202100 →
        t.mem x = pageMem demoAddr prepDemo.mem 0x200100 0x200080 256 x := by
  obtain ⟨t, ht, _, _, hpage⟩ := PrepareFtables_run demoAddr 65537 prepDemo 8 (by decide) rfl
    prepDemo_layout (by decide) (by decide)
  obtain ⟨u, _, hu, hm⟩ := hpage 0xff80 (by decide) prepDemo_is_expanded
  have hN : 16777216 / 2 ^ 8 = 65536 := by decide
  have hp : (2:Nat) ^ 8 = 256 := by decide
  rw [hN, hp] at hm
  rw [hp] at hu
  have hum : u.mem = prepDemo.mem := by
    funext y
    apply hu
    intro h
    have := (prepDemo_touched 0 0xff80 y (by decide) h).1
    omega
  refine ⟨t, ht, ?_⟩
  intro x h1 h2
  rw [hm x (fun h => by
    have := (prepDemo_touched (0xff80 + 1) 65536 x (Nat.le_refl _) h).1
    omega), hum]
  rfl

/-- C7 at the failing input. On the empty sample machine (page size 256) the calls
`h68k_MapIoRangeEx(0xff8000, 0xff8100, rb, wb, rw, ww, rl, wl)` with
`(rb, wb, rw, ww, rl, wl) = (0x7001, 0x7002, 0x7003, 0x7004, 0x7005, 0x7006)` and
`h68k_GetExpandedFtable(0xff8000)` expand the page with no override, its table at
`0x200100`. After `h68k_PrepareFtables` the record at the even offset 252 holds
`readL = rl` and `writeL = wl`, but the last even record, offset 254, holds the composites
`h68k_IoReadLongWW` and `h68k_IoWriteLongWW`: its long step compares `readW` with the
`readW` of `root[256]`, the word behind the 256-record table. -/
theorem C7_narrowing_last_record :
    ∃ s1 s2 t,
      h68k_MapIoRangeEx demoAddr true 2 demoState 0xff8000 0xff8100
        0x7001 0x7002 0x7003 0x7004 0x7005 0x7006 = .done s1 ∧
      h68k_GetExpandedFtable 257 s1 0xff8000 = .done (s2, 0x200100) ∧
      h68k_PrepareFtables demoAddr 65537 s2 = .done t ∧
      t.mem (0x200100 + 32 * 252 + 8) = 0x7005 ∧ t.mem (0x200100 + 32 * 252 + 20) = 0x7006 ∧
      t.mem (0x200100 + 32 * 254 + 0) = 0x7001 ∧ t.mem (0x200100 + 32 * 254 + 12) = 0x7002 ∧
      t.mem (0x200100 + 32 * 254 + 4) = 0x7003 ∧ t.mem (0x200100 + 32 * 254 + 16) = 0x7004 ∧
      t.mem (0x200100 + 32 * 254 + 8) = demoAddr .h68k_IoReadLongWW ∧
      t.mem (0x200100 + 32 * 254 + 20) = demoAddr .h68k_IoWriteLongWW ∧
      demoAddr .h68k_IoReadLongWW ≠ 0x7005 ∧ demoAddr .h68k_IoWriteLongWW ≠ 0x7006 := by
  obtain ⟨s1, h1, h2⟩ := prepDemo_reached
  obtain ⟨t, ht, hm⟩ := prepDemo_run
  refine ⟨s1, prepDemo, t, h1, h2, ht, ?_, ?_, ?_, ?_, ?_, ?_, ?_, ?_, by decide, by decide⟩
  · rw [hm _ (by decide) (by decide)]; decide
  · rw [hm _ (by decide) (by decide)]; decide
  · rw [hm _ (by decide) (by decide)]; decide
  · rw [hm _ (by decide) (by decide)]; decide
  · rw [hm _ (by decide) (by decide)]; decide
  · rw [hm _ (by decide) (by decide)]; decide
  · rw [hm _ (by decide) (by decide)]; decide
  · rw [hm _ (by decide) (by decide)]; decide

/-! ## Privilege violation tables -/

theorem xor_8000_of_lt (o : Nat) (h : o < 0x8000) : o ^^^ 0x8000 = o + 0x8000 := by
  have h1 : o ^^^ 0x8000 = 0x8000 ||| o := by
    apply Nat.eq_of_testBit_eq
    intro i
    rw [Nat.testBit_xor, Nat.testBit_or, show (0x8000 : Nat) = 2 ^ 15 by norm_num,
      Nat.testBit_two_pow]
    by_cases hi : 15 = i
    · subst hi
      have : o.testBit 15 = false := Nat.testBit_lt_two_pow (by norm_num; omega)
      simp [this]
    · simp [hi]
  rw [h1]
  have := Nat.mul_add_lt_is_or (i := 15) (b := o) (by norm_num; omega) 1
  simp at this
  omega

theorem pviol_idx_eq (o : Nat) (h : o < 65536) :
    (if o < 0x8000 then (o ||| 0x8000) % 65536 else (o &&& 0x7FFF) % 65536) = o ^^^ 0x8000 := by
  by_cases h1 : o < 0x8000
  · rw [if_pos h1, xor_8000_of_lt o h1]
    have := Nat.mul_add_lt_is_or (i := 15) (b := o) (by norm_num; omega) 1
    simp at this
    rw [Nat.or_comm, ← this]
    omega
  · rw [if_neg h1]
    have h2 := xor_8000_of_lt (o - 0x8000) (by omega)
    have h3 : o ^^^ 0x8000 = o - 0x8000 := by
      have : o = (o - 0x8000) ^^^ 0x8000 := by omega
      conv_lhs => rw [this]
      rw [Nat.xor_cancel_right]
    rw [h3, show (0x7FFF : Nat) = 2 ^ 15 - 1 by norm_num, Nat.and_pow_two_sub_one_eq_mod]
    omega

theorem pviol_slot_lt (o : Nat) (h : o < 65536) : o ^^^ 0x8000 < 65536 := by
  rw [← pviol_idx_eq o h]
  split <;> exact Nat.mod_lt _ (by norm_num)

theorem pviol_slot_inj (o o' : Nat) (h : o ^^^ 0x8000 = o' ^^^ 0x8000) : o = o' := by
  have := congrArg (fun x => x ^^^ 0x8000) h
  simpa [Nat.xor_cancel_right] using this

theorem sameFrame_refl (s : State) : SamePviolFrame s s := ⟨s.pviols_table, s.pviolu_table, rfl⟩

theorem sameFrame_trans {s t u : State} (h1 : SamePviolFrame s t) (h2 : SamePviolFrame t u) :
    SamePviolFrame s u := by
  obtain ⟨a, b, rfl⟩ := h1
  obtain ⟨c, d, rfl⟩ := h2
  exact ⟨c, d, rfl⟩

/-- One loop of `h68k_SetPrivilegeViolationHandler`, from opcode `i` on. -/
theorem SetPrivilegeViolationHandler_loop_spec (super : Bool) (f end_ : Nat) (he : end_ ≤ 0xFFFF) :
    ∀ (fuel : Nat) (s : State) (i : Nat), i ≤ end_ + 1 → end_ + 1 - i < fuel →
      ∃ t, SetPrivilegeViolationHandler_loop super f end_ fuel s i = .done t ∧
        SamePviolFrame s t ∧
        (∀ x, 65536 ≤ x → t.pviols_table x = s.pviols_table x ∧ t.pviolu_table x = s.pviolu_table x) ∧
        (∀ o, o < 65536 →
          t.pviols_table (o ^^^ 0x8000)
            = (if super = true ∧ i ≤ o ∧ o ≤ end_ then f else s.pviols_table (o ^^^ 0x8000)) ∧
          t.pviolu_table (o ^^^ 0x8000)
            = (if super = false ∧ i ≤ o ∧ o ≤ end_ then f else s.pviolu_table (o ^^^ 0x8000))) := by
  intro fuel
  induction fuel with
  | zero => intro s i _ h; omega
  | succ n ih =>
    intro s i hi hf
    unfold SetPrivilegeViolationHandler_loop
    by_cases hie : i ≤ end_
    · rw [if_pos hie]
      have hi16 : i < 65536 := by omega
      have hmod : (i + 1) % U32 = i + 1 := by unfold U32; omega
      simp only [pviol_idx_eq i hi16, hmod]
      have hinj : ∀ o, (o ^^^ 0x8000 = i ^^^ 0x8000) ↔ o = i :=
        fun o => ⟨pviol_slot_inj o i, fun h => by rw [h]⟩
      have hsl := pviol_slot_lt i hi16
      cases super
      · obtain ⟨t, ht, hfr, hbig, hslot⟩ := ih
          { s with pviolu_table := fun x => if x = i ^^^ 0x8000 then f else s.pviolu_table x }
          (i + 1) (by omega) (by omega)
        refine ⟨t, by simpa using ht, sameFrame_trans ⟨s.pviols_table, _, rfl⟩ hfr, ?_, ?_⟩
        · intro x hx
          have hne : x ≠ i ^^^ 0x8000 := by omega
          rw [(hbig x hx).1, (hbig x hx).2]
          simp [hne]
        · intro o ho
          rw [(hslot o ho).1, (hslot o ho).2]
          simp only [Bool.false_eq_true, false_and, if_false, true_and, hinj]
          by_cases hoi : o = i
          · subst hoi
            simp [hie]
          · have : (i + 1 ≤ o ∧ o ≤ end_) ↔ (i ≤ o ∧ o ≤ end_) := by omega
            simp [hoi, this]
      · obtain ⟨t, ht, hfr, hbig, hslot⟩ := ih
          { s with pviols_table := fun x => if x = i ^^^ 0x8000 then f else s.pviols_table x }
          (i + 1) (by omega) (by omega)
        refine ⟨t, by simpa using ht, sameFrame_trans ⟨_, s.pviolu_table, rfl⟩ hfr, ?_, ?_⟩
        · intro x hx
          have hne : x ≠ i ^^^ 0x8000 := by omega
          rw [(hbig x hx).1, (hbig x hx).2]
          simp [hne]
        · intro o ho
          rw [(hslot o ho).1, (hslot o ho).2]
          simp only [Bool.true_eq_false, false_and, if_false, true_and, hinj]
          refine ⟨?_, trivial⟩
          by_cases hoi : o = i
          · subst hoi
            simp [hie]
          · have : (i + 1 ≤ o ∧ o ≤ end_) ↔ (i ≤ o ∧ o ≤ end_) := by omega
            simp [hoi, this]
    · rw [if_neg hie]
      refine ⟨s, rfl, sameFrame_refl s, fun _ _ => ⟨rfl, rfl⟩, ?_⟩
      intro o _
      have : ¬ (i ≤ o ∧ o ≤ end_) := by omega
      simp [this]

/-- The whole of `h68k_SetPrivilegeViolationHandler`. -/
theorem SetPrivilegeViolationHandler_spec (s : State) (start end_ fsuper fuser fuel : Nat)
    (hse : start ≤ end_) (he : end_ ≤ 0xFFFF) (hfuel : end_ - start + 1 < fuel) :
    ∃ t, h68k_SetPrivilegeViolationHandler fuel s start end_ fsuper fuser = .done t ∧
      SamePviolFrame s t ∧
      (∀ x, 65536 ≤ x → t.pviols_table x = s.pviols_table x ∧ t.pviolu_table x = s.pviolu_table x) ∧
      (∀ o, o < 65536 →
        t.pviols_table (o ^^^ 0x8000)
          = (if start ≤ o ∧ o ≤ end_ ∧ fsuper ≠ 0 then fsuper else s.pviols_table (o ^^^ 0x8000)) ∧
        t.pviolu_table (o ^^^ 0x8000)
          = (if start ≤ o ∧ o ≤ end_ ∧ fuser ≠ 0 then fuser else s.pviolu_table (o ^^^ 0x8000))) := by
  unfold h68k_SetPrivilegeViolationHandler
  have hA : ∃ s1, (if fsuper ≠ 0 then SetPrivilegeViolationHandler_loop true fsuper end_ fuel s start
        else .done s) = .done s1 ∧ SamePviolFrame s s1 ∧
      (∀ x, 65536 ≤ x → s1.pviols_table x = s.pviols_table x ∧ s1.pviolu_table x = s.pviolu_table x) ∧
      (∀ o, o < 65536 →
        s1.pviols_table (o ^^^ 0x8000)
          = (if start ≤ o ∧ o ≤ end_ ∧ fsuper ≠ 0 then fsuper else s.pviols_table (o ^^^ 0x8000)) ∧
        s1.pviolu_table (o ^^^ 0x8000) = s.pviolu_table (o ^^^ 0x8000)) := by
    by_cases hs : fsuper ≠ 0
    · rw [if_pos hs]
      obtain ⟨t, ht, hfr, hbig, hslot⟩ :=
        SetPrivilegeViolationHandler_loop_spec true fsuper end_ he fuel s start (by omega) (by omega)
      refine ⟨t, ht, hfr, hbig, fun o ho => ?_⟩
      rw [(hslot o ho).1, (hslot o ho).2]
      simp [hs]
    · rw [if_neg hs]
      refine ⟨s, rfl, sameFrame_refl s, fun _ _ => ⟨rfl, rfl⟩, fun o _ => ?_⟩
      simp [hs]
  obtain ⟨s1, h1, hfr1, hbig1, hslot1⟩ := hA
  rw [h1]
  by_cases hu : fuser ≠ 0
  · simp only [if_pos hu]
    obtain ⟨t, ht, hfr, hbig, hslot⟩ :=
      SetPrivilegeViolationHandler_loop_spec false fuser end_ he fuel s1 start (by omega) (by omega)
    refine ⟨t, ht, sameFrame_trans hfr1 hfr, fun x hx => ?_, fun o ho => ?_⟩
    · rw [(hbig x hx).1, (hbig x hx).2]; exact hbig1 x hx
    · rw [(hslot o ho).1, (hslot o ho).2, (hslot1 o ho).1, (hslot1 o ho).2]
      simp [hu]
  · simp only [if_neg hu]
    refine ⟨s1, rfl, hfr1, hbig1, fun o ho => ?_⟩
    rw [(hslot1 o ho).1, (hslot1 o ho).2]
    simp [hu]

/-- C9: for `start ≤ end ≤ 0xFFFF` the call
`h68k_SetPrivilegeViolationHandler(start, end, superFn, userFn)` returns, and afterwards the
supervisor-table slot `o xor 0x8000` of every opcode `o` holds `superFn` if
`start ≤ o ≤ end` and `superFn` is non-null and otherwise its previous value, the
user-table slot of `o` holds `userFn` if `start ≤ o ≤ end` and `userFn` is non-null and
otherwise its previous value; distinct opcodes use distinct slots, all inside the tables. -/
theorem C9_set_privilege_violation_handler (s : State) (start end_ superFn userFn fuel : Nat)
    (hse : start ≤ end_) (he : end_ ≤ 0xFFFF) (hfuel : end_ - start + 1 < fuel) :
    ∃ t, h68k_SetPrivilegeViolationHandler fuel s start end_ superFn userFn = .done t ∧
      (∀ o, o < 65536 →
        t.pviols_table (o ^^^ 0x8000)
          = (if start ≤ o ∧ o ≤ end_ ∧ superFn ≠ 0 then superFn
             else s.pviols_table (o ^^^ 0x8000)) ∧
        t.pviolu_table (o ^^^ 0x8000)
          = (if start ≤ o ∧ o ≤ end_ ∧ userFn ≠ 0 then userFn
             else s.pviolu_table (o ^^^ 0x8000))) ∧
      (∀ o o1, o < 65536 → o1 < 65536 → o ≠ o1 →
        o ^^^ 0x8000 ≠ o1 ^^^ 0x8000 ∧ o ^^^ 0x8000 < 65536) := by
  obtain ⟨t, ht, _, _, hslot⟩ :=
    SetPrivilegeViolationHandler_spec s start end_ superFn userFn fuel hse he hfuel
  exact ⟨t, ht, hslot, fun o o1 ho _ hne =>
    ⟨fun h => hne (pviol_slot_inj o o1 h), pviol_slot_lt o ho⟩⟩

theorem C9_set_privilege_violation_handler_witness :
    ∃ t, h68k_SetPrivilegeViolationHandler 8 demoState 0x4e70 0x4e73 0x7001 0 = .done t ∧
      (∀ o, o < 65536 →
        t.pviols_table (o ^^^ 0x8000)
          = (if 0x4e70 ≤ o ∧ o ≤ 0x4e73 ∧ 0x7001 ≠ 0 then 0x7001
             else demoState.pviols_table (o ^^^ 0x8000)) ∧
        t.pviolu_table (o ^^^ 0x8000)
          = (if 0x4e70 ≤ o ∧ o ≤ 0x4e73 ∧ 0 ≠ 0 then 0
             else demoState.pviolu_table (o ^^^ 0x8000))) ∧
      (∀ o o1, o < 65536 → o1 < 65536 → o ≠ o1 →
        o ^^^ 0x8000 ≠ o1 ^^^ 0x8000 ∧ o ^^^ 0x8000 < 65536) :=
  C9_set_privilege_violation_handler demoState 0x4e70 0x4e73 0x7001 0 8
    (by decide) (by decide) (by decide)

/-! ## `h68k_InitVectors` -/

theorem foldl_proj {α β γ : Type} (g : α → γ) (f : α → β → α) (hf : ∀ s b, g (f s b) = g s)
    (l : List β) (s : α) : g (l.foldl f s) = g s := by
  induction l generalizing s with
  | nil => rfl
  | cons b l ih => rw [List.foldl_cons, ih, hf]

theorem sfs_init_frame (s : State) :
    (sfs_init s).client_cpu = s.client_cpu ∧ (sfs_init s).mem_ptr = s.mem_ptr ∧
      (sfs_init s).mem_top = s.mem_top := by
  have h := foldl_proj (fun t : State => (t.client_cpu, t.mem_ptr, t.mem_top))
    (fun t i => (List.range 512).foldl (fun u j => sfs_step u i j) t)
    (fun t i => foldl_proj (fun t : State => (t.client_cpu, t.mem_ptr, t.mem_top))
      (fun u j => sfs_step u i j) (fun _ _ => rfl) (List.range 512) t)
    (List.range 16) s
  simp only [Prod.mk.injEq] at h
  exact h

theorem initVectorsCase_frame (A : Sym → Nat) (s : State) (g2 : Sym) (calls : List VecCall) :
    (initVectorsCase A s g2 calls).client_cpu = s.client_cpu := by
  unfold initVectorsCase
  simp only
  exact (foldl_proj (fun t : State => t.client_cpu)
      (fun t i => h68k_SetVector t i 0 (A g2)) (fun _ _ => rfl) _ _).trans
    ((foldl_proj (fun t : State => t.client_cpu)
      (fun t (c : VecCall) => h68k_SetVector t c.vec c.ipl (A c.func)) (fun _ _ => rfl) _ _).trans
    (foldl_proj (fun t : State => t.client_cpu)
      (fun t i => h68k_SetVector t i 0 (A g2)) (fun _ _ => rfl) _ _))

theorem lastInstall_cons (c : PviolCall) (rest : List PviolCall) (o : Nat) :
    lastInstall (c :: rest) o
      = (lastInstall rest o).or (if c.covers o then some c else none) := by
  unfold lastInstall
  rw [List.reverse_cons, List.find?_append]
  simp [List.find?]
  cases c.covers o <;> simp

theorem lastInstall_append (l1 l2 : List PviolCall) (o : Nat) :
    lastInstall (l1 ++ l2) o = (lastInstall l2 o).or (lastInstall l1 o) := by
  unfold lastInstall
  rw [List.reverse_append, List.find?_append]

theorem lastInstall_covers (calls : List PviolCall) (o : Nat) (c : PviolCall)
    (h : lastInstall calls o = some c) : c ∈ calls ∧ c.start ≤ o ∧ o ≤ c.end_ := by
  unfold lastInstall at h
  have h1 := List.find?_some h
  have h2 := List.mem_of_find?_eq_some h
  simp [PviolCall.covers] at h1
  exact ⟨by simpa using h2, h1⟩

theorem lastInstall_none (calls : List PviolCall) (o : Nat)
    (h : ∀ c ∈ calls, ¬ (c.start ≤ o ∧ o ≤ c.end_)) : lastInstall calls o = none := by
  unfold lastInstall
  rw [List.find?_eq_none]
  intro c hc
  have := h c (by simpa using hc)
  simpa [PviolCall.covers] using this

/-- A run of installs: every slot holds the handlers of the last install covering its
opcode, or its previous value if there is none. -/
theorem installAll_spec (A : Sym → Nat) (hA : ∀ x, A x ≠ 0) (fuel : Nat) (hfuel : 65536 < fuel) :
    ∀ (calls : List PviolCall) (s : State),
      (∀ c ∈ calls, c.start ≤ c.end_ ∧ c.end_ ≤ 0xFFFF) →
      ∃ t, installAll A fuel calls s = .done t ∧ SamePviolFrame s t ∧
        ∀ o, o < 65536 →
          t.pviols_table (o ^^^ 0x8000)
            = (lastInstall calls o).elim (s.pviols_table (o ^^^ 0x8000)) (fun c => A c.fsuper) ∧
          t.pviolu_table (o ^^^ 0x8000)
            = (lastInstall calls o).elim (s.pviolu_table (o ^^^ 0x8000)) (fun c => A c.fuser) := by
  intro calls
  induction calls with
  | nil =>
    intro s _
    exact ⟨s, rfl, sameFrame_refl s, fun o _ => by simp [lastInstall]⟩
  | cons c rest ih =>
    intro s hall
    have hc := hall c (List.mem_cons_self _ _)
    obtain ⟨s1, h1, hfr1, _, hslot1⟩ :=
      SetPrivilegeViolationHandler_spec s c.start c.end_ (A c.fsuper) (A c.fuser) fuel
        hc.1 hc.2 (by omega)
    obtain ⟨t, ht, hfr, hslot⟩ := ih s1 (fun d hd => hall d (List.mem_cons_of_mem _ hd))
    refine ⟨t, ?_, sameFrame_trans hfr1 hfr, fun o ho => ?_⟩
    · unfold installAll
      rw [h1]
      exact ht
    · rw [(hslot o ho).1, (hslot o ho).2, (hslot1 o ho).1, (hslot1 o ho).2, lastInstall_cons]
      cases hl : lastInstall rest o with
      | some d => simp
      | none =>
        by_cases hcov : c.covers o = true
        · have hcov2 := hcov
          simp only [PviolCall.covers, Bool.and_eq_true, decide_eq_true_eq] at hcov2
          simp [hcov, hcov2, hA]
        · have hcov2 := hcov
          simp only [PviolCall.covers, Bool.and_eq_true, decide_eq_true_eq] at hcov2
          have h3 : ¬ (c.start ≤ o ∧ o ≤ c.end_ ∧ A c.fsuper ≠ 0) := fun h => hcov2 ⟨h.1, h.2.1⟩
          have h4 : ¬ (c.start ≤ o ∧ o ≤ c.end_ ∧ A c.fuser ≠ 0) := fun h => hcov2 ⟨h.1, h.2.1⟩
          simp [hcov, h3, h4]

theorem pviolInstalls_ranges : ∀ c ∈ pviolInstalls, c.start ≤ c.end_ ∧ c.end_ ≤ 0xFFFF := by
  decide

theorem pviolInstalls_single :
    ∀ c ∈ pviolInstalls, c.start = c.end_ → lastInstall pviolInstalls c.start = some c := by
  decide

theorem pviolInstalls_tail :
    ∀ c ∈ pviolInstalls.drop 2, c.start = c.end_ ∧ c.end_ < 0xF000 := by
  decide

theorem pviolInstalls_split :
    pviolInstalls
      = [PviolCall.mk 0x0000 0xFFFF .pviol68000_IllegalInstruction .pviol68000_IllegalInstruction,
         PviolCall.mk 0xF000 0xFFFF .pviol68000_LineF .pviol68000_LineF]
        ++ pviolInstalls.drop 2 := by
  decide

theorem lastInstall_head (o : Nat) (ho : o < 65536)
    (hn : lastInstall (pviolInstalls.drop 2) o = none) :
    lastInstall pviolInstalls o
      = some (if 0xF000 ≤ o then PviolCall.mk 0xF000 0xFFFF .pviol68000_LineF .pviol68000_LineF
          else PviolCall.mk 0x0000 0xFFFF .pviol68000_IllegalInstruction
            .pviol68000_IllegalInstruction) := by
  rw [pviolInstalls_split, lastInstall_append, hn]
  have h1 : o ≤ 65535 := by omega
  by_cases h : 0xF000 ≤ o
  · simp [lastInstall, PviolCall.covers, h, h1]
  · simp [lastInstall, PviolCall.covers, h, h1]

theorem lastInstall_total (o : Nat) (ho : o < 65536) : ∃ c, lastInstall pviolInstalls o = some c := by
  cases hn : lastInstall (pviolInstalls.drop 2) o with
  | none => exact ⟨_, lastInstall_head o ho hn⟩
  | some d =>
    refine ⟨d, ?_⟩
    rw [pviolInstalls_split, lastInstall_append, hn]
    rfl

/-- The part of `h68k_InitVectors` from the first privilege-violation install on:
`client_cpu` is a `uint16`, so `client_cpu >= 68010` is false whatever the client. -/
theorem InitVectors_installs (A : Sym → Nat) (hA : ∀ x, A x ≠ 0) (fuel : Nat) (hfuel : 65536 < fuel)
    (s8 : State) (hcpu : s8.client_cpu < 65536) :
    ∃ t, (match installAll A fuel pviolInstalls s8 with
        | .fatal t => Outcome.fatal t
        | .timeout => .timeout
        | .done s9 =>
          if s9.client_cpu ≥ 68010 then installAll A fuel pviolInstalls68010 s9 else .done s9)
        = .done t ∧
      ∀ o, o < 65536 → ∃ c, lastInstall pviolInstalls o = some c ∧
        t.pviols_table (o ^^^ 0x8000) = A c.fsuper ∧ t.pviolu_table (o ^^^ 0x8000) = A c.fuser := by
  obtain ⟨t, ht, hfr, hslot⟩ := installAll_spec A hA fuel hfuel pviolInstalls s8 pviolInstalls_ranges
  have hc : ¬ t.client_cpu ≥ 68010 := by
    obtain ⟨a, b, rfl⟩ := hfr
    show ¬ s8.client_cpu ≥ 68010
    omega
  refine ⟨t, ?_, fun o ho => ?_⟩
  · rw [ht]
    simp only [if_neg hc]
  · obtain ⟨c, hcl⟩ := lastInstall_total o ho
    refine ⟨c, hcl, ?_, ?_⟩
    · rw [(hslot o ho).1, hcl]; rfl
    · rw [(hslot o ho).2, hcl]; rfl


theorem store_client_cpu (s : State) (a v : Nat) : (s.store a v).client_cpu = s.client_cpu := rfl

theorem SetVectorHandler_client_cpu (s : State) (vec f : Nat) :
    (h68k_SetVectorHandler s vec f).client_cpu = s.client_cpu := rfl

/-- `h68k_InitVectors` returns for any `uint16` value of `client_cpu`, and every opcode
has the handlers of its last install of the first sequence. -/
theorem InitVectors_returns (A : Sym → Nat) (s : State) (fuel : Nat)
    (hA : ∀ x, A x ≠ 0) (hcpu : s.client_cpu < 65536)
    (hroom : alignUp s.mem_ptr 8 + 1024 ≤ s.mem_top) (htop : s.mem_top < 4294967296)
    (hfuel : 65536 < fuel) :
    ∃ t, h68k_InitVectors A fuel s = .done t ∧
      ∀ o, o < 65536 → ∃ c, lastInstall pviolInstalls o = some c ∧
        t.pviols_table (o ^^^ 0x8000) = A c.fsuper ∧ t.pviolu_table (o ^^^ 0x8000) = A c.fuser := by
  obtain ⟨hc1, hp1, ht1⟩ := sfs_init_frame s
  have hal := AllocMem_ok (sfs_init s) (256 * 4) 8 (by norm_num)
    (by rw [hp1, ht1]; exact hroom) (by rw [ht1]; exact htop)
  rw [show (2 : Nat) ^ 8 = 256 by norm_num] at hal
  unfold h68k_InitVectors
  simp only
  generalize sfs_init s = s1 at hc1 hal ⊢
  rw [hal]
  simp only
  refine InitVectors_installs A hA fuel hfuel _ ?_
  simp only [SetVectorHandler_client_cpu]
  split
  · rw [initVectorsCase_frame, hc1]; exact hcpu
  · rw [initVectorsCase_frame, hc1]; exact hcpu

/-- C10: `h68k_InitVectors` for a 68000 client, with room in the arena for the vector
table and stubs at non-null addresses, returns, and afterwards for every 16-bit opcode `o`
the supervisor and the user privilege-violation entries of `o` are non-null and are the
handlers of the last install of the sequence whose range contains `o`:
`pviol68000_LineF` in both tables for `0xF000..0xFFFF`, the stubs of its install for each
specifically installed opcode (for `0x4e72`: `pviol68000_stop` and
`pviol68000_PrivilegeViolation`), and `pviol68000_IllegalInstruction` in both tables for
every other opcode. -/
theorem C10_init_vectors_pviol_tables (A : Sym → Nat) (s : State) (fuel : Nat)
    (hA : ∀ x, A x ≠ 0) (hcpu : s.client_cpu = H68K_CPU_68000)
    (hroom : alignUp s.mem_ptr 8 + 1024 ≤ s.mem_top) (htop : s.mem_top < 4294967296)
    (hfuel : 65536 < fuel) :
    ∃ t, h68k_InitVectors A fuel s = .done t ∧
      ∀ o, o < 65536 →
        t.pviols_table (o ^^^ 0x8000) ≠ 0 ∧ t.pviolu_table (o ^^^ 0x8000) ≠ 0 ∧
        (∃ c, lastInstall pviolInstalls o = some c ∧ c ∈ pviolInstalls ∧
          c.start ≤ o ∧ o ≤ c.end_ ∧
          t.pviols_table (o ^^^ 0x8000) = A c.fsuper ∧
          t.pviolu_table (o ^^^ 0x8000) = A c.fuser) ∧
        (0xF000 ≤ o →
          t.pviols_table (o ^^^ 0x8000) = A .pviol68000_LineF ∧
          t.pviolu_table (o ^^^ 0x8000) = A .pviol68000_LineF) ∧
        (∀ c ∈ pviolInstalls, c.start = o → c.end_ = o →
          t.pviols_table (o ^^^ 0x8000) = A c.fsuper ∧
          t.pviolu_table (o ^^^ 0x8000) = A c.fuser) ∧
        (o = 0x4e72 →
          t.pviols_table (o ^^^ 0x8000) = A .pviol68000_stop ∧
          t.pviolu_table (o ^^^ 0x8000) = A .pviol68000_PrivilegeViolation) ∧
        (o < 0xF000 → (∀ c ∈ pviolInstalls, c.start = c.end_ → c.start ≠ o) →
          t.pviols_table (o ^^^ 0x8000) = A .pviol68000_IllegalInstruction ∧
          t.pviolu_table (o ^^^ 0x8000) = A .pviol68000_IllegalInstruction) := by
  obtain ⟨t, ht, hent⟩ := InitVectors_returns A s fuel hA (by rw [hcpu]; decide) hroom htop hfuel
  refine ⟨t, ht, fun o ho => ?_⟩
  obtain ⟨c, hcl, hs, hu⟩ := hent o ho
  obtain ⟨hmem, hlo, hhi⟩ := lastInstall_covers _ _ _ hcl
  refine ⟨by rw [hs]; exact hA _, by rw [hu]; exact hA _, ⟨c, hcl, hmem, hlo, hhi, hs, hu⟩,
    ?_, ?_, ?_, ?_⟩
  · intro hF
    have hn : lastInstall (pviolInstalls.drop 2) o = none :=
      lastInstall_none _ _ (fun d hd hcov => by
        have := (pviolInstalls_tail d hd).2
        omega)
    have := lastInstall_head o ho hn
    rw [if_pos hF, hcl] at this
    cases this
    exact ⟨hs, hu⟩
  · intro d hd h1 h2
    have := pviolInstalls_single d hd (h1.trans h2.symm)
    rw [h1, hcl] at this
    cases this
    exact ⟨hs, hu⟩
  · intro h
    subst h
    have : lastInstall pviolInstalls 0x4e72
        = some (PviolCall.mk 0x4e72 0x4e72 .pviol68000_stop .pviol68000_PrivilegeViolation) := by
      decide
    rw [hcl] at this
    cases this
    exact ⟨hs, hu⟩
  · intro hF hoth
    have hn : lastInstall (pviolInstalls.drop 2) o = none :=
      lastInstall_none _ _ (fun d hd hcov => by
        have h1 := (pviolInstalls_tail d hd).1
        exact hoth d (List.mem_of_mem_drop hd) h1 (by omega))
    have := lastInstall_head o ho hn
    rw [if_neg (by omega), hcl] at this
    cases this
    exact ⟨hs, hu⟩

theorem C10_init_vectors_pviol_tables_witness :
    ∃ t, h68k_InitVectors demoAddr 65537 demoState = .done t ∧
      ∀ o, o < 65536 →
        t.pviols_table (o ^^^ 0x8000) ≠ 0 ∧ t.pviolu_table (o ^^^ 0x8000) ≠ 0 ∧
        (∃ c, lastInstall pviolInstalls o = some c ∧ c ∈ pviolInstalls ∧
          c.start ≤ o ∧ o ≤ c.end_ ∧
          t.pviols_table (o ^^^ 0x8000) = demoAddr c.fsuper ∧
          t.pviolu_table (o ^^^ 0x8000) = demoAddr c.fuser) ∧
        (0xF000 ≤ o →
          t.pviols_table (o ^^^ 0x8000) = demoAddr .pviol68000_LineF ∧
          t.pviolu_table (o ^^^ 0x8000) = demoAddr .pviol68000_LineF) ∧
        (∀ c ∈ pviolInstalls, c.start = o → c.end_ = o →
          t.pviols_table (o ^^^ 0x8000) = demoAddr c.fsuper ∧
          t.pviolu_table (o ^^^ 0x8000) = demoAddr c.fuser) ∧
        (o = 0x4e72 →
          t.pviols_table (o ^^^ 0x8000) = demoAddr .pviol68000_stop ∧
          t.pviolu_table (o ^^^ 0x8000) = demoAddr .pviol68000_PrivilegeViolation) ∧
        (o < 0xF000 → (∀ c ∈ pviolInstalls, c.start = c.end_ → c.start ≠ o) →
          t.pviols_table (o ^^^ 0x8000) = demoAddr .pviol68000_IllegalInstruction ∧
          t.pviolu_table (o ^^^ 0x8000) = demoAddr .pviol68000_IllegalInstruction) :=
  C10_init_vectors_pviol_tables demoAddr demoState 65537 demoAddr_ne_zero rfl
    (by decide) (by decide) (by decide)

/-! ## `h68k_InitVectors` for a 68010 client -/

/-- C11 at the failing input. On the empty sample machine with
`client_cpu = H68K_CPU_68010` (`0x0010`), `h68k_InitVectors` returns with the tables of a
68000 client: the test `client_cpu >= 68010` compares the 16-bit `client_cpu` with the
decimal number 68010 and never holds, so the second block of installs is not run. The
user-mode entry of every move-from-SR opcode (`0x40c0..0x40c7`, `0x40d0..0x40f9`) is the
emulation stub of its supervisor-mode entry, not `pviol68000_PrivilegeViolation`, and the
supervisor-mode entry of `rte` (`0x4e73`) is `pviol68000_rte`, not `pviol68010_rte`. -/
theorem C11_68010_installs_not_run :
    ∃ t, h68k_InitVectors demoAddr 65537 demoState68010 = .done t ∧
      (∀ o, (0x40c0 ≤ o ∧ o ≤ 0x40c7) ∨ (0x40d0 ≤ o ∧ o ≤ 0x40f9) →
        t.pviolu_table (o ^^^ 0x8000) = t.pviols_table (o ^^^ 0x8000) ∧
        t.pviolu_table (o ^^^ 0x8000) ≠ demoAddr .pviol68000_PrivilegeViolation) ∧
      t.pviolu_table (0x40c0 ^^^ 0x8000) = demoAddr .pviol68000_move_sr_d0 ∧
      t.pviols_table (0x4e73 ^^^ 0x8000) = demoAddr .pviol68000_rte ∧
      demoAddr .pviol68000_rte ≠ demoAddr .pviol68010_rte := by
  obtain ⟨t, ht, hent⟩ := InitVectors_returns demoAddr demoState68010 65537 demoAddr_ne_zero
    (by decide) (by decide) (by decide) (by decide)
  have key : ∀ o ∈ List.range' 0x40c0 8 ++ List.range' 0x40d0 42,
      (lastInstall pviolInstalls o).all (fun c =>
        decide (demoAddr c.fuser = demoAddr c.fsuper ∧
          demoAddr c.fuser ≠ demoAddr .pviol68000_PrivilegeViolation)) = true := by
    decide
  refine ⟨t, ht, ?_, ?_, ?_, by decide⟩
  · intro o ho
    obtain ⟨c, hcl, hs, hu⟩ := hent o (by omega)
    have hk := key o (by
      rw [List.mem_append, List.mem_range'_1, List.mem_range'_1]
      omega)
    rw [hcl] at hk
    simp only [Option.all_some, decide_eq_true_eq] at hk
    rw [hs, hu]
    exact hk
  · obtain ⟨c, hcl, _, hu⟩ := hent 0x40c0 (by decide)
    have : lastInstall pviolInstalls 0x40c0
        = some (PviolCall.mk 0x40c0 0x40c0 .pviol68000_move_sr_d0 .pviol68000_move_sr_d0) := by
      decide
    rw [hcl] at this
    cases this
    exact hu
  · obtain ⟨c, hcl, hs, _⟩ := hent 0x4e73 (by decide)
    have : lastInstall pviolInstalls 0x4e73
        = some (PviolCall.mk 0x4e73 0x4e73 .pviol68000_rte .pviol68000_PrivilegeViolation) := by
      decide
    rw [hcl] at this
    cases this
    exact hs

/-! ## `h68k_FatalError` -/

/-- C12, the claim as stated fails: in a checked build on a host without NatFeats
`DbgInit` installs `DbgBreakScreen`, and `h68k_FatalError` on the sample machine with a
callback registered at `0x9000` stores the dump and calls the callback, but its last
event is the call of the break function, which loops forever: the run is never
terminated. -/
theorem C12_break_counterexample :
    DbgInit 0 DBG_SCREEN = .DbgBreakScreen ∧ DbgInit 0 DBG_NONE = .DbgBreakScreen ∧
    (h68k_FatalError true (DbgInit 0 DBG_NONE) (fun _ x => x)
        { demoMachine with h68k_OnFatal := 0x9000 } demoDump).2
      = [Event.debugPrint 5 0x1234, Event.onFatal 0x9000 demoDump, Event.dbgBreak 5] ∧
    (h68k_FatalError true (DbgInit 0 DBG_NONE) (fun _ x => x)
        { demoMachine with h68k_OnFatal := 0x9000 } demoDump).2.count Event.terminate = 0 := by
  decide

/-- C12, amended. `h68k_FatalError(dump)`, in either build, whatever the break function
and whatever the callback does: the dump `stored` that it puts in the global
`h68kFatalDump` has every field of `dump` except that `err` is `0xFFFFFFFF` when
`dump.err` is 0, so `stored.err` is never 0; the calls of the fatal callback are exactly
one call of the registered function with `stored` when one is registered and none
otherwise; the machine at the end is the one holding `stored`, after the callback if
there is one. In a build with `NDEBUG`, and in a checked build whose break function
returns, `terminate` is the last event and occurs once, so the callback runs before the
run is terminated; in a checked build whose break function does not return
(`DbgBreakScreen`) the last event is the call of the break function and the run is not
terminated. -/
theorem C12_fatal_error (checked : Bool) (brk : BreakFunc) (cb : Nat → Machine → Machine)
    (m : Machine) (dump : FatalDump) :
    ∃ stored : FatalDump, ∃ m3 : Machine,
      stored = { dump with err := if dump.err = 0 then 0xFFFFFFFF else dump.err } ∧
      stored.err ≠ 0 ∧
      m3.h68kFatalDump = stored ∧ m3.h68k_OnFatal = m.h68k_OnFatal ∧
      (h68k_FatalError checked brk cb m dump).1
        = (if m.h68k_OnFatal ≠ 0 then cb m.h68k_OnFatal m3 else m3) ∧
      (h68k_FatalError checked brk cb m dump).2.filter Event.isOnFatal
        = (if m.h68k_OnFatal ≠ 0 then [Event.onFatal m.h68k_OnFatal stored] else []) ∧
      (h68k_FatalError checked brk cb m dump).2.getLast?
        = some (if checked = true ∧ brk.returns = false then
            Event.dbgBreak (h68k_FatalError checked brk cb m dump).1.h68kFatalDump.err
          else Event.terminate) ∧
      (h68k_FatalError checked brk cb m dump).2.count Event.terminate
        = (if checked = true ∧ brk.returns = false then 0 else 1) := by
  refine ⟨{ dump with err := if dump.err = 0 then 0xFFFFFFFF else dump.err },
    { m with
      h68kFatalDump := { dump with err := if dump.err = 0 then 0xFFFFFFFF else dump.err }
      h68kFatalDumpMsg := if checked then
          some (if dump.err = 0 then 0xFFFFFFFF else dump.err, dump.pc)
        else m.h68kFatalDumpMsg }, rfl, ?_, rfl, rfl, ?_⟩
  · by_cases he : dump.err = 0 <;> simp [he]
  · by_cases he : dump.err = 0 <;> by_cases hf : m.h68k_OnFatal = 0 <;> cases checked <;>
      cases hb : brk.returns <;>
      simp [h68k_FatalError, he, hf, hb, Event.isOnFatal]

/-! ## `h68k_Run` and `h68k_Terminate` -/

/-- `h68k_Run` returns when `h68k_PrepareFtables` does, with the control registers
written back from the six `old_*` globals as the client run leaves them. -/
theorem Run_returns (A : Sym → Nat) (fuel : Nat) (client : Machine → Machine) (m : Machine)
    (s2 : State) (hprep : h68k_PrepareFtables A fuel m.st = .done s2)
    (hold : ∀ x, (client x).old_usp = x.old_usp ∧ (client x).old_vbr = x.old_vbr ∧
      (client x).old_sfc = x.old_sfc ∧ (client x).old_dfc = x.old_dfc ∧
      (client x).old_caar = x.old_caar ∧ (client x).old_cacr = x.old_cacr) :
    ∃ t, h68k_Run A fuel client m = .done t ∧
      t.creg.usp = m.creg.usp ∧ t.creg.vbr = m.creg.vbr ∧ t.creg.sfc = m.creg.sfc ∧
      t.creg.dfc = m.creg.dfc ∧ t.creg.caar = m.creg.caar ∧
      t.creg.cacr = m.creg.cacr ||| 0x0808 := by
  have h : h68k_PrepareFtables A fuel ({ m with sr := 0x2700 } : Machine).st = .done s2 := hprep
  unfold h68k_Run
  simp only [h]
  refine ⟨_, rfl, ?_⟩
  simp [h68k_RestoreMemoryMap, h68k_SetMMU, hold]

/-- C13, as stated, fails on the sample machine: the host `cacr` is `0x3111` at entry of
`h68k_Run`, the client run terminates at once, and the value written back to `cacr` on
teardown is `0x3919`: `old_cacr |= 0x0808` precedes `loadcreg(cacr)`. -/
theorem C13_cacr_counterexample :
    ∃ t, h68k_Run demoAddr 65537 id demoMachine = .done t ∧
      demoMachine.creg.cacr = 0x3111 ∧ t.creg.cacr = 0x3919 := by
  obtain ⟨s2, hs2, _⟩ := prepDemo_run
  obtain ⟨t, ht, _, _, _, _, _, hc⟩ := Run_returns demoAddr 65537 id demoMachine s2 hs2
    (fun _ => ⟨rfl, rfl, rfl, rfl, rfl, rfl⟩)
  exact ⟨t, ht, rfl, by rw [hc]; decide⟩

/-- C13, amended. When `h68k_PrepareFtables` returns and the client run, which ends in
`h68k_Terminate()`, leaves the six globals `old_usp .. old_caar` alone, `h68k_Run`
returns, once, and on teardown the host control registers `usp`, `vbr`, `sfc`, `dfc` and
`caar` have been written back with the values they had at entry, and `cacr` with its
value at entry with the bits `0x0808` (clear data and instruction cache) set. -/
theorem C13_run_restores_control_registers (A : Sym → Nat) (fuel : Nat)
    (client : Machine → Machine) (m : Machine) (s2 : State)
    (hprep : h68k_PrepareFtables A fuel m.st = .done s2)
    (hold : ∀ x, (client x).old_usp = x.old_usp ∧ (client x).old_vbr = x.old_vbr ∧
      (client x).old_sfc = x.old_sfc ∧ (client x).old_dfc = x.old_dfc ∧
      (client x).old_caar = x.old_caar ∧ (client x).old_cacr = x.old_cacr) :
    ∃ t, h68k_Run A fuel client m = .done t ∧
      t.creg.usp = m.creg.usp ∧ t.creg.vbr = m.creg.vbr ∧ t.creg.sfc = m.creg.sfc ∧
      t.creg.dfc = m.creg.dfc ∧ t.creg.caar = m.creg.caar ∧
      t.creg.cacr = m.creg.cacr ||| 0x0808 :=
  Run_returns A fuel client m s2 hprep hold

theorem C13_run_restores_control_registers_witness :
    ∃ t, h68k_Run demoAddr 65537 id demoMachine = .done t ∧
      t.creg.usp = demoMachine.creg.usp ∧ t.creg.vbr = demoMachine.creg.vbr ∧
      t.creg.sfc = demoMachine.creg.sfc ∧ t.creg.dfc = demoMachine.creg.dfc ∧
      t.creg.caar = demoMachine.creg.caar ∧
      t.creg.cacr = demoMachine.creg.cacr ||| 0x0808 := by
  obtain ⟨s2, hs2, _⟩ := prepDemo_run
  exact C13_run_restores_control_registers demoAddr 65537 id demoMachine s2 hs2
    (fun _ => ⟨rfl, rfl, rfl, rfl, rfl, rfl⟩)

/-! ## `h68k_InitMemoryMap` -/

theorem pageExp_bounds (p : Nat) : 8 ≤ pageExp p ∧ pageExp p ≤ 15 := by
  unfold pageExp
  split_ifs <;> omega

theorem pageSize_loop_eq (p : Nat) (hp : p < 4294967296) :
    pageSize_loop p 9 0 = (2 ^ pageExp p, 20 - pageExp p) := by
  unfold pageExp
  simp only [pageSize_loop, validPageSizes]
  by_cases h1 : p ≤ 256
  · simp [h1]
  by_cases h2 : p ≤ 512
  · simp [h1, h2]
  by_cases h3 : p ≤ 1024
  · simp [h1, h2, h3]
  by_cases h4 : p ≤ 2048
  · simp [h1, h2, h3, h4]
  by_cases h5 : p ≤ 4096
  · simp [h1, h2, h3, h4, h5]
  by_cases h6 : p ≤ 8192
  · simp [h1, h2, h3, h4, h5, h6]
  by_cases h7 : p ≤ 16384
  · simp [h1, h2, h3, h4, h5, h6, h7]
  have h9 : p ≤ 4294967295 := by omega
  by_cases h8 : p ≤ 32768
  · simp [h1, h2, h3, h4, h5, h6, h7, h8]
  · simp [h1, h2, h3, h4, h5, h6, h7, h8, h9]

theorem and_255 (x : Nat) : x &&& 255 = x % 256 := by
  have := Nat.and_pow_two_sub_one_eq_mod x 8
  simpa using this

theorem and_15 (x : Nat) : x &&& 15 = x % 16 := by
  have := Nat.and_pow_two_sub_one_eq_mod x 4
  simpa using this

/-- The checks of `ShortDescriptor` pass on a well-shaped call when the tables are
16-aligned. -/
theorem ShortDescriptor_ok (checked : Bool) (P : Tab → Nat) (ts : Nat)
    (hP : ∀ t, P t % 16 = 0) (hts : ts % 16 = 0) (c : ShortCall) (hc : c.wf = true) (s : State) :
    ShortDescriptor checked s (P c.table) c.idx (c.addr.value P ts) c.flag
      = .done (s.store (P c.table + 4 * c.idx) (c.addr.value P ts ||| c.flag)) := by
  obtain ⟨tb, i, ad, fl⟩ := c
  unfold ShortCall.wf at hc
  have e1 : (0x41 &&& MMU_DT) = MMU_PAGE := by decide
  have e2 : (2 &&& MMU_DT) = MMU_SHORT_TABLE := by decide
  have e3 : (3 &&& MMU_DT) = MMU_LONG_TABLE := by decide
  have n1 : not32 0xFFFFFF00 = 255 := by decide
  have n2 : not32 0xFFFFFFF0 = 15 := by decide
  have n3 : not32 255 = 0xFFFFFF00 := by decide
  have n4 : not32 15 = 0xFFFFFFF0 := by decide
  have f1 : (0x41 &&& 0xFFFFFF00) = 0 := by decide
  have f2 : (2 &&& 0xFFFFFFF0) = 0 := by decide
  have f3 : (3 &&& 0xFFFFFFF0) = 0 := by decide
  have d1 : ¬ (MMU_SHORT_TABLE = MMU_PAGE) := by decide
  have d2 : ¬ (MMU_LONG_TABLE = MMU_PAGE) := by decide
  cases ad with
  | abs a =>
    simp only [Bool.and_eq_true, decide_eq_true_eq] at hc
    obtain ⟨_, ⟨hfl, ha⟩, _⟩ := hc
    subst hfl
    have h1 : a &&& 255 = 0 := by rw [and_255]; exact ha
    simp only [ShortDescriptor, Target.value, e1, if_true, n1, n3, h1, f1, ne_eq,
      not_true_eq_false, and_false, if_false]
  | tab t =>
    simp only [Bool.and_eq_true, decide_eq_true_eq] at hc
    obtain ⟨_, hfl, _⟩ := hc
    subst hfl
    have h1 : P t &&& 15 = 0 := by rw [and_15]; exact hP t
    simp only [ShortDescriptor, Target.value, e2, d1, if_false, true_or, if_true, n2, n4, h1,
      f2, ne_eq, not_true_eq_false, and_false]
  | tid j =>
    simp only [Bool.and_eq_true, decide_eq_true_eq] at hc
    obtain ⟨_, hfl, _⟩ := hc
    subst hfl
    have h0 : (j * ts) % 16 = 0 := by
      obtain ⟨q, hq⟩ := Nat.dvd_of_mod_eq_zero hts
      rw [hq, ← Nat.mul_assoc, Nat.mul_comm j 16, Nat.mul_assoc]
      exact Nat.mul_mod_right _ _
    have h1 : (((j * ts) % U32 + P .tid0u) % U32) &&& 15 = 0 := by
      rw [and_15]
      have := hP .tid0u
      unfold U32
      omega
    simp only [ShortDescriptor, Target.value, e3, d2, if_false, or_true, if_true, n2, n4, h1,
      f3, ne_eq, not_true_eq_false, and_false]

theorem find_congr {α : Type} (p q : α → Bool) :
    ∀ l : List α, (∀ c ∈ l, p c = q c) → l.find? p = l.find? q := by
  intro l
  induction l with
  | nil => intro _; rfl
  | cons a l ih =>
    intro h
    rw [List.find?_cons, List.find?_cons, h a (List.mem_cons_self _ _),
      ih (fun c hc => h c (List.mem_cons_of_mem _ hc))]

/-- A run of well-shaped `ShortDescriptor` calls returns; afterwards every word holds
the value of the last call that wrote it, or its old value. -/
theorem buildTree_spec (checked : Bool) (P : Tab → Nat) (ts : Nat)
    (hP : ∀ t, P t % 16 = 0) (hts : ts % 16 = 0) :
    ∀ (calls : List ShortCall) (s : State), (∀ c ∈ calls, c.wf = true) →
      ∃ t, buildTree checked P ts calls s = .done t ∧ SameGlobals s t ∧
        ∀ x, t.mem x
          = (calls.reverse.find? (fun c => decide (P c.table + 4 * c.idx = x))).elim (s.mem x)
              (fun c => c.addr.value P ts ||| c.flag) := by
  intro calls
  induction calls with
  | nil =>
    intro s _
    exact ⟨s, rfl, sameGlobals_refl s, fun x => rfl⟩
  | cons c rest ih =>
    intro s hall
    obtain ⟨t, ht, hg, hm⟩ := ih (s.store (P c.table + 4 * c.idx) (c.addr.value P ts ||| c.flag))
      (fun d hd => hall d (List.mem_cons_of_mem _ hd))
    refine ⟨t, ?_, sameGlobals_trans (sameGlobals_store _ _ _) hg, fun x => ?_⟩
    · unfold buildTree
      rw [ShortDescriptor_ok checked P ts hP hts c (hall c (List.mem_cons_self _ _))]
      exact ht
    · rw [hm x, List.reverse_cons, List.find?_append]
      cases hf : List.find? (fun c => decide (P c.table + 4 * c.idx = x)) rest.reverse with
      | some d => rfl
      | none =>
        simp only [Option.elim, Option.none_or, List.find?_cons, List.find?_nil, store_mem]
        by_cases hx : P c.table + 4 * c.idx = x
        · simp [hx]
        · have hx2 : ¬ x = P c.table + 4 * c.idx := fun h => hx h.symm
          simp [hx, hx2]

theorem tree_wf : ∀ c ∈ supervisorTree ++ userTree, c.wf = true := by decide

theorem tabOffset_sep (t t1 : Tab) (i i1 : Nat) (hi : i < 16) (hi1 : i1 < 16)
    (h : tabOffset t1 + 4 * i1 = tabOffset t + 4 * i) : t1 = t ∧ i1 = i := by
  cases t <;> cases t1 <;> simp only [tabOffset] at h <;> first | omega | exact ⟨rfl, by omega⟩

theorem tcValue_eq (k : Nat) (hk : 8 ≤ k ∧ k ≤ 15) :
    ((k <<< 20) % U32 ||| (0 <<< 16) ||| (4 <<< 12) ||| (4 <<< 8) ||| (4 <<< 4)
      ||| ((20 - k) <<< 0) ||| 0x02000000 ||| 0x80000000)
      = 0x82004440 + k * 0x100000 + (20 - k) := by
  obtain ⟨h1, h2⟩ := hk
  interval_cases k <;> decide

theorem buildTree_inv (checked : Bool) (P : Tab → Nat) (ts : Nat)
    (hP : ∀ t, P t % 16 = 0) (hts : ts % 16 = 0) (calls : List ShortCall)
    (hwf : ∀ c ∈ calls, c.wf = true) (s : State) (r : Outcome State)
    (h : buildTree checked P ts calls s = r) :
    ∃ t, r = .done t ∧ SameGlobals s t ∧
      ∀ x, t.mem x
        = (calls.reverse.find? (fun c => decide (P c.table + 4 * c.idx = x))).elim (s.mem x)
            (fun c => c.addr.value P ts ||| c.flag) := by
  obtain ⟨t, ht, hg, hm⟩ := buildTree_spec checked P ts hP hts calls s hwf
  rw [ht] at h
  exact ⟨t, h.symm, hg, hm⟩

/-- The whole effect of `h68k_InitMemoryMap(p)` when the arena has room. -/
theorem InitMemoryMap_spec (A : Sym → Nat) (checked : Bool) (fuel : Nat) (m : Machine) (p : Nat)
    (hp : p < 4294967296) (hA : A .h68k_mmuf_Fatal ≠ 0)
    (hfit : alignUp m.st.mem_ptr 12 + 448 + 2 ^ (27 - pageExp p) + 64 ≤ m.st.mem_top)
    (htop : m.st.mem_top < 4294967296) (hfuel : 2 ^ (24 - pageExp p) < fuel) :
    ∃ t, h68k_InitMemoryMap A checked fuel m p = .done t ∧
      t.mmu = m.mmu ∧ t.creg = m.creg ∧
      t.h68k_mmu_old
        = (if m.mmu.srp0 = 0 then { m.mmu with srp0 := 2, srp1 := m.mmu.crp1 } else m.mmu) ∧
      t.h68k_mmu = { ttr0 := 0x017E8573, ttr1 := 0x807E8573, srp0 := 0x80000002,
                     srp1 := alignUp m.st.mem_ptr 12, crp0 := 0x80000002,
                     crp1 := alignUp m.st.mem_ptr 12 + 256,
                     tc := 0x82004440 + pageExp p * 0x100000 + (20 - pageExp p) } ∧
      t.st.h68k_mmu_pagesize = 2 ^ pageExp p ∧
      t.st.h68k_mmu_table = alignUp m.st.mem_ptr 12 + 448 ∧
      t.st.mem_ptr = alignUp m.st.mem_ptr 12 + 448 + 2 ^ (27 - pageExp p) + 64 ∧
      t.st.mem_top = m.st.mem_top ∧
      (∀ tb i, tb ≠ Tab.tid0u → i < 16 →
        t.st.mem (alignUp m.st.mem_ptr 12 + tabOffset tb + 4 * i)
          = (treeEntry tb i).elim (m.st.mem (alignUp m.st.mem_ptr 12 + tabOffset tb + 4 * i))
              (fun c => c.addr.value (fun t => alignUp m.st.mem_ptr 12 + tabOffset t)
                (2 ^ (23 - pageExp p)) ||| c.flag)) ∧
      (∀ j, j < 2 ^ (24 - pageExp p) →
        t.st.mem (alignUp m.st.mem_ptr 12 + 448 + 8 * j) = 0 ∧
        t.st.mem (alignUp m.st.mem_ptr 12 + 448 + 8 * j + 4)
          = alignUp m.st.mem_ptr 12 + 448 + 2 ^ (27 - pageExp p)) ∧
      (∀ i, i < 16 →
        t.st.mem (alignUp m.st.mem_ptr 12 + 448 + 2 ^ (27 - pageExp p) + 4 * i)
          = A .h68k_mmuf_Fatal) ∧
      (∀ x, x < alignUp m.st.mem_ptr 12 ∨
          alignUp m.st.mem_ptr 12 + 448 + 2 ^ (27 - pageExp p) + 64 ≤ x →
        t.st.mem x = m.st.mem x) := by
  obtain ⟨hk1, hk2⟩ := pageExp_bounds p
  generalize hk : pageExp p = k at *
  obtain ⟨hb1, hb2, hb3⟩ := alignUp_bounds m.st.mem_ptr 12
  generalize hbase : alignUp m.st.mem_ptr 12 = base at *
  -- sizes
  have hT : (2:Nat) ^ (27 - k) = 128 * 2 ^ (20 - k) := by
    rw [show 27 - k = 7 + (20 - k) by omega, Nat.pow_add]
  have hT3 : (2:Nat) ^ (23 - k) = 8 * 2 ^ (20 - k) := by
    rw [show 23 - k = 3 + (20 - k) by omega, Nat.pow_add]
  have hT4 : (2:Nat) ^ (24 - k) = 16 * 2 ^ (20 - k) := by
    rw [show 24 - k = 4 + (20 - k) by omega, Nat.pow_add]
  have hTk : (2:Nat) ^ (20 - k) * 2 ^ k = 1048576 := by
    rw [← Nat.pow_add, show 20 - k + k = 20 by omega]
  have hTle : (2:Nat) ^ (20 - k) ≤ 4096 := by
    calc (2:Nat) ^ (20 - k) ≤ 2 ^ 12 := Nat.pow_le_pow_right (by decide) (by omega)
      _ = 4096 := by decide
  have hTge : 32 ≤ (2:Nat) ^ (20 - k) := by
    calc 32 = 2 ^ 5 := by decide
      _ ≤ (2:Nat) ^ (20 - k) := Nat.pow_le_pow_right (by decide) (by omega)
  have hT16 : (2:Nat) ^ (20 - k) % 16 = 0 := by
    rw [show 20 - k = 4 + (16 - k) by omega, Nat.pow_add]
    exact Nat.mul_mod_right _ _
  generalize hTT : (2:Nat) ^ (20 - k) = T at *
  have hshift : (1 <<< (20 - k)) = T := by rw [Nat.one_shiftLeft, hTT]
  have hsize : ((4 * 1 <<< 4 * (1 + 1) + 4 * 1 <<< 4 * (2 + 1) + 4 * 1 <<< 4 * (1 + 1) +
      8 * (T % U32) % U32 * (0 + 16) % U32) % U32) = 448 + 128 * T := by
    have : (1 <<< 4 : Nat) = 16 := by decide
    rw [this]
    unfold U32
    omega
  have hts : 8 * (T % U32) % U32 = 8 * T := by unfold U32; omega
  have hP : tableAddr base ((4 * 1 <<< 4 + base) % U32)
      ((4 * 1 <<< 4 + (4 * 1 <<< 4 + base) % U32) % U32)
      ((4 * 1 <<< 4 + (4 * 1 <<< 4 + (4 * 1 <<< 4 + base) % U32) % U32) % U32)
      ((4 * 1 <<< 4 + (4 * 1 <<< 4 + (4 * 1 <<< 4 + (4 * 1 <<< 4 + base) % U32) % U32) % U32) % U32)
      ((4 * 1 <<< 4 + (4 * 1 <<< 4 + (4 * 1 <<< 4 + (4 * 1 <<< 4 + (4 * 1 <<< 4 + base) % U32) % U32)
        % U32) % U32) % U32)
      ((4 * 1 <<< 4 + (4 * 1 <<< 4 + (4 * 1 <<< 4 + (4 * 1 <<< 4 + (4 * 1 <<< 4 + (4 * 1 <<< 4 + base)
        % U32) % U32) % U32) % U32) % U32) % U32)
      ((4 * 1 <<< 4 + (4 * 1 <<< 4 + (4 * 1 <<< 4 + (4 * 1 <<< 4 + (4 * 1 <<< 4 + (4 * 1 <<< 4 +
        (4 * 1 <<< 4 + base) % U32) % U32) % U32) % U32) % U32) % U32) % U32)
      = fun t => base + tabOffset t := by
    have : (1 <<< 4 : Nat) = 16 := by decide
    rw [this]
    funext t
    cases t <;> simp only [tableAddr, tabOffset, U32] <;> omega
  unfold h68k_InitMemoryMap
  simp only [pageSize_loop_eq p hp, hk, hshift]
  rw [if_neg (by omega), hsize]
  have halloc : AllocMem { m.st with h68k_mmu_table := 0, h68k_mmu_pagesize := 0 } (448 + 128 * T)
      4096 = .done ({ m.st with h68k_mmu_table := 0, h68k_mmu_pagesize := 0,
                                mem_ptr := base + (448 + 128 * T) }, base) := by
    have := AllocMem_ok { m.st with h68k_mmu_table := 0, h68k_mmu_pagesize := 0 } (448 + 128 * T)
      12 (by decide) (by show alignUp m.st.mem_ptr 12 + _ ≤ m.st.mem_top; rw [hbase]; omega) htop
    rw [show (2:Nat) ^ 12 = 4096 by decide] at this
    rw [this]
    show Outcome.done (_, alignUp m.st.mem_ptr 12) = _
    rw [hbase]
  rw [halloc]
  have h16 : (1 <<< 4 : Nat) = 16 := by decide
  have e1 : (4 * 16 + base) % U32 = base + 64 := by unfold U32; omega
  have e2 : (4 * 16 + (base + 64)) % U32 = base + 128 := by unfold U32; omega
  have e3 : (4 * 16 + (base + 128)) % U32 = base + 192 := by unfold U32; omega
  have e4 : (4 * 16 + (base + 192)) % U32 = base + 256 := by unfold U32; omega
  have e5 : (4 * 16 + (base + 256)) % U32 = base + 320 := by unfold U32; omega
  have e6 : (4 * 16 + (base + 320)) % U32 = base + 384 := by unfold U32; omega
  have e7 : (4 * 16 + (base + 384)) % U32 = base + 448 := by unfold U32; omega
  have hpsz : (2:Nat) ^ k % 65536 = 2 ^ k := by
    apply Nat.mod_eq_of_lt
    calc (2:Nat) ^ k ≤ 2 ^ 15 := Nat.pow_le_pow_right (by decide) hk2
      _ < 65536 := by decide
  have hpsb : (32 + 4 * U32 - 0 - 4 - 4 - 4 - (20 - k)) % U32 = k := by unfold U32; omega
  simp only [hP, hts]
  simp only [h16, e1, e2, e3, e4, e5, e6, e7, hpsz, hpsb, tcValue_eq k ⟨hk1, hk2⟩]
  have hPal : ∀ t, (fun t => base + tabOffset t) t % 16 = 0 := by
    intro t
    have : (2:Nat) ^ 12 = 4096 := by decide
    cases t <;> simp only [tabOffset] <;> omega
  split
  · rename_i t heq
    obtain ⟨t3, h3, _⟩ := buildTree_inv checked _ _ hPal (by omega) _ tree_wf _ _ heq
    cases h3
  · rename_i heq
    obtain ⟨t3, h3, _⟩ := buildTree_inv checked _ _ hPal (by omega) _ tree_wf _ _ heq
    cases h3
  rename_i s3 heq
  obtain ⟨t3, h3, hg3, hm3⟩ := buildTree_inv checked _ _ hPal (by omega) _ tree_wf _ _ heq
  cases h3
  obtain ⟨mm, rfl⟩ := hg3
  have hdiv : 16777216 / 2 ^ k = 16 * T := by
    have h2k : 0 < 2 ^ k := Nat.two_pow_pos k
    have : 16777216 = 16 * T * 2 ^ k := by rw [Nat.mul_assoc, hTk]
    rw [this, Nat.mul_div_cancel _ h2k]
  have hmod : 16777216 % 2 ^ k = 0 := by
    have : 16777216 = 16 * T * 2 ^ k := by rw [Nat.mul_assoc, hTk]
    rw [this]
    exact Nat.mul_mod_left _ _
  have hal2 : alignUp (base + (448 + 128 * T)) 2 = base + (448 + 128 * T) := by
    apply alignUp_of_aligned
    have : (2:Nat) ^ 2 = 4 := by decide
    have : (2:Nat) ^ 12 = 4096 := by decide
    omega
  obtain ⟨t4, ht4, hc4, hp4, hD4, hE4, hF4⟩ := MapAccessHandlerEx_spec checked fuel
    { mem := mm, mem_ptr := base + (448 + 128 * T), mem_top := m.st.mem_top,
      h68k_mmu_table := base + 448, h68k_mmu_pagesize := 2 ^ k, client_cpu := m.st.client_cpu,
      host_vbr := m.st.host_vbr, pviols_table := m.st.pviols_table,
      pviolu_table := m.st.pviolu_table, sfs_table := m.st.sfs_table,
      vec_table := m.st.vec_table, ipl_table := m.st.ipl_table }
    k ⟨hk1, hk2⟩ rfl 0 16777216 0
    (A .h68k_mmuf_Fatal) (A .h68k_mmuf_Fatal) (A .h68k_mmuf_Fatal) (A .h68k_mmuf_Fatal)
    (A .h68k_mmuf_Fatal) (A .h68k_mmuf_Fatal) (A .h68k_mmuf_Fatal) (A .h68k_mmuf_Fatal)
    (A .h68k_mmuf_Fatal) (Nat.zero_mod _) hmod (by decide) (Nat.le_refl _) (by decide)
    (fun _ => ⟨hA, hA, hA, hA, hA, hA, hA, hA, hA⟩)
    (by show base + 448 + 8 * (16777216 / 2 ^ k) ≤ base + (448 + 128 * T); rw [hdiv]; omega)
    (by show alignUp (base + (448 + 128 * T)) 2 + 64 ≤ m.st.mem_top; rw [hal2]; omega)
    htop (by rw [Nat.sub_zero, hdiv]; omega)
  simp only [hal2, Nat.zero_div, hdiv] at hp4 hD4 hE4 hF4
  unfold h68k_MapFatal
  rw [ht4]
  refine ⟨_, rfl, rfl, rfl, rfl, rfl, ?_, ?_, ?_, ?_, ?_, ?_, ?_, ?_⟩
  · rw [sameConfig_pagesize hc4]
  · rw [sameConfig_table hc4]
  · show t4.mem_ptr = _
    rw [hp4, hT]; omega
  · rw [sameConfig_mem_top hc4]
  · intro tb i htb hi
    have hx : tabOffset tb + 4 * i < 448 := by
      cases tb <;> simp only [tabOffset] <;> first | omega | exact absurd rfl htb
    rw [hF4 _ (fun j _ _ => by omega) (Or.inl (by omega))]
    have h := hm3 (base + tabOffset tb + 4 * i)
    simp only at h
    rw [h, hT3]
    unfold treeEntry
    rw [find_congr
      (fun c : ShortCall => decide (base + tabOffset c.table + 4 * c.idx = base + tabOffset tb + 4 * i))
      (fun c : ShortCall => decide (c.table = tb ∧ c.idx = i)) _ (fun c hc => by
        have hw := tree_wf c (List.mem_reverse.mp hc)
        unfold ShortCall.wf at hw
        simp only [Bool.and_eq_true, decide_eq_true_eq] at hw
        have hci : c.idx < 16 := hw.1.1
        by_cases hq : c.table = tb ∧ c.idx = i
        · simp [hq]
        · have : ¬ (base + tabOffset c.table + 4 * c.idx = base + tabOffset tb + 4 * i) := by
            intro he
            exact hq (tabOffset_sep tb c.table i c.idx hi hci (by omega))
          simp [hq, this])]
  · intro j hj
    rw [hT4] at hj
    have := hD4 j (Nat.zero_le _) hj
    rw [hT]
    exact ⟨this.1, by rw [this.2]; omega⟩
  · intro i hi
    rw [hT]
    have := hE4 i hi
    rw [show base + 448 + 128 * T + 4 * i = base + (448 + 128 * T) + 4 * i by omega, this]
    unfold stage1Entry
    split <;> rfl
  · intro x hx
    rw [hT] at hx
    rw [hF4 x (fun j _ _ => by omega) (by omega)]
    have h := hm3 x
    simp only at h
    rw [h, List.find?_eq_none.mpr, Option.elim]
    intro c hc
    have hw := tree_wf c (List.mem_reverse.mp hc)
    unfold ShortCall.wf at hw
    simp only [Bool.and_eq_true, decide_eq_true_eq] at hw
    have hci : c.idx < 16 := hw.1.1
    have hct : c.table ≠ Tab.tid0u := hw.1.2
    have hoff : tabOffset c.table + 4 * c.idx < 448 := by
      revert hct
      cases c.table <;> simp only [tabOffset] <;> intro hct <;>
        first | omega | exact absurd rfl hct
    simp only [decide_eq_true_eq]
    omega

/-! ## Assertions of the mapping functions -/

/-- `AllocMem` when the rounding up of `mem_ptr` does not wrap: the block starts at the
aligned address, and the call fails exactly if the 32-bit end lies above `mem_top`. -/
theorem AllocMem_eq (s : State) (size j : Nat) (hj : j < 32)
    (hp : s.mem_ptr + 2 ^ j ≤ 4294967296) :
    AllocMem s size (2 ^ j)
      = if (alignUp s.mem_ptr j + size) % U32 ≤ s.mem_top then
          .done ({ s with mem_ptr := (alignUp s.mem_ptr j + size) % U32 }, alignUp s.mem_ptr j)
        else .fatal s := by
  have h0 : 0 < 2 ^ j := Nat.two_pow_pos j
  have h3 : (s.mem_ptr + (2 ^ j - 1)) % U32 = s.mem_ptr + (2 ^ j - 1) := by
    simp only [U32]; omega
  have h4 : (s.mem_ptr + (2 ^ j - 1)) &&& not32 (2 ^ j - 1) = alignUp s.mem_ptr j := by
    rw [and_not32_mask _ j (by omega) (by omega)]
    rfl
  unfold AllocMem
  simp only [pagesize_mask j hj, h3, h4]

/-- In a checked build `h68k_MapAddressRangeEx` with a misaligned argument fails an
assertion at once, in the state it was called in. -/
theorem MapAddressRangeEx_misaligned (fuel : Nat) (s : State) (k : Nat) (hk : 8 ≤ k ∧ k ≤ 15)
    (hps : s.h68k_mmu_pagesize = 2 ^ k) (start end_ dest flag : Nat)
    (hmis : start % 2 ^ k ≠ 0 ∨ end_ % 2 ^ k ≠ 0 ∨ dest % 2 ^ k ≠ 0) :
    h68k_MapAddressRangeEx true fuel s start end_ dest flag = .fatal s := by
  have hk32 : k < 32 := by omega
  unfold h68k_MapAddressRangeEx
  simp only [hps, and_mask_eq_mod _ k hk32, true_and]
  by_cases h1 : start % 2 ^ k = 0
  · by_cases h2 : end_ % 2 ^ k = 0
    · have h3 : dest % 2 ^ k ≠ 0 := by
        rcases hmis with h | h | h
        · exact absurd h1 h
        · exact absurd h2 h
        · exact h
      simp [h1, h2, h3]
    · simp [h1, h2]
  · simp [h1]

/-- In a checked build `h68k_MapAccessHandlerEx` with a misaligned `start` or `end` fails
an assertion; nothing below the allocation pointer has been written by then. -/
theorem MapAccessHandlerEx_misaligned (fuel : Nat) (s : State) (k : Nat) (hk : 8 ≤ k ∧ k ≤ 15)
    (hps : s.h68k_mmu_pagesize = 2 ^ k) (hp : s.mem_ptr + 4 ≤ 4294967296)
    (start end_ userdata rb wb rw ww rl wl r3 w3 rm : Nat)
    (hmis : start % 2 ^ k ≠ 0 ∨ end_ % 2 ^ k ≠ 0) :
    ∃ t, h68k_MapAccessHandlerEx true fuel s start end_ userdata rb wb rw ww rl wl r3 w3 rm
        = .fatal t ∧ SameConfig s t ∧ ∀ a, a < s.mem_ptr → t.mem a = s.mem a := by
  have hk32 : k < 32 := by omega
  obtain ⟨hb1, _, _⟩ := alignUp_bounds s.mem_ptr 2
  unfold h68k_MapAccessHandlerEx
  have ha := AllocMem_eq s (16 * 4) 2 (by decide) (by simpa using hp)
  rw [show (2:Nat) ^ 2 = 4 by decide] at ha
  rw [ha]
  by_cases hfit : (alignUp s.mem_ptr 2 + 16 * 4) % U32 ≤ s.mem_top
  · rw [if_pos hfit]
    simp only
    obtain ⟨m10, hm10⟩ := stage1Fill_globals
      { s with mem_ptr := (alignUp s.mem_ptr 2 + 16 * 4) % U32 } (alignUp s.mem_ptr 2)
      rb wb rw ww rl wl r3 w3 rm
    have hfr := stage1Fill_frame
      { s with mem_ptr := (alignUp s.mem_ptr 2 + 16 * 4) % U32 } (alignUp s.mem_ptr 2)
      rb wb rw ww rl wl r3 w3 rm
    generalize stage1Fill { s with mem_ptr := (alignUp s.mem_ptr 2 + 16 * 4) % U32 }
      (alignUp s.mem_ptr 2) rb wb rw ww rl wl r3 w3 rm = s10 at *
    have hps10 : s10.h68k_mmu_pagesize = 2 ^ k := by rw [hm10]; exact hps
    have hres : ∀ r : Outcome State, r = .fatal s10 →
        ∃ t, r = .fatal t ∧ SameConfig s t ∧ ∀ a, a < s.mem_ptr → t.mem a = s.mem a := by
      intro r hr
      refine ⟨s10, hr, ⟨m10, _, hm10⟩, fun a ha => ?_⟩
      rw [hfr a (Or.inl (by omega))]
    apply hres
    simp only [hps10, and_mask_eq_mod _ k hk32, true_and]
    by_cases h0 : ∃ i ∈ List.range 16, s10.mem (alignUp s.mem_ptr 2 + 4 * i) = 0
    · rw [if_pos h0]
    · rw [if_neg h0]
      by_cases h1 : start % 2 ^ k = 0
      · have h2 : end_ % 2 ^ k ≠ 0 := by
          rcases hmis with h | h
          · exact absurd h1 h
          · exact h
        simp [h1, h2]
      · simp [h1]
  · rw [if_neg hfit]
    exact ⟨s, rfl, sameConfig_refl s, fun _ _ => rfl⟩

/-- In a checked build `h68k_MapIoRangeEx` with a misaligned `start` or `end` fails an
assertion; nothing below the allocation pointer has been written by then. -/
theorem MapIoRangeEx_misaligned (A : Sym → Nat) (fuel : Nat) (s : State) (k : Nat)
    (hk : 8 ≤ k ∧ k ≤ 15) (hps : s.h68k_mmu_pagesize = 2 ^ k)
    (hptr : s.mem_ptr ≤ s.mem_top) (htop : s.mem_top + 512 ≤ 4294967296)
    (start end_ rb wb rw ww rl wl : Nat)
    (hmis : start % 2 ^ k ≠ 0 ∨ end_ % 2 ^ k ≠ 0) :
    ∃ t, h68k_MapIoRangeEx A true fuel s start end_ rb wb rw ww rl wl = .fatal t ∧
      SameConfig s t ∧ ∀ a, a < s.mem_ptr → t.mem a = s.mem a := by
  obtain ⟨hb1, hb2, _⟩ := alignUp_bounds s.mem_ptr 8
  rw [show (2:Nat) ^ 8 = 256 by decide] at hb2
  unfold h68k_MapIoRangeEx
  have ha := AllocMem_eq s (4 * 32) 8 (by decide)
    (by rw [show (2:Nat) ^ 8 = 256 by decide]; omega)
  rw [show (2:Nat) ^ 8 = 256 by decide] at ha
  rw [ha]
  have hnw : (alignUp s.mem_ptr 8 + 4 * 32) % U32 = alignUp s.mem_ptr 8 + 128 := by
    unfold U32; omega
  rw [hnw]
  by_cases hfit : alignUp s.mem_ptr 8 + 128 ≤ s.mem_top
  · rw [if_pos hfit]
    simp only
    obtain ⟨t, ht, hc, hfr⟩ := MapAccessHandlerEx_misaligned fuel
      ((((((({ s with mem_ptr := alignUp s.mem_ptr 8 + 128 } : State).store
        (alignUp s.mem_ptr 8 + 0) rb).store (alignUp s.mem_ptr 8 + 4) rw).store
        (alignUp s.mem_ptr 8 + 8) rl).store (alignUp s.mem_ptr 8 + 12) wb).store
        (alignUp s.mem_ptr 8 + 16) ww).store (alignUp s.mem_ptr 8 + 20) wl)
      k hk hps (by simp only [store_mem_ptr]; omega) start end_ (alignUp s.mem_ptr 8)
      (A .h68k_mmuf_rbc) (A .h68k_mmuf_wbc) (A .h68k_mmuf_rwc) (A .h68k_mmuf_wwc)
      (A .h68k_mmuf_rlc) (A .h68k_mmuf_wlc) (A .h68k_mmuf_r3c) (A .h68k_mmuf_w3c)
      (A .h68k_mmuf_rmc) hmis
    refine ⟨t, ht, ?_, fun a ha => ?_⟩
    · obtain ⟨mt, pt, hmt⟩ := hc
      exact ⟨mt, pt, by rw [hmt]; rfl⟩
    · rw [hfr a (by simp only [store_mem_ptr]; omega)]
      simp only [store_mem]
      repeat rw [if_neg (by omega)]
  · rw [if_neg hfit]
    exact ⟨s, rfl, sameConfig_refl s, fun _ _ => rfl⟩

/-- C15. Checked build, page size `2^k`, the allocation pointer inside the arena and the
arena not at the very top of the address space. `h68k_MapMemory` and `h68k_MapReadOnly`
with a `start`, `end` or `dest` that is not a multiple of the page size, and
`h68k_MapInvalid` with such a `start` or `end`, fail an assertion in the state they were
called in, nothing written. `h68k_MapAccessHandlerEx`, `h68k_MapFatal`,
`h68k_MapPassThrough`, `h68k_MapPassThroughSafe` and `h68k_MapIoRangeEx` with a `start` or
`end` that is not a multiple of the page size fail an assertion in a state in which every
word below the allocation pointer, so every page descriptor, is as before the call. -/
theorem C15_misaligned_requests_abort (A : Sym → Nat) (fuel : Nat) (s : State) (k : Nat)
    (hk : 8 ≤ k ∧ k ≤ 15) (hps : s.h68k_mmu_pagesize = 2 ^ k)
    (hptr : s.mem_ptr ≤ s.mem_top) (htop : s.mem_top + 512 ≤ 4294967296)
    (start end_ dest : Nat) :
    ((start % 2 ^ k ≠ 0 ∨ end_ % 2 ^ k ≠ 0 ∨ dest % 2 ^ k ≠ 0) →
      h68k_MapMemory true fuel s start end_ dest = .fatal s ∧
      h68k_MapReadOnly true fuel s start end_ dest = .fatal s) ∧
    ((start % 2 ^ k ≠ 0 ∨ end_ % 2 ^ k ≠ 0) →
      h68k_MapInvalid true fuel s start end_ = .fatal s ∧
      (∀ userdata rb wb rw ww rl wl r3 w3 rm, ∃ t,
        h68k_MapAccessHandlerEx true fuel s start end_ userdata rb wb rw ww rl wl r3 w3 rm
          = .fatal t ∧ ∀ a, a < s.mem_ptr → t.mem a = s.mem a) ∧
      (∃ t, h68k_MapFatal A true fuel s start end_ = .fatal t ∧
        ∀ a, a < s.mem_ptr → t.mem a = s.mem a) ∧
      (∃ t, h68k_MapPassThrough A true fuel s start end_ = .fatal t ∧
        ∀ a, a < s.mem_ptr → t.mem a = s.mem a) ∧
      (∃ t, h68k_MapPassThroughSafe A true fuel s start end_ = .fatal t ∧
        ∀ a, a < s.mem_ptr → t.mem a = s.mem a) ∧
      (∀ rb wb rw ww rl wl, ∃ t,
        h68k_MapIoRangeEx A true fuel s start end_ rb wb rw ww rl wl = .fatal t ∧
          ∀ a, a < s.mem_ptr → t.mem a = s.mem a)) := by
  have hp4 : s.mem_ptr + 4 ≤ 4294967296 := by omega
  refine ⟨fun hmis => ⟨?_, ?_⟩, fun hmis => ⟨?_, ?_, ?_, ?_, ?_, ?_⟩⟩
  · exact MapAddressRangeEx_misaligned fuel s k hk hps start end_ dest _ hmis
  · exact MapAddressRangeEx_misaligned fuel s k hk hps start end_ dest _ hmis
  · apply MapAddressRangeEx_misaligned fuel s k hk hps start end_ start _
    rcases hmis with h | h
    · exact Or.inl h
    · exact Or.inr (Or.inl h)
  · intro userdata rb wb rw ww rl wl r3 w3 rm
    obtain ⟨t, ht, _, hf⟩ := MapAccessHandlerEx_misaligned fuel s k hk hps hp4 start end_
      userdata rb wb rw ww rl wl r3 w3 rm hmis
    exact ⟨t, ht, hf⟩
  · obtain ⟨t, ht, _, hf⟩ := MapAccessHandlerEx_misaligned fuel s k hk hps hp4 start end_
      0 _ _ _ _ _ _ _ _ _ hmis
    exact ⟨t, ht, hf⟩
  · obtain ⟨t, ht, _, hf⟩ := MapAccessHandlerEx_misaligned fuel s k hk hps hp4 start end_
      0 _ _ _ _ _ _ _ _ _ hmis
    exact ⟨t, ht, hf⟩
  · obtain ⟨t, ht, _, hf⟩ := MapAccessHandlerEx_misaligned fuel s k hk hps hp4 start end_
      0 _ _ _ _ _ _ _ _ _ hmis
    exact ⟨t, ht, hf⟩
  · intro rb wb rw ww rl wl
    obtain ⟨t, ht, _, hf⟩ := MapIoRangeEx_misaligned A fuel s k hk hps hptr htop start end_
      rb wb rw ww rl wl hmis
    exact ⟨t, ht, hf⟩

theorem C15_misaligned_requests_abort_witness :
    (h68k_MapMemory true 4 demoState 0x1001 0x1300 0x50000 = .fatal demoState ∧
      h68k_MapReadOnly true 4 demoState 0x1001 0x1300 0x50000 = .fatal demoState) ∧
    h68k_MapInvalid true 4 demoState 0x1000 0x1301 = .fatal demoState ∧
    (∃ t, h68k_MapFatal demoAddr true 4 demoState 0x1001 0x1300 = .fatal t ∧
      ∀ a, a < demoState.mem_ptr → t.mem a = demoState.mem a) :=
  ⟨(C15_misaligned_requests_abort demoAddr 4 demoState 8 (by decide) (by decide) (by decide)
      (by decide) 0x1001 0x1300 0x50000).1 (Or.inl (by decide)),
    ((C15_misaligned_requests_abort demoAddr 4 demoState 8 (by decide) (by decide) (by decide)
      (by decide) 0x1000 0x1301 0).2 (Or.inr (by decide))).1,
    ((C15_misaligned_requests_abort demoAddr 4 demoState 8 (by decide) (by decide) (by decide)
      (by decide) 0x1001 0x1300 0).2 (Or.inl (by decide))).2.2.1⟩

/-! ## Requests outside the client address range -/

/-- `h68k_MapAccessHandlerEx` on any page-aligned range below `0x80000000`: it returns,
and every slot of the range holds `userdata` and the stage-1 table. -/
theorem MapAccessHandlerEx_any_range (checked : Bool) (fuel : Nat) (s : State) (k : Nat)
    (hk : 8 ≤ k ∧ k ≤ 15) (hps : s.h68k_mmu_pagesize = 2 ^ k)
    (start end_ userdata rb wb rw ww rl wl r3 w3 rm : Nat)
    (hs : start % 2 ^ k = 0) (he : end_ % 2 ^ k = 0) (hs32 : start < 4294967296)
    (hend : end_ ≤ 0x80000000) (hu : userdata % 256 = 0)
    (hh : checked = true →
      rb ≠ 0 ∧ wb ≠ 0 ∧ rw ≠ 0 ∧ ww ≠ 0 ∧ rl ≠ 0 ∧ wl ≠ 0 ∧ r3 ≠ 0 ∧ w3 ≠ 0 ∧ rm ≠ 0)
    (hfit : alignUp s.mem_ptr 2 + 64 ≤ s.mem_top) (htop : s.mem_top < 4294967296)
    (hfuel : (end_ - start) / 2 ^ k < fuel) :
    ∃ t, h68k_MapAccessHandlerEx checked fuel s start end_ userdata rb wb rw ww rl wl r3 w3 rm
        = .done t ∧
      (∀ j, start / 2 ^ k ≤ j → j < end_ / 2 ^ k →
        t.mem (s.h68k_mmu_table + 8 * j) = userdata ∧
        t.mem (s.h68k_mmu_table + 8 * j + 4) = alignUp s.mem_ptr 2) := by
  have hk32 : k < 32 := by omega
  have hp0 : 0 < 2 ^ k := Nat.two_pow_pos k
  have hs1 : start / 2 ^ k * 2 ^ k = start := Nat.div_mul_cancel (Nat.dvd_of_mod_eq_zero hs)
  have he1 : end_ / 2 ^ k * 2 ^ k = end_ := Nat.div_mul_cancel (Nat.dvd_of_mod_eq_zero he)
  have hm1 := and_mask_eq_mod start k hk32
  have hm2 := and_mask_eq_mod end_ k hk32
  have hn1 := and_not32_aligned start k hk32 hs32 hs
  have hn3 := roundup_aligned end_ k hk32 hend he hk.2
  have hu1 : userdata &&& 0xFF = 0 := by
    have : (0xFF : Nat) = 2 ^ 8 - 1 := by decide
    rw [this, Nat.and_pow_two_sub_one_eq_mod]; simpa using hu
  have hu2 : userdata &&& 3 = 0 := by
    have : (3 : Nat) = 2 ^ 2 - 1 := by decide
    rw [this, Nat.and_pow_two_sub_one_eq_mod]
    have : (2:Nat) ^ 2 = 4 := by decide
    omega
  have hed : end_ / 2 ^ k ≤ 2147483648 := le_trans (Nat.div_le_self _ _) hend
  have hfu : end_ / 2 ^ k - start / 2 ^ k < fuel := by
    have : end_ / 2 ^ k - start / 2 ^ k = (end_ - start) / 2 ^ k := by
      conv_rhs => rw [← he1, ← hs1, ← Nat.sub_mul, Nat.mul_div_cancel _ hp0]
    omega
  generalize hst : alignUp s.mem_ptr 2 = st at *
  have halloc : AllocMem s (16 * 4) 4 = .done ({ s with mem_ptr := st + 64 }, st) := by
    have := AllocMem_ok s 64 2 (by decide) (by rw [hst]; exact hfit) htop
    rw [hst] at this
    exact this
  obtain ⟨m10, hm10⟩ := stage1Fill_globals { s with mem_ptr := st + 64 } st rb wb rw ww rl wl r3 w3 rm
  have hent := stage1Fill_entry { s with mem_ptr := st + 64 } st rb wb rw ww rl wl r3 w3 rm
  generalize hs10 : stage1Fill { s with mem_ptr := st + 64 } st rb wb rw ww rl wl r3 w3 rm = s10 at *
  have hps10 : s10.h68k_mmu_pagesize = 2 ^ k := by rw [hm10]; exact hps
  have htb10 : s10.h68k_mmu_table = s.h68k_mmu_table := by rw [hm10]
  obtain ⟨t, ht, _, hA, _⟩ := MapAccessHandlerEx_loop_spec userdata st (end_ / 2 ^ k) hu2
    hed fuel s10 (start / 2 ^ k) hfu
  rw [htb10] at hA
  have hnz : ¬ (checked = true ∧ ∃ i ∈ List.range 16, s10.mem (st + 4 * i) = 0) := by
    rintro ⟨hc, i, hi, h0⟩
    rw [hent i (by simpa using hi)] at h0
    exact stage1Entry_ne_zero rb wb rw ww rl wl r3 w3 rm (hh hc) i h0
  refine ⟨t, ?_, hA⟩
  unfold h68k_MapAccessHandlerEx
  rw [halloc]
  simp only [hs10, hps10, hm1, hm2, hs, he, hu1, hn1, hn3, ne_eq, not_true_eq_false, and_false,
    if_false, ite_self, if_neg hnz]
  exact ht

/-- C16, as stated, fails on the empty sample machine (page size 256, 65536 descriptors
in the 16 tables at `0x100000 .. 0x17ffff`): in a checked build
`h68k_MapMemory(0x01000000, 0x01000100, 0x50000)` returns normally and has written the
slot of index 65536 at `0x180000`, behind the tables, and then
`h68k_RemapPage(0x01000000, 0x60000)` rewrites the target word of that slot. -/
theorem C16_out_of_range_counterexample :
    ∃ t, h68k_MapMemory true 2 demoState 0x01000000 0x01000100 0x50000 = .done t ∧
      t.mem 0x180000 = 0xFC41 ∧ t.mem 0x180004 = 0x50000 ∧
      0x180000 = demoState.h68k_mmu_table + 8 * (0x01000000 / demoState.h68k_mmu_pagesize) ∧
      (h68k_RemapPage t 0x01000000 0x60000).mem 0x180004 = 0x60000 := by
  obtain ⟨t, ht, hg, hA, _⟩ := MapAddressRangeEx_spec true 2 demoState 8 (by decide) (by decide)
    0x01000000 0x01000100 0x50000 (MMU_PAGE ||| MMU_CI) (by unfold PageFlag; decide)
    (by decide) (by decide) (by decide) (by decide) (by decide) (by decide) (by decide)
  have h := hA 65536 (by decide) (by decide)
  have h0 : t.mem 0x180000 = 0xFC41 := h.1
  have h4 : t.mem 0x180004 = 0x50000 := h.2
  refine ⟨t, ht, h0, h4, by decide, ?_⟩
  obtain ⟨mm, rfl⟩ := hg
  have h0' : mm 0x180000 = 0xFC41 := h0
  have h4' : mm 0x180004 = 0x50000 := h4
  have e1 : (0x100000 + 4 * (16777216 / 256 * 2 % U32) + 0 : Nat) = 0x180000 := by decide
  have e2 : (0x100000 + 4 * (16777216 / 256 * 2 % U32) + 4 : Nat) = 0x180004 := by decide
  simp only [h68k_RemapPage, demoState, e1, e2, h0', h4']
  rw [if_pos (by decide)]
  simp only [store_mem, if_true]
  decide

/-- C16, amended. Neither the Map functions nor `h68k_RemapPage` check the range. In
either build, for a page-aligned range `start ≤ end ≤ 0x80000000`, so also with
`end > 0x01000000`, `h68k_MapMemory`, `h68k_MapReadOnly`, `h68k_MapInvalid` and (handlers
non-null, room for the stage-1 table) `h68k_MapAccessHandlerEx` return normally and have
written the descriptor slot of index `j` for every page `j` of the range, whether or not
`j` is below the `2^24 / pagesize` descriptors of the 16 tables. `h68k_RemapPage` rewrites
the target word of the slot of index `laddr / pagesize` for every 32-bit `laddr` whose
slot has non-zero low two bits in word 0. -/
theorem C16_no_range_assertion (checked : Bool) (fuel : Nat) (s : State) (k : Nat)
    (hk : 8 ≤ k ∧ k ≤ 15) (hps : s.h68k_mmu_pagesize = 2 ^ k)
    (start end_ dest : Nat)
    (hs : start % 2 ^ k = 0) (he : end_ % 2 ^ k = 0) (hd : dest % 2 ^ k = 0)
    (hse : start ≤ end_) (hend : end_ ≤ 0x80000000) (hd32 : dest < 4294967296)
    (hfuel : (end_ - start) / 2 ^ k < fuel) :
    (∃ t, h68k_MapMemory checked fuel s start end_ dest = .done t ∧
      ∀ j, start / 2 ^ k ≤ j → j < end_ / 2 ^ k →
        t.mem (s.h68k_mmu_table + 8 * j) = 0xFC41 ∧
        t.mem (s.h68k_mmu_table + 8 * j + 4) = (dest + (j * 2 ^ k - start)) % 4294967296) ∧
    (∃ t, h68k_MapReadOnly checked fuel s start end_ dest = .done t ∧
      ∀ j, start / 2 ^ k ≤ j → j < end_ / 2 ^ k →
        t.mem (s.h68k_mmu_table + 8 * j) = 0xFC45 ∧
        t.mem (s.h68k_mmu_table + 8 * j + 4) = (dest + (j * 2 ^ k - start)) % 4294967296) ∧
    (∃ t, h68k_MapInvalid checked fuel s start end_ = .done t ∧
      ∀ j, start / 2 ^ k ≤ j → j < end_ / 2 ^ k →
        t.mem (s.h68k_mmu_table + 8 * j) = 0xFD41 ∧
        t.mem (s.h68k_mmu_table + 8 * j + 4) = j * 2 ^ k) ∧
    (∀ userdata rb wb rw ww rl wl r3 w3 rm, userdata % 256 = 0 →
      (rb ≠ 0 ∧ wb ≠ 0 ∧ rw ≠ 0 ∧ ww ≠ 0 ∧ rl ≠ 0 ∧ wl ≠ 0 ∧ r3 ≠ 0 ∧ w3 ≠ 0 ∧ rm ≠ 0) →
      alignUp s.mem_ptr 2 + 64 ≤ s.mem_top → s.mem_top < 4294967296 →
      ∃ t, h68k_MapAccessHandlerEx checked fuel s start end_ userdata rb wb rw ww rl wl r3 w3 rm
          = .done t ∧
        ∀ j, start / 2 ^ k ≤ j → j < end_ / 2 ^ k →
          t.mem (s.h68k_mmu_table + 8 * j) = userdata ∧
          t.mem (s.h68k_mmu_table + 8 * j + 4) = alignUp s.mem_ptr 2) ∧
    (∀ laddr paddr, laddr < 4294967296 →
      (s.mem (s.h68k_mmu_table + 8 * (laddr / 2 ^ k)) &&& 3) ≠ 0 →
      (h68k_RemapPage s laddr paddr).mem (s.h68k_mmu_table + 8 * (laddr / 2 ^ k) + 4)
        = ((s.mem (s.h68k_mmu_table + 8 * (laddr / 2 ^ k) + 4) &&& 7)
            ||| (paddr &&& 0xFFFFFFF8))) := by
  have hp0 : 0 < 2 ^ k := Nat.two_pow_pos k
  have hs1 : start / 2 ^ k * 2 ^ k = start := Nat.div_mul_cancel (Nat.dvd_of_mod_eq_zero hs)
  have he1 : end_ / 2 ^ k * 2 ^ k = end_ := Nat.div_mul_cancel (Nat.dvd_of_mod_eq_zero he)
  refine ⟨?_, ?_, ?_, ?_, ?_⟩
  · obtain ⟨t, ht, _, hA, _⟩ := MapAddressRangeEx_spec checked fuel s k hk hps start end_ dest
      (MMU_PAGE ||| MMU_CI) (by unfold PageFlag; decide) hs he hd hse hend hd32 hfuel
    exact ⟨t, ht, hA⟩
  · obtain ⟨t, ht, _, hA, _⟩ := MapAddressRangeEx_spec checked fuel s k hk hps start end_ dest
      (MMU_PAGE ||| MMU_CI ||| MMU_WP) (by unfold PageFlag; decide) hs he hd hse hend hd32 hfuel
    exact ⟨t, ht, hA⟩
  · obtain ⟨t, ht, _, hA, _⟩ := MapAddressRangeEx_spec checked fuel s k hk hps start end_ start
      (MMU_PAGE ||| MMU_CI ||| MMU_S) (by unfold PageFlag; decide) hs he hs hse hend (by omega)
      hfuel
    refine ⟨t, ht, fun j h1 h2 => ⟨(hA j h1 h2).1, ?_⟩⟩
    rw [(hA j h1 h2).2]
    have h3 : start ≤ j * 2 ^ k := by
      rw [← hs1]; exact Nat.mul_le_mul_right _ h1
    have h4 : j * 2 ^ k < end_ := by
      rw [← he1]; exact Nat.mul_lt_mul_of_pos_right h2 hp0
    unfold U32
    omega
  · intro userdata rb wb rw ww rl wl r3 w3 rm hu hh hfit htop
    exact MapAccessHandlerEx_any_range checked fuel s k hk hps start end_ userdata rb wb rw ww
      rl wl r3 w3 rm hs he (by omega) hend hu (fun _ => hh) hfit htop hfuel
  · intro laddr paddr hl hv
    have h2k : 2 ≤ 2 ^ k := by
      calc 2 = 2 ^ 1 := by decide
        _ ≤ 2 ^ k := Nat.pow_le_pow_right (by decide) (by omega)
    have hq : laddr / 2 ^ k < 2147483648 := by
      have : laddr / 2 ^ k ≤ laddr / 2 := Nat.div_le_div_left h2k (by decide)
      omega
    have e1 : s.h68k_mmu_table + 4 * (laddr / 2 ^ k * 2 % U32) + 0
        = s.h68k_mmu_table + 8 * (laddr / 2 ^ k) := by unfold U32; omega
    have e2 : s.h68k_mmu_table + 4 * (laddr / 2 ^ k * 2 % U32) + 4
        = s.h68k_mmu_table + 8 * (laddr / 2 ^ k) + 4 := by unfold U32; omega
    simp only [h68k_RemapPage, hps, e1, e2, if_pos hv, store_mem, if_true]

theorem C16_no_range_assertion_witness :
    (∃ t, h68k_MapMemory true 2 demoState 0x01000000 0x01000100 0x50000 = .done t ∧
      ∀ j, 0x01000000 / 2 ^ 8 ≤ j → j < 0x01000100 / 2 ^ 8 →
        t.mem (demoState.h68k_mmu_table + 8 * j) = 0xFC41 ∧
        t.mem (demoState.h68k_mmu_table + 8 * j + 4)
          = (0x50000 + (j * 2 ^ 8 - 0x01000000)) % 4294967296) ∧
    (∃ t, h68k_MapReadOnly true 2 demoState 0x01000000 0x01000100 0x50000 = .done t ∧
      ∀ j, 0x01000000 / 2 ^ 8 ≤ j → j < 0x01000100 / 2 ^ 8 →
        t.mem (demoState.h68k_mmu_table + 8 * j) = 0xFC45 ∧
        t.mem (demoState.h68k_mmu_table + 8 * j + 4)
          = (0x50000 + (j * 2 ^ 8 - 0x01000000)) % 4294967296) ∧
    (∃ t, h68k_MapInvalid true 2 demoState 0x01000000 0x01000100 = .done t ∧
      ∀ j, 0x01000000 / 2 ^ 8 ≤ j → j < 0x01000100 / 2 ^ 8 →
        t.mem (demoState.h68k_mmu_table + 8 * j) = 0xFD41 ∧
        t.mem (demoState.h68k_mmu_table + 8 * j + 4) = j * 2 ^ 8) ∧
    (∀ userdata rb wb rw ww rl wl r3 w3 rm, userdata % 256 = 0 →
      (rb ≠ 0 ∧ wb ≠ 0 ∧ rw ≠ 0 ∧ ww ≠ 0 ∧ rl ≠ 0 ∧ wl ≠ 0 ∧ r3 ≠ 0 ∧ w3 ≠ 0 ∧ rm ≠ 0) →
      alignUp demoState.mem_ptr 2 + 64 ≤ demoState.mem_top → demoState.mem_top < 4294967296 →
      ∃ t, h68k_MapAccessHandlerEx true 2 demoState 0x01000000 0x01000100 userdata
          rb wb rw ww rl wl r3 w3 rm = .done t ∧
        ∀ j, 0x01000000 / 2 ^ 8 ≤ j → j < 0x01000100 / 2 ^ 8 →
          t.mem (demoState.h68k_mmu_table + 8 * j) = userdata ∧
          t.mem (demoState.h68k_mmu_table + 8 * j + 4) = alignUp demoState.mem_ptr 2) ∧
    (∀ laddr paddr, laddr < 4294967296 →
      (demoState.mem (demoState.h68k_mmu_table + 8 * (laddr / 2 ^ 8)) &&& 3) ≠ 0 →
      (h68k_RemapPage demoState laddr paddr).mem
          (demoState.h68k_mmu_table + 8 * (laddr / 2 ^ 8) + 4)
        = ((demoState.mem (demoState.h68k_mmu_table + 8 * (laddr / 2 ^ 8) + 4) &&& 7)
            ||| (paddr &&& 0xFFFFFFF8))) :=
  C16_no_range_assertion true 2 demoState 8 (by decide) (by decide) 0x01000000 0x01000100
    0x50000 (by decide) (by decide) (by decide) (by decide) (by decide) (by decide) (by decide)

/-! ## The nine handler slots -/

/-- In a checked build `h68k_MapAccessHandlerEx` with a null handler fails an assertion,
whatever the other arguments and the state. -/
theorem MapAccessHandlerEx_null (fuel : Nat) (s : State)
    (start end_ userdata rb wb rw ww rl wl r3 w3 rm : Nat)
    (hnull : rb = 0 ∨ wb = 0 ∨ rw = 0 ∨ ww = 0 ∨ rl = 0 ∨ wl = 0 ∨ r3 = 0 ∨ w3 = 0 ∨ rm = 0) :
    ∃ t, h68k_MapAccessHandlerEx true fuel s start end_ userdata rb wb rw ww rl wl r3 w3 rm
      = .fatal t := by
  unfold h68k_MapAccessHandlerEx
  cases hal : AllocMem s (16 * 4) 4 with
  | fatal t => exact ⟨t, rfl⟩
  | timeout =>
    unfold AllocMem at hal
    simp only at hal
    split at hal <;> cases hal
  | done r =>
    obtain ⟨s0, st⟩ := r
    simp only
    have hent := stage1Fill_entry s0 st rb wb rw ww rl wl r3 w3 rm
    refine ⟨_, if_pos ⟨trivial, ?_⟩⟩
    rcases hnull with h | h | h | h | h | h | h | h | h
    · exact ⟨5, by decide, by rw [hent 5 (by decide)]; exact h⟩
    · exact ⟨1, by decide, by rw [hent 1 (by decide)]; exact h⟩
    · exact ⟨6, by decide, by rw [hent 6 (by decide)]; exact h⟩
    · exact ⟨2, by decide, by rw [hent 2 (by decide)]; exact h⟩
    · exact ⟨4, by decide, by rw [hent 4 (by decide)]; exact h⟩
    · exact ⟨0, by decide, by rw [hent 0 (by decide)]; exact h⟩
    · exact ⟨7, by decide, by rw [hent 7 (by decide)]; exact h⟩
    · exact ⟨3, by decide, by rw [hent 3 (by decide)]; exact h⟩
    · exact ⟨8, by decide, by rw [hent 8 (by decide)]; exact h⟩

/-- C17. Checked build, page size `2^k`. `h68k_MapAccessHandlerEx` with a null handler
among its nine fails an assertion. With nine non-null handlers, a page-aligned range
inside the client range, 256-aligned `userdata`, the descriptor table below the allocation
pointer and room for the stage-1 table, it returns, every address of `[start, end)` has
a descriptor with word 0 `= userdata` (low two bits zero: a handler reference) and word 1
the address `st` of one stage-1 table, whose 16 entries are non-null and are
`writeLong, writeByte, writeWord, writeThree, readLong, readByte, readWord, readThree` and
then `readModifyWrite` in entries 8 to 15. -/
theorem C17_nine_handler_slots (fuel : Nat) (s : State) (k : Nat)
    (hk : 8 ≤ k ∧ k ≤ 15) (hps : s.h68k_mmu_pagesize = 2 ^ k)
    (start end_ userdata readByte writeByte readWord writeWord readLong writeLong readThree
      writeThree readModifyWrite : Nat) :
    ((readByte = 0 ∨ writeByte = 0 ∨ readWord = 0 ∨ writeWord = 0 ∨ readLong = 0 ∨
        writeLong = 0 ∨ readThree = 0 ∨ writeThree = 0 ∨ readModifyWrite = 0) →
      ∃ t, h68k_MapAccessHandlerEx true fuel s start end_ userdata readByte writeByte readWord
        writeWord readLong writeLong readThree writeThree readModifyWrite = .fatal t) ∧
    ((readByte ≠ 0 ∧ writeByte ≠ 0 ∧ readWord ≠ 0 ∧ writeWord ≠ 0 ∧ readLong ≠ 0 ∧
        writeLong ≠ 0 ∧ readThree ≠ 0 ∧ writeThree ≠ 0 ∧ readModifyWrite ≠ 0) →
      start % 2 ^ k = 0 → end_ % 2 ^ k = 0 → start < 4294967296 → end_ ≤ 0x01000000 →
      userdata % 256 = 0 →
      s.h68k_mmu_table + 8 * (0x01000000 / 2 ^ k) ≤ s.mem_ptr →
      alignUp s.mem_ptr 2 + 64 ≤ s.mem_top → s.mem_top < 4294967296 →
      (end_ - start) / 2 ^ k < fuel →
      ∃ t st, h68k_MapAccessHandlerEx true fuel s start end_ userdata readByte writeByte
          readWord writeWord readLong writeLong readThree writeThree readModifyWrite = .done t ∧
        userdata &&& 3 = 0 ∧
        (∀ addr, start ≤ addr → addr < end_ →
          t.mem (h68k_GetMmuDescriptor t addr) = userdata ∧
          t.mem (h68k_GetMmuDescriptor t addr + 4) = st) ∧
        t.mem (st + 4 * 0) = writeLong ∧ t.mem (st + 4 * 1) = writeByte ∧
        t.mem (st + 4 * 2) = writeWord ∧ t.mem (st + 4 * 3) = writeThree ∧
        t.mem (st + 4 * 4) = readLong ∧ t.mem (st + 4 * 5) = readByte ∧
        t.mem (st + 4 * 6) = readWord ∧ t.mem (st + 4 * 7) = readThree ∧
        (∀ i, 8 ≤ i → i < 16 → t.mem (st + 4 * i) = readModifyWrite) ∧
        (∀ i, i < 16 → t.mem (st + 4 * i) ≠ 0)) := by
  refine ⟨fun hnull => MapAccessHandlerEx_null fuel s start end_ userdata _ _ _ _ _ _ _ _ _ hnull,
    fun hh hs he hs32 hend hu htab hfit htop hfuel => ?_⟩
  have hp0 : 0 < 2 ^ k := Nat.two_pow_pos k
  have he1 : end_ / 2 ^ k * 2 ^ k = end_ := Nat.div_mul_cancel (Nat.dvd_of_mod_eq_zero he)
  obtain ⟨t, ht, hc, _, hD, hE, _⟩ := MapAccessHandlerEx_spec true fuel s k hk hps start end_
    userdata readByte writeByte readWord writeWord readLong writeLong readThree writeThree
    readModifyWrite hs he hs32 hend hu (fun _ => hh) htab hfit htop hfuel
  have hu2 : userdata &&& 3 = 0 := by
    have : (3 : Nat) = 2 ^ 2 - 1 := by decide
    rw [this, Nat.and_pow_two_sub_one_eq_mod]
    have : (2:Nat) ^ 2 = 4 := by decide
    omega
  refine ⟨t, alignUp s.mem_ptr 2, ht, hu2, ?_, hE 0 (by decide), hE 1 (by decide),
    hE 2 (by decide), hE 3 (by decide), hE 4 (by decide), hE 5 (by decide), hE 6 (by decide),
    hE 7 (by decide), ?_, ?_⟩
  · intro addr h1 h2
    have hj : addr / 2 ^ k < end_ / 2 ^ k := by
      apply (Nat.div_lt_iff_lt_mul hp0).2
      rw [he1]; exact h2
    have hpt : t.h68k_mmu_pagesize = 2 ^ k := by rw [sameConfig_pagesize hc]; exact hps
    have htt : t.h68k_mmu_table = s.h68k_mmu_table := by rw [sameConfig_table hc]
    have hdesc : h68k_GetMmuDescriptor t addr = s.h68k_mmu_table + 8 * (addr / 2 ^ k) := by
      rw [GetMmuDescriptor_eq t addr (by rw [hpt]; have := Nat.div_le_self addr (2 ^ k); omega), hpt, htt]
    rw [hdesc]
    exact hD _ (Nat.div_le_div_right h1) hj
  · intro i h8 h16
    rw [hE i h16]
    unfold stage1Entry
    split <;> omega
  · intro i h16
    rw [hE i h16]
    exact stage1Entry_ne_zero _ _ _ _ _ _ _ _ _ hh i

theorem C17_nine_handler_slots_witness :
    (∃ t, h68k_MapAccessHandlerEx true 4 demoState 0x1000 0x1300 0 0x7001 0 0x7003 0x7004
      0x7005 0x7006 0x7007 0x7008 0x7009 = .fatal t) ∧
    (∃ t, h68k_MapAccessHandlerEx true 4 demoState 0x1000 0x1300 0x700 0x7001 0x7002 0x7003
        0x7004 0x7005 0x7006 0x7007 0x7008 0x7009 = .done t ∧
      t.mem (h68k_GetMmuDescriptor t 0x1234) = 0x700 ∧
      t.mem (t.mem (h68k_GetMmuDescriptor t 0x1234 + 4) + 4 * 5) = 0x7001 ∧
      t.mem (t.mem (h68k_GetMmuDescriptor t 0x1234 + 4) + 4 * 12) = 0x7009) :=
  ⟨(C17_nine_handler_slots 4 demoState 8 (by decide) (by decide) 0x1000 0x1300 0 0x7001 0
      0x7003 0x7004 0x7005 0x7006 0x7007 0x7008 0x7009).1 (Or.inr (Or.inl rfl)),
    match (C17_nine_handler_slots 4 demoState 8 (by decide) (by decide) 0x1000 0x1300 0x700
      0x7001 0x7002 0x7003 0x7004 0x7005 0x7006 0x7007 0x7008 0x7009).2 (by decide) (by decide)
      (by decide) (by decide) (by decide) (by decide) (by decide) (by decide) (by decide)
      (by decide) with
    | ⟨t, _, ht, _, hd, _, _, _, _, _, h5, _, _, h8, _⟩ =>
      ⟨t, ht, (hd 0x1234 (by decide) (by decide)).1,
        by rw [(hd 0x1234 (by decide) (by decide)).2]; exact h5,
        by rw [(hd 0x1234 (by decide) (by decide)).2]; exact h8 12 (by decide) (by decide)⟩⟩

/-! ## Walking the trees of `h68k_InitMemoryMap` -/

theorem desc_fields (x f j : Nat) (hj : 2 ≤ j ∧ j ≤ 32) (hx : x % 2 ^ j = 0)
    (hx32 : x < 4294967296) (hf : f < 2 ^ j) :
    (x ||| f) &&& 3 = f % 4 ∧ (x ||| f) &&& not32 (2 ^ j - 1) = x := by
  have h3 : (3 : Nat) = 2 ^ 2 - 1 := by decide
  have hx4 : x % 2 ^ 2 = 0 := by
    have hd : 2 ^ 2 ∣ 2 ^ j := Nat.pow_dvd_pow 2 hj.1
    exact Nat.mod_eq_zero_of_dvd (Nat.dvd_trans hd (Nat.dvd_of_mod_eq_zero hx))
  have hf32 : f < 4294967296 := by
    have : 2 ^ j ≤ 2 ^ 32 := Nat.pow_le_pow_right (by decide) hj.2
    omega
  constructor
  · rw [Nat.and_distrib_right, h3, Nat.and_pow_two_sub_one_eq_mod, Nat.and_pow_two_sub_one_eq_mod,
      hx4, Nat.zero_or]
  · rw [Nat.and_distrib_right, and_not32_mask x j hx32 hj.2, and_not32_mask f j hf32 hj.2, hx,
      Nat.mod_eq_of_lt hf]
    simp

theorem treeWalk_page (mem : Nat → Nat) (ps a w : Nat) (ws : List Nat) (table x : Nat)
    (hx : x % 256 = 0) (hx32 : x < 4294967296)
    (hw : mem (table + 4 * ((a / 2 ^ (ws.sum + ps)) % 2 ^ w)) = x ||| 0x41) :
    treeWalk mem ps a (w :: ws) table false = .page (x + a % 2 ^ (ws.sum + ps)) := by
  obtain ⟨h1, h2⟩ := desc_fields x 0x41 8 (by decide) hx hx32 (by decide)
  have n : not32 (2 ^ 8 - 1) = 0xFFFFFF00 := by decide
  rw [n] at h2
  unfold treeWalk
  simp only [hw, h1, h2, MMU_DT, MMU_PAGE]
  simp

theorem treeWalk_short (mem : Nat → Nat) (ps a w : Nat) (ws : List Nat) (table x : Nat)
    (hx : x % 16 = 0) (hx32 : x < 4294967296)
    (hw : mem (table + 4 * ((a / 2 ^ (ws.sum + ps)) % 2 ^ w)) = x ||| 2) :
    treeWalk mem ps a (w :: ws) table false = treeWalk mem ps a ws x false := by
  obtain ⟨h1, h2⟩ := desc_fields x 2 4 (by decide) hx hx32 (by decide)
  have n : not32 (2 ^ 4 - 1) = 0xFFFFFFF0 := by decide
  rw [n] at h2
  conv => lhs; unfold treeWalk
  simp only [hw, h1, h2, MMU_DT, MMU_PAGE, MMU_SHORT_TABLE]
  simp

theorem treeWalk_long (mem : Nat → Nat) (ps a w : Nat) (ws : List Nat) (table x : Nat)
    (hx : x % 16 = 0) (hx32 : x < 4294967296)
    (hw : mem (table + 4 * ((a / 2 ^ (ws.sum + ps)) % 2 ^ w)) = x ||| 3) :
    treeWalk mem ps a (w :: ws) table false = treeWalk mem ps a ws x true := by
  obtain ⟨h1, h2⟩ := desc_fields x 3 4 (by decide) hx hx32 (by decide)
  have n : not32 (2 ^ 4 - 1) = 0xFFFFFFF0 := by decide
  rw [n] at h2
  conv => lhs; unfold treeWalk
  simp only [hw, h1, h2, MMU_DT, MMU_PAGE, MMU_SHORT_TABLE, MMU_LONG_TABLE]
  simp

theorem treeWalk_long_end (mem : Nat → Nat) (ps a w : Nat) (ws : List Nat) (table : Nat) :
    treeWalk mem ps a (w :: ws) table true
      = .long (table + 8 * ((a / 2 ^ (ws.sum + ps)) % 2 ^ w)) := by
  unfold treeWalk
  simp

theorem tc_fields (k : Nat) (hk : 8 ≤ k ∧ k ≤ 15) :
    ((0x82004440 + k * 0x100000 + (20 - k)) >>> 20) &&& 0xF = k ∧
    ((0x82004440 + k * 0x100000 + (20 - k)) >>> 12) &&& 0xF = 4 ∧
    ((0x82004440 + k * 0x100000 + (20 - k)) >>> 8) &&& 0xF = 4 ∧
    ((0x82004440 + k * 0x100000 + (20 - k)) >>> 4) &&& 0xF = 4 ∧
    ((0x82004440 + k * 0x100000 + (20 - k)) >>> 0) &&& 0xF = 20 - k := by
  obtain ⟨h1, h2⟩ := hk
  interval_cases k <;> decide

theorem userWalk (mem : Nat → Nat) (base k : Nat) (hk : 8 ≤ k ∧ k ≤ 15)
    (hb : base % 16 = 0) (hb32 : base + 448 + 2 ^ (27 - k) ≤ 4294967296)
    (hA : ∀ i, i < 16 → mem (base + 256 + 4 * i) = (base + 320) ||| 2)
    (hB : ∀ i, i < 16 → mem (base + 320 + 4 * i) = (base + 384) ||| 2)
    (hC : ∀ i, i < 16 → mem (base + 384 + 4 * i) = (base + 448 + i * 2 ^ (23 - k)) ||| 3)
    (a : Nat) :
    mmuWalk mem (0x82004440 + k * 0x100000 + (20 - k)) 0x80000002 (base + 256) a
      = .long (base + 448 + 8 * ((a % 2 ^ 24) / 2 ^ k)) := by
  obtain ⟨f1, f2, f3, f4, f5⟩ := tc_fields k hk
  have hroot : decide (0x80000002 &&& MMU_DT = MMU_LONG_TABLE) = false := by decide
  unfold mmuWalk
  rw [f1, f2, f3, f4, f5, hroot]
  have s1 : [4, 4, 20 - k].sum + k = 28 := by simp; omega
  have s2 : [4, 20 - k].sum + k = 24 := by simp; omega
  have s3 : [20 - k].sum + k = 20 := by simp; omega
  have s4 : ([] : List Nat).sum + k = k := by simp
  have h16 : ∀ x : Nat, x % 2 ^ 4 < 16 := fun x => Nat.mod_lt x (by decide)
  have hp27 : 16 * 2 ^ (23 - k) = 2 ^ (27 - k) := by
    obtain ⟨h1, h2⟩ := hk
    interval_cases k <;> decide
  have hp23 : 2 ^ (23 - k) % 16 = 0 := by
    obtain ⟨h1, h2⟩ := hk
    interval_cases k <;> decide
  have hi := h16 (a / 2 ^ 20)
  have hpos := Nat.two_pow_pos (23 - k)
  have hmul : a / 2 ^ 20 % 2 ^ 4 * 2 ^ (23 - k) ≤ 15 * 2 ^ (23 - k) :=
    Nat.mul_le_mul_right _ (by omega)
  have hmod : (a / 2 ^ 20 % 2 ^ 4 * 2 ^ (23 - k)) % 16 = 0 := by
    rw [Nat.mul_mod, hp23]; simp
  rw [treeWalk_short mem k a 4 [4, 4, 20 - k] (base + 256) (base + 320) (by omega) (by omega)
      (by rw [s1]; exact hA _ (h16 _)),
    treeWalk_short mem k a 4 [4, 20 - k] (base + 320) (base + 384) (by omega) (by omega)
      (by rw [s2]; exact hB _ (h16 _)),
    treeWalk_long mem k a 4 [20 - k] (base + 384)
      (base + 448 + (a / 2 ^ 20) % 2 ^ 4 * 2 ^ (23 - k)) (by omega) (by omega)
      (by rw [s3]; exact hC _ (h16 _)),
    treeWalk_long_end, s4]
  congr 1
  obtain ⟨h1, h2⟩ := hk
  interval_cases k <;> omega

theorem supWalk (mem : Nat → Nat) (base k : Nat) (hk : 8 ≤ k ∧ k ≤ 15)
    (hb : base % 16 = 0) (hb32 : base + 256 ≤ 4294967296)
    (hA : ∀ i, i < 16 → mem (base + 4 * i)
      = if i = 0 then (base + 64) ||| 2 else if i = 15 then (base + 128) ||| 2
        else (i * 0x10000000) ||| 0x41)
    (hB0 : ∀ i, i < 16 → mem (base + 64 + 4 * i)
      = if i = 0 then (base + 192) ||| 2 else (i * 0x01000000) ||| 0x41)
    (hB1 : ∀ i, i < 16 → mem (base + 128 + 4 * i)
      = if i = 15 then (base + 192) ||| 2 else (0xF0000000 + i * 0x01000000) ||| 0x41)
    (hC : ∀ i, i < 16 → mem (base + 192 + 4 * i) = (i * 0x00100000) ||| 0x41)
    (a : Nat) (ha : a < 4294967296) :
    mmuWalk mem (0x82004440 + k * 0x100000 + (20 - k)) 0x80000002 base a
      = .page (if a < 0xFF000000 then a else a - 0xFF000000) := by
  obtain ⟨f1, f2, f3, f4, f5⟩ := tc_fields k hk
  have hroot : decide (0x80000002 &&& MMU_DT = MMU_LONG_TABLE) = false := by decide
  unfold mmuWalk
  rw [f1, f2, f3, f4, f5, hroot]
  have s1 : [4, 4, 20 - k].sum + k = 28 := by simp; omega
  have s2 : [4, 20 - k].sum + k = 24 := by simp; omega
  have s3 : [20 - k].sum + k = 20 := by simp; omega
  have h16 : ∀ x : Nat, x % 2 ^ 4 < 16 := fun x => Nat.mod_lt x (by decide)
  have p28 : (2 : Nat) ^ 28 = 268435456 := by decide
  have p24 : (2 : Nat) ^ 24 = 16777216 := by decide
  have p20 : (2 : Nat) ^ 20 = 1048576 := by decide
  have p4 : (2 : Nat) ^ 4 = 16 := by decide
  have stepC : treeWalk mem k a [4, 20 - k] (base + 192) false
      = .page (a / 2 ^ 20 % 2 ^ 4 * 0x00100000 + a % 2 ^ 20) := by
    rw [treeWalk_page mem k a 4 [20 - k] (base + 192) (a / 2 ^ 20 % 2 ^ 4 * 0x00100000)
      (by omega) (by omega) (by rw [s3]; exact hC _ (h16 _)), s3]
  by_cases hA0 : a / 2 ^ 28 % 2 ^ 4 = 0
  · rw [treeWalk_short mem k a 4 [4, 4, 20 - k] base (base + 64) (by omega) (by omega)
      (by rw [s1, Nat.add_zero] at *; rw [hA _ (h16 _), if_pos hA0])]
    by_cases hB : a / 2 ^ 24 % 2 ^ 4 = 0
    · rw [treeWalk_short mem k a 4 [4, 20 - k] (base + 64) (base + 192) (by omega) (by omega)
        (by rw [s2, hB0 _ (h16 _), if_pos hB]), stepC]
      congr 1
      simp only [p28, p24, p20, p4] at hA0 hB ⊢
      split <;> omega
    · rw [treeWalk_page mem k a 4 [4, 20 - k] (base + 64) (a / 2 ^ 24 % 2 ^ 4 * 0x01000000)
        (by omega) (by omega) (by rw [s2, hB0 _ (h16 _), if_neg hB]), s2]
      congr 1
      simp only [p28, p24, p20, p4] at hA0 hB ⊢
      split <;> omega
  · by_cases hA15 : a / 2 ^ 28 % 2 ^ 4 = 15
    · rw [treeWalk_short mem k a 4 [4, 4, 20 - k] base (base + 128) (by omega) (by omega)
        (by rw [s1, hA _ (h16 _), if_neg hA0, if_pos hA15])]
      by_cases hB : a / 2 ^ 24 % 2 ^ 4 = 15
      · rw [treeWalk_short mem k a 4 [4, 20 - k] (base + 128) (base + 192) (by omega)
          (by omega) (by rw [s2, hB1 _ (h16 _), if_pos hB]), stepC]
        congr 1
        simp only [p28, p24, p20, p4] at hA0 hA15 hB ⊢
        split <;> omega
      · rw [treeWalk_page mem k a 4 [4, 20 - k] (base + 128)
          (0xF0000000 + a / 2 ^ 24 % 2 ^ 4 * 0x01000000)
          (by omega) (by omega) (by rw [s2, hB1 _ (h16 _), if_neg hB]), s2]
        congr 1
        simp only [p28, p24, p20, p4] at hA0 hA15 hB ⊢
        split <;> omega
    · rw [treeWalk_page mem k a 4 [4, 4, 20 - k] base (a / 2 ^ 28 % 2 ^ 4 * 0x10000000)
        (by omega) (by omega) (by rw [s1, hA _ (h16 _), if_neg hA0, if_neg hA15]), s1]
      congr 1
      simp only [p28, p24, p20, p4] at hA0 hA15 ⊢
      split <;> omega

theorem treeEntry_user :
    (∀ i, i < 16 →
      treeEntry .tia0u i = some (ShortCall.mk .tia0u i (.tab .tib0u) MMU_SHORT_TABLE)) ∧
    (∀ i, i < 16 →
      treeEntry .tib0u i = some (ShortCall.mk .tib0u i (.tab .tic0u) MMU_SHORT_TABLE)) ∧
    (∀ i, i < 16 →
      treeEntry .tic0u i = some (ShortCall.mk .tic0u i (.tid i) MMU_LONG_TABLE)) := by
  decide

theorem treeEntry_supervisor :
    (∀ i, i < 16 → treeEntry .tia0s i = some (ShortCall.mk .tia0s i
      (if i = 0 then .tab .tib0s else if i = 15 then .tab .tib1s else .abs (i * 0x10000000))
      (if i = 0 ∨ i = 15 then MMU_SHORT_TABLE else MMU_PAGE ||| MMU_CI))) ∧
    (∀ i, i < 16 → treeEntry .tib0s i = some (ShortCall.mk .tib0s i
      (if i = 0 then .tab .tic0s else .abs (i * 0x01000000))
      (if i = 0 then MMU_SHORT_TABLE else MMU_PAGE ||| MMU_CI))) ∧
    (∀ i, i < 16 → treeEntry .tib1s i = some (ShortCall.mk .tib1s i
      (if i = 15 then .tab .tic0s else .abs (0xF0000000 + i * 0x01000000))
      (if i = 15 then MMU_SHORT_TABLE else MMU_PAGE ||| MMU_CI))) ∧
    (∀ i, i < 16 → treeEntry .tic0s i = some (ShortCall.mk .tic0s i
      (.abs (i * 0x00100000)) (MMU_PAGE ||| MMU_CI))) := by
  decide

theorem pow27_le (k : Nat) (hk : 8 ≤ k ∧ k ≤ 15) :
    2 ^ (27 - k) ≤ 524288 ∧ 2 ^ (24 - k) ≤ 65536 ∧ 16 * 2 ^ (23 - k) = 2 ^ (27 - k) ∧
    2 ^ (23 - k) = 8 * 2 ^ (20 - k) ∧ 16 * 2 ^ (20 - k) = 2 ^ 24 / 2 ^ k ∧
    (0x82004440 + k * 0x100000 + (20 - k)) % 16 = 20 - k := by
  obtain ⟨h1, h2⟩ := hk
  interval_cases k <;> decide

/-- The two trees that `h68k_InitMemoryMap` leaves behind, as the table search sees them. -/
theorem InitMemoryMap_walks (A : Sym → Nat) (checked : Bool) (fuel : Nat) (m : Machine) (p : Nat)
    (hp : p < 4294967296) (hA : A .h68k_mmuf_Fatal ≠ 0)
    (hfit : alignUp m.st.mem_ptr 12 + 448 + 2 ^ (27 - pageExp p) + 64 ≤ m.st.mem_top)
    (htop : m.st.mem_top < 4294967296) (hfuel : 2 ^ (24 - pageExp p) < fuel) :
    ∃ t, h68k_InitMemoryMap A checked fuel m p = .done t ∧
      t.st.h68k_mmu_pagesize = 2 ^ pageExp p ∧
      t.st.h68k_mmu_table = t.h68k_mmu.crp1 + 192 ∧
      t.h68k_mmu.tc = 0x82004440 + pageExp p * 0x100000 + (20 - pageExp p) ∧
      (∀ i, i < 16 → t.st.mem (t.h68k_mmu.crp1 + 128 + 4 * i)
        = (t.st.h68k_mmu_table + 8 * (i * 2 ^ (20 - pageExp p))) ||| MMU_LONG_TABLE) ∧
      (∀ a, mmuWalk t.st.mem t.h68k_mmu.tc t.h68k_mmu.crp0 t.h68k_mmu.crp1 a
        = .long (t.st.h68k_mmu_table + 8 * ((a % 2 ^ 24) / 2 ^ pageExp p))) ∧
      (∀ a, a < 4294967296 →
        mmuWalk t.st.mem t.h68k_mmu.tc t.h68k_mmu.srp0 t.h68k_mmu.srp1 a
          = .page (if a < 0xFF000000 then a else a - 0xFF000000)) := by
  obtain ⟨t, ht, _, _, _, hmmu, hps, htab, _, _, hent, _⟩ :=
    InitMemoryMap_spec A checked fuel m p hp hA hfit htop hfuel
  have hk := pageExp_bounds p
  obtain ⟨_, _, hb3⟩ := alignUp_bounds m.st.mem_ptr 12
  generalize alignUp m.st.mem_ptr 12 = base at *
  generalize pageExp p = k at *
  obtain ⟨q1, q2, q3, q4, q5, q6⟩ := pow27_le k hk
  have hb16 : base % 16 = 0 := by
    have : (2 : Nat) ^ 12 = 4096 := by decide
    omega
  obtain ⟨u1, u2, u3⟩ := treeEntry_user
  obtain ⟨v1, v2, v3, v4⟩ := treeEntry_supervisor
  have hf : (MMU_PAGE ||| MMU_CI) = 65 := by decide
  have hpos := Nat.two_pow_pos (23 - k)
  have htid : ∀ i, i < 16 →
      ((i * 2 ^ (23 - k)) % U32 + (base + 448)) % U32 = base + 448 + i * 2 ^ (23 - k) := by
    intro i hi
    have : i * 2 ^ (23 - k) ≤ 15 * 2 ^ (23 - k) := Nat.mul_le_mul_right _ (by omega)
    simp only [U32]
    omega
  have eA : ∀ i, i < 16 → t.st.mem (base + 256 + 4 * i) = (base + 320) ||| 2 := by
    intro i hi
    have := hent .tia0u i (by decide) hi
    rw [u1 i hi] at this
    simpa [tabOffset, Target.value] using this
  have eB : ∀ i, i < 16 → t.st.mem (base + 320 + 4 * i) = (base + 384) ||| 2 := by
    intro i hi
    have := hent .tib0u i (by decide) hi
    rw [u2 i hi] at this
    simpa [tabOffset, Target.value] using this
  have eC : ∀ i, i < 16 →
      t.st.mem (base + 384 + 4 * i) = (base + 448 + i * 2 ^ (23 - k)) ||| 3 := by
    intro i hi
    have := hent .tic0u i (by decide) hi
    rw [u3 i hi] at this
    simp only [tabOffset, Target.value, Option.elim, MMU_LONG_TABLE] at this
    rw [this, htid i hi]
  have sA : ∀ i, i < 16 → t.st.mem (base + 4 * i)
      = if i = 0 then (base + 64) ||| 2 else if i = 15 then (base + 128) ||| 2
        else (i * 0x10000000) ||| 0x41 := by
    intro i hi
    have := hent .tia0s i (by decide) hi
    rw [v1 i hi] at this
    simp only [tabOffset, Option.elim, Nat.add_zero] at this
    rw [this]
    by_cases h0 : i = 0
    · simp [h0, Target.value, tabOffset]
    · by_cases h15 : i = 15
      · simp [h15, Target.value, tabOffset]
      · simp [h0, h15, Target.value, hf]
  have sB0 : ∀ i, i < 16 → t.st.mem (base + 64 + 4 * i)
      = if i = 0 then (base + 192) ||| 2 else (i * 0x01000000) ||| 0x41 := by
    intro i hi
    have := hent .tib0s i (by decide) hi
    rw [v2 i hi] at this
    simp only [tabOffset, Option.elim] at this
    rw [this]
    by_cases h0 : i = 0
    · simp [h0, Target.value, tabOffset]
    · simp [h0, Target.value, hf]
  have sB1 : ∀ i, i < 16 → t.st.mem (base + 128 + 4 * i)
      = if i = 15 then (base + 192) ||| 2 else (0xF0000000 + i * 0x01000000) ||| 0x41 := by
    intro i hi
    have := hent .tib1s i (by decide) hi
    rw [v3 i hi] at this
    simp only [tabOffset, Option.elim] at this
    rw [this]
    by_cases h15 : i = 15
    · simp [h15, Target.value, tabOffset]
    · simp [h15, Target.value, hf]
  have sC : ∀ i, i < 16 → t.st.mem (base + 192 + 4 * i) = (i * 0x00100000) ||| 0x41 := by
    intro i hi
    have := hent .tic0s i (by decide) hi
    rw [v4 i hi] at this
    simpa [tabOffset, Target.value] using this
  refine ⟨t, ht, hps, ?_, ?_, ?_, ?_, ?_⟩
  · rw [htab, hmmu]
  · rw [hmmu]
  · intro i hi
    rw [hmmu, htab]
    simp only [MMU_LONG_TABLE]
    have e1 : base + 256 + 128 + 4 * i = base + 384 + 4 * i := by omega
    have e2 : base + 448 + 8 * (i * 2 ^ (20 - k)) = base + 448 + i * 2 ^ (23 - k) := by
      rw [q4]
      have := Nat.mul_left_comm 8 i (2 ^ (20 - k))
      have := Nat.mul_comm i (8 * 2 ^ (20 - k))
      omega
    rw [e1, e2]
    exact eC i hi
  · intro a
    rw [hmmu, htab]
    exact userWalk t.st.mem base k hk hb16 (by omega) eA eB eC a
  · intro a ha
    rw [hmmu]
    exact supWalk t.st.mem base k hk hb16 (by omega) sA sB0 sB1 sC a ha

theorem pageExp_fit (p : Nat) :
    2 ^ pageExp p ∈ [256, 512, 1024, 2048, 4096, 8192, 16384, 32768] ∧
    (p ≤ 32768 → p ≤ 2 ^ pageExp p ∧
      ∀ q ∈ [256, 512, 1024, 2048, 4096, 8192, 16384, 32768], p ≤ q → 2 ^ pageExp p ≤ q) ∧
    (32768 < p → 2 ^ pageExp p = 32768) := by
  unfold pageExp
  split_ifs <;> simp <;> omega

/-! ## The host MMU registers across set-up and teardown -/

/-- C14, the claim as stated fails: on a host whose `srp` was never set (`srp[0] = 0`)
`h68k_InitMemoryMap` succeeds and `h68k_RestoreMemoryMap` then loads `srp[0] = 2`, not the
register set that was read. -/
theorem C14_srp_counterexample :
    ∃ t, h68k_InitMemoryMap demoAddr true 513 demoMachine 32768 = .done t ∧
      h68k_GetMMU demoMachine = demoMachine.mmu ∧ demoMachine.mmu.srp0 = 0 ∧
      (h68k_RestoreMemoryMap t).mmu.srp0 = 2 ∧
      (h68k_RestoreMemoryMap t).mmu ≠ h68k_GetMMU demoMachine := by
  obtain ⟨t, ht, _, _, hold, _⟩ := InitMemoryMap_spec demoAddr true 513 demoMachine 32768
    (by decide) (by decide) (by decide) (by decide) (by decide)
  have h2 : (h68k_RestoreMemoryMap t).mmu.srp0 = 2 := by
    simp only [h68k_RestoreMemoryMap, h68k_SetMMU, hold]
    rfl
  refine ⟨t, ht, rfl, rfl, h2, fun h => ?_⟩
  rw [h] at h2
  exact absurd h2 (by decide)

/-- C14, amended. When `h68k_InitMemoryMap` succeeds on a machine whose MMU registers are
`m.mmu`, a later `h68k_RestoreMemoryMap`, in any machine state that still holds the saved
set `h68k_mmu_old`, loads `crp`, `tt0`, `tt1` and `tc` exactly as read; it loads `srp` as
read when `srp[0]` was not 0, and `srp = (2, crp[1])` when `srp[0]` was 0. -/
theorem C14_restore_memory_map (A : Sym → Nat) (checked : Bool) (fuel : Nat) (m : Machine)
    (p : Nat) (hp : p < 4294967296) (hA : A .h68k_mmuf_Fatal ≠ 0)
    (hfit : alignUp m.st.mem_ptr 12 + 448 + 2 ^ (27 - pageExp p) + 64 ≤ m.st.mem_top)
    (htop : m.st.mem_top < 4294967296) (hfuel : 2 ^ (24 - pageExp p) < fuel) :
    ∃ t, h68k_InitMemoryMap A checked fuel m p = .done t ∧
      ∀ u : Machine, u.h68k_mmu_old = t.h68k_mmu_old →
        (h68k_RestoreMemoryMap u).mmu.crp0 = (h68k_GetMMU m).crp0 ∧
        (h68k_RestoreMemoryMap u).mmu.crp1 = (h68k_GetMMU m).crp1 ∧
        (h68k_RestoreMemoryMap u).mmu.ttr0 = (h68k_GetMMU m).ttr0 ∧
        (h68k_RestoreMemoryMap u).mmu.ttr1 = (h68k_GetMMU m).ttr1 ∧
        (h68k_RestoreMemoryMap u).mmu.tc = (h68k_GetMMU m).tc ∧
        ((h68k_GetMMU m).srp0 ≠ 0 →
          (h68k_RestoreMemoryMap u).mmu.srp0 = (h68k_GetMMU m).srp0 ∧
          (h68k_RestoreMemoryMap u).mmu.srp1 = (h68k_GetMMU m).srp1) ∧
        ((h68k_GetMMU m).srp0 = 0 →
          (h68k_RestoreMemoryMap u).mmu.srp0 = 2 ∧
          (h68k_RestoreMemoryMap u).mmu.srp1 = (h68k_GetMMU m).crp1) := by
  obtain ⟨t, ht, _, _, hold, _⟩ := InitMemoryMap_spec A checked fuel m p hp hA hfit htop hfuel
  refine ⟨t, ht, fun u hu => ?_⟩
  have hr : (h68k_RestoreMemoryMap u).mmu = u.h68k_mmu_old := by
    simp only [h68k_RestoreMemoryMap, h68k_SetMMU]
  rw [hr, hu, hold]
  simp only [h68k_GetMMU]
  by_cases h0 : m.mmu.srp0 = 0
  · rw [if_pos h0]
    exact ⟨rfl, rfl, rfl, rfl, rfl, fun h => absurd h0 h, fun _ => ⟨rfl, rfl⟩⟩
  · rw [if_neg h0]
    exact ⟨rfl, rfl, rfl, rfl, rfl, fun _ => ⟨rfl, rfl⟩, fun h => absurd h h0⟩

theorem C14_restore_memory_map_witness :
    ∃ t, h68k_InitMemoryMap demoAddr true 513 demoMachine 32768 = .done t ∧
      (h68k_RestoreMemoryMap t).mmu.crp0 = 0x80000002 ∧
      (h68k_RestoreMemoryMap t).mmu.crp1 = 0x700 ∧
      (h68k_RestoreMemoryMap t).mmu.ttr0 = 0x017E8107 ∧
      (h68k_RestoreMemoryMap t).mmu.ttr1 = 0x807E8507 ∧
      (h68k_RestoreMemoryMap t).mmu.tc = 0x80F04445 ∧
      (h68k_RestoreMemoryMap t).mmu.srp0 = 2 ∧
      (h68k_RestoreMemoryMap t).mmu.srp1 = 0x700 :=
  match C14_restore_memory_map demoAddr true 513 demoMachine 32768 (by decide) (by decide)
    (by decide) (by decide) (by decide) with
  | ⟨t, ht, h⟩ =>
    ⟨t, ht, (h t rfl).1, (h t rfl).2.1, (h t rfl).2.2.1, (h t rfl).2.2.2.1,
      (h t rfl).2.2.2.2.1, ((h t rfl).2.2.2.2.2.2 rfl).1, ((h t rfl).2.2.2.2.2.2 rfl).2⟩

/-! ## The page size -/

/-- C18. For every 32-bit `p`, with room in the arena for the tables of the smallest page
size and fuel for the loop over them, `h68k_InitMemoryMap(p)` returns; the value that
`h68k_GetMmuPageSize()` then returns is one of 256, 512, .., 32768, a power of two; for
`p <= 32768` it is at least `p` and no larger than any of the eight sizes that is at least
`p`; for `p > 32768` it is 32768. -/
theorem C18_page_size_lookup (A : Sym → Nat) (checked : Bool) (fuel : Nat) (m : Machine)
    (p : Nat) (hp : p < 4294967296) (hA : A .h68k_mmuf_Fatal ≠ 0)
    (hfit : alignUp m.st.mem_ptr 12 + 448 + 524288 + 64 ≤ m.st.mem_top)
    (htop : m.st.mem_top < 4294967296) (hfuel : 65536 < fuel) :
    ∃ t, h68k_InitMemoryMap A checked fuel m p = .done t ∧
      h68k_GetMmuPageSize t.st ∈ [256, 512, 1024, 2048, 4096, 8192, 16384, 32768] ∧
      (∃ k, 8 ≤ k ∧ k ≤ 15 ∧ h68k_GetMmuPageSize t.st = 2 ^ k) ∧
      (p ≤ 32768 → p ≤ h68k_GetMmuPageSize t.st ∧
        ∀ q ∈ [256, 512, 1024, 2048, 4096, 8192, 16384, 32768], p ≤ q →
          h68k_GetMmuPageSize t.st ≤ q) ∧
      (32768 < p → h68k_GetMmuPageSize t.st = 32768) := by
  have hk := pageExp_bounds p
  obtain ⟨q1, q2, _⟩ := pow27_le (pageExp p) hk
  obtain ⟨t, ht, _, _, _, _, hps, _⟩ := InitMemoryMap_spec A checked fuel m p hp hA
    (by omega) htop (by omega)
  obtain ⟨f1, f2, f3⟩ := pageExp_fit p
  have hg : h68k_GetMmuPageSize t.st = 2 ^ pageExp p := hps
  refine ⟨t, ht, ?_⟩
  rw [hg]
  exact ⟨f1, ⟨pageExp p, hk.1, hk.2, rfl⟩, f2, f3⟩

theorem C18_page_size_lookup_witness :
    ∃ t, h68k_InitMemoryMap demoAddr true 65537 demoMachine 3000 = .done t ∧
      h68k_GetMmuPageSize t.st = 4096 :=
  match C18_page_size_lookup demoAddr true 65537 demoMachine 3000 (by decide) (by decide)
    (by decide) (by decide) (by decide) with
  | ⟨t, ht, hm, _, h, _⟩ =>
    ⟨t, ht, by
      have h1 := (h (by decide)).1
      have h2 := (h (by decide)).2 4096 (by decide) (by decide)
      simp only [List.mem_cons, List.mem_singleton, List.not_mem_nil, or_false] at hm
      omega⟩

/-! ## The two translation trees -/

/-- C19. When `h68k_InitMemoryMap` succeeds, the table search from the user root `crp`
with the field widths of `tc` (4-bit A, B and C levels, `tc & 15` bits at the D level)
ends for every 32-bit address `a` at the long descriptor with index
`(a mod 2^24) / pagesize` of `h68k_mmu_table`, so it ignores the upper 8 address bits, and
for `a < 2^24` that is the slot `h68k_GetMmuDescriptor(a)`. Entry `i` of the C-level table
points at descriptor `i * 2^(tc & 15)` of `h68k_mmu_table`, the 16 tables together hold
`2^24 / pagesize` descriptors, two addresses of the 24-bit range end at the same
descriptor exactly when they lie in the same page, and every descriptor is the
descriptor of a page. -/
theorem C19_user_tree_walk (A : Sym → Nat) (checked : Bool) (fuel : Nat) (m : Machine)
    (p : Nat) (hp : p < 4294967296) (hA : A .h68k_mmuf_Fatal ≠ 0)
    (hfit : alignUp m.st.mem_ptr 12 + 448 + 2 ^ (27 - pageExp p) + 64 ≤ m.st.mem_top)
    (htop : m.st.mem_top < 4294967296) (hfuel : 2 ^ (24 - pageExp p) < fuel) :
    ∃ t, h68k_InitMemoryMap A checked fuel m p = .done t ∧
      (∀ a, a < 4294967296 →
        mmuWalk t.st.mem t.h68k_mmu.tc t.h68k_mmu.crp0 t.h68k_mmu.crp1 a
          = .long (t.st.h68k_mmu_table + 8 * ((a % 2 ^ 24) / h68k_GetMmuPageSize t.st)) ∧
        mmuWalk t.st.mem t.h68k_mmu.tc t.h68k_mmu.crp0 t.h68k_mmu.crp1 a
          = mmuWalk t.st.mem t.h68k_mmu.tc t.h68k_mmu.crp0 t.h68k_mmu.crp1 (a % 2 ^ 24)) ∧
      (∀ a, a < 2 ^ 24 →
        mmuWalk t.st.mem t.h68k_mmu.tc t.h68k_mmu.crp0 t.h68k_mmu.crp1 a
          = .long (h68k_GetMmuDescriptor t.st a)) ∧
      (∀ i, i < 16 → t.st.mem (t.h68k_mmu.crp1 + 128 + 4 * i)
        = (t.st.h68k_mmu_table + 8 * (i * 2 ^ (t.h68k_mmu.tc % 16))) ||| MMU_LONG_TABLE) ∧
      16 * 2 ^ (t.h68k_mmu.tc % 16) = 2 ^ 24 / h68k_GetMmuPageSize t.st ∧
      (∀ a b, a < 2 ^ 24 → b < 2 ^ 24 →
        (mmuWalk t.st.mem t.h68k_mmu.tc t.h68k_mmu.crp0 t.h68k_mmu.crp1 a
            = mmuWalk t.st.mem t.h68k_mmu.tc t.h68k_mmu.crp0 t.h68k_mmu.crp1 b
          ↔ a / h68k_GetMmuPageSize t.st = b / h68k_GetMmuPageSize t.st)) ∧
      (∀ j, j < 2 ^ 24 / h68k_GetMmuPageSize t.st → ∃ a, a < 2 ^ 24 ∧
        mmuWalk t.st.mem t.h68k_mmu.tc t.h68k_mmu.crp0 t.h68k_mmu.crp1 a
          = .long (t.st.h68k_mmu_table + 8 * j)) := by
  obtain ⟨t, ht, hps, _, htc, hC, hu, _⟩ :=
    InitMemoryMap_walks A checked fuel m p hp hA hfit htop hfuel
  have hk := pageExp_bounds p
  obtain ⟨_, _, _, _, q5, q6⟩ := pow27_le (pageExp p) hk
  have hg : h68k_GetMmuPageSize t.st = 2 ^ pageExp p := hps
  have hp0 : 0 < 2 ^ pageExp p := Nat.two_pow_pos _
  have h24 : ∀ a, a < 2 ^ 24 → a % 2 ^ 24 = a := fun a h => Nat.mod_eq_of_lt h
  have hq : t.h68k_mmu.tc % 16 = 20 - pageExp p := by rw [htc]; exact q6
  refine ⟨t, ht, ?_⟩
  rw [hg, hq]
  refine ⟨fun a _ => ⟨hu a, ?_⟩, fun a ha => ?_, hC, q5, fun a b ha hb => ?_,
    fun j hj => ⟨j * 2 ^ pageExp p, ?_, ?_⟩⟩
  · rw [hu a, hu (a % 2 ^ 24), Nat.mod_mod]
  · have hd : a / 2 ^ pageExp p ≤ a := Nat.div_le_self _ _
    have h2 : (2 : Nat) ^ 24 = 16777216 := by decide
    rw [hu a, h24 a ha, GetMmuDescriptor_eq t.st a (by rw [hps]; omega), hps]
  · rw [hu a, hu b, h24 a ha, h24 b hb]
    constructor
    · intro h
      injection h with h
      omega
    · intro h
      rw [h]
  · have := Nat.div_mul_le_self (2 ^ 24) (2 ^ pageExp p)
    have : j * 2 ^ pageExp p < 2 ^ 24 / 2 ^ pageExp p * 2 ^ pageExp p :=
      Nat.mul_lt_mul_of_pos_right hj hp0
    omega
  · have h1 := Nat.div_mul_le_self (2 ^ 24) (2 ^ pageExp p)
    have h2 : j * 2 ^ pageExp p < 2 ^ 24 / 2 ^ pageExp p * 2 ^ pageExp p :=
      Nat.mul_lt_mul_of_pos_right hj hp0
    rw [hu, h24 _ (by omega), Nat.mul_div_cancel _ hp0]

theorem C19_user_tree_walk_witness :
    ∃ t, h68k_InitMemoryMap demoAddr true 513 demoMachine 32768 = .done t ∧
      mmuWalk t.st.mem t.h68k_mmu.tc t.h68k_mmu.crp0 t.h68k_mmu.crp1 0x12345678
        = .long (t.st.h68k_mmu_table + 8 * (0x345678 / h68k_GetMmuPageSize t.st)) ∧
      mmuWalk t.st.mem t.h68k_mmu.tc t.h68k_mmu.crp0 t.h68k_mmu.crp1 0x345678
        = .long (h68k_GetMmuDescriptor t.st 0x345678) :=
  match C19_user_tree_walk demoAddr true 513 demoMachine 32768 (by decide) (by decide)
    (by decide) (by decide) (by decide) with
  | ⟨t, ht, h1, h2, _⟩ => ⟨t, ht, (h1 0x12345678 (by decide)).1, h2 0x345678 (by decide)⟩

/-- C20, the claim as stated fails: after `h68k_InitMemoryMap` the table search from the
supervisor root translates `0xFF123456` to `0x00123456`. -/
theorem C20_high_alias_counterexample :
    ∃ t, h68k_InitMemoryMap demoAddr true 513 demoMachine 32768 = .done t ∧
      mmuWalk t.st.mem t.h68k_mmu.tc t.h68k_mmu.srp0 t.h68k_mmu.srp1 0xFF123456
        = .page 0x00123456 ∧
      mmuWalk t.st.mem t.h68k_mmu.tc t.h68k_mmu.srp0 t.h68k_mmu.srp1 0xFF123456
        ≠ .page 0xFF123456 := by
  obtain ⟨t, ht, _, _, _, _, _, hs⟩ := InitMemoryMap_walks demoAddr true 513 demoMachine 32768
    (by decide) (by decide) (by decide) (by decide) (by decide)
  have h := hs 0xFF123456 (by decide)
  rw [if_neg (by decide)] at h
  refine ⟨t, ht, h, ?_⟩
  rw [h]
  decide

/-- C20, amended. When `h68k_InitMemoryMap` succeeds, the table search from the supervisor
root `srp` (tables `tia0s`, `tib0s`, `tib1s`, `tic0s`, early-termination page descriptors)
translates every address below `0xFF000000` to itself and every address `a` of
`0xFF000000 .. 0xFFFFFFFF` to `a - 0xFF000000`. -/
theorem C20_supervisor_tree_walk (A : Sym → Nat) (checked : Bool) (fuel : Nat) (m : Machine)
    (p : Nat) (hp : p < 4294967296) (hA : A .h68k_mmuf_Fatal ≠ 0)
    (hfit : alignUp m.st.mem_ptr 12 + 448 + 2 ^ (27 - pageExp p) + 64 ≤ m.st.mem_top)
    (htop : m.st.mem_top < 4294967296) (hfuel : 2 ^ (24 - pageExp p) < fuel) :
    ∃ t, h68k_InitMemoryMap A checked fuel m p = .done t ∧
      (∀ a, a < 0xFF000000 →
        mmuWalk t.st.mem t.h68k_mmu.tc t.h68k_mmu.srp0 t.h68k_mmu.srp1 a = .page a) ∧
      (∀ a, 0xFF000000 ≤ a → a < 4294967296 →
        mmuWalk t.st.mem t.h68k_mmu.tc t.h68k_mmu.srp0 t.h68k_mmu.srp1 a
          = .page (a - 0xFF000000)) := by
  obtain ⟨t, ht, _, _, _, _, _, hs⟩ :=
    InitMemoryMap_walks A checked fuel m p hp hA hfit htop hfuel
  refine ⟨t, ht, fun a ha => ?_, fun a h1 h2 => ?_⟩
  · rw [hs a (by omega), if_pos ha]
  · rw [hs a h2, if_neg (by omega)]

theorem C20_supervisor_tree_walk_witness :
    ∃ t, h68k_InitMemoryMap demoAddr true 513 demoMachine 32768 = .done t ∧
      mmuWalk t.st.mem t.h68k_mmu.tc t.h68k_mmu.srp0 t.h68k_mmu.srp1 0x00E01234
        = .page 0x00E01234 ∧
      mmuWalk t.st.mem t.h68k_mmu.tc t.h68k_mmu.srp0 t.h68k_mmu.srp1 0xFFFF8240
        = .page 0x00FF8240 :=
  match C20_supervisor_tree_walk demoAddr true 513 demoMachine 32768 (by decide) (by decide)
    (by decide) (by decide) (by decide) with
  | ⟨t, ht, h1, h2⟩ => ⟨t, ht, h1 0x00E01234 (by decide), h2 0xFFFF8240 (by decide) (by decide)⟩

/-! ## The default mapping of the client range -/

/-- C21. When `h68k_InitMemoryMap` succeeds, every address `a` of the client range
`[0, 0x01000000)` has a descriptor whose word 0 is 0 (a handler reference with no handler
table) and whose word 1 points at a stage-1 table with all 16 entries `h68k_mmuf_Fatal`;
the table search from the user root ends at that descriptor. -/
theorem C21_default_map_fatal (A : Sym → Nat) (checked : Bool) (fuel : Nat) (m : Machine)
    (p : Nat) (hp : p < 4294967296) (hA : A .h68k_mmuf_Fatal ≠ 0)
    (hfit : alignUp m.st.mem_ptr 12 + 448 + 2 ^ (27 - pageExp p) + 64 ≤ m.st.mem_top)
    (htop : m.st.mem_top < 4294967296) (hfuel : 2 ^ (24 - pageExp p) < fuel) :
    ∃ t, h68k_InitMemoryMap A checked fuel m p = .done t ∧
      ∀ a, a < 0x01000000 →
        t.st.mem (h68k_GetMmuDescriptor t.st a) = 0 ∧
        t.st.mem (h68k_GetMmuDescriptor t.st a) &&& MMU_DT = MMU_INVALID ∧
        (∀ i, i < 16 →
          t.st.mem (t.st.mem (h68k_GetMmuDescriptor t.st a + 4) + 4 * i)
            = A .h68k_mmuf_Fatal) ∧
        mmuWalk t.st.mem t.h68k_mmu.tc t.h68k_mmu.crp0 t.h68k_mmu.crp1 a
          = .long (h68k_GetMmuDescriptor t.st a) := by
  obtain ⟨t, ht, _, _, _, _, hps, htab, _, _, _, hdesc, hst, _⟩ :=
    InitMemoryMap_spec A checked fuel m p hp hA hfit htop hfuel
  obtain ⟨t', ht', hps', _, _, _, hu, _⟩ :=
    InitMemoryMap_walks A checked fuel m p hp hA hfit htop hfuel
  rw [ht] at ht'
  injection ht' with ht'
  subst ht'
  have hk := pageExp_bounds p
  have hp0 : 0 < 2 ^ pageExp p := Nat.two_pow_pos _
  refine ⟨t, ht, fun a ha => ?_⟩
  have hd : a / 2 ^ pageExp p ≤ a := Nat.div_le_self _ _
  have hg : h68k_GetMmuDescriptor t.st a
      = alignUp m.st.mem_ptr 12 + 448 + 8 * (a / 2 ^ pageExp p) := by
    rw [GetMmuDescriptor_eq t.st a (by rw [hps]; omega), hps, htab]
  have hj : a / 2 ^ pageExp p < 2 ^ (24 - pageExp p) := by
    apply (Nat.div_lt_iff_lt_mul hp0).2
    rw [← Nat.pow_add, show 24 - pageExp p + pageExp p = 24 by omega]
    exact ha
  obtain ⟨h0, h4⟩ := hdesc _ hj
  rw [hg, h0, h4]
  refine ⟨rfl, rfl, hst, ?_⟩
  have h24 : a % 2 ^ 24 = a := Nat.mod_eq_of_lt ha
  rw [hu a, h24, htab]

theorem C21_default_map_fatal_witness :
    ∃ t, h68k_InitMemoryMap demoAddr true 513 demoMachine 32768 = .done t ∧
      t.st.mem (h68k_GetMmuDescriptor t.st 0xff8001) = 0 ∧
      t.st.mem (t.st.mem (h68k_GetMmuDescriptor t.st 0xff8001 + 4) + 4 * 5)
        = demoAddr .h68k_mmuf_Fatal :=
  match C21_default_map_fatal demoAddr true 513 demoMachine 32768 (by decide) (by decide)
    (by decide) (by decide) (by decide) with
  | ⟨t, ht, h⟩ =>
    ⟨t, ht, (h 0xff8001 (by decide)).1, (h 0xff8001 (by decide)).2.2.1 5 (by decide)⟩

/-! ## The arena allocator -/

/-- C23 at two failing inputs. (1) On the sample machine (`mem_ptr = 0x200000`,
`mem_top = 0x400000`) `AllocMem(0xFFFFFF00, 256)` returns `m = 0x200000` and sets
`mem_ptr = 0x1FFF00`: `m + size` wrapped, so `mem_ptr` decreased and the block reaches
past `mem_top`. (2) With `mem_ptr = 0xFFFFFF01`, `mem_top = 0xFFFFFFFF`,
`AllocMem(16, 256)` returns `m = 0`, below the old `mem_ptr`: the round-up wrapped. -/
theorem C23_alloc_wraps :
    (∃ t, AllocMem demoState 0xFFFFFF00 256 = .done (t, 0x200000) ∧
      t.mem_ptr = 0x1FFF00 ∧ t.mem_ptr < demoState.mem_ptr ∧
      demoState.mem_top < 0x200000 + 0xFFFFFF00) ∧
    (∃ t, AllocMem { demoState with mem_ptr := 0xFFFFFF01, mem_top := 0xFFFFFFFF } 16 256
        = .done (t, 0) ∧
      t.mem_ptr = 16 ∧ 0 < 0xFFFFFF01) := by
  refine ⟨⟨_, rfl, rfl, by decide, by decide⟩, ⟨_, rfl, rfl, by decide⟩⟩

/-! ## Byte, word and long overrides on a page without a handler table -/

theorem demoMapped_facts :
    demoMapped.h68k_mmu_pagesize = 2 ^ 8 ∧ demoMapped.h68k_mmu_table = 0x100000 ∧
    demoMapped.mem_ptr = 0x200000 ∧ demoMapped.mem_top = 0x400000 ∧
    demoMapped.mem (0x100000 + 8 * 0x10) = 0xFC45 ∧
    demoMapped.mem (0x100000 + 8 * 0x10 + 4) = 0x50000 ∧
    demoMapped.mem (0xFC45 + 28) = 0 ∧ demoMapped.mem (0xFC45 + 0) = 0 := by
  decide

/-- C30 at the failing input. On the sample machine after
`h68k_MapReadOnly(0x1000, 0x1300, 0x50000)` the page at `0x1000` is directly mapped
(word 0 of its descriptor is `0xFC45`, word 1 is `0x50000`). `h68k_MapIoByte(0x1000,
0x9001, 0x9002)` is not rejected: `h68k_GetExpandedFtable` takes `0xFC45` for a table
pointer, reads `len = 0` behind it, allocates a 256-record table at `0x200000` and stores
that address in word 0 of the descriptor, and `h68k_MapIoByte` writes its two handlers
into record 0 of the new table. `h68k_MapIoWord` and `h68k_MapIoLong` return likewise.
With word 0 equal to 0 the three functions do fail their assertion, in the state they
were called in. -/
theorem C30_direct_page_not_rejected :
    demoMapped.mem (h68k_GetMmuDescriptor demoMapped 0x1000) = 0xFC45 ∧
    (∃ t, h68k_MapIoByte 257 demoMapped 0x1000 0x9001 0x9002 = .done t ∧
      t.mem (h68k_GetMmuDescriptor demoMapped 0x1000) = 0x200000 ∧
      t.mem (0x200000 + 0) = 0x9001 ∧ t.mem (0x200000 + 12) = 0x9002 ∧
      t.mem_ptr = 0x202000) ∧
    (∃ t, h68k_MapIoWord 257 demoMapped 0x1000 0x9001 0x9002 = .done t ∧
      t.mem (h68k_GetMmuDescriptor demoMapped 0x1000) = 0x200000) ∧
    (∃ t, h68k_MapIoLong 257 demoMapped 0x1000 0x9001 0x9002 = .done t ∧
      t.mem (h68k_GetMmuDescriptor demoMapped 0x1000) = 0x200000) ∧
    (∀ fuel s addr r w, s.mem (h68k_GetMmuDescriptor s addr) = 0 →
      h68k_MapIoByte fuel s addr r w = .fatal s ∧ h68k_MapIoWord fuel s addr r w = .fatal s ∧
      h68k_MapIoLong fuel s addr r w = .fatal s) := by
  obtain ⟨hps, htab, hptr, htop, hd0, hd4, hlen, _⟩ := demoMapped_facts
  have hdesc : h68k_GetMmuDescriptor demoMapped 0x1000 = 0x100000 + 8 * 0x10 := by
    unfold h68k_GetMmuDescriptor
    simp only [htab, hps]
    decide
  have hal : alignUp demoMapped.mem_ptr 8 = 0x200000 := by rw [hptr]; decide
  obtain ⟨t, ht, hg, hp, hm⟩ := GetExpandedFtable_collapsed 257 demoMapped 8 (by decide) hps
    0x1000 (by decide) (by rw [hdesc, hd0]; decide) (by rw [hdesc, hd0]; exact hlen)
    (by rw [hdesc, hd0, hptr]; decide) (by rw [hal, htop]; decide) (by rw [htop]; decide)
    (by decide)
  rw [hal, hdesc] at hm
  rw [hal] at ht hp
  have hoff : (0x200000 + 32 * (0x1000 % 2 ^ 8) : Nat) = 0x200000 := by decide
  rw [hoff] at ht
  have htd : t.mem (0x100000 + 8 * 0x10) = 0x200000 := by
    rw [hm, if_pos rfl]
  refine ⟨by rw [hdesc]; exact hd0, ⟨_, by unfold h68k_MapIoByte; rw [ht]; rfl, ?_, ?_, ?_, ?_⟩,
    ⟨_, by unfold h68k_MapIoWord; rw [ht]; rfl, ?_⟩,
    ⟨_, by unfold h68k_MapIoLong; rw [ht]; rfl, ?_⟩, ?_⟩
  · rw [hdesc]
    simp only [store_mem]
    rw [if_neg (by decide), if_neg (by decide)]
    exact htd
  · simp [store_mem]
  · simp [store_mem]
  · simp only [store_mem_ptr]
    exact hp.trans (by decide)
  · rw [hdesc]
    simp only [store_mem]
    rw [if_neg (by decide), if_neg (by decide)]
    exact htd
  · rw [hdesc]
    simp only [store_mem]
    rw [if_neg (by decide), if_neg (by decide)]
    exact htd
  · intro fuel s addr r w h0
    have hg0 : h68k_GetExpandedFtable fuel s addr = .done (s, 0) := by
      unfold h68k_GetExpandedFtable
      simp only [Nat.add_zero, h0, if_true]
    refine ⟨?_, ?_, ?_⟩
    · unfold h68k_MapIoByte; rw [hg0]; rfl
    · unfold h68k_MapIoWord; rw [hg0]; rfl
    · unfold h68k_MapIoLong; rw [hg0]; rfl

/-! ## The stack-frame-size table -/

theorem sfs_offs_eq (i j : Nat) (hi : i < 16) (hj : j < 512) :
    sfs_offs i j = (if i * 1024 + j < 0x2000 then i * 1024 + j + 0x2000
      else i * 1024 + j - 0x2000) ∧
    sfs_offs i j = ((i <<< 10) ||| j) ^^^ 0x2000 := by
  have h1 : (i <<< 10) = 2 ^ 10 * i := by rw [Nat.shiftLeft_eq, Nat.mul_comm]
  have h2 : (2 ^ 10 * i ||| j) = 2 ^ 10 * i + j :=
    (Nat.mul_add_lt_is_or (i := 10) (b := j) (by norm_num; omega) i).symm
  have hx : ∀ o, o < 0x2000 → o ^^^ 0x2000 = o + 0x2000 := by
    intro o ho
    have e : o ^^^ 0x2000 = 0x2000 ||| o := by
      apply Nat.eq_of_testBit_eq
      intro b
      rw [Nat.testBit_xor, Nat.testBit_or, show (0x2000 : Nat) = 2 ^ 13 by norm_num,
        Nat.testBit_two_pow]
      by_cases hb : 13 = b
      · subst hb
        have : o.testBit 13 = false := Nat.testBit_lt_two_pow (by norm_num; omega)
        simp [this]
      · simp [hb]
    have := Nat.mul_add_lt_is_or (i := 13) (b := o) (by norm_num; omega) 1
    simp at this
    omega
  have hor : ∀ o, o < 0x2000 → (o ||| 0x2000) = o + 0x2000 := by
    intro o ho
    have := Nat.mul_add_lt_is_or (i := 13) (b := o) (by norm_num; omega) 1
    simp at this
    rw [Nat.or_comm, ← this]
    omega
  have hand : ∀ o, (o &&& 0x1FFF) = o % 0x2000 := by
    intro o
    rw [show (0x1FFF : Nat) = 2 ^ 13 - 1 by norm_num, Nat.and_pow_two_sub_one_eq_mod]
  have hp : (2 : Nat) ^ 10 = 1024 := by norm_num
  have hsum : i * 1024 + j < 0x4000 := by omega
  have e0 : (((i <<< 10) % 65536) ||| j) % 65536 = i * 1024 + j := by
    have hm : 2 ^ 10 * i % 65536 = 2 ^ 10 * i := Nat.mod_eq_of_lt (by omega)
    rw [h1, hm, h2]
    omega
  have e1 : ((i <<< 10) ||| j) = i * 1024 + j := by
    rw [h1, h2]; omega
  unfold sfs_offs
  simp only [e0, e1]
  by_cases hlt : i * 1024 + j < 0x2000
  · rw [if_pos hlt, if_pos hlt, hor _ hlt, hx _ hlt]
    exact ⟨by omega, by omega⟩
  · rw [if_neg hlt, if_neg hlt, hand]
    have h3 : (i * 1024 + j) ^^^ 0x2000 = i * 1024 + j - 0x2000 := by
      have h4 := hx (i * 1024 + j - 0x2000) (by omega)
      have : i * 1024 + j = (i * 1024 + j - 0x2000) ^^^ 0x2000 := by omega
      conv_lhs => rw [this]
      rw [Nat.xor_cancel_right]
    rw [h3]
    exact ⟨by omega, by omega⟩

theorem sfs_offs_inj (i j i' j' : Nat) (hi : i < 16) (hj : j < 512) (hi' : i' < 16)
    (hj' : j' < 512) (h : sfs_offs i j = sfs_offs i' j') : i = i' ∧ j = j' := by
  rw [(sfs_offs_eq i j hi hj).1, (sfs_offs_eq i' j' hi' hj').1] at h
  split at h <;> split at h <;> omega

theorem foldl_range_inv {α : Type} (f : α → Nat → α) (P : Nat → α → Prop) (s : α) (n : Nat)
    (h0 : P 0 s) (hstep : ∀ k t, k < n → P k t → P (k + 1) (f t k)) :
    P n ((List.range n).foldl f s) := by
  induction n with
  | zero => exact h0
  | succ n ih =>
    rw [List.range_succ, List.foldl_append]
    exact hstep n _ (Nat.lt_succ_self n)
      (ih (fun k t hk hP => hstep k t (Nat.lt_succ_of_lt hk) hP))

theorem sfs_step_table (s : State) (i j x : Nat) :
    (sfs_step s i j).sfs_table x
      = if x = sfs_offs i j then (HostStackFrameSizes.getD i 0 <<< 1) % U32
        else s.sfs_table x := rfl

theorem sfs_init_table (s : State) :
    ∀ i j, i < 16 → j < 512 →
      (sfs_init s).sfs_table (sfs_offs i j) = (HostStackFrameSizes.getD i 0 <<< 1) % U32 := by
  have inner : ∀ (i : Nat) (t : State), i < 16 →
      (∀ j, j < 512 → ((List.range 512).foldl (fun u j => sfs_step u i j) t).sfs_table
          (sfs_offs i j) = (HostStackFrameSizes.getD i 0 <<< 1) % U32) ∧
      (∀ x, (∀ j, j < 512 → x ≠ sfs_offs i j) →
        ((List.range 512).foldl (fun u j => sfs_step u i j) t).sfs_table x = t.sfs_table x) := by
    intro i t _
    exact foldl_range_inv (fun u j => sfs_step u i j)
      (fun n u => (∀ j, j < n → u.sfs_table (sfs_offs i j)
          = (HostStackFrameSizes.getD i 0 <<< 1) % U32) ∧
        (∀ x, (∀ j, j < 512 → x ≠ sfs_offs i j) → u.sfs_table x = t.sfs_table x))
      t 512 ⟨fun j hj => absurd hj (Nat.not_lt_zero j), fun _ _ => rfl⟩
      (fun k u hk hP => ⟨fun j hj => by
          rw [sfs_step_table]
          by_cases he : sfs_offs i j = sfs_offs i k
          · rw [if_pos he]
          · rw [if_neg he]
            by_cases hjk : j = k
            · exact absurd (by rw [hjk]) he
            · exact hP.1 j (by omega),
        fun x hx => by
          rw [sfs_step_table, if_neg (hx k hk)]
          exact hP.2 x hx⟩)
  have outer := foldl_range_inv
    (fun t i => (List.range 512).foldl (fun u j => sfs_step u i j) t)
    (fun n u => ∀ i j, i < n → n ≤ 16 → j < 512 →
      u.sfs_table (sfs_offs i j) = (HostStackFrameSizes.getD i 0 <<< 1) % U32)
    s 16 (fun i j hi => absurd hi (Nat.not_lt_zero i))
    (fun k u hk hP i j hi hn hj => by
      obtain ⟨h1, h2⟩ := inner k u hk
      by_cases hik : i = k
      · subst hik
        exact h1 j hj
      · rw [h2 _ (fun j' hj' he =>
          hik (sfs_offs_inj i j k j' (by omega) hj hk hj' he).1)]
        exact hP i j (by omega) (by omega) hj)
  intro i j hi hj
  exact outer i j hi (Nat.le_refl _) hj

/-! ## The vector tables -/

theorem lastVector_cons (c : VecCall) (rest : List VecCall) (x : Nat) :
    lastVector (c :: rest) x
      = (lastVector rest x).or (if c.vec >>> 2 = x then some c else none) := by
  unfold lastVector
  rw [List.reverse_cons, List.find?_append]
  simp [List.find?]
  by_cases h : c.vec >>> 2 = x <;> simp [h]

theorem SetVector_fold (A : Sym → Nat) (calls : List VecCall) :
    ∀ s : State,
      (∀ x, (calls.foldl (fun t c => h68k_SetVector t c.vec c.ipl (A c.func)) s).vec_table x
        = (lastVector calls x).elim (s.vec_table x) (fun c => A c.func)) ∧
      (∀ x, (calls.foldl (fun t c => h68k_SetVector t c.vec c.ipl (A c.func)) s).ipl_table x
        = (lastVector calls x).elim (s.ipl_table x) (fun c => (c.ipl <<< 24) % U32)) ∧
      (calls.foldl (fun t c => h68k_SetVector t c.vec c.ipl (A c.func)) s).sfs_table
        = s.sfs_table := by
  induction calls with
  | nil => intro s; exact ⟨fun x => rfl, fun x => rfl, rfl⟩
  | cons c rest ih =>
    intro s
    obtain ⟨h1, h2, h3⟩ := ih (h68k_SetVector s c.vec c.ipl (A c.func))
    rw [List.foldl_cons]
    refine ⟨fun x => ?_, fun x => ?_, ?_⟩
    · rw [h1 x, lastVector_cons]
      cases lastVector rest x with
      | some d => rfl
      | none =>
        by_cases h : c.vec >>> 2 = x
        · simp [h, h68k_SetVector, h68k_SetVectorHandler, State.store]
        · have h' : ¬ x = c.vec >>> 2 := fun e => h e.symm
          simp [h, h', h68k_SetVector, h68k_SetVectorHandler, State.store]
    · rw [h2 x, lastVector_cons]
      cases lastVector rest x with
      | some d => rfl
      | none =>
        by_cases h : c.vec >>> 2 = x
        · simp [h, h68k_SetVector, h68k_SetVectorHandler, State.store]
        · have h' : ¬ x = c.vec >>> 2 := fun e => h e.symm
          simp [h, h', h68k_SetVector, h68k_SetVectorHandler, State.store]
    · rw [h3]
      rfl

theorem initVectorsCase_eq (A : Sym → Nat) (s : State) (g2 : Sym) (calls : List VecCall) :
    initVectorsCase A s g2 calls
      = (vecCalls g2 calls).foldl (fun t c => h68k_SetVector t c.vec c.ipl (A c.func)) s := by
  simp only [initVectorsCase, vecCalls, List.foldl_append, List.foldl_map]

theorem vectors68000_last :
    ∀ x, x < 256 →
      (lastVector (vecCalls .vec68000_Group2 vectors68000) x).map (fun c => (c.func, c.ipl))
        = some (if x = 2 ∨ x = 3 then Sym.vec68000_Group0
            else if x = 4 ∨ x = 8 ∨ x = 9 ∨ (24 ≤ x ∧ x ≤ 31) then Sym.vec68000_Group1
            else Sym.vec68000_Group2,
          if 24 ≤ x ∧ x ≤ 31 then min (x - 24 + 1) 7 else 0) := by
  decide

/-- The part of `h68k_InitVectors` after the allocation of the vector page, from the
state `s3` it starts in. -/
theorem InitVectors_tail (A : Sym → Nat) (fuel : Nat) (s3 : State) (cpu : Nat)
    (vt it sf : Nat → Nat) (hA : ∀ x, A x ≠ 0) (hfuel : 65536 < fuel) (hlt : cpu < 65536)
    (hcpu : s3.client_cpu = cpu) (hvt : s3.vec_table = vt) (hit : s3.ipl_table = it)
    (hsf : s3.sfs_table = sf) :
    ∃ t, (match installAll A fuel pviolInstalls
          (h68k_SetVectorHandler (h68k_SetVectorHandler (h68k_SetVectorHandler
            (h68k_SetVectorHandler
              (if cpu = H68K_CPU_68010 then initVectorsCase A s3 .vec68010_Group2 vectors68010
               else initVectorsCase A s3 .vec68000_Group2 vectors68000)
              0x04 (A .vec68000_Reset)) 0x08 (A .vec68000_BusError))
            0x0c (A .vec68000_AddrError)) 0x20 (A .vec68000_PrivilegeViolation)) with
        | .fatal t => Outcome.fatal t
        | .timeout => .timeout
        | .done s9 =>
          if s9.client_cpu ≥ 68010 then installAll A fuel pviolInstalls68010 s9 else .done s9)
        = .done t ∧
      t.sfs_table = sf ∧
      (∀ x, t.vec_table x
        = (lastVector (if cpu = H68K_CPU_68010 then vecCalls .vec68010_Group2 vectors68010
            else vecCalls .vec68000_Group2 vectors68000) x).elim (vt x) (fun c => A c.func)) ∧
      (∀ x, t.ipl_table x
        = (lastVector (if cpu = H68K_CPU_68010 then vecCalls .vec68010_Group2 vectors68010
            else vecCalls .vec68000_Group2 vectors68000) x).elim (it x)
            (fun c => (c.ipl <<< 24) % U32)) := by
  subst hcpu hvt hit hsf
  generalize hs4 : (if s3.client_cpu = H68K_CPU_68010 then
      initVectorsCase A s3 .vec68010_Group2 vectors68010
    else initVectorsCase A s3 .vec68000_Group2 vectors68000) = s4
  have hc4 : s4.client_cpu = s3.client_cpu := by
    rw [← hs4]
    split <;> rw [initVectorsCase_frame]
  have htab : s4.sfs_table = s3.sfs_table ∧
      (∀ x, s4.vec_table x
        = (lastVector (if s3.client_cpu = H68K_CPU_68010 then
            vecCalls .vec68010_Group2 vectors68010
            else vecCalls .vec68000_Group2 vectors68000) x).elim (s3.vec_table x)
            (fun c => A c.func)) ∧
      (∀ x, s4.ipl_table x
        = (lastVector (if s3.client_cpu = H68K_CPU_68010 then
            vecCalls .vec68010_Group2 vectors68010
            else vecCalls .vec68000_Group2 vectors68000) x).elim (s3.ipl_table x)
            (fun c => (c.ipl <<< 24) % U32)) := by
    rw [← hs4]
    by_cases h10 : s3.client_cpu = H68K_CPU_68010
    · rw [if_pos h10, if_pos h10, initVectorsCase_eq]
      obtain ⟨h1, h2, h3⟩ := SetVector_fold A (vecCalls .vec68010_Group2 vectors68010) s3
      exact ⟨h3, h1, h2⟩
    · rw [if_neg h10, if_neg h10, initVectorsCase_eq]
      obtain ⟨h1, h2, h3⟩ := SetVector_fold A (vecCalls .vec68000_Group2 vectors68000) s3
      exact ⟨h3, h1, h2⟩
  obtain ⟨t, ht, hfr, _⟩ := installAll_spec A hA fuel hfuel pviolInstalls
    (h68k_SetVectorHandler (h68k_SetVectorHandler (h68k_SetVectorHandler
      (h68k_SetVectorHandler s4 0x04 (A .vec68000_Reset)) 0x08 (A .vec68000_BusError))
      0x0c (A .vec68000_AddrError)) 0x20 (A .vec68000_PrivilegeViolation))
    pviolInstalls_ranges
  rw [ht]
  have hc : ¬ t.client_cpu ≥ 68010 := by
    obtain ⟨a, b, rfl⟩ := hfr
    show ¬ s4.client_cpu ≥ 68010
    omega
  simp only [if_neg hc]
  obtain ⟨a, b, rfl⟩ := hfr
  exact ⟨_, rfl, htab.1, htab.2.1, htab.2.2⟩

/-- What `h68k_InitVectors` leaves in `sfs_table`, `vec_table` and `ipl_table`: the
stores into the host vector page and the privilege-violation installs that follow the
`switch` do not touch them. -/
theorem InitVectors_tables (A : Sym → Nat) (s : State) (fuel : Nat)
    (hA : ∀ x, A x ≠ 0) (hcpu : s.client_cpu < 65536)
    (hroom : alignUp s.mem_ptr 8 + 1024 ≤ s.mem_top) (htop : s.mem_top < 4294967296)
    (hfuel : 65536 < fuel) :
    ∃ t, h68k_InitVectors A fuel s = .done t ∧
      t.sfs_table = (sfs_init s).sfs_table ∧
      (∀ x, t.vec_table x
        = (lastVector (if s.client_cpu = H68K_CPU_68010 then vecCalls .vec68010_Group2 vectors68010
            else vecCalls .vec68000_Group2 vectors68000) x).elim (s.vec_table x)
            (fun c => A c.func)) ∧
      (∀ x, t.ipl_table x
        = (lastVector (if s.client_cpu = H68K_CPU_68010 then vecCalls .vec68010_Group2 vectors68010
            else vecCalls .vec68000_Group2 vectors68000) x).elim (s.ipl_table x)
            (fun c => (c.ipl <<< 24) % U32)) := by
  obtain ⟨hc1, hp1, ht1⟩ := sfs_init_frame s
  have hv1 : (sfs_init s).vec_table = s.vec_table :=
    foldl_proj (fun t : State => t.vec_table)
      (fun t i => (List.range 512).foldl (fun u j => sfs_step u i j) t)
      (fun t i => foldl_proj (fun t : State => t.vec_table)
        (fun u j => sfs_step u i j) (fun _ _ => rfl) (List.range 512) t)
      (List.range 16) s
  have hi1 : (sfs_init s).ipl_table = s.ipl_table :=
    foldl_proj (fun t : State => t.ipl_table)
      (fun t i => (List.range 512).foldl (fun u j => sfs_step u i j) t)
      (fun t i => foldl_proj (fun t : State => t.ipl_table)
        (fun u j => sfs_step u i j) (fun _ _ => rfl) (List.range 512) t)
      (List.range 16) s
  have hal := AllocMem_ok (sfs_init s) (256 * 4) 8 (by norm_num)
    (by rw [hp1, ht1]; exact hroom) (by rw [ht1]; exact htop)
  rw [show (2 : Nat) ^ 8 = 256 by norm_num] at hal
  unfold h68k_InitVectors
  simp only
  generalize sfs_init s = s1 at hc1 hal hv1 hi1 ⊢
  rw [hal]
  simp only
  rw [← hc1, ← hv1, ← hi1]
  exact InitVectors_tail A fuel _ s1.client_cpu s1.vec_table s1.ipl_table s1.sfs_table hA hfuel
    (by rw [hc1]; exact hcpu) rfl rfl rfl rfl

/-- C28. With room in the arena for the vector page, `h68k_InitVectors` returns, and then
for every format nibble `f < 16` and every `j < 512` the entry of `sfs_table` at index
`((f << 10) | j) xor 0x2000` is `2 * W(f)`, with `W` = 4 for formats 0 and 1, 6 for 2, 10
for 9, 16 for 0xA, 46 for 0xB and 0 otherwise. That index is the index `offs` the loop
body computes for `(f, j)`; it is below `0x4000`, and two different pairs get different
indices. -/
theorem C28_stack_frame_sizes (A : Sym → Nat) (s : State) (fuel : Nat)
    (hA : ∀ x, A x ≠ 0) (hcpu : s.client_cpu < 65536)
    (hroom : alignUp s.mem_ptr 8 + 1024 ≤ s.mem_top) (htop : s.mem_top < 4294967296)
    (hfuel : 65536 < fuel) :
    ∃ t, h68k_InitVectors A fuel s = .done t ∧
      (∀ f j, f < 16 → j < 512 →
        t.sfs_table (((f <<< 10) ||| j) ^^^ 0x2000)
          = 2 * (if f = 0 ∨ f = 1 then 4 else if f = 2 then 6 else if f = 9 then 10
              else if f = 10 then 16 else if f = 11 then 46 else 0) ∧
        sfs_offs f j = ((f <<< 10) ||| j) ^^^ 0x2000 ∧ sfs_offs f j < 0x4000) ∧
      (∀ f j f' j', f < 16 → j < 512 → f' < 16 → j' < 512 →
        sfs_offs f j = sfs_offs f' j' → f = f' ∧ j = j') := by
  obtain ⟨t, ht, hsfs, _⟩ := InitVectors_tables A s fuel hA hcpu hroom htop hfuel
  refine ⟨t, ht, fun f j hf hj => ?_, fun f j f' j' hf hj hf' hj' h =>
    sfs_offs_inj f j f' j' hf hj hf' hj' h⟩
  obtain ⟨e1, e2⟩ := sfs_offs_eq f j hf hj
  refine ⟨?_, e2, ?_⟩
  · rw [← e2, hsfs, sfs_init_table s f j hf hj]
    have hv : ∀ f, f < 16 → (HostStackFrameSizes.getD f 0 <<< 1) % U32
        = 2 * (if f = 0 ∨ f = 1 then 4 else if f = 2 then 6 else if f = 9 then 10
              else if f = 10 then 16 else if f = 11 then 46 else 0) := by decide
    exact hv f hf
  · rw [e1]
    split <;> omega

theorem C28_stack_frame_sizes_witness :
    ∃ t, h68k_InitVectors demoAddr 65537 demoState = .done t ∧
      t.sfs_table (((0xB <<< 10) ||| 3) ^^^ 0x2000) = 92 ∧
      t.sfs_table (((2 <<< 10) ||| 511) ^^^ 0x2000) = 12 :=
  match C28_stack_frame_sizes demoAddr demoState 65537 demoAddr_ne_zero (by decide) (by decide)
    (by decide) (by decide) with
  | ⟨t, ht, h, _⟩ => ⟨t, ht, (h 0xB 3 (by decide) (by decide)).1,
      (h 2 511 (by decide) (by decide)).1⟩

/-- C22. For a 68000 client, with room in the arena for the vector page and non-null
stubs, `h68k_InitVectors` returns, and then every entry `v < 256` of `vec_table` is
non-null and is `vec68000_Group0` for `v = 2, 3`, `vec68000_Group1` for `v = 4, 8, 9` and
`24 .. 31`, `vec68000_Group2` otherwise; `ipl_table[24 + n]` is `min(n + 1, 7) << 24` for
`n = 0 .. 7` and every other entry of `ipl_table` is 0. -/
theorem C22_default_vectors (A : Sym → Nat) (s : State) (fuel : Nat)
    (hA : ∀ x, A x ≠ 0) (hcpu : s.client_cpu = H68K_CPU_68000)
    (hroom : alignUp s.mem_ptr 8 + 1024 ≤ s.mem_top) (htop : s.mem_top < 4294967296)
    (hfuel : 65536 < fuel) :
    ∃ t, h68k_InitVectors A fuel s = .done t ∧
      (∀ v, v < 256 → t.vec_table v ≠ 0 ∧
        t.vec_table v = A (if v = 2 ∨ v = 3 then Sym.vec68000_Group0
          else if v = 4 ∨ v = 8 ∨ v = 9 ∨ (24 ≤ v ∧ v ≤ 31) then Sym.vec68000_Group1
          else Sym.vec68000_Group2)) ∧
      (∀ n, n < 8 → t.ipl_table (24 + n) = min (n + 1) 7 <<< 24) ∧
      (∀ v, v < 256 → ¬ (24 ≤ v ∧ v ≤ 31) → t.ipl_table v = 0) := by
  obtain ⟨t, ht, _, hvec, hipl⟩ :=
    InitVectors_tables A s fuel hA (by rw [hcpu]; decide) hroom htop hfuel
  have h10 : ¬ s.client_cpu = H68K_CPU_68010 := by rw [hcpu]; decide
  rw [if_neg h10] at hvec hipl
  have key : ∀ v, v < 256 →
      t.vec_table v = A (if v = 2 ∨ v = 3 then Sym.vec68000_Group0
          else if v = 4 ∨ v = 8 ∨ v = 9 ∨ (24 ≤ v ∧ v ≤ 31) then Sym.vec68000_Group1
          else Sym.vec68000_Group2) ∧
      t.ipl_table v = ((if 24 ≤ v ∧ v ≤ 31 then min (v - 24 + 1) 7 else 0) <<< 24) % U32 := by
    intro v hv
    have hl := vectors68000_last v hv
    cases hc : lastVector (vecCalls .vec68000_Group2 vectors68000) v with
    | none => rw [hc] at hl; cases hl
    | some c =>
      rw [hc] at hl
      simp only [Option.map_some', Option.some.injEq, Prod.mk.injEq] at hl
      rw [hvec v, hipl v, hc]
      simp only [Option.elim]
      rw [hl.1, hl.2]
      exact ⟨rfl, rfl⟩
  have hsh : ∀ n, n < 8 → (min (n + 1) 7 <<< 24) % U32 = min (n + 1) 7 <<< 24 := by decide
  refine ⟨t, ht, fun v hv => ⟨?_, (key v hv).1⟩, fun n hn => ?_, fun v hv hne => ?_⟩
  · rw [(key v hv).1]
    exact hA _
  · rw [(key (24 + n) (by omega)).2, if_pos (by omega), show 24 + n - 24 + 1 = n + 1 by omega]
    exact hsh n hn
  · rw [(key v hv).2, if_neg hne]
    rfl

theorem C22_default_vectors_witness :
    ∃ t, h68k_InitVectors demoAddr 65537 demoState = .done t ∧
      t.vec_table 3 = demoAddr .vec68000_Group0 ∧ t.vec_table 8 = demoAddr .vec68000_Group1 ∧
      t.vec_table 32 = demoAddr .vec68000_Group2 ∧ t.ipl_table 31 = 7 <<< 24 ∧
      t.ipl_table 24 = 1 <<< 24 ∧ t.ipl_table 32 = 0 :=
  match C22_default_vectors demoAddr demoState 65537 demoAddr_ne_zero rfl (by decide)
    (by decide) (by decide) with
  | ⟨t, ht, h1, h2, h3⟩ =>
    ⟨t, ht, (h1 3 (by decide)).2, (h1 8 (by decide)).2, (h1 32 (by decide)).2,
      h2 7 (by decide), h2 0 (by decide), h3 32 (by decide) (by decide)⟩

/-! ## Runs of `h68k_PrepareFtables` on the sample layout -/

theorem OnePage_expanded (s : State) (h : OnePage s) (j : Nat) (hj : j < 65536)
    (he : isExpanded s j) : j = 0xff80 := by
  obtain ⟨_, htab, _, _, _, hoth⟩ := h
  by_cases hj2 : j = 0xff80
  · exact hj2
  · exfalso
    unfold isExpanded at he
    rw [htab] at he
    rcases (hoth j hj hj2).1 with h0 | h0
    · exact he.2.1 h0
    · exact he.2.2 h0

theorem OnePage_is_expanded (s : State) (h : OnePage s) : isExpanded s 0xff80 := by
  obtain ⟨_, htab, hd0, _, hlen, _⟩ := h
  unfold isExpanded
  rw [htab, hd0]
  exact ⟨by decide, by decide, hlen⟩

theorem OnePage_touched (s : State) (h : OnePage s) (lo hi x : Nat) (hhi : hi ≤ 65536)
    (ht : Touched s 256 lo hi x) :
    (lo ≤ 0xff80 ∧ 0xff80 < hi) ∧
    ((0x200100 ≤ x ∧ x < 0x202100 ∧ (x - 0x200100) % 32 < 24) ∨
      (0x200080 ≤ x ∧ x < 0x2000C0)) := by
  obtain ⟨j, h1, h2, he, hx⟩ := ht
  have hj := OnePage_expanded s h j (by omega) he
  subst hj
  obtain ⟨_, htab, hd0, hd1, _, _⟩ := h
  rw [htab, hd0, hd1] at hx
  exact ⟨⟨h1, h2⟩, by omega⟩

theorem OnePage_layout (s : State) (h : OnePage s) : PrepLayout s 8 := by
  have hN : 16777216 / 2 ^ 8 = 65536 := by decide
  have hp : (2:Nat) ^ 8 = 256 := by decide
  have hT : s.h68k_mmu_table = 0x100000 := h.2.1
  constructor
  · intro x hx
    rw [hN, hp] at hx
    have := (OnePage_touched s h 0 65536 x (Nat.le_refl _) hx).2
    rw [hN, hT]
    omega
  · intro x j hx hj
    rw [hN, hp] at hx
    rw [hN] at hj
    have := (OnePage_touched s h 0 65536 x (Nat.le_refl _) hx).2
    rw [hT]
    by_cases hj2 : j = 0xff80
    · subst hj2
      rw [h.2.2.1]
      omega
    · have := (h.2.2.2.2.2 j hj hj2).2
      omega

theorem OnePage_separate (s : State) (h : OnePage s) : TablesSeparate s 8 := by
  have hN : 16777216 / 2 ^ 8 = 65536 := by decide
  intro j j' x hj hj' hne he _ _ ht
  rw [hN] at hj hj'
  have h1 := OnePage_expanded s h j hj he
  have h2 := OnePage_expanded s h j' hj' ht.1
  omega

/-- On the sample layout `h68k_PrepareFtables` returns and memory afterwards is the
closed form `pageMem` of the one expanded page; the layout is kept. -/
theorem OnePage_run (A : Sym → Nat) (s : State) (h : OnePage s) :
    ∃ t, h68k_PrepareFtables A 65537 s = .done t ∧ SameGlobals s t ∧
      (∀ x, t.mem x = pageMem A s.mem 0x200100 0x200080 256 x) ∧ OnePage t := by
  obtain ⟨t, ht, hg, _, hpage⟩ := PrepareFtables_run A 65537 s 8 (by decide) h.1
    (OnePage_layout s h) (by decide) (by decide)
  obtain ⟨u, _, hu, hm⟩ := hpage 0xff80 (by decide) (OnePage_is_expanded s h)
  have hN : 16777216 / 2 ^ 8 = 65536 := by decide
  have hp : (2:Nat) ^ 8 = 256 := by decide
  rw [hN, hp] at hm
  rw [hp] at hu
  have hum : u.mem = s.mem := by
    funext y
    apply hu
    intro hy
    have := (OnePage_touched s h 0 0xff80 y (by decide) hy).1
    omega
  have hmem : ∀ x, t.mem x = pageMem A s.mem 0x200100 0x200080 256 x := by
    intro x
    rw [hm x (fun hx => by
      have := (OnePage_touched s h (0xff80 + 1) 65536 x (Nat.le_refl _) hx).1
      omega), hum, h.2.1, h.2.2.1, h.2.2.2.1]
  have hfr : ∀ x, ¬ ((0x200100 ≤ x ∧ x < 0x200100 + 32 * 256 ∧ (x - 0x200100) % 32 < 24) ∨
      (0x200080 ≤ x ∧ x < 0x200080 + 64)) → t.mem x = s.mem x := by
    intro x hx
    rw [hmem x, pageMem_frame A s.mem 0x200100 0x200080 256 x hx]
  refine ⟨t, ht, hg, hmem, ?_⟩
  obtain ⟨hps, htab, hd0, hd1, hlen, hoth⟩ := h
  refine ⟨by rw [sameGlobals_pagesize hg]; exact hps, by rw [sameGlobals_table hg]; exact htab,
    by rw [hfr _ (by omega)]; exact hd0, by rw [hfr _ (by omega)]; exact hd1,
    by rw [hfr _ (by omega)]; exact hlen, fun j hj hj2 => ?_⟩
  obtain ⟨h1, h2⟩ := hoth j hj hj2
  rw [hfr (0x100000 + 8 * j) (by omega)]
  refine ⟨?_, h2⟩
  rcases h1 with h0 | h0
  · exact Or.inl h0
  · right
    rw [hfr _ (by omega)]
    exact h0

theorem prepDemo_onePage : OnePage prepDemo := by
  refine ⟨rfl, rfl, by decide, by decide, by decide, fun j hj hj2 => ?_⟩
  have h0 := prepDemo_desc0 j hj
  rw [if_neg hj2] at h0
  rw [h0]
  exact ⟨Or.inl rfl, Or.inl (by decide)⟩

/-- On the sample layout `h68k_MapIoByte`, `h68k_MapIoWord` and `h68k_MapIoLong` at an
address of the expanded page store their two handlers in its record and keep the
layout. -/
theorem OnePage_MapIo (s : State) (h : OnePage s) (fuel addr r w : Nat)
    (h1 : 0xff8000 ≤ addr) (h2 : addr < 0xff8100) :
    h68k_MapIoByte fuel s addr r w
      = .done ((s.store (0x200100 + 32 * (addr - 0xff8000) + 0) r).store
          (0x200100 + 32 * (addr - 0xff8000) + 12) w) ∧
    OnePage ((s.store (0x200100 + 32 * (addr - 0xff8000) + 0) r).store
          (0x200100 + 32 * (addr - 0xff8000) + 12) w) ∧
    h68k_MapIoWord fuel s addr r w
      = .done ((s.store (0x200100 + 32 * (addr - 0xff8000) + 4) r).store
          (0x200100 + 32 * (addr - 0xff8000) + 16) w) ∧
    OnePage ((s.store (0x200100 + 32 * (addr - 0xff8000) + 4) r).store
          (0x200100 + 32 * (addr - 0xff8000) + 16) w) ∧
    h68k_MapIoLong fuel s addr r w
      = .done ((s.store (0x200100 + 32 * (addr - 0xff8000) + 8) r).store
          (0x200100 + 32 * (addr - 0xff8000) + 20) w) ∧
    OnePage ((s.store (0x200100 + 32 * (addr - 0xff8000) + 8) r).store
          (0x200100 + 32 * (addr - 0xff8000) + 20) w) := by
  obtain ⟨hps, htab, hd0, hd1, hlen, hoth⟩ := h
  have hdesc : h68k_GetMmuDescriptor s addr = 0x100000 + 8 * 0xff80 := by
    unfold h68k_GetMmuDescriptor
    rw [htab, hps]
    have : addr / 2 ^ 8 = 0xff80 := by
      have : (2 : Nat) ^ 8 = 256 := by decide
      omega
    rw [this]
    decide
  have hoff : addr % 2 ^ 8 = addr - 0xff8000 := by
    have : (2 : Nat) ^ 8 = 256 := by decide
    omega
  have keep : ∀ (o1 o2 : Nat), o1 < 24 → o2 < 24 →
      OnePage ((s.store (0x200100 + 32 * (addr - 0xff8000) + o1) r).store
          (0x200100 + 32 * (addr - 0xff8000) + o2) w) := by
    intro o1 o2 ho1 ho2
    have hfr : ∀ x, (x < 0x200100 ∨ 0x202100 ≤ x ∨ (x - 0x200100) % 32 ≥ 24) →
        ((s.store (0x200100 + 32 * (addr - 0xff8000) + o1) r).store
          (0x200100 + 32 * (addr - 0xff8000) + o2) w).mem x = s.mem x := by
      intro x hx
      simp only [store_mem]
      rw [if_neg (by omega), if_neg (by omega)]
    refine ⟨hps, htab, by rw [hfr _ (by omega)]; exact hd0, by rw [hfr _ (by omega)]; exact hd1,
      by rw [hfr _ (by omega)]; exact hlen, fun j hj hj2 => ?_⟩
    obtain ⟨g1, g2⟩ := hoth j hj hj2
    rw [hfr (0x100000 + 8 * j) (by omega)]
    refine ⟨?_, g2⟩
    rcases g1 with h0 | h0
    · exact Or.inl h0
    · right
      rw [hfr _ (by omega)]
      exact h0
  have hb := MapIoByte_expanded fuel s 8 (by decide) hps addr r w (by omega)
    (by rw [hdesc, hd0]; decide) (by rw [hdesc, hd0]; exact hlen)
  have hw := MapIoWord_expanded fuel s 8 (by decide) hps addr r w (by omega)
    (by rw [hdesc, hd0]; decide) (by rw [hdesc, hd0]; exact hlen)
  have hl := MapIoLong_expanded fuel s 8 (by decide) hps addr r w (by omega)
    (by rw [hdesc, hd0]; decide) (by rw [hdesc, hd0]; exact hlen)
  rw [hdesc, hd0, hoff] at hb hw hl
  exact ⟨hb, keep 0 12 (by decide) (by decide), hw, keep 4 16 (by decide) (by decide),
    hl, keep 8 20 (by decide) (by decide)⟩

/-! ## Word and long narrowing -/

/-- C25. On a state laid out so that `h68k_PrepareFtables` writes into no descriptor and
no `len` field (`PrepLayout`) and handler tables are not overlapped by other tables
(`TablesSeparate`), and with fuel for its loops, `h68k_PrepareFtables` returns, and for
every expanded page `j` whose stage-1 table lies outside its handler table and every even
offset `i`: a `readW[i]` with the inherited tag (bit 31) becomes `readW[i]` without the
tag when `readB[i]` and `readB[i+1]` are the same value and `h68k_IoReadWordBB` when they
are not; a `readW[i]` without the tag is unchanged; likewise `writeW[i]` with `writeB` and
`h68k_IoWriteWordBB`. The values compared are those before the call. -/
theorem C25_word_narrowing (A : Sym → Nat) (fuel : Nat) (s0 : State) (k : Nat)
    (hk : 8 ≤ k ∧ k ≤ 15) (hps : s0.h68k_mmu_pagesize = 2 ^ k) (hlay : PrepLayout s0 k)
    (hsep : TablesSeparate s0 k) (hfuel : 2 ^ k < fuel) (hfuelN : 16777216 / 2 ^ k < fuel) :
    ∃ t, h68k_PrepareFtables A fuel s0 = .done t ∧
      ∀ j i, j < 16777216 / 2 ^ k → isExpanded s0 j → i < 2 ^ k → i % 2 = 0 →
        (s0.mem (s0.h68k_mmu_table + 8 * j + 4) + 64 ≤ s0.mem (s0.h68k_mmu_table + 8 * j) ∨
          s0.mem (s0.h68k_mmu_table + 8 * j) + 32 * 2 ^ k
            ≤ s0.mem (s0.h68k_mmu_table + 8 * j + 4)) →
        ((s0.mem (s0.mem (s0.h68k_mmu_table + 8 * j) + 32 * i + 4) &&& 0x80000000) ≠ 0 →
          (s0.mem (s0.mem (s0.h68k_mmu_table + 8 * j) + 32 * i + 0)
              = s0.mem (s0.mem (s0.h68k_mmu_table + 8 * j) + 32 * (i + 1) + 0) →
            t.mem (s0.mem (s0.h68k_mmu_table + 8 * j) + 32 * i + 4)
              = s0.mem (s0.mem (s0.h68k_mmu_table + 8 * j) + 32 * i + 4) &&& 0x7FFFFFFF) ∧
          (s0.mem (s0.mem (s0.h68k_mmu_table + 8 * j) + 32 * i + 0)
              ≠ s0.mem (s0.mem (s0.h68k_mmu_table + 8 * j) + 32 * (i + 1) + 0) →
            t.mem (s0.mem (s0.h68k_mmu_table + 8 * j) + 32 * i + 4)
              = A .h68k_IoReadWordBB)) ∧
        ((s0.mem (s0.mem (s0.h68k_mmu_table + 8 * j) + 32 * i + 4) &&& 0x80000000) = 0 →
          t.mem (s0.mem (s0.h68k_mmu_table + 8 * j) + 32 * i + 4)
            = s0.mem (s0.mem (s0.h68k_mmu_table + 8 * j) + 32 * i + 4)) ∧
        ((s0.mem (s0.mem (s0.h68k_mmu_table + 8 * j) + 32 * i + 16) &&& 0x80000000) ≠ 0 →
          (s0.mem (s0.mem (s0.h68k_mmu_table + 8 * j) + 32 * i + 12)
              = s0.mem (s0.mem (s0.h68k_mmu_table + 8 * j) + 32 * (i + 1) + 12) →
            t.mem (s0.mem (s0.h68k_mmu_table + 8 * j) + 32 * i + 16)
              = s0.mem (s0.mem (s0.h68k_mmu_table + 8 * j) + 32 * i + 16) &&& 0x7FFFFFFF) ∧
          (s0.mem (s0.mem (s0.h68k_mmu_table + 8 * j) + 32 * i + 12)
              ≠ s0.mem (s0.mem (s0.h68k_mmu_table + 8 * j) + 32 * (i + 1) + 12) →
            t.mem (s0.mem (s0.h68k_mmu_table + 8 * j) + 32 * i + 16)
              = A .h68k_IoWriteWordBB)) ∧
        ((s0.mem (s0.mem (s0.h68k_mmu_table + 8 * j) + 32 * i + 16) &&& 0x80000000) = 0 →
          t.mem (s0.mem (s0.h68k_mmu_table + 8 * j) + 32 * i + 16)
            = s0.mem (s0.mem (s0.h68k_mmu_table + 8 * j) + 32 * i + 16)) := by
  obtain ⟨t, ht, _, _, hpage⟩ := PrepareFtables_run A fuel s0 k hk hps hlay hfuel hfuelN
  refine ⟨t, ht, ?_⟩
  intro j i hj he hi hev hst
  obtain ⟨u, _, hu, hm⟩ := hpage j hj he
  generalize hr : s0.mem (s0.h68k_mmu_table + 8 * j) = r at *
  generalize hud : s0.mem (s0.h68k_mmu_table + 8 * j + 4) = ud1 at *
  have hp0 : 0 < 2 ^ k := Nat.two_pow_pos k
  have hp2 : 2 ^ k % 2 = 0 := by
    obtain ⟨k1, k2⟩ := hk
    interval_cases k <;> decide
  have hnt : ∀ x, r ≤ x → x < r + 32 * 2 ^ k →
      ¬ Touched s0 (2 ^ k) (j + 1) (16777216 / 2 ^ k) x :=
    fun x h1 h2 => not_touched_later s0 k j x hsep hj he (by rw [hr]; exact h1)
      (by rw [hr]; exact h2) _ _ (Nat.le_refl _) (Or.inl (Nat.lt_succ_self j))
  have hub : ∀ x, r ≤ x → x < r + 32 * 2 ^ k → u.mem x = s0.mem x :=
    fun x h1 h2 => hu x (not_touched_later s0 k j x hsep hj he (by rw [hr]; exact h1)
      (by rw [hr]; exact h2) _ _ (by omega) (Or.inr (Nat.le_refl _)))
  have hs1 : ∀ x, r ≤ x → x < r + 32 * 2 ^ k → stage1Mem A u.mem ud1 x = s0.mem x := by
    intro x h1 h2
    simp only [stage1Mem]
    rw [if_neg (by omega)]
    exact hub x h1 h2
  have key : ∀ o bb, (o = 4 ∨ o = 16) →
      (bb = if o = 4 then A .h68k_IoReadWordBB else A .h68k_IoWriteWordBB) →
      t.mem (r + 32 * i + o)
        = narrowWord bb (s0.mem (r + 32 * i + o)) (s0.mem (r + 32 * i + (o - 4)))
            (s0.mem (r + 32 * (i + 1) + (o - 4))) := by
    intro o bb ho hbb
    rw [hm _ (hnt _ (by omega) (by omega))]
    unfold pageMem
    have e1 : r + 32 * i + o - 4 = r + 32 * i + (o - 4) := by omega
    have e2 : r + 32 * i + o + 28 = r + 32 * (i + 1) + (o - 4) := by omega
    have hb : bytesMem A (longsMem A (wordsMem A (stage1Mem A u.mem ud1) r 0 (2 ^ k)) r 0
        (2 ^ k)) r 0 (2 ^ k) (r + 32 * i + o)
        = longsMem A (wordsMem A (stage1Mem A u.mem ud1) r 0 (2 ^ k)) r 0 (2 ^ k)
            (r + 32 * i + o) := by
      simp only [bytesMem]
      rw [if_pos (by omega), if_neg (by omega), if_neg (by omega), if_neg (by omega)]
    have hl : longsMem A (wordsMem A (stage1Mem A u.mem ud1) r 0 (2 ^ k)) r 0 (2 ^ k)
        (r + 32 * i + o)
        = wordsMem A (stage1Mem A u.mem ud1) r 0 (2 ^ k) (r + 32 * i + o) := by
      simp only [longsMem]
      rw [if_neg (by omega), if_neg (by omega)]
    rw [hb, hl]
    simp only [wordsMem]
    rcases ho with ho | ho
    · subst ho
      rw [if_pos (by omega), e1, e2, hs1 _ (by omega) (by omega), hs1 _ (by omega) (by omega),
        hs1 _ (by omega) (by omega), hbb, if_pos rfl]
    · subst ho
      rw [if_neg (by omega), if_pos (by omega), e1, e2, hs1 _ (by omega) (by omega),
        hs1 _ (by omega) (by omega), hs1 _ (by omega) (by omega), hbb, if_neg (by decide)]
  have kr := key 4 _ (Or.inl rfl) rfl
  have kw := key 16 _ (Or.inr rfl) rfl
  rw [if_pos rfl] at kr
  rw [if_neg (by decide)] at kw
  unfold narrowWord at kr kw
  refine ⟨fun htag => ⟨fun heq => ?_, fun hne => ?_⟩, fun hno => ?_,
    fun htag => ⟨fun heq => ?_, fun hne => ?_⟩, fun hno => ?_⟩
  · rw [kr, if_pos htag, if_pos heq]
  · rw [kr, if_pos htag, if_neg hne]
  · rw [kr, if_neg (by rw [hno]; decide)]
  · rw [kw, if_pos htag, if_pos heq]
  · rw [kw, if_pos htag, if_neg hne]
  · rw [kw, if_neg (by rw [hno]; decide)]

theorem C25_word_narrowing_witness :
    ∃ t, h68k_PrepareFtables demoAddr 65537 prepDemo = .done t ∧
      t.mem (0x200100 + 32 * 6 + 4) = 0x7003 ∧ t.mem (0x200100 + 32 * 6 + 16) = 0x7004 :=
  match C25_word_narrowing demoAddr 65537 prepDemo 8 (by decide) rfl prepDemo_layout
    prepDemo_separate (by decide) (by decide) with
  | ⟨t, ht, h⟩ =>
    ⟨t, ht,
      ((h 0xff80 6 (by decide) prepDemo_is_expanded (by decide) (by decide)
        (by decide)).1 (by decide)).1 (by decide),
      ((h 0xff80 6 (by decide) prepDemo_is_expanded (by decide) (by decide)
        (by decide)).2.2.1 (by decide)).1 (by decide)⟩

/-- C24 at the failing input. On the sample expanded page, `h68k_MapIoByte(0xff8001,
0x9001, 0x9002)` and `h68k_MapIoByte(0xff8003, 0x9003, 0x9004)` make the byte handlers
of records 0, 1 and of records 2, 3 differ, and `readL[0]`, `writeL[0]` still carry the
inherited tag. After `h68k_PrepareFtables` both `readW[0]` and `readW[2]` are the
composite `h68k_IoReadWordBB` (and `writeW[0]`, `writeW[2]` are `h68k_IoWriteWordBB`),
but `readL[0]` is the inherited long handler `0x7005` with the tag cleared, not
`h68k_IoReadLongBBBB`, and `writeL[0]` is `0x7006`, not `h68k_IoWriteLongBBBB`: the test
`e0->readW == e1->readW` comes first and two composites are equal. -/
theorem C24_both_composite_not_bbbb :
    ∃ s1 s2 t, h68k_MapIoByte 0 prepDemo 0xff8001 0x9001 0x9002 = .done s1 ∧
      h68k_MapIoByte 0 s1 0xff8003 0x9003 0x9004 = .done s2 ∧
      s2.mem (0x200100 + 32 * 0 + 8) = 0x80007005 ∧
      s2.mem (0x200100 + 32 * 0 + 20) = 0x80007006 ∧
      h68k_PrepareFtables demoAddr 65537 s2 = .done t ∧
      t.mem (0x200100 + 32 * 0 + 4) = demoAddr .h68k_IoReadWordBB ∧
      t.mem (0x200100 + 32 * 2 + 4) = demoAddr .h68k_IoReadWordBB ∧
      t.mem (0x200100 + 32 * 0 + 16) = demoAddr .h68k_IoWriteWordBB ∧
      t.mem (0x200100 + 32 * 2 + 16) = demoAddr .h68k_IoWriteWordBB ∧
      t.mem (0x200100 + 32 * 0 + 8) = 0x7005 ∧ t.mem (0x200100 + 32 * 0 + 20) = 0x7006 ∧
      demoAddr .h68k_IoReadLongBBBB ≠ 0x7005 ∧ demoAddr .h68k_IoWriteLongBBBB ≠ 0x7006 := by
  obtain ⟨e1, o1, _⟩ := OnePage_MapIo prepDemo prepDemo_onePage 0 0xff8001 0x9001 0x9002
    (by decide) (by decide)
  obtain ⟨e2, o2, _⟩ := OnePage_MapIo _ o1 0 0xff8003 0x9003 0x9004 (by decide) (by decide)
  obtain ⟨t, ht, _, hm, _⟩ := OnePage_run demoAddr _ o2
  refine ⟨_, _, t, e1, e2, by decide, by decide, ht, ?_, ?_, ?_, ?_, ?_, ?_, by decide,
    by decide⟩
  · rw [hm]; decide
  · rw [hm]; decide
  · rw [hm]; decide
  · rw [hm]; decide
  · rw [hm]; decide
  · rw [hm]; decide

/-- C27 at the failing input. On the sample expanded page: (A) `h68k_PrepareFtables`,
then `h68k_MapIoByte(0xff8001, 0x9001, 0x9002)`, then `h68k_PrepareFtables` again leaves
`readW[0] = 0x7003` and `writeW[0] = 0x7004`, the inherited word handlers; (B)
`h68k_MapIoByte(0xff8001, 0x9001, 0x9002)` followed by one `h68k_PrepareFtables` leaves
`readW[0] = h68k_IoReadWordBB` and `writeW[0] = h68k_IoWriteWordBB`. The first
preparation cleared the tag of `readW[0]`, so the second one no longer narrows it. -/
theorem C27_prepare_not_incremental :
    ∃ t1 s2 tA sB tB,
      h68k_PrepareFtables demoAddr 65537 prepDemo = .done t1 ∧
      h68k_MapIoByte 0 t1 0xff8001 0x9001 0x9002 = .done s2 ∧
      h68k_PrepareFtables demoAddr 65537 s2 = .done tA ∧
      h68k_MapIoByte 0 prepDemo 0xff8001 0x9001 0x9002 = .done sB ∧
      h68k_PrepareFtables demoAddr 65537 sB = .done tB ∧
      tA.mem (0x200100 + 32 * 1 + 0) = 0x9001 ∧ tB.mem (0x200100 + 32 * 1 + 0) = 0x9001 ∧
      tA.mem (0x200100 + 32 * 0 + 4) = 0x7003 ∧
      tB.mem (0x200100 + 32 * 0 + 4) = demoAddr .h68k_IoReadWordBB ∧
      tA.mem (0x200100 + 32 * 0 + 16) = 0x7004 ∧
      tB.mem (0x200100 + 32 * 0 + 16) = demoAddr .h68k_IoWriteWordBB ∧
      demoAddr .h68k_IoReadWordBB ≠ 0x7003 ∧ demoAddr .h68k_IoWriteWordBB ≠ 0x7004 := by
  obtain ⟨t1, ht1, _, hm1, o1⟩ := OnePage_run demoAddr prepDemo prepDemo_onePage
  obtain ⟨e2, o2, _⟩ := OnePage_MapIo t1 o1 0 0xff8001 0x9001 0x9002 (by decide) (by decide)
  obtain ⟨tA, htA, _, hmA, _⟩ := OnePage_run demoAddr _ o2
  obtain ⟨eB, oB, _⟩ := OnePage_MapIo prepDemo prepDemo_onePage 0 0xff8001 0x9001 0x9002
    (by decide) (by decide)
  obtain ⟨tB, htB, _, hmB, _⟩ := OnePage_run demoAddr _ oB
  have hf1 : t1.mem = pageMem demoAddr prepDemo.mem 0x200100 0x200080 256 := funext hm1
  have hs2 : ((t1.store (0x200100 + 32 * (0xff8001 - 0xff8000) + 0) 0x9001).store
      (0x200100 + 32 * (0xff8001 - 0xff8000) + 12) 0x9002).mem
      = fun x => if x = 0x200100 + 32 * (0xff8001 - 0xff8000) + 12 then 0x9002
          else if x = 0x200100 + 32 * (0xff8001 - 0xff8000) + 0 then 0x9001
          else pageMem demoAddr prepDemo.mem 0x200100 0x200080 256 x := by
    funext x
    simp only [store_mem, hf1]
  refine ⟨t1, _, tA, _, tB, ht1, e2, htA, eB, htB, ?_, ?_, ?_, ?_, ?_, ?_, by decide,
    by decide⟩
  · rw [hmA, hs2]; decide
  · rw [hmB]; decide
  · rw [hmA, hs2]; decide
  · rw [hmB]; decide
  · rw [hmA, hs2]; decide
  · rw [hmB]; decide

/-- C29 at the failing input. The sample expanded page has its 256 records at
`0x200100 .. 0x2020ff`; `0x202104` is the `readW` field of record 256, the word the next
allocation from the arena will own. Two states that agree on every word of the table and
differ only there (0, and `0x7003` as the collapsed record of a later
`h68k_MapIoRangeEx` with the same word handler would put there) give different results
for `readL` of record 254: `h68k_IoReadLongWW` and the inherited `0x7005`. The long step
at `idx = 254` compares `root[254].readW` with `root[256].readW`. -/
theorem C29_consults_record_past_table :
    ∃ t t', prepDemo.mem (0x200100 + 32 * 256 + 4) = 0 ∧
      (∀ x, x ≠ 0x200100 + 32 * 256 + 4 →
        (prepDemo.store (0x200100 + 32 * 256 + 4) 0x7003).mem x = prepDemo.mem x) ∧
      h68k_PrepareFtables demoAddr 65537 prepDemo = .done t ∧
      h68k_PrepareFtables demoAddr 65537 (prepDemo.store (0x200100 + 32 * 256 + 4) 0x7003)
        = .done t' ∧
      t.mem (0x200100 + 32 * 254 + 4) = 0x7003 ∧ t'.mem (0x200100 + 32 * 254 + 4) = 0x7003 ∧
      t.mem (0x200100 + 32 * 254 + 8) = demoAddr .h68k_IoReadLongWW ∧
      t'.mem (0x200100 + 32 * 254 + 8) = 0x7005 ∧
      demoAddr .h68k_IoReadLongWW ≠ 0x7005 ∧ ¬ (256 < prepDemo.h68k_mmu_pagesize) := by
  have hfr : ∀ x, x ≠ 0x200100 + 32 * 256 + 4 →
      (prepDemo.store (0x200100 + 32 * 256 + 4) 0x7003).mem x = prepDemo.mem x := by
    intro x hx
    simp only [store_mem]
    rw [if_neg hx]
  have o' : OnePage (prepDemo.store (0x200100 + 32 * 256 + 4) 0x7003) := by
    obtain ⟨hps, htab, hd0, hd1, hlen, hoth⟩ := prepDemo_onePage
    refine ⟨hps, htab, by rw [hfr _ (by decide)]; exact hd0,
      by rw [hfr _ (by decide)]; exact hd1, by rw [hfr _ (by decide)]; exact hlen,
      fun j hj hj2 => ?_⟩
    have h0 := prepDemo_desc0 j hj
    rw [if_neg hj2] at h0
    rw [hfr _ (by omega), h0]
    exact ⟨Or.inl rfl, Or.inl (by decide)⟩
  obtain ⟨t, ht, _, hm, _⟩ := OnePage_run demoAddr prepDemo prepDemo_onePage
  obtain ⟨t', ht', _, hm', _⟩ := OnePage_run demoAddr _ o'
  refine ⟨t, t', by decide, hfr, ht, ht', ?_, ?_, ?_, ?_, by decide, by decide⟩
  · rw [hm]; decide
  · rw [hm']; decide
  · rw [hm]; decide
  · rw [hm']; decide

/-! ## The stage-1 table of a range is shared by its pages -/

/-- The sample two-page range after the expansion of its first page: `demoIo` and
`demoExp` are what the two calls return, `demoExp` has the sample layout with one
expanded page, and its second page `0xff81` still references the collapsed record at
`0x200000` and the same stage-1 table `0x200080`, which holds the collapsed-table stubs. -/
theorem demoExp_facts :
    h68k_MapIoRangeEx demoAddr true 3 demoState 0xff8000 0xff8200
        0x7001 0x7002 0x7003 0x7004 0x7005 0x7006 = .done demoIo ∧
    h68k_MapIoByte 257 demoIo 0xff8001 0x9001 0x9002 = .done demoExp ∧
    OnePage demoExp ∧
    demoExp.mem (0x100000 + 8 * 0xff81) = 0x200000 ∧
    demoExp.mem (0x100000 + 8 * 0xff81 + 4) = 0x200080 ∧
    demoExp.mem (0x200000 + 28) = 0 ∧
    (∀ i, i < 16 → demoExp.mem (0x200080 + 4 * i)
      = stage1Entry (demoAddr .h68k_mmuf_rbc) (demoAddr .h68k_mmuf_wbc)
          (demoAddr .h68k_mmuf_rwc) (demoAddr .h68k_mmuf_wwc) (demoAddr .h68k_mmuf_rlc)
          (demoAddr .h68k_mmuf_wlc) (demoAddr .h68k_mmuf_r3c) (demoAddr .h68k_mmuf_w3c)
          (demoAddr .h68k_mmuf_rmc) i) := by
  obtain ⟨s1, h1, hg1, hp1, hD, hE, _, _, _, _, _, _, hF⟩ :=
    MapIoRangeEx_spec demoAddr true 3 demoState 8 (by decide) (by decide)
      0xff8000 0xff8200 0x7001 0x7002 0x7003 0x7004 0x7005 0x7006
      (by decide) (by decide) (by decide) (by decide) demoAddr_ne_zero
      (by decide) (by decide) (by decide) (by decide)
  rw [demoState_alignUp] at hp1 hD hE hF
  have hio : demoIo = s1 := by unfold demoIo; rw [h1]
  have hT : demoState.h68k_mmu_table = 0x100000 := rfl
  rw [hT] at hD hF
  have hD0 := hD 0xff80 (by decide) (by decide)
  have hD1 := hD 0xff81 (by decide) (by decide)
  have htab : s1.h68k_mmu_table = 0x100000 := by rw [sameConfig_table hg1]; rfl
  have hps : s1.h68k_mmu_pagesize = 2 ^ 8 := by rw [sameConfig_pagesize hg1]; rfl
  have htop : s1.mem_top = 0x400000 := by rw [sameConfig_mem_top hg1]; rfl
  have hdesc : h68k_GetMmuDescriptor s1 0xff8001 = 0x100000 + 8 * 0xff80 := by
    unfold h68k_GetMmuDescriptor
    simp only [htab, hps]
    decide
  have hal : alignUp s1.mem_ptr 8 = 0x200100 := by rw [hp1]; decide
  have hzero : ∀ a, (∀ j, 0xff8000 / 2 ^ 8 ≤ j → j < 0xff8200 / 2 ^ 8 →
        a ≠ 0x100000 + 8 * j ∧ a ≠ 0x100000 + 8 * j + 4) →
      (a < 0x200000 ∨ 0x200000 + 192 ≤ a ∨ (a - 0x200000) % 4 ≠ 0 ∨
        (0x200000 + 24 ≤ a ∧ a < 0x200000 + 128)) → s1.mem a = 0 := by
    intro a ha1 ha2
    rw [hF a ha1 ha2]
    rfl
  have hlen : s1.mem (0x200000 + 28) = 0 := hzero _ (by intro j h1 h2; omega) (by omega)
  obtain ⟨t, ht, hg, hp, hm⟩ := GetExpandedFtable_collapsed 257 s1 8 (by decide) hps 0xff8001
    (by decide) (by rw [hdesc, hD0.1]; decide) (by rw [hdesc, hD0.1]; exact hlen)
    (by rw [hdesc, hD0.1, hp1]; decide) (by rw [hal, htop]; decide) (by rw [htop]; decide)
    (by decide)
  rw [hdesc, hD0.1, hal] at hm
  rw [hal] at ht hp
  have hoff : (0x200100 + 32 * (0xff8001 % 2 ^ 8) : Nat) = 0x200120 := by decide
  rw [hoff] at ht
  have hexp : h68k_MapIoByte 257 s1 0xff8001 0x9001 0x9002
      = .done ((t.store (0x200120 + 0) 0x9001).store (0x200120 + 12) 0x9002) := by
    unfold h68k_MapIoByte
    rw [ht]
    rfl
  have hex : demoExp = (t.store (0x200120 + 0) 0x9001).store (0x200120 + 12) 0x9002 := by
    unfold demoExp
    rw [hio, hexp]
  have htm : ∀ x, x ≠ 0x200120 + 0 → x ≠ 0x200120 + 12 → demoExp.mem x = t.mem x := by
    intro x hx1 hx2
    rw [hex]
    simp only [store_mem]
    rw [if_neg hx2, if_neg hx1]
  have hout : ∀ x, x ≠ 0x100000 + 8 * 0xff80 → (x < 0x200100 ∨ 0x202100 ≤ x) →
      demoExp.mem x = s1.mem x := by
    intro x hx1 hx2
    rw [htm x (by omega) (by omega), hm x, if_neg hx1, if_neg (by omega)]
  have hone : OnePage demoExp := by
    refine ⟨?_, ?_, ?_, ?_, ?_, fun j hj hj2 => ?_⟩
    · rw [hex]
      show t.h68k_mmu_pagesize = 2 ^ 8
      rw [sameConfig_pagesize hg]; exact hps
    · rw [hex]
      show t.h68k_mmu_table = 0x100000
      rw [sameConfig_table hg]; exact htab
    · rw [htm _ (by decide) (by decide), hm, if_pos rfl]
    · rw [hout _ (by decide) (by decide)]
      exact hD0.2
    · rw [htm _ (by decide) (by decide), hm, if_neg (by decide), if_pos (by decide)]
      unfold expandedField
      rw [if_pos (by decide)]
      decide
    · by_cases hj1 : j = 0xff81
      · subst hj1
        rw [hout _ (by decide) (by decide), hD1.1, hout _ (by decide) (by decide)]
        exact ⟨Or.inr hlen, Or.inl (by decide)⟩
      · have hz : demoExp.mem (0x100000 + 8 * j) = 0 := by
          rw [hout _ (by omega) (by omega)]
          exact hzero _ (by intro j' h1 h2; omega) (by omega)
        rw [hz]
        exact ⟨Or.inl rfl, Or.inl (by decide)⟩
  refine ⟨by rw [hio]; exact h1, by rw [hio, hex]; exact hexp, hone, ?_, ?_, ?_, fun i hi => ?_⟩
  · rw [hout _ (by decide) (by decide)]
    exact hD1.1
  · rw [hout _ (by decide) (by decide)]
    exact hD1.2
  · rw [hout _ (by decide) (by decide)]
    exact hlen
  · rw [hout _ (by omega) (by omega)]
    have := hE i hi
    rw [show 0x200000 + 128 + 4 * i = 0x200080 + 4 * i by omega] at this
    exact this

/-- C26 at the failing input. On the sample machine `h68k_MapIoRangeEx(0xff8000,
0xff8200, ..)` maps two pages with one collapsed handler table and one stage-1 table at
`0x200080`; `h68k_MapIoByte(0xff8001, 0x9001, 0x9002)` expands the first page only. The
second page `0xff8100` is collapsed before and after `h68k_PrepareFtables` (`len = 0`
behind its descriptor), and the stage-1 table its descriptor points at is the same at
both times, but its entries are not: entry 5 is `h68k_mmuf_rbc` before the call and
`h68k_mmuf_rbcc` after it, entry 0 goes from `h68k_mmuf_wlc` to `h68k_mmuf_wlcc`. -/
theorem C26_shared_stage1_rewritten :
    h68k_MapIoRangeEx demoAddr true 3 demoState 0xff8000 0xff8200
        0x7001 0x7002 0x7003 0x7004 0x7005 0x7006 = .done demoIo ∧
    h68k_MapIoByte 257 demoIo 0xff8001 0x9001 0x9002 = .done demoExp ∧
    ∃ t, h68k_PrepareFtables demoAddr 65537 demoExp = .done t ∧
      demoExp.mem (demoExp.mem (h68k_GetMmuDescriptor demoExp 0xff8100) + 28) = 0 ∧
      t.mem (t.mem (h68k_GetMmuDescriptor t 0xff8100) + 28) = 0 ∧
      demoExp.mem (h68k_GetMmuDescriptor demoExp 0xff8100 + 4) = 0x200080 ∧
      t.mem (h68k_GetMmuDescriptor t 0xff8100 + 4) = 0x200080 ∧
      demoExp.mem (0x200080 + 4 * 5) = demoAddr .h68k_mmuf_rbc ∧
      t.mem (0x200080 + 4 * 5) = demoAddr .h68k_mmuf_rbcc ∧
      demoExp.mem (0x200080 + 4 * 0) = demoAddr .h68k_mmuf_wlc ∧
      t.mem (0x200080 + 4 * 0) = demoAddr .h68k_mmuf_wlcc ∧
      demoAddr .h68k_mmuf_rbc ≠ demoAddr .h68k_mmuf_rbcc ∧
      demoAddr .h68k_mmuf_wlc ≠ demoAddr .h68k_mmuf_wlcc := by
  obtain ⟨h1, h2, hone, hd0, hd1, hlen, hst⟩ := demoExp_facts
  obtain ⟨t, ht, hg, hm, hone'⟩ := OnePage_run demoAddr demoExp hone
  have hdesc : ∀ u : State, OnePage u →
      h68k_GetMmuDescriptor u 0xff8100 = 0x100000 + 8 * 0xff81 := by
    intro u hu
    unfold h68k_GetMmuDescriptor
    rw [hu.1, hu.2.1]
    decide
  have hfr : ∀ x, ¬ ((0x200100 ≤ x ∧ x < 0x200100 + 32 * 256 ∧ (x - 0x200100) % 32 < 24) ∨
      (0x200080 ≤ x ∧ x < 0x200080 + 64)) → t.mem x = demoExp.mem x := by
    intro x hx
    rw [hm x, pageMem_frame demoAddr demoExp.mem 0x200100 0x200080 256 x hx]
  have hs1 : ∀ i, i < 16 → t.mem (0x200080 + 4 * i)
      = stage1Entry (demoAddr .h68k_mmuf_rbcc) (demoAddr .h68k_mmuf_wbcc)
          (demoAddr .h68k_mmuf_rwcc) (demoAddr .h68k_mmuf_wwcc) (demoAddr .h68k_mmuf_rlcc)
          (demoAddr .h68k_mmuf_wlcc) (demoAddr .h68k_mmuf_r3cc) (demoAddr .h68k_mmuf_w3cc)
          (demoAddr .h68k_mmuf_rmcc) i := by
    intro i hi
    rw [hm]
    unfold pageMem
    simp only [bytesMem, longsMem, wordsMem, stage1Mem]
    rw [if_neg (by omega), if_neg (by omega), if_neg (by omega), if_neg (by omega),
      if_neg (by omega), if_pos (by omega)]
    have e : (0x200080 + 4 * i - 0x200080) / 4 = i := by omega
    rw [e]
  refine ⟨h1, h2, t, ht, ?_, ?_, ?_, ?_, ?_, ?_, ?_, ?_, by decide, by decide⟩
  · rw [hdesc _ hone, hd0]; exact hlen
  · rw [hdesc _ hone', hfr (0x100000 + 8 * 0xff81) (by decide), hd0,
      hfr (0x200000 + 28) (by decide)]
    exact hlen
  · rw [hdesc _ hone]; exact hd1
  · rw [hdesc _ hone', hfr (0x100000 + 8 * 0xff81 + 4) (by decide)]; exact hd1
  · rw [hst 5 (by decide)]; rfl
  · rw [hs1 5 (by decide)]; rfl
  · rw [hst 0 (by decide)]; rfl
  · rw [hs1 0 (by decide)]; rfl

end H68k
